import Mathlib

/-!
# cpu-renderer: clipping, rasterization, mesh builders and settings

A shallow embedding of `src/mesh.h`, `src/mesh.cpp`, `src/rasterizer.h`, `src/rasterizer.cpp`
and of the settings of `src/renderer.h`, `src/renderer.cpp` and `src/main.cpp`.

Conventions of the embedding:

* `float` values are rationals (`ℚ`): the arithmetic is exact.
* `Uint32` values are natural numbers; where the source computes in `Uint32`
  the result is reduced modulo `2^32`.
* heap buffers (`Vertex *`, `Uint32 *`, `float *`) are lists of cells; a load or
  store outside the buffer is undefined behaviour in the source and is the
  error `Fault.outOfBounds` here.
-/

namespace CpuRenderer

/-! ## glm vectors -/

/-- The type `glm::vec2`. -/
structure Vec2 where
  x : ℚ
  y : ℚ
deriving DecidableEq

/-- The type `glm::vec3`. -/
structure Vec3 where
  x : ℚ
  y : ℚ
  z : ℚ
deriving DecidableEq

/-- The type `glm::vec4`. -/
structure Vec4 where
  x : ℚ
  y : ℚ
  z : ℚ
  w : ℚ
deriving DecidableEq

instance : Add Vec2 := ⟨fun a b => ⟨a.x + b.x, a.y + b.y⟩⟩
instance : Sub Vec2 := ⟨fun a b => ⟨a.x - b.x, a.y - b.y⟩⟩
instance : HMul ℚ Vec2 Vec2 := ⟨fun t a => ⟨t * a.x, t * a.y⟩⟩

instance : Add Vec3 := ⟨fun a b => ⟨a.x + b.x, a.y + b.y, a.z + b.z⟩⟩
instance : Sub Vec3 := ⟨fun a b => ⟨a.x - b.x, a.y - b.y, a.z - b.z⟩⟩
instance : HMul ℚ Vec3 Vec3 := ⟨fun t a => ⟨t * a.x, t * a.y, t * a.z⟩⟩

instance : Add Vec4 := ⟨fun a b => ⟨a.x + b.x, a.y + b.y, a.z + b.z, a.w + b.w⟩⟩
instance : Sub Vec4 := ⟨fun a b => ⟨a.x - b.x, a.y - b.y, a.z - b.z, a.w - b.w⟩⟩
instance : HMul ℚ Vec4 Vec4 := ⟨fun t a => ⟨t * a.x, t * a.y, t * a.z, t * a.w⟩⟩

instance : Neg Vec3 := ⟨fun a => ⟨-a.x, -a.y, -a.z⟩⟩
instance : Mul Vec4 := ⟨fun a b => ⟨a.x * b.x, a.y * b.y, a.z * b.z, a.w * b.w⟩⟩

/-- The conversion `vec3(v)` of a `vec4`: the first three components. -/
def Vec4.xyz (v : Vec4) : Vec3 := ⟨v.x, v.y, v.z⟩

/-- The constructor `vec4(v, w)` from a `vec3`. -/
def Vec3.withW (v : Vec3) (w : ℚ) : Vec4 := ⟨v.x, v.y, v.z, w⟩

/-- The dot product `glm::dot` on `vec3`. -/
def Vec3.dot (a b : Vec3) : ℚ := a.x * b.x + a.y * b.y + a.z * b.z

/-- The dot product `glm::dot` on `vec4`. -/
def Vec4.dot (a b : Vec4) : ℚ := a.x * b.x + a.y * b.y + a.z * b.z + a.w * b.w

/-- The function `glm::normalize` on `vec3`, `v * inversesqrt(dot(v, v))`. The inverse square
root is not a rational function: it is the parameter `inversesqrt`. -/
def Vec3.normalize (inversesqrt : ℚ → ℚ) (v : Vec3) : Vec3 := inversesqrt (v.dot v) * v

/-- The function `glm::normalize` on `vec4`. -/
def Vec4.normalize (inversesqrt : ℚ → ℚ) (v : Vec4) : Vec4 := inversesqrt (v.dot v) * v

/-- The function `glm::reflect`, `I - N * dot(N, I) * 2`. -/
def Vec3.reflect (I N : Vec3) : Vec3 := I - (N.dot I * 2) * N

/-- The function `glm::clamp` on scalars, `min(max(x, lo), hi)`. -/
def clamp (x lo hi : ℚ) : ℚ := min (max x lo) hi

/-- The function `glm::clamp` of a `vec3` between two scalars. -/
def Vec3.clamp (v : Vec3) (lo hi : ℚ) : Vec3 :=
  ⟨CpuRenderer.clamp v.x lo hi, CpuRenderer.clamp v.y lo hi, CpuRenderer.clamp v.z lo hi⟩

/-- The type `glm::mat4`, column-major: `c0 .. c3` are the columns `m[0] .. m[3]`. -/
structure Mat4 where
  c0 : Vec4
  c1 : Vec4
  c2 : Vec4
  c3 : Vec4
deriving DecidableEq

/-- The product `m * v` of a `mat4` and a `vec4`. -/
def Mat4.mulVec (m : Mat4) (v : Vec4) : Vec4 :=
  v.x * m.c0 + v.y * m.c1 + v.z * m.c2 + v.w * m.c3

/-- The product `a * b` of two `mat4`. -/
def Mat4.mul (a b : Mat4) : Mat4 := ⟨a.mulVec b.c0, a.mulVec b.c1, a.mulVec b.c2, a.mulVec b.c3⟩

/-- The function `glm::inverse` on `mat4`: the cofactor matrix times the reciprocal of the
determinant. A singular matrix gives `1 / 0`, which is `0` here and not a number in the
source. -/
def Mat4.inverse (m : Mat4) : Mat4 :=
  let coef00 := m.c2.z * m.c3.w - m.c3.z * m.c2.w
  let coef02 := m.c1.z * m.c3.w - m.c3.z * m.c1.w
  let coef03 := m.c1.z * m.c2.w - m.c2.z * m.c1.w
  let coef04 := m.c2.y * m.c3.w - m.c3.y * m.c2.w
  let coef06 := m.c1.y * m.c3.w - m.c3.y * m.c1.w
  let coef07 := m.c1.y * m.c2.w - m.c2.y * m.c1.w
  let coef08 := m.c2.y * m.c3.z - m.c3.y * m.c2.z
  let coef10 := m.c1.y * m.c3.z - m.c3.y * m.c1.z
  let coef11 := m.c1.y * m.c2.z - m.c2.y * m.c1.z
  let coef12 := m.c2.x * m.c3.w - m.c3.x * m.c2.w
  let coef14 := m.c1.x * m.c3.w - m.c3.x * m.c1.w
  let coef15 := m.c1.x * m.c2.w - m.c2.x * m.c1.w
  let coef16 := m.c2.x * m.c3.z - m.c3.x * m.c2.z
  let coef18 := m.c1.x * m.c3.z - m.c3.x * m.c1.z
  let coef19 := m.c1.x * m.c2.z - m.c2.x * m.c1.z
  let coef20 := m.c2.x * m.c3.y - m.c3.x * m.c2.y
  let coef22 := m.c1.x * m.c3.y - m.c3.x * m.c1.y
  let coef23 := m.c1.x * m.c2.y - m.c2.x * m.c1.y
  let fac0 : Vec4 := ⟨coef00, coef00, coef02, coef03⟩
  let fac1 : Vec4 := ⟨coef04, coef04, coef06, coef07⟩
  let fac2 : Vec4 := ⟨coef08, coef08, coef10, coef11⟩
  let fac3 : Vec4 := ⟨coef12, coef12, coef14, coef15⟩
  let fac4 : Vec4 := ⟨coef16, coef16, coef18, coef19⟩
  let fac5 : Vec4 := ⟨coef20, coef20, coef22, coef23⟩
  let vec0 : Vec4 := ⟨m.c1.x, m.c0.x, m.c0.x, m.c0.x⟩
  let vec1 : Vec4 := ⟨m.c1.y, m.c0.y, m.c0.y, m.c0.y⟩
  let vec2 : Vec4 := ⟨m.c1.z, m.c0.z, m.c0.z, m.c0.z⟩
  let vec3 : Vec4 := ⟨m.c1.w, m.c0.w, m.c0.w, m.c0.w⟩
  let inv0 := vec1 * fac0 - vec2 * fac1 + vec3 * fac2
  let inv1 := vec0 * fac0 - vec2 * fac3 + vec3 * fac4
  let inv2 := vec0 * fac1 - vec1 * fac3 + vec3 * fac5
  let inv3 := vec0 * fac2 - vec1 * fac4 + vec2 * fac5
  let signA : Vec4 := ⟨1, -1, 1, -1⟩
  let signB : Vec4 := ⟨-1, 1, -1, 1⟩
  let inverse : Mat4 := ⟨inv0 * signA, inv1 * signB, inv2 * signA, inv3 * signB⟩
  let row0 : Vec4 := ⟨inverse.c0.x, inverse.c1.x, inverse.c2.x, inverse.c3.x⟩
  let dot0 := m.c0 * row0
  let dot1 := (dot0.x + dot0.y) + (dot0.z + dot0.w)
  let oneOverDeterminant := 1 / dot1
  ⟨oneOverDeterminant * inverse.c0, oneOverDeterminant * inverse.c1,
    oneOverDeterminant * inverse.c2, oneOverDeterminant * inverse.c3⟩

/-! ## Conversions of `float` to integers -/

/-- Truncation towards zero, the value of a cast of a `float` to an integer type. -/
def trunc (x : ℚ) : Int := if 0 ≤ x then ⌊x⌋ else ⌈x⌉

/-- The cast `Uint8(x)` of a `float`. A value outside `0..255` is undefined in the source and
is reduced modulo `2^8` here. -/
def toUint8 (x : ℚ) : Nat := (trunc x % 256).toNat

/-- The cast `(Uint32)x` of a `float`. A value outside the range of `Uint32` is undefined in
the source and is reduced modulo `2^32` here. -/
def toUint32 (x : ℚ) : Nat := (trunc x % 4294967296).toNat

/-- The cast `(Sint32)x` of a `float` that is not negative, as all the casts of the rasterizer
are (they follow a clamp to `[0, width - 1]` or `[0, height - 1]`). A value above the range of
`Sint32` is undefined in the source and is kept here. -/
def toSint32 (x : ℚ) : Nat := (trunc x).toNat

/-- The constant `FLT_MAX`, `(2 - 2^-23) * 2^127`. -/
def FLT_MAX : ℚ := 340282346638528859811704183484516925440

/-- The cross product `glm::cross`. -/
def Vec3.cross (a b : Vec3) : Vec3 :=
  ⟨a.y * b.z - b.y * a.z, a.z * b.x - b.z * a.x, a.x * b.y - b.x * a.y⟩

/-! ## Memory -/

/-- The ways in which a call can end without a result. `outOfBounds` is a load or store
outside a buffer, undefined behaviour of the source that the embedding makes explicit; `abort`
is a failed `assert`, of which the source has none, so that no function below produces it. -/
inductive Fault where
  | outOfBounds
  | abort
deriving DecidableEq

/-- Reading `buf[i]`. -/
def load {α : Type} (buf : List α) (i : Nat) : Except Fault α :=
  match buf[i]? with
  | some v => .ok v
  | none => .error .outOfBounds

/-- Writing `buf[i] = v`. -/
def store {α : Type} (buf : List α) (i : Nat) (v : α) : Except Fault (List α) :=
  if i < buf.length then .ok (buf.set i v) else .error .outOfBounds

/-- Reduction of a natural number to a `Uint32`. -/
def u32 (n : Nat) : Nat := n % 4294967296

/-! ## mesh.h -/

/-- The struct `Vertex` of `mesh.h`. -/
structure Vertex where
  position : Vec4
  textureCoords : Vec2
  normal : Vec3
  vsOutColor : Vec3
  vsOutWorldNormal : Vec3
  vsOutWorldPos : Vec3
deriving DecidableEq

/-- The value-initialised vertex `Vertex v = {}`. -/
def Vertex.zero : Vertex :=
  ⟨⟨0, 0, 0, 0⟩, ⟨0, 0⟩, ⟨0, 0, 0⟩, ⟨0, 0, 0⟩, ⟨0, 0, 0⟩, ⟨0, 0, 0⟩⟩

/-- The struct `Mesh` of `mesh.h`: `vertices` is the allocated buffer, of which
the first `vertexCount` cells are the vertices of the mesh. -/
structure Mesh where
  vertices : List Vertex
  vertexCount : Nat
  isTexturable : Bool
deriving DecidableEq

namespace UtilMesh

/-- The function `UtilMesh::AddTriangle` of `mesh.cpp`: three stores at
`vertices[vertexCount++]`. -/
def AddTriangle (mesh : Mesh) (v0 v1 v2 : Vertex) : Except Fault Mesh := do
  let b0 ← store mesh.vertices mesh.vertexCount v0
  let c1 := u32 (mesh.vertexCount + 1)
  let b1 ← store b0 c1 v1
  let c2 := u32 (c1 + 1)
  let b2 ← store b1 c2 v2
  let c3 := u32 (c2 + 1)
  pure { mesh with vertices := b2, vertexCount := c3 }

end UtilMesh

/-! ## rasterizer.cpp: near-plane clipping -/

/-- The function `LerpVertices`: the result starts as `Vertex result = {}` and
four of its fields are assigned. -/
def LerpVertices (v0 v1 : Vertex) (t : ℚ) : Vertex :=
  let result := Vertex.zero
  let result := { result with position := v0.position + t * (v1.position - v0.position) }
  let result := { result with position := { result.position with w := 1 } }
  let result := { result with normal := v0.normal + t * (v1.normal - v0.normal) }
  let result := { result with
    textureCoords := v0.textureCoords + t * (v1.textureCoords - v0.textureCoords) }
  let result := { result with vsOutColor := v0.vsOutColor + t * (v1.vsOutColor - v0.vsOutColor) }
  result

/-- The function `OutCode`: `INSIDE = 0`, `OUTSIDE = 1`. -/
def OutCode (position : Vec3) (zn : ℚ) : Nat :=
  let INSIDE := 0
  let OUTSIDE := 1
  let outCode := INSIDE
  let outCode := if position.z > zn then outCode ||| OUTSIDE else outCode
  outCode

/-- The function `Clip2Vertices`; `inTriangle` points at the three vertices of
the triangle and `c0 c1 c2` are `codes[0..2]`. -/
def Clip2Vertices (c0 c1 c2 : Nat) (inTriangle : List Vertex) (outMesh : Mesh) (zn : ℚ) :
    Except Fault Mesh := do
  let notClipped := Vertex.zero
  let clippedA := Vertex.zero
  let clippedB := Vertex.zero
  let (notClipped, clippedA, clippedB) ←
    if c1 &&& c2 ≠ 0 then do
      let n ← load inTriangle 0
      let a ← load inTriangle 1
      let b ← load inTriangle 2
      pure (n, a, b)
    else pure (notClipped, clippedA, clippedB)
  let (notClipped, clippedA, clippedB) ←
    if c0 &&& c2 ≠ 0 then do
      let n ← load inTriangle 1
      let a ← load inTriangle 2
      let b ← load inTriangle 0
      pure (n, a, b)
    else pure (notClipped, clippedA, clippedB)
  let (notClipped, clippedA, clippedB) ←
    if c0 &&& c1 ≠ 0 then do
      let n ← load inTriangle 2
      let a ← load inTriangle 0
      let b ← load inTriangle 1
      pure (n, a, b)
    else pure (notClipped, clippedA, clippedB)
  let ncPos := notClipped.position.xyz
  let aPos := clippedA.position.xyz
  let bPos := clippedB.position.xyz
  let tA := (aPos.z - zn) / (aPos.z - ncPos.z)
  let tB := (bPos.z - zn) / (bPos.z - ncPos.z)
  let aToNotClipped := LerpVertices clippedA notClipped tA
  let bToNotClipped := LerpVertices clippedB notClipped tB
  UtilMesh.AddTriangle outMesh notClipped aToNotClipped bToNotClipped

/-- The function `Clip1Vertex`. -/
def Clip1Vertex (c0 c1 c2 : Nat) (inTriangle : List Vertex) (outMesh : Mesh) (zn : ℚ) :
    Except Fault Mesh := do
  let notClippedA := Vertex.zero
  let clipped := Vertex.zero
  let notClippedB := Vertex.zero
  let (notClippedA, clipped, notClippedB) ←
    if c0 ≠ 0 then do
      let a ← load inTriangle 2
      let c ← load inTriangle 0
      let b ← load inTriangle 1
      pure (a, c, b)
    else pure (notClippedA, clipped, notClippedB)
  let (notClippedA, clipped, notClippedB) ←
    if c1 ≠ 0 then do
      let a ← load inTriangle 0
      let c ← load inTriangle 1
      let b ← load inTriangle 2
      pure (a, c, b)
    else pure (notClippedA, clipped, notClippedB)
  let (notClippedA, clipped, notClippedB) ←
    if c2 ≠ 0 then do
      let a ← load inTriangle 1
      let c ← load inTriangle 2
      let b ← load inTriangle 0
      pure (a, c, b)
    else pure (notClippedA, clipped, notClippedB)
  let aPos := notClippedA.position.xyz
  let bPos := notClippedB.position.xyz
  let clippedPos := clipped.position.xyz
  let tA := (clippedPos.z - zn) / (clippedPos.z - aPos.z)
  let tB := (clippedPos.z - zn) / (clippedPos.z - bPos.z)
  let clippedA := LerpVertices clipped notClippedA tA
  let clippedB := LerpVertices clipped notClippedB tB
  let outMesh ← UtilMesh.AddTriangle outMesh notClippedA clippedA notClippedB
  UtilMesh.AddTriangle outMesh notClippedB clippedA clippedB

/-- The function `ClipTriangle`. -/
def ClipTriangle (inTriangle : List Vertex) (outMesh : Mesh) (zn : ℚ) : Except Fault Mesh := do
  let v0 ← load inTriangle 0
  let v1 ← load inTriangle 1
  let v2 ← load inTriangle 2
  let c0 := OutCode v0.position.xyz zn
  let c1 := OutCode v1.position.xyz zn
  let c2 := OutCode v2.position.xyz zn
  if (c0 ||| c1 ||| c2) = 0 then
    UtilMesh.AddTriangle outMesh v0 v1 v2
  else if c0 &&& c1 &&& c2 ≠ 0 then
    pure outMesh
  else if c0 &&& c1 ≠ 0 ∨ c0 &&& c2 ≠ 0 ∨ c1 &&& c2 ≠ 0 then
    Clip2Vertices c0 c1 c2 inTriangle outMesh zn
  else
    Clip1Vertex c0 c1 c2 inTriangle outMesh zn


/-! ## mesh.cpp: copies -/

namespace UtilMesh

/-- The function `UtilMesh::MakeMeshCopy`: a buffer of `vertexCount` cells that `memcpy` fills
from the first `vertexCount` cells of the original. -/
def MakeMeshCopy (original : Mesh) : Except Fault Mesh :=
  if original.vertexCount ≤ original.vertices.length then
    pure { isTexturable := original.isTexturable,
           vertexCount := original.vertexCount,
           vertices := original.vertices.take original.vertexCount }
  else .error .outOfBounds

end UtilMesh

/-! ## rasterizer.h -/

/-- The struct `Texture`; the cells of `data` are `Uint8` values. -/
structure Texture where
  data : List Nat
  width : Nat
  height : Nat
deriving DecidableEq

/-- The struct `Rasterizer`; the cells of `frameBuffer` are `Uint32` values. -/
structure Rasterizer where
  frameBuffer : List Nat
  depthBuffer : List ℚ
  width : Nat
  height : Nat
  texture : Texture
  clearColor : Vec3
  backFaceCulling : Bool
  zNear : ℚ
deriving DecidableEq

/-- The shader uniforms, the variables of `namespace U`. -/
structure Uniforms where
  modelMatrix : Mat4
  viewMatrix : Mat4
  mvpMatrix : Mat4
  worldCameraPosition : Vec3
  worldLightDirection : Vec3
  worldLightPosition : Vec3
  directionalLightOn : Bool
  texturingOn : Bool
  sunMesh : Bool
  shading : Int
  shininess : Int
  texCoordWrap : Int

/-- The macro `COLOR_BIT`. -/
def COLOR_BIT : Nat := 1

/-- The macro `DEPTH_BIT`. -/
def DEPTH_BIT : Nat := 2

/-- The macro `FLAT_SHADING`. -/
def FLAT_SHADING : Int := 1

/-- The macro `GOURAUD_SHADING`. -/
def GOURAUD_SHADING : Int := 2

/-- The macro `PHONG_SHADING`. -/
def PHONG_SHADING : Int := 3

/-- The macro `TEX_COORD_CLAMP`. -/
def TEX_COORD_CLAMP : Int := 1

/-- The macro `TEX_COORD_REPEAT`. -/
def TEX_COORD_REPEAT : Int := 2

/-! ## rasterizer.cpp: buffers -/

/-- The function `Vec3ColorToUint32`. -/
def Vec3ColorToUint32 (col : Vec3) : Nat :=
  let a8 := 0
  let r8 := toUint8 (col.x * 255)
  let g8 := toUint8 (col.y * 255)
  let b8 := toUint8 (col.z * 255)
  a8 <<< 24 ||| b8 <<< 16 ||| g8 <<< 8 ||| r8

namespace Rasterization

/-- The function `Rasterization::Init`: both buffers get `width * height` cells, a product
computed in `Uint32`; their contents are indeterminate in the source and zero here. -/
def Init (rasterizer : Rasterizer) (width height : Nat) (zNear : ℚ) : Rasterizer :=
  { rasterizer with
    frameBuffer := List.replicate (u32 (width * height)) 0,
    depthBuffer := List.replicate (u32 (width * height)) 0,
    width := width,
    height := height,
    backFaceCulling := true,
    zNear := -zNear }

/-- The function `Rasterization::Clear`. `memset` stores the low byte of the packed clear
colour in each of the `width * height * 4` bytes (a `Uint32` product) of the frame buffer, so
that a cleared pixel is that byte four times; `std::fill` stores `FLT_MAX` in the
`width * height` cells of the depth buffer. -/
def Clear (rasterizer : Rasterizer) (flags : Nat) : Except Fault Rasterizer := do
  let rasterizer ←
    if flags &&& COLOR_BIT ≠ 0 then do
      let bytesPerPixel := 4
      let byte := Vec3ColorToUint32 rasterizer.clearColor % 256
      let bytes := u32 (u32 (rasterizer.width * rasterizer.height) * bytesPerPixel)
      let pixel := byte <<< 24 ||| byte <<< 16 ||| byte <<< 8 ||| byte
      if bytes / 4 ≤ rasterizer.frameBuffer.length then
        let cleared := List.replicate (bytes / 4) pixel ++ rasterizer.frameBuffer.drop (bytes / 4)
        pure { rasterizer with frameBuffer := cleared }
      else .error .outOfBounds
    else pure rasterizer
  if flags &&& DEPTH_BIT ≠ 0 then
    let cells := u32 (rasterizer.width * rasterizer.height)
    if cells ≤ rasterizer.depthBuffer.length then
      let cleared := List.replicate cells FLT_MAX ++ rasterizer.depthBuffer.drop cells
      pure { rasterizer with depthBuffer := cleared }
    else .error .outOfBounds
  else pure rasterizer

end Rasterization

/-! ## rasterizer.cpp: clipping a mesh -/

/-- The loop `for (i = 0; i < count; ++i) vertices[i].position = M * vertices[i].position`. -/
def transformPositions (M : Mat4) (vertices : List Vertex) (count : Nat) :
    Except Fault (List Vertex) :=
  (List.range count).foldlM
    (fun vs i => do
      let v ← load vs i
      store vs i { v with position := M.mulVec v.position })
    vertices

/-- The loop `for (i = 0; i < vertexCount; i += 3)` of `ClipToNear`, of which `rounds` rounds
are left; `firstTriangleVertex` is the part of the vertex buffer the pointer of this name
points at. -/
def clipTriangles (zNear : ℚ) :
    (rounds : Nat) → (firstTriangleVertex : List Vertex) → (clippedMesh : Mesh) → Except Fault Mesh
  | 0, _, clippedMesh => pure clippedMesh
  | rounds + 1, firstTriangleVertex, clippedMesh => do
    let clippedMesh ← ClipTriangle firstTriangleVertex clippedMesh zNear
    clipTriangles zNear rounds (firstTriangleVertex.drop 3) clippedMesh

/-- The function `ClipToNear`. The clipped mesh gets a buffer of `2 * vertexCount` cells, a
product computed in `Uint32`. The loop over the triangles runs for `i = 0, 3, 6, ..` below
`vertexCount`, that is `(vertexCount + 2) / 3` rounds (`i` cannot wrap: `2^32 - 1` is a
multiple of 3). -/
def ClipToNear (U : Uniforms) (mesh : Mesh) (zNear : ℚ) : Except Fault Mesh := do
  let modelView := U.viewMatrix.mul U.modelMatrix
  let inverseModelView := (U.viewMatrix.mul U.modelMatrix).inverse
  let vertices ← transformPositions modelView mesh.vertices mesh.vertexCount
  let mesh := { mesh with vertices := vertices }
  let clippedMesh : Mesh :=
    { isTexturable := mesh.isTexturable,
      vertices := List.replicate (u32 (2 * mesh.vertexCount)) Vertex.zero,
      vertexCount := 0 }
  let clippedMesh ← clipTriangles zNear ((mesh.vertexCount + 2) / 3) mesh.vertices clippedMesh
  let vertices ← transformPositions inverseModelView clippedMesh.vertices clippedMesh.vertexCount
  pure { clippedMesh with vertices := vertices }

/-! ## rasterizer.cpp: the vertex shader -/

/-- The function `pow(float, int)`. -/
def pow (x : ℚ) (n : Int) : ℚ := x ^ n

/-- The function `VertexShader`. -/
def VertexShader (inversesqrt : ℚ → ℚ) (U : Uniforms) (vertex : Vertex) : Vertex :=
  let vertex :=
    if U.shading = FLAT_SHADING ∨ U.shading = GOURAUD_SHADING then
      let worldPos := U.modelMatrix.mulVec vertex.position
      let worldNormal := (U.modelMatrix.mulVec (vertex.normal.withW 0)).xyz
      let N := worldNormal.normalize inversesqrt
      let V := (U.worldCameraPosition - worldPos.xyz).normalize inversesqrt
      let albedo := vertex.vsOutColor
      let specColor : Vec3 := ⟨1, 1, 1⟩
      let ambient : ℚ := 2 / 10
      let (L, ambient, specColor) :=
        if U.directionalLightOn then (U.worldLightDirection, ambient, specColor)
        else
          let L := ((worldPos - U.worldLightPosition.withW 1).normalize inversesqrt).xyz
          let (L, ambient) := if U.sunMesh then (-V, ambient + 4 / 10) else (L, ambient)
          (L, ambient, (⟨0, 0, 0⟩ : Vec3))
      let NLdot := max ((-L).dot N) 0
      let diffuse := NLdot
      let R := (L.reflect N).normalize inversesqrt
      let specular := NLdot * pow (max (R.dot V) 0) U.shininess
      let shadedColor := (ambient + diffuse) * albedo + specular * specColor
      { vertex with vsOutColor := shadedColor.clamp 0 1 }
    else
      { vertex with
        vsOutWorldPos := (U.modelMatrix.mulVec vertex.position).xyz,
        vsOutWorldNormal := (U.modelMatrix.mulVec (vertex.normal.withW 0)).xyz,
        vsOutColor := vertex.vsOutColor }
  { vertex with position := U.mvpMatrix.mulVec vertex.position }

/-! ## rasterizer.cpp: rasterizing triangles -/

/-- The function `EdgeFunction`. -/
def EdgeFunction (v0 v1 : Vec4) (p : Vec2) : ℚ :=
  (v0.x - v1.x) * (p.y - v0.y) - (v0.y - v1.y) * (p.x - v0.x)

/-- The function `SampleTexture`. The index `v * width + u` is computed in `Uint32` and kept
in the `int coord`: from `2^31` on it is a negative index, outside the buffer. -/
def SampleTexture (rasterizer : Rasterizer) (u v : Nat) : Except Fault Vec3 := do
  let coord := u32 (u32 (v * rasterizer.texture.width) + u)
  let texColor ←
    if coord < 2147483648 then load rasterizer.texture.data coord else .error .outOfBounds
  pure ⟨(texColor : ℚ) / 255, (texColor : ℚ) / 255, (texColor : ℚ) / 255⟩

/-- The values that `RasterizeTriangles` computes once for a triangle, before its loop over
the pixels: `vert0 vert1 vert2` are `mesh->vertices[i]`, `[i + 1]` and `[i + 2]`. -/
structure TriangleSetup where
  vert0 : Vertex
  vert1 : Vertex
  vert2 : Vertex
  isTexturable : Bool
  triangleArea : ℚ
  minX : Nat
  maxX : Nat
  minY : Nat
  maxY : Nat
  e0_diffX : ℚ
  e1_diffX : ℚ
  e2_diffX : ℚ
  e0_diffY : ℚ
  e1_diffY : ℚ
  e2_diffY : ℚ
  v0RecW : ℚ
  v1RecW : ℚ
  v2RecW : ℚ

/-- The perspective-correct interpolation of one attribute with the values `a0 a1 a2` at the
three vertices, the expression
`(w0 * (a0 * v0RecW) + w1 * (a1 * v1RecW) + w2 * (a2 * v2RecW)) * recInterpolationDenominator`
of the attribute interpolation block. -/
def interpolate (T : TriangleSetup) (w0 w1 w2 recInterpolationDenominator a0 a1 a2 : ℚ) : ℚ :=
  (w0 * (a0 * T.v0RecW) + w1 * (a1 * T.v1RecW) + w2 * (a2 * T.v2RecW))
    * recInterpolationDenominator

/-- The wrapping of an interpolated texture coordinate (lines 517-527, which treat
`texCoords.x` and `texCoords.y` alike): `clamp(t, 0, 1)` under `TEX_COORD_CLAMP` and
`t - floorf(t)` otherwise. -/
def wrapTexCoord (U : Uniforms) (t : ℚ) : ℚ :=
  if U.texCoordWrap = TEX_COORD_CLAMP then clamp t 0 1 else t - ⌊t⌋

/-- The texel column or row `(Uint32)(t * (size - 1))` of a wrapped texture coordinate `t`
(lines 529-530), where `size` is the width or height of the texture and `size - 1` is computed
in `Uint32`. -/
def texelCoord (t : ℚ) (size : Nat) : Nat :=
  toUint32 (t * (u32 (size + 4294967295) : ℚ))

/-- The attribute interpolation block and the fragment shader of `RasterizeTriangles`: the
value `col32` of an accepted fragment with the barycentric coordinates `w0 w1 w2`. -/
def fragmentColor (inversesqrt : ℚ → ℚ) (U : Uniforms) (rasterizer : Rasterizer)
    (T : TriangleSetup) (w0 w1 w2 recInterpolationDenominator : ℚ) : Except Fault Nat := do
  let lerp := interpolate T w0 w1 w2 recInterpolationDenominator
  let col0 := T.vert0.vsOutColor
  let col1 := T.vert1.vsOutColor
  let col2 := T.vert2.vsOutColor
  let col : Vec3 := ⟨lerp col0.x col1.x col2.x, lerp col0.y col1.y col2.y, lerp col0.z col1.z col2.z⟩
  let v0Pos := T.vert0.vsOutWorldPos
  let v1Pos := T.vert1.vsOutWorldPos
  let v2Pos := T.vert2.vsOutWorldPos
  let worldPos : Vec3 :=
    ⟨lerp v0Pos.x v1Pos.x v2Pos.x, lerp v0Pos.y v1Pos.y v2Pos.y, lerp v0Pos.z v1Pos.z v2Pos.z⟩
  let v0Normal := T.vert0.vsOutWorldNormal
  let v1Normal := T.vert1.vsOutWorldNormal
  let v2Normal := T.vert2.vsOutWorldNormal
  let worldNormal : Vec3 :=
    ⟨lerp v0Normal.x v1Normal.x v2Normal.x, lerp v0Normal.y v1Normal.y v2Normal.y,
      lerp v0Normal.z v1Normal.z v2Normal.z⟩
  let v0Tex := T.vert0.textureCoords
  let v1Tex := T.vert1.textureCoords
  let v2Tex := T.vert2.textureCoords
  let texCoords : Vec2 := ⟨lerp v0Tex.x v1Tex.x v2Tex.x, lerp v0Tex.y v1Tex.y v2Tex.y⟩
  let texCoords : Vec2 := ⟨wrapTexCoord U texCoords.x, wrapTexCoord U texCoords.y⟩
  let u := texelCoord texCoords.x rasterizer.texture.width
  let v := texelCoord texCoords.y rasterizer.texture.height
  if U.shading = FLAT_SHADING then
    pure (Vec3ColorToUint32 col0)
  else if U.shading = GOURAUD_SHADING then
    pure (toUint8 (col.z * 255) <<< 16 ||| toUint8 (col.y * 255) <<< 8 ||| toUint8 (col.x * 255))
  else do
    let albedo ←
      if U.texturingOn ∧ T.isTexturable then SampleTexture rasterizer u v else pure col
    let specColor : Vec3 := ⟨1, 1, 1⟩
    let N := worldNormal.normalize inversesqrt
    let V := (U.worldCameraPosition - worldPos).normalize inversesqrt
    let ambient : ℚ := 2 / 10
    let (L, ambient, specColor) :=
      if U.directionalLightOn then (U.worldLightDirection, ambient, specColor)
      else
        let L := (worldPos - U.worldLightPosition).normalize inversesqrt
        let (L, ambient) := if U.sunMesh then (-V, ambient + 4 / 10) else (L, ambient)
        (L, ambient, (⟨0, 0, 0⟩ : Vec3))
    let NLdot := max ((-L).dot N) 0
    let diffuse := NLdot
    let R := (L.reflect N).normalize inversesqrt
    let specular := NLdot * pow (max (R.dot V) 0) U.shininess
    let shadedColor := (ambient + diffuse) * albedo + specular * specColor
    let shadedColor := shadedColor.clamp 0 1
    pure (Vec3ColorToUint32 shadedColor)

/-- The inside test of `RasterizeTriangles` on the three edge values. -/
def insideTest (backFaceCulling : Bool) (area0 area1 area2 : ℚ) : Bool :=
  (area0 ≥ 0 && area1 ≥ 0 && area2 ≥ 0) ||
    (!backFaceCulling && area0 ≤ 0 && area1 ≤ 0 && area2 ≤ 0)

/-- The depth `w0 * v0.z + w1 * v1.z + w2 * v2.z` of the fragment with the edge values
`e0 e1 e2`, where `w0 = e1 / area`, `w1 = e2 / area` and `w2 = e0 / area`. It is the depth of
the source for a triangle whose area is not 0; for a triangle of area 0 the source has no
number here (see `rasterizePixel`). -/
def fragmentDepth (T : TriangleSetup) (e0 e1 e2 : ℚ) : ℚ :=
  let w0 := e1 / T.triangleArea
  let w1 := e2 / T.triangleArea
  let w2 := e0 / T.triangleArea
  w0 * T.vert0.position.z + w1 * T.vert1.position.z + w2 * T.vert2.position.z

/-- The body of the loop over `x` of `RasterizeTriangles`, at the pixel `(x, y)` with the
running edge values `e0 e1 e2`; `frameBuffer` is the offset of the local pointer of this name
in the frame buffer.

The weights are quotients by `triangleArea`. The three edge values of a pixel sum to the area,
so for a triangle of area 0 a pixel that passes the inside test has `e0 = e1 = e2 = 0`: the
weights are `0.0f / 0.0f` in the source, not a number, and so is `depth`, whatever the `z` of
the vertices. Both comparisons `depth < 1.0f` and `depth < currentDepth` are false then and
nothing is written. A quotient by 0 is 0 in `ℚ`, so the depth test carries
`triangleArea ≠ 0`. -/
def rasterizePixel (inversesqrt : ℚ → ℚ) (U : Uniforms) (T : TriangleSetup)
    (frameBuffer x y : Nat) (e0 e1 e2 : ℚ) (rasterizer : Rasterizer) :
    Except Fault Rasterizer := do
  let area0 := e0
  let area1 := e1
  let area2 := e2
  if insideTest rasterizer.backFaceCulling area0 area1 area2 then
    let w0 := area1 / T.triangleArea
    let w1 := area2 / T.triangleArea
    let w2 := area0 / T.triangleArea
    let recInterpolationDenominator := 1 / (w0 * T.v0RecW + w1 * T.v1RecW + w2 * T.v2RecW)
    let depth := fragmentDepth T e0 e1 e2
    let index := u32 (u32 (y * rasterizer.width) + x)
    let currentDepth ← load rasterizer.depthBuffer index
    if T.triangleArea ≠ 0 ∧ depth < 1 ∧ depth < currentDepth then
      let depthBuffer ← store rasterizer.depthBuffer index depth
      let rasterizer := { rasterizer with depthBuffer := depthBuffer }
      let col32 ← fragmentColor inversesqrt U rasterizer T w0 w1 w2 recInterpolationDenominator
      let pixels ← store rasterizer.frameBuffer (frameBuffer + x) col32
      pure { rasterizer with frameBuffer := pixels }
    else pure rasterizer
  else pure rasterizer

/-- The loop `for (x = ..; x <= maxX; ++x)` of `RasterizeTriangles`, of which `rounds` rounds
are left. -/
def rasterizeRow (inversesqrt : ℚ → ℚ) (U : Uniforms) (T : TriangleSetup) (frameBuffer y : Nat) :
    (rounds : Nat) → (x : Nat) → (e0 e1 e2 : ℚ) → Rasterizer → Except Fault Rasterizer
  | 0, _, _, _, _, rasterizer => pure rasterizer
  | rounds + 1, x, e0, e1, e2, rasterizer => do
    let rasterizer ← rasterizePixel inversesqrt U T frameBuffer x y e0 e1 e2 rasterizer
    rasterizeRow inversesqrt U T frameBuffer y rounds (x + 1)
      (e0 - T.e0_diffY) (e1 - T.e1_diffY) (e2 - T.e2_diffY) rasterizer

/-- The loop `for (y = ..; y <= maxY; ++y)` of `RasterizeTriangles`, of which `rounds` rounds
are left. -/
def rasterizeRows (inversesqrt : ℚ → ℚ) (U : Uniforms) (T : TriangleSetup) (width : Nat) :
    (rounds : Nat) → (y : Nat) → (e0_y e1_y e2_y : ℚ) → (frameBuffer : Nat) → Rasterizer →
      Except Fault Rasterizer
  | 0, _, _, _, _, _, rasterizer => pure rasterizer
  | rounds + 1, y, e0_y, e1_y, e2_y, frameBuffer, rasterizer => do
    let rasterizer ← rasterizeRow inversesqrt U T frameBuffer y (T.maxX + 1 - T.minX) T.minX
      e0_y e1_y e2_y rasterizer
    rasterizeRows inversesqrt U T width rounds (y + 1)
      (e0_y + T.e0_diffX) (e1_y + T.e1_diffX) (e2_y + T.e2_diffX) (frameBuffer + width) rasterizer

/-- The values computed before the loop over the pixels of a triangle (lines 388-435). -/
def setupTriangle (rasterizer : Rasterizer) (isTexturable : Bool) (vert0 vert1 vert2 : Vertex) :
    TriangleSetup :=
  let width := rasterizer.width
  let height := rasterizer.height
  let v0 := vert0.position
  let v1 := vert1.position
  let v2 := vert2.position
  let pointC : Vec2 := ⟨v2.x, v2.y⟩
  let triangleArea := EdgeFunction v0 v1 pointC
  let minX := toSint32 (clamp (min v0.x (min v1.x v2.x)) 0 (u32 (width + 4294967295) : ℚ))
  let maxX := toSint32 (clamp (max v0.x (max v1.x v2.x)) 0 (u32 (width + 4294967295) : ℚ))
  let minY := toSint32 (clamp (min v0.y (min v1.y v2.y)) 0 (u32 (height + 4294967295) : ℚ))
  let maxY := toSint32 (clamp (max v0.y (max v1.y v2.y)) 0 (u32 (height + 4294967295) : ℚ))
  let x0 := v0.x
  let x1 := v1.x
  let x2 := v2.x
  let y0 := v0.y
  let y1 := v1.y
  let y2 := v2.y
  { vert0 := vert0, vert1 := vert1, vert2 := vert2, isTexturable := isTexturable,
    triangleArea := triangleArea,
    minX := minX, maxX := maxX, minY := minY, maxY := maxY,
    e0_diffX := x0 - x1, e1_diffX := x1 - x2, e2_diffX := x2 - x0,
    e0_diffY := y0 - y1, e1_diffY := y1 - y2, e2_diffY := y2 - y0,
    v0RecW := 1 / v0.w, v1RecW := 1 / v1.w, v2RecW := 1 / v2.w }

/-- One round of the loop over the triangles of `RasterizeTriangles`, for the triangle with
the vertices `vert0 vert1 vert2`. -/
def rasterizeTriangle (inversesqrt : ℚ → ℚ) (U : Uniforms) (isTexturable : Bool)
    (vert0 vert1 vert2 : Vertex) (rasterizer : Rasterizer) : Except Fault Rasterizer :=
  let T := setupTriangle rasterizer isTexturable vert0 vert1 vert2
  if rasterizer.backFaceCulling ∧ T.triangleArea < 0 then
    pure rasterizer
  else
    let x0 := vert0.position.x
    let x1 := vert1.position.x
    let x2 := vert2.position.x
    let y0 := vert0.position.y
    let y1 := vert1.position.y
    let y2 := vert2.position.y
    let e0_y := T.e0_diffX * ((T.minY : ℚ) - y0) - T.e0_diffY * ((T.minX : ℚ) - x0)
    let e1_y := T.e1_diffX * ((T.minY : ℚ) - y1) - T.e1_diffY * ((T.minX : ℚ) - x1)
    let e2_y := T.e2_diffX * ((T.minY : ℚ) - y2) - T.e2_diffY * ((T.minX : ℚ) - x2)
    let frameBuffer := u32 (T.minY * rasterizer.width)
    rasterizeRows inversesqrt U T rasterizer.width (T.maxY + 1 - T.minY) T.minY
      e0_y e1_y e2_y frameBuffer rasterizer

/-- The loop `for (i = ..; i < mesh->vertexCount; i += 3)` of `RasterizeTriangles`, of which
`rounds` rounds are left. -/
def rasterizeTrianglesFrom (inversesqrt : ℚ → ℚ) (U : Uniforms) (mesh : Mesh) :
    (rounds : Nat) → (i : Nat) → Rasterizer → Except Fault Rasterizer
  | 0, _, rasterizer => pure rasterizer
  | rounds + 1, i, rasterizer => do
    let vert0 ← load mesh.vertices i
    let vert1 ← load mesh.vertices (i + 1)
    let vert2 ← load mesh.vertices (i + 2)
    let rasterizer ← rasterizeTriangle inversesqrt U mesh.isTexturable vert0 vert1 vert2 rasterizer
    rasterizeTrianglesFrom inversesqrt U mesh rounds (i + 3) rasterizer

/-- The function `RasterizeTriangles`: the loop runs for `i = 0, 3, 6, ..` below
`vertexCount`, that is `(vertexCount + 2) / 3` rounds. -/
def RasterizeTriangles (inversesqrt : ℚ → ℚ) (U : Uniforms) (rasterizer : Rasterizer)
    (mesh : Mesh) : Except Fault Rasterizer :=
  rasterizeTrianglesFrom inversesqrt U mesh ((mesh.vertexCount + 2) / 3) 0 rasterizer

namespace Rasterization

/-- The function `Rasterization::DrawTriangleMesh`. It returns the rasterizer; the mesh of the
caller is not written to (the work is done on the copy). -/
def DrawTriangleMesh (inversesqrt : ℚ → ℚ) (U : Uniforms) (rasterizer : Rasterizer)
    (original : Mesh) : Except Fault Rasterizer := do
  let mesh ← UtilMesh.MakeMeshCopy original
  let mesh ← ClipToNear U mesh rasterizer.zNear
  let vertices ← (List.range mesh.vertexCount).foldlM
    (fun vs i => do
      let vertex ← load vs i
      let vertex := VertexShader inversesqrt U vertex
      let vertexPos := vertex.position
      let vertexPos := { vertexPos with x := vertexPos.x / vertexPos.w }
      let vertexPos := { vertexPos with y := vertexPos.y / vertexPos.w }
      let vertexPos := { vertexPos with z := vertexPos.z / vertexPos.w }
      let vertexPos := { vertexPos with
        x := (vertexPos.x * (1 / 2) + 1 / 2) * (rasterizer.width : ℚ) }
      let vertexPos := { vertexPos with
        y := (vertexPos.y * (-1 / 2) + 1 / 2) * (rasterizer.height : ℚ) }
      store vs i { vertex with position := vertexPos })
    mesh.vertices
  let mesh := { mesh with vertices := vertices }
  RasterizeTriangles inversesqrt U rasterizer mesh

end Rasterization

/-! ## mesh.cpp: the mesh builders -/

/-- The macro `PI` of `mesh.cpp`. -/
def PI : ℚ := 3.14159265358979323846264338327950

/-- The function `SphericalToCartesian`; `sin` and `cos` are not rational functions: they
are parameters. -/
def SphericalToCartesian (sin cos : ℚ → ℚ) (r phi theta : ℚ) : Vec4 :=
  let cartesian : Vec4 := ⟨0, 0, 0, 0⟩
  let cartesian := { cartesian with x := r * sin theta * sin phi }
  let cartesian := { cartesian with y := r * cos phi }
  let cartesian := { cartesian with z := r * cos theta * sin phi }
  let cartesian := { cartesian with w := 1 }
  cartesian

namespace UtilMesh

/-- The loop `for (i = 0; i < original->vertexCount; ++i)` of `MakeNormalMesh`, of which
`rounds` rounds are left: the line of vertex `i` is stored at `vertices[vertexCount++]`,
twice. -/
def normalLines (original : Mesh) (normalLength : ℚ) :
    (rounds : Nat) → (i : Nat) → (normalMesh : Mesh) → Except Fault Mesh
  | 0, _, normalMesh => pure normalMesh
  | rounds + 1, i, normalMesh => do
    let source ← load original.vertices i
    let start := Vertex.zero
    let start := { start with position := source.position }
    let start := { start with vsOutColor := ⟨1, 1, 0⟩ }
    let last := Vertex.zero
    let last := { last with position := start.position + normalLength * source.normal.withW 0 }
    let last := { last with vsOutColor := ⟨1, 1, 0⟩ }
    let b0 ← store normalMesh.vertices normalMesh.vertexCount start
    let c1 := u32 (normalMesh.vertexCount + 1)
    let b1 ← store b0 c1 last
    let c2 := u32 (c1 + 1)
    normalLines original normalLength rounds (i + 1)
      { normalMesh with vertices := b1, vertexCount := c2 }

/-- The function `UtilMesh::MakeNormalMesh`. The buffer has `2 * vertexCount` cells, a product
computed in `Uint32`; the local `end` of the source is `last` in `normalLines`. -/
def MakeNormalMesh (original : Mesh) (normalLength : ℚ) : Except Fault Mesh :=
  let normalMesh : Mesh :=
    { vertexCount := 0,
      vertices := List.replicate (u32 (2 * original.vertexCount)) Vertex.zero,
      isTexturable := false }
  normalLines original normalLength original.vertexCount 0 normalMesh

/-- The loop `for (t = 0; t < slices; ++t)` of `MakeUVSphere` in the stack `p`, of which
`rounds` rounds are left. -/
def sphereSlices (sin cos inversesqrt : ℚ → ℚ) (color : Vec3) (stackCount slices p : Nat)
    (phi1 phi2 : ℚ) : (rounds : Nat) → (t : Nat) → (mesh : Mesh) → Except Fault Mesh
  | 0, _, mesh => pure mesh
  | rounds + 1, t, mesh => do
    let r : ℚ := 1
    let c : Vec3 := ⟨0, 0, 0⟩
    let theta1 := ((t : ℚ) / (slices : ℚ)) * 2 * PI
    let theta2 := (((t + 1 : Nat) : ℚ) / (slices : ℚ)) * 2 * PI
    let v1 := { Vertex.zero with position := SphericalToCartesian sin cos r phi1 theta1 }
    let v2 := { Vertex.zero with position := SphericalToCartesian sin cos r phi2 theta1 }
    let v3 := { Vertex.zero with position := SphericalToCartesian sin cos r phi2 theta2 }
    let v4 := { Vertex.zero with position := SphericalToCartesian sin cos r phi1 theta2 }
    let v1 := { v1 with normal := (v1.position.xyz - c).normalize inversesqrt }
    let v2 := { v2 with normal := (v2.position.xyz - c).normalize inversesqrt }
    let v3 := { v3 with normal := (v3.position.xyz - c).normalize inversesqrt }
    let v4 := { v4 with normal := (v4.position.xyz - c).normalize inversesqrt }
    let v1 := { v1 with vsOutColor := color }
    let v2 := { v2 with vsOutColor := color }
    let v3 := { v3 with vsOutColor := color }
    let v4 := { v4 with vsOutColor := color }
    let mesh ←
      if p = 0 then AddTriangle mesh v1 v2 v3
      else if u32 (p + 1) = stackCount then AddTriangle mesh v2 v4 v1
      else do
        let mesh ← AddTriangle mesh v1 v2 v3
        AddTriangle mesh v3 v4 v1
    sphereSlices sin cos inversesqrt color stackCount slices p phi1 phi2 rounds (t + 1) mesh

/-- The loop `for (p = 0; p < stacks; ++p)` of `MakeUVSphere`, of which `rounds` rounds are
left; `stackCount` is the local `stacks` of the source. -/
def sphereStacks (sin cos inversesqrt : ℚ → ℚ) (color : Vec3) (stackCount slices : Nat) :
    (rounds : Nat) → (p : Nat) → (mesh : Mesh) → Except Fault Mesh
  | 0, _, mesh => pure mesh
  | rounds + 1, p, mesh => do
    let phi1 := ((p : ℚ) / (stackCount : ℚ)) * PI
    let phi2 := (((p + 1 : Nat) : ℚ) / (stackCount : ℚ)) * PI
    let mesh ← sphereSlices sin cos inversesqrt color stackCount slices p phi1 phi2 slices 0 mesh
    sphereStacks sin cos inversesqrt color stackCount slices rounds (p + 1) mesh

/-- The number of vertices that `MakeUVSphere` allocates its buffer for,
`3 * (slices * 2 + ((stacks - 2) * slices * 2))`, computed in `Uint32`: `stacks - 2` wraps
when `stacks < 2`. -/
def sphereCells (stackCount slices : Nat) : Nat :=
  u32 (3 * u32 (u32 (slices * 2) + u32 (u32 (u32 (stackCount + 4294967294) * slices) * 2)))

/-- The function `UtilMesh::MakeUVSphere`; `subdivisions` is a `Uint32`. -/
def MakeUVSphere (sin cos inversesqrt : ℚ → ℚ) (subdivisions : Nat) (color : Vec3) :
    Except Fault Mesh :=
  let stackCount := subdivisions
  let slices := subdivisions
  let mesh : Mesh :=
    { vertexCount := 0,
      vertices := List.replicate (sphereCells stackCount slices) Vertex.zero,
      isTexturable := false }
  sphereStacks sin cos inversesqrt color stackCount slices stackCount 0 mesh

/-- The function `UtilMesh::MakeCubeCentered`. Each row of the table is an initialiser
`Vertex{position, textureCoords, normal, vsOutColor}`, which leaves the other two fields
zero. -/
def MakeCubeCentered (edgeSize : ℚ) : Mesh :=
  let size := edgeSize
  let vertex := fun (position : Vec4) (textureCoords : Vec2) (normal vsOutColor : Vec3) =>
    ({ Vertex.zero with position := position, textureCoords := textureCoords, normal := normal,
                        vsOutColor := vsOutColor } : Vertex)
  let vertices : List Vertex := [
    -- Front
    vertex ⟨-size / 2, -size / 2, size / 2, 1⟩ ⟨3 / 2, 0⟩ ⟨0, 0, 1⟩ ⟨1 / 2, 0, 0⟩,
    vertex ⟨size / 2, -size / 2, size / 2, 1⟩ ⟨0, 0⟩ ⟨0, 0, 1⟩ ⟨0, 1 / 2, 0⟩,
    vertex ⟨size / 2, size / 2, size / 2, 1⟩ ⟨0, 3 / 2⟩ ⟨0, 0, 1⟩ ⟨0, 0, 1 / 2⟩,
    vertex ⟨size / 2, size / 2, size / 2, 1⟩ ⟨0, 3 / 2⟩ ⟨0, 0, 1⟩ ⟨0, 0, 1 / 2⟩,
    vertex ⟨-size / 2, size / 2, size / 2, 1⟩ ⟨3 / 2, 3 / 2⟩ ⟨0, 0, 1⟩ ⟨0, 1 / 2, 0⟩,
    vertex ⟨-size / 2, -size / 2, size / 2, 1⟩ ⟨3 / 2, 0⟩ ⟨0, 0, 1⟩ ⟨1 / 2, 0, 0⟩,
    -- Top
    vertex ⟨-size / 2, size / 2, size / 2, 1⟩ ⟨0, 0⟩ ⟨0, 1, 0⟩ ⟨1 / 2, 0, 0⟩,
    vertex ⟨size / 2, size / 2, size / 2, 1⟩ ⟨3 / 2, 0⟩ ⟨0, 1, 0⟩ ⟨0, 1 / 2, 0⟩,
    vertex ⟨size / 2, size / 2, -size / 2, 1⟩ ⟨3 / 2, 3 / 2⟩ ⟨0, 1, 0⟩ ⟨0, 0, 1 / 2⟩,
    vertex ⟨size / 2, size / 2, -size / 2, 1⟩ ⟨3 / 2, 3 / 2⟩ ⟨0, 1, 0⟩ ⟨1 / 2, 0, 0⟩,
    vertex ⟨-size / 2, size / 2, -size / 2, 1⟩ ⟨0, 3 / 2⟩ ⟨0, 1, 0⟩ ⟨0, 1 / 2, 0⟩,
    vertex ⟨-size / 2, size / 2, size / 2, 1⟩ ⟨0, 0⟩ ⟨0, 1, 0⟩ ⟨0, 0, 1 / 2⟩,
    -- Back
    vertex ⟨size / 2, -size / 2, -size / 2, 1⟩ ⟨3 / 2, 0⟩ ⟨0, 0, -1⟩ ⟨0, 0, 1 / 2⟩,
    vertex ⟨-size / 2, -size / 2, -size / 2, 1⟩ ⟨0, 0⟩ ⟨0, 0, -1⟩ ⟨0, 1 / 2, 0⟩,
    vertex ⟨-size / 2, size / 2, -size / 2, 1⟩ ⟨0, 3 / 2⟩ ⟨0, 0, -1⟩ ⟨0, 0, 1 / 2⟩,
    vertex ⟨-size / 2, size / 2, -size / 2, 1⟩ ⟨0, 3 / 2⟩ ⟨0, 0, -1⟩ ⟨0, 0, 1 / 2⟩,
    vertex ⟨size / 2, size / 2, -size / 2, 1⟩ ⟨3 / 2, 3 / 2⟩ ⟨0, 0, -1⟩ ⟨0, 1 / 2, 0⟩,
    vertex ⟨size / 2, -size / 2, -size / 2, 1⟩ ⟨3 / 2, 0⟩ ⟨0, 0, -1⟩ ⟨0, 0, 1 / 2⟩,
    -- Bottom
    vertex ⟨-size / 2, -size / 2, -size / 2, 1⟩ ⟨0, 3 / 2⟩ ⟨0, -1, 0⟩ ⟨1 / 2, 0, 0⟩,
    vertex ⟨size / 2, -size / 2, -size / 2, 1⟩ ⟨3 / 2, 3 / 2⟩ ⟨0, -1, 0⟩ ⟨0, 1 / 2, 0⟩,
    vertex ⟨size / 2, -size / 2, size / 2, 1⟩ ⟨3 / 2, 0⟩ ⟨0, -1, 0⟩ ⟨0, 0, 1 / 2⟩,
    vertex ⟨size / 2, -size / 2, size / 2, 1⟩ ⟨3 / 2, 0⟩ ⟨0, -1, 0⟩ ⟨1 / 2, 0, 0⟩,
    vertex ⟨-size / 2, -size / 2, size / 2, 1⟩ ⟨0, 0⟩ ⟨0, -1, 0⟩ ⟨0, 1 / 2, 0⟩,
    vertex ⟨-size / 2, -size / 2, -size / 2, 1⟩ ⟨0, 3 / 2⟩ ⟨0, -1, 0⟩ ⟨0, 0, 1 / 2⟩,
    -- Right
    vertex ⟨size / 2, -size / 2, size / 2, 1⟩ ⟨0, 0⟩ ⟨1, 0, 0⟩ ⟨1 / 2, 0, 0⟩,
    vertex ⟨size / 2, -size / 2, -size / 2, 1⟩ ⟨3 / 2, 0⟩ ⟨1, 0, 0⟩ ⟨0, 1 / 2, 0⟩,
    vertex ⟨size / 2, size / 2, -size / 2, 1⟩ ⟨3 / 2, 3 / 2⟩ ⟨1, 0, 0⟩ ⟨0, 0, 1 / 2⟩,
    vertex ⟨size / 2, size / 2, -size / 2, 1⟩ ⟨3 / 2, 3 / 2⟩ ⟨1, 0, 0⟩ ⟨1 / 2, 0, 0⟩,
    vertex ⟨size / 2, size / 2, size / 2, 1⟩ ⟨0, 3 / 2⟩ ⟨1, 0, 0⟩ ⟨0, 1 / 2, 0⟩,
    vertex ⟨size / 2, -size / 2, size / 2, 1⟩ ⟨0, 0⟩ ⟨1, 0, 0⟩ ⟨0, 0, 1 / 2⟩,
    -- Left
    vertex ⟨-size / 2, -size / 2, -size / 2, 1⟩ ⟨0, 0⟩ ⟨-1, 0, 0⟩ ⟨1 / 2, 0, 0⟩,
    vertex ⟨-size / 2, -size / 2, size / 2, 1⟩ ⟨3 / 2, 0⟩ ⟨-1, 0, 0⟩ ⟨0, 1 / 2, 0⟩,
    vertex ⟨-size / 2, size / 2, size / 2, 1⟩ ⟨3 / 2, 3 / 2⟩ ⟨-1, 0, 0⟩ ⟨0, 0, 1 / 2⟩,
    vertex ⟨-size / 2, size / 2, size / 2, 1⟩ ⟨3 / 2, 3 / 2⟩ ⟨-1, 0, 0⟩ ⟨1 / 2, 0, 0⟩,
    vertex ⟨-size / 2, size / 2, -size / 2, 1⟩ ⟨0, 3 / 2⟩ ⟨-1, 0, 0⟩ ⟨0, 1 / 2, 0⟩,
    vertex ⟨-size / 2, -size / 2, -size / 2, 1⟩ ⟨0, 0⟩ ⟨-1, 0, 0⟩ ⟨0, 0, 1 / 2⟩]
  { vertexCount := vertices.length, vertices := vertices, isTexturable := true }

end UtilMesh

/-! ## renderer.h, renderer.cpp and main.cpp: the settings of the user -/

/-- The fields of the struct `RenderContext` that hold the settings of the user; `shading`
and `texCoordWrap` are `Uint32` values compared with the macros of `rasterizer.h`, and
`shininess` and `sphereSubdivisions` are `int` values. The rasterizer, the camera, the meshes
and the objects of the context are left out. -/
structure RenderContext where
  width : Int
  height : Int
  shading : Int
  texCoordWrap : Int
  texturingOn : Bool
  backFaceCulling : Bool
  solarSystem : Bool
  previousSolarSystem : Bool
  shininess : Int
  previousSphereSubdivisions : Int
  sphereSubdivisions : Int
  solarCameraPos : Vec3
  sceneCameraPos : Vec3
deriving DecidableEq

/-- Reduction of an integer to an `int` of 32 bits (two's complement). -/
def s32 (n : Int) : Int := (n + 2147483648) % 4294967296 - 2147483648

namespace Renderer

/-- The assignments of `Renderer::Init` to the settings of the context (lines 72-84); the rest
of the function sets up the rasterizer, the camera, the meshes and the texture. -/
def Init (context : RenderContext) (width height : Nat) : RenderContext :=
  let context := { context with width := s32 width }
  let context := { context with height := s32 height }
  let context := { context with shading := FLAT_SHADING }
  let context := { context with solarSystem := false }
  let context := { context with previousSolarSystem := false }
  let context := { context with texCoordWrap := TEX_COORD_REPEAT }
  let context := { context with texturingOn := true }
  let context := { context with shininess := 16 }
  let context := { context with sphereSubdivisions := 20 }
  let context := { context with previousSphereSubdivisions := context.sphereSubdivisions }
  let context := { context with backFaceCulling := true }
  let context := { context with sceneCameraPos := ⟨-48 / 10, 256 / 100, 651 / 100⟩ }
  let context := { context with solarCameraPos := ⟨-22, 15, 33⟩ }
  context

end Renderer

/-- The key code `SDLK_ESCAPE` of SDL. -/
def SDLK_ESCAPE : Int := 27

/-- The key code `SDLK_UP` of SDL. -/
def SDLK_UP : Int := 1073741906

/-- The key code `SDLK_DOWN` of SDL. -/
def SDLK_DOWN : Int := 1073741905

/-- The key code `SDLK_1` of SDL, the character `1`. -/
def SDLK_1 : Int := 49

/-- The key code `SDLK_2` of SDL. -/
def SDLK_2 : Int := 50

/-- The key code `SDLK_3` of SDL. -/
def SDLK_3 : Int := 51

/-- The key code `SDLK_4` of SDL. -/
def SDLK_4 : Int := 52

/-- The key code `SDLK_5` of SDL. -/
def SDLK_5 : Int := 53

/-- The key code `SDLK_7` of SDL. -/
def SDLK_7 : Int := 55

/-- The key code `SDLK_8` of SDL. -/
def SDLK_8 : Int := 56

/-- The key code `SDLK_s` of SDL, the character `s`. -/
def SDLK_s : Int := 115

/-- The function `onKeyDown` of `main.cpp`, on the pair of the global `gIsRunning` and the
context. The arithmetic on `shininess` and `sphereSubdivisions` is that of `int`: the division
rounds towards zero and the results are reduced to 32 bits. -/
def onKeyDown (key : Int) (state : Bool × RenderContext) : Bool × RenderContext :=
  let (gIsRunning, context) := state
  if key = SDLK_ESCAPE then (false, context)
  else if key = SDLK_UP then (gIsRunning, context)
  else if key = SDLK_DOWN then (gIsRunning, context)
  else if key = SDLK_1 then
    if context.shading = FLAT_SHADING then
      (gIsRunning, { context with shading := GOURAUD_SHADING })
    else if context.shading = GOURAUD_SHADING then
      (gIsRunning, { context with shading := PHONG_SHADING })
    else if context.shading = PHONG_SHADING then
      (gIsRunning, { context with shading := FLAT_SHADING })
    else (gIsRunning, context)
  else if key = SDLK_2 then
    let shininess :=
      if context.shininess = 2 then context.shininess else Int.tdiv context.shininess 2
    (gIsRunning, { context with shininess := shininess })
  else if key = SDLK_3 then
    let shininess :=
      if context.shininess = 2 <<< 10 then context.shininess else s32 (context.shininess * 2)
    (gIsRunning, { context with shininess := shininess })
  else if key = SDLK_4 then
    let sphereSubdivisions :=
      if context.sphereSubdivisions = 5 then context.sphereSubdivisions
      else s32 (context.sphereSubdivisions - 5)
    (gIsRunning, { context with sphereSubdivisions := sphereSubdivisions })
  else if key = SDLK_5 then
    let sphereSubdivisions :=
      if context.sphereSubdivisions = 150 then context.sphereSubdivisions
      else s32 (context.sphereSubdivisions + 5)
    (gIsRunning, { context with sphereSubdivisions := sphereSubdivisions })
  else if key = SDLK_7 then
    let texCoordWrap :=
      if context.texCoordWrap = TEX_COORD_CLAMP then TEX_COORD_REPEAT else TEX_COORD_CLAMP
    (gIsRunning, { context with texCoordWrap := texCoordWrap })
  else if key = SDLK_8 then
    (gIsRunning, { context with backFaceCulling := !context.backFaceCulling })
  else if key = SDLK_s then
    (gIsRunning, { context with solarSystem := !context.solarSystem })
  else (gIsRunning, context)

/-- The settings after the key presses `keys`, given to `onKeyDown` one after the other. -/
def pressKeys (keys : List Int) (state : Bool × RenderContext) : Bool × RenderContext :=
  keys.foldl (fun s key => onKeyDown key s) state

/-! ## mesh.cpp: the mesh of the world axes; rasterizer.cpp: binding a texture -/

namespace UtilMesh

/-- The function `UtilMesh::MakeWorldAxesMesh`: the buffer of `3 * 2` cells gets the six
vertices by index. The last assignment of a colour goes to `x`, as in the source. -/
def MakeWorldAxesMesh : Mesh :=
  let axisLength : ℚ := 3
  let center := Vertex.zero
  let x := Vertex.zero
  let y := Vertex.zero
  let z := Vertex.zero
  let center := { center with position := ⟨0, 0, 0, 1⟩ }
  let x := { x with position := ⟨axisLength, 0, 0, 1⟩ }
  let x := { x with vsOutColor := ⟨1, 0, 0⟩ }
  let y := { y with position := ⟨0, axisLength, 0, 1⟩ }
  let y := { y with vsOutColor := ⟨0, 1, 0⟩ }
  let z := { z with position := ⟨0, 0, axisLength, 1⟩ }
  let x := { x with vsOutColor := ⟨0, 1, 0⟩ }
  { vertexCount := 3 * 2, vertices := [center, x, center, y, center, z], isTexturable := false }

end UtilMesh

namespace Rasterization

end Rasterization

/-! ## Observing what a call has appended -/

/-- The vertices that `after` holds beyond the first `before.vertexCount` ones. -/
def appended (before after : Mesh) : List Vertex :=
  (after.vertices.take after.vertexCount).drop before.vertexCount

/-- The vertex in which the edge from `X` to `N` meets the plane `z = zn`, as the clipper
computes it. -/
def cutVertex (X N : Vertex) (zn : ℚ) : Vertex :=
  LerpVertices X N ((X.position.z - zn) / (X.position.z - N.position.z))

/-- The mesh `m` with the vertices `vs` written behind its `vertexCount` vertices. -/
def push (m : Mesh) (vs : List Vertex) : Mesh :=
  { vertices := m.vertices.take m.vertexCount ++ (vs ++ m.vertices.drop (m.vertexCount + vs.length)),
    vertexCount := m.vertexCount + vs.length,
    isTexturable := m.isTexturable }

/-- Consecutive vertex triples of a vertex list. -/
def triangles : List Vertex → List (Vertex × Vertex × Vertex)
  | a :: b :: c :: rest => (a, b, c) :: triangles rest
  | _ => []

/-- The geometric normal `(p1 - p0) x (p2 - p0)` of a triangle. -/
def geometricNormal (p0 p1 p2 : Vertex) : Vec3 :=
  Vec3.cross (p1.position.xyz - p0.position.xyz) (p2.position.xyz - p0.position.xyz)

/-- What `ClipTriangle` appends for the triangle `(v0, v1, v2)`, case by case. -/
def clipOutput (v0 v1 v2 : Vertex) (zn : ℚ) : List Vertex :=
  if v0.position.z ≤ zn then
    if v1.position.z ≤ zn then
      if v2.position.z ≤ zn then [v0, v1, v2]
      else [v1, cutVertex v2 v1 zn, v0, v0, cutVertex v2 v1 zn, cutVertex v2 v0 zn]
    else
      if v2.position.z ≤ zn then
        [v0, cutVertex v1 v0 zn, v2, v2, cutVertex v1 v0 zn, cutVertex v1 v2 zn]
      else [v0, cutVertex v1 v0 zn, cutVertex v2 v0 zn]
  else
    if v1.position.z ≤ zn then
      if v2.position.z ≤ zn then
        [v2, cutVertex v0 v2 zn, v1, v1, cutVertex v0 v2 zn, cutVertex v0 v1 zn]
      else [v1, cutVertex v2 v1 zn, cutVertex v0 v1 zn]
    else
      if v2.position.z ≤ zn then [v2, cutVertex v0 v2 zn, cutVertex v1 v2 zn]
      else []

/-! ## Sample data -/

/-- A red vertex at `(x, y, z)` with normal `+z`. -/
def sampleVertex (x y z : ℚ) : Vertex :=
  ⟨⟨x, y, z, 1⟩, ⟨0, 0⟩, ⟨0, 0, 1⟩, ⟨1, 0, 0⟩, ⟨0, 0, 0⟩, ⟨0, 0, 0⟩⟩

/-- An empty mesh over a buffer of `n` cells. -/
def emptyMesh (n : Nat) : Mesh := ⟨List.replicate n Vertex.zero, 0, false⟩

/-- A vertex whose vertex-shader outputs are set. -/
def shadedVertex : Vertex :=
  ⟨⟨0, 0, 0, 1⟩, ⟨0, 0⟩, ⟨0, 0, 1⟩, ⟨1, 0, 0⟩, ⟨0, 0, 1⟩, ⟨1, 0, 0⟩⟩

/-- The identity matrix `mat4(1.0f)`. -/
def identityMatrix : Mat4 := ⟨⟨1, 0, 0, 0⟩, ⟨0, 1, 0, 0⟩, ⟨0, 0, 1, 0⟩, ⟨0, 0, 0, 1⟩⟩

/-- Uniforms with identity matrices, flat shading and a directional light along `-z`. -/
def identityUniforms : Uniforms :=
  { modelMatrix := identityMatrix, viewMatrix := identityMatrix, mvpMatrix := identityMatrix,
    worldCameraPosition := ⟨0, 0, 5⟩, worldLightDirection := ⟨0, 0, -1⟩,
    worldLightPosition := ⟨0, 0, 0⟩, directionalLightOn := true, texturingOn := false,
    sunMesh := false, shading := FLAT_SHADING, shininess := 16, texCoordWrap := TEX_COORD_REPEAT }

/-- A mesh of `n` copies of the vertex `v`, in a buffer of `n` cells. -/
def uniformMesh (n : Nat) (v : Vertex) : Mesh := ⟨List.replicate n v, n, false⟩

/-! ## Observing the buffers of the rasterizer -/

/-- The depth cells of `after` compared with those of `before`: there are as many, and each
of them is unchanged or holds a strictly smaller value that is `< 1`. -/
def DepthMonotone (before after : Rasterizer) : Prop :=
  after.depthBuffer.length = before.depthBuffer.length ∧
    ∀ (i : Nat) (d d' : ℚ), before.depthBuffer[i]? = some d → after.depthBuffer[i]? = some d' →
      d' = d ∨ (d' < d ∧ d' < 1)

/-- The rasterizer `r` with the depth `d` and the colour `c` in the cell `k` of its buffers. -/
def writeCell (r : Rasterizer) (k : Nat) (d : ℚ) (c : Nat) : Rasterizer :=
  { r with depthBuffer := r.depthBuffer.set k d, frameBuffer := r.frameBuffer.set k c }

/-- What the fragment of the triangle `T` with the edge values `e0 e1 e2` makes of a pixel
that holds the depth `cell.1` and the colour `cell.2`: when the fragment passes the inside test
and the depth test of `rasterizePixel` (the area of the triangle is not 0 and the depth is
`< 1` and below `cell.1`), the pixel gets its depth and its colour, and is left as it is
otherwise. -/
def shadePixel (inversesqrt : ℚ → ℚ) (U : Uniforms) (rasterizer : Rasterizer) (T : TriangleSetup)
    (e0 e1 e2 : ℚ) (cell : ℚ × Nat) : Except Fault (ℚ × Nat) :=
  if insideTest rasterizer.backFaceCulling e0 e1 e2 = true ∧ T.triangleArea ≠ 0 ∧
      fragmentDepth T e0 e1 e2 < 1 ∧ fragmentDepth T e0 e1 e2 < cell.1 then do
    let w0 := e1 / T.triangleArea
    let w1 := e2 / T.triangleArea
    let w2 := e0 / T.triangleArea
    let col32 ← fragmentColor inversesqrt U rasterizer T w0 w1 w2
      (1 / (w0 * T.v0RecW + w1 * T.v1RecW + w2 * T.v2RecW))
    pure (fragmentDepth T e0 e1 e2, col32)
  else pure cell

/-- A rasterizer whose buffers have `width * height` cells, with `width * height < 2^32`. -/
def Rasterizer.WellFormed (r : Rasterizer) : Prop :=
  1 ≤ r.width ∧ 1 ≤ r.height ∧ r.width * r.height < 4294967296 ∧
    r.frameBuffer.length = r.width * r.height ∧ r.depthBuffer.length = r.width * r.height

/-- Two rasterizers that differ in the contents of their buffers at most. -/
def SameScreen (r r' : Rasterizer) : Prop :=
  r'.width = r.width ∧ r'.height = r.height ∧ r'.texture = r.texture ∧
    r'.clearColor = r.clearColor ∧ r'.backFaceCulling = r.backFaceCulling ∧ r'.zNear = r.zNear ∧
    r'.frameBuffer.length = r.frameBuffer.length ∧ r'.depthBuffer.length = r.depthBuffer.length

/-- The colour of the fragment of the triangle `T` with the edge values `e0 e1 e2`:
`fragmentColor` at the barycentric coordinates `w0 = e1 / area`, `w1 = e2 / area`,
`w2 = e0 / area` and at `recInterpolationDenominator`, as the body of the loop over `x`
computes them. -/
def fragmentColorAt (inversesqrt : ℚ → ℚ) (U : Uniforms) (rasterizer : Rasterizer)
    (T : TriangleSetup) (e0 e1 e2 : ℚ) : Except Fault Nat :=
  fragmentColor inversesqrt U rasterizer T (e1 / T.triangleArea) (e2 / T.triangleArea)
    (e0 / T.triangleArea)
    (1 / (e1 / T.triangleArea * T.v0RecW + e2 / T.triangleArea * T.v1RecW +
      e0 / T.triangleArea * T.v2RecW))

/-- The depth of the fragment of the triangle `(v0, v1, v2)` at the pixel `(x, y)`, for a
triangle whose area is not 0. -/
def pixelDepth (r : Rasterizer) (isTexturable : Bool) (v0 v1 v2 : Vertex) (x y : Nat) : ℚ :=
  fragmentDepth (setupTriangle r isTexturable v0 v1 v2)
    (EdgeFunction v0.position v1.position ⟨x, y⟩)
    (EdgeFunction v1.position v2.position ⟨x, y⟩)
    (EdgeFunction v2.position v0.position ⟨x, y⟩)

/-- The colour of the fragment of the triangle `(v0, v1, v2)` at the pixel `(x, y)`. -/
def pixelColor (inversesqrt : ℚ → ℚ) (U : Uniforms) (r : Rasterizer) (isTexturable : Bool)
    (v0 v1 v2 : Vertex) (x y : Nat) : Except Fault Nat :=
  fragmentColorAt inversesqrt U r (setupTriangle r isTexturable v0 v1 v2)
    (EdgeFunction v0.position v1.position ⟨x, y⟩)
    (EdgeFunction v1.position v2.position ⟨x, y⟩)
    (EdgeFunction v2.position v0.position ⟨x, y⟩)

/-- The triangle `(v0, v1, v2)` covers the pixel `(x, y)`: its area is not 0 (its fragments
have a depth), it is not culled, the pixel is in its clamped bounding box, and the edge values
of the pixel pass the inside test. -/
def Covers (r : Rasterizer) (isTexturable : Bool) (v0 v1 v2 : Vertex) (x y : Nat) : Prop :=
  (setupTriangle r isTexturable v0 v1 v2).triangleArea ≠ 0 ∧
  ¬ (r.backFaceCulling = true ∧ (setupTriangle r isTexturable v0 v1 v2).triangleArea < 0) ∧
  (setupTriangle r isTexturable v0 v1 v2).minX ≤ x ∧
  x ≤ (setupTriangle r isTexturable v0 v1 v2).maxX ∧
  (setupTriangle r isTexturable v0 v1 v2).minY ≤ y ∧
  y ≤ (setupTriangle r isTexturable v0 v1 v2).maxY ∧
  insideTest r.backFaceCulling
    (EdgeFunction v0.position v1.position ⟨x, y⟩)
    (EdgeFunction v1.position v2.position ⟨x, y⟩)
    (EdgeFunction v2.position v0.position ⟨x, y⟩) = true

/-- A mesh of one triangle. -/
def triangleMesh (v0 v1 v2 : Vertex) : Mesh := ⟨[v0, v1, v2], 3, false⟩

/-- A rasterizer for a screen of 2 x 2 black pixels with a cleared depth buffer. -/
def sampleRasterizer : Rasterizer :=
  { frameBuffer := [0, 0, 0, 0], depthBuffer := [FLT_MAX, FLT_MAX, FLT_MAX, FLT_MAX],
    width := 2, height := 2, texture := ⟨[], 0, 0⟩, clearColor := ⟨0, 0, 0⟩,
    backFaceCulling := true, zNear := -1 / 10 }

/-- A vertex at `(x, y, z, 1)` with the colour `color`. -/
def coloredVertex (x y z : ℚ) (color : Vec3) : Vertex :=
  ⟨⟨x, y, z, 1⟩, ⟨0, 0⟩, ⟨0, 0, 1⟩, color, ⟨0, 0, 0⟩, ⟨0, 0, 0⟩⟩

/-! ## The packing of a colour as the specification words it -/

/-- The channel `c8 = clamp(round(c * 255), 0, 255)` of the specification: rounded to the
nearest integer and clamped. -/
def roundedChannel (c : ℚ) : Nat := (max 0 (min (round (c * 255)) 255)).toNat

/-- The packing `packRGBA(c) = (0 << 24) | (b8 << 16) | (g8 << 8) | r8` of the specification,
with rounded and clamped channels. -/
def packRGBA (c : Vec3) : Nat :=
  0 <<< 24 ||| roundedChannel c.z <<< 16 ||| roundedChannel c.y <<< 8 ||| roundedChannel c.x

/-- The point `p` lies in the interior of the triangle `(v0, v1, v2)`: it is a combination of
the three vertices with positive weights of sum 1. -/
def Interior (v0 v1 v2 : Vec4) (p : Vec2) : Prop :=
  ∃ w0 w1 w2 : ℚ, 0 < w0 ∧ 0 < w1 ∧ 0 < w2 ∧ w0 + w1 + w2 = 1 ∧
    p.x = w0 * v0.x + w1 * v1.x + w2 * v2.x ∧ p.y = w0 * v0.y + w1 * v1.y + w2 * v2.y

/-- A rasterizer before `Rasterization::Init`: it has no buffers yet. -/
def blankRasterizer : Rasterizer := ⟨[], [], 0, 0, ⟨[], 0, 0⟩, ⟨0, 0, 0⟩, false, 0⟩

/-- The red triangle that the viewport transform of a screen of 16 x 16 pixels,
`x * 8 + 8` and `8 - y * 8`, takes to the raster-space vertices `(7.5, 7.5)`, `(8.5, 7.5)` and
`(8, 8.5)`, with `z = 1/2` and `w = 1`. -/
def singlePixelTriangle : Mesh :=
  ⟨[coloredVertex (-1 / 16) (1 / 16) (1 / 2) ⟨1, 0, 0⟩,
    coloredVertex (1 / 16) (1 / 16) (1 / 2) ⟨1, 0, 0⟩,
    coloredVertex 0 (-1 / 16) (1 / 2) ⟨1, 0, 0⟩], 3, false⟩

/-- The number of vertices that one round of the loop over the slices of `MakeUVSphere` adds
in the stack `p`: one triangle in the first and in the last stack, two in the others. -/
def sliceVertices (stackCount p : Nat) : Nat :=
  if p = 0 then 3 else if u32 (p + 1) = stackCount then 3 else 6

/-- The six axis directions. -/
def axisDirections : List Vec3 :=
  [⟨1, 0, 0⟩, ⟨-1, 0, 0⟩, ⟨0, 1, 0⟩, ⟨0, -1, 0⟩, ⟨0, 0, 1⟩, ⟨0, 0, -1⟩]

/-- The normals of the first vertices of the triangles of a list of vertices. -/
def triangleNormals : List Vertex → List Vec3
  | v0 :: _ :: _ :: rest => v0.normal :: triangleNormals rest
  | _ => []

/-- The first vertex of a line of `MakeNormalMesh`, for the vertex `v` of the original. -/
def lineStart (v : Vertex) : Vertex :=
  { Vertex.zero with position := v.position, vsOutColor := ⟨1, 1, 0⟩ }

/-- The second vertex of a line of `MakeNormalMesh`, for the vertex `v` of the original. -/
def lineEnd (v : Vertex) (normalLength : ℚ) : Vertex :=
  { Vertex.zero with
    position := v.position + normalLength * v.normal.withW 0, vsOutColor := ⟨1, 1, 0⟩ }

/-- The settings that the key presses keep: `shininess` is a power of two from 2 to 2048,
`sphereSubdivisions` a multiple of 5 from 5 to 150, `shading` one of the three shading modes
and `texCoordWrap` one of the two wrap modes. -/
def ValidSettings (context : RenderContext) : Prop :=
  context.shininess ∈ ([2, 4, 8, 16, 32, 64, 128, 256, 512, 1024, 2048] : List Int) ∧
  5 ≤ context.sphereSubdivisions ∧ context.sphereSubdivisions ≤ 150 ∧
  context.sphereSubdivisions % 5 = 0 ∧
  context.shading ∈ [FLAT_SHADING, GOURAUD_SHADING, PHONG_SHADING] ∧
  context.texCoordWrap ∈ [TEX_COORD_CLAMP, TEX_COORD_REPEAT]


/-! ## The edge values of a pixel, evaluated directly -/

/-- The loop over `x` of a row with the three edge values of each pixel `(x, y)` evaluated by
`EdgeFunction` itself, where `rasterizeRow` carries running values. -/
def rasterizeRowDirect (inversesqrt : ℚ → ℚ) (U : Uniforms) (T : TriangleSetup)
    (frameBuffer y : Nat) : (rounds : Nat) → (x : Nat) → Rasterizer → Except Fault Rasterizer
  | 0, _, rasterizer => pure rasterizer
  | rounds + 1, x, rasterizer => do
    let rasterizer ← rasterizePixel inversesqrt U T frameBuffer x y
      (EdgeFunction T.vert0.position T.vert1.position ⟨x, y⟩)
      (EdgeFunction T.vert1.position T.vert2.position ⟨x, y⟩)
      (EdgeFunction T.vert2.position T.vert0.position ⟨x, y⟩) rasterizer
    rasterizeRowDirect inversesqrt U T frameBuffer y rounds (x + 1) rasterizer

/-- The loop over `y` of a triangle on top of `rasterizeRowDirect`. -/
def rasterizeRowsDirect (inversesqrt : ℚ → ℚ) (U : Uniforms) (T : TriangleSetup) (width : Nat) :
    (rounds : Nat) → (y : Nat) → (frameBuffer : Nat) → Rasterizer → Except Fault Rasterizer
  | 0, _, _, rasterizer => pure rasterizer
  | rounds + 1, y, frameBuffer, rasterizer => do
    let rasterizer ← rasterizeRowDirect inversesqrt U T frameBuffer y (T.maxX + 1 - T.minX)
      T.minX rasterizer
    rasterizeRowsDirect inversesqrt U T width rounds (y + 1) (frameBuffer + width) rasterizer

/-- One round of the loop over the triangles with the edge values of every visited pixel
`(x, y)`, `minX ≤ x ≤ maxX` and `minY ≤ y ≤ maxY`, evaluated directly. -/
def rasterizeTriangleDirect (inversesqrt : ℚ → ℚ) (U : Uniforms) (isTexturable : Bool)
    (vert0 vert1 vert2 : Vertex) (rasterizer : Rasterizer) : Except Fault Rasterizer :=
  let T := setupTriangle rasterizer isTexturable vert0 vert1 vert2
  if rasterizer.backFaceCulling ∧ T.triangleArea < 0 then
    pure rasterizer
  else
    rasterizeRowsDirect inversesqrt U T rasterizer.width (T.maxY + 1 - T.minY) T.minY
      (u32 (T.minY * rasterizer.width)) rasterizer

/-- The value that the attribute interpolation block of `RasterizeTriangles` computes at the
pixel `(x, y)` of the triangle `(v0, v1, v2)` for an attribute with the values `a0 a1 a2` at
the three vertices. -/
def pixelAttribute (r : Rasterizer) (isTexturable : Bool) (v0 v1 v2 : Vertex) (x y : Nat)
    (a0 a1 a2 : ℚ) : ℚ :=
  let T := setupTriangle r isTexturable v0 v1 v2
  let w0 := EdgeFunction v1.position v2.position ⟨x, y⟩ / T.triangleArea
  let w1 := EdgeFunction v2.position v0.position ⟨x, y⟩ / T.triangleArea
  let w2 := EdgeFunction v0.position v1.position ⟨x, y⟩ / T.triangleArea
  interpolate T w0 w1 w2 (1 / (w0 * T.v0RecW + w1 * T.v1RecW + w2 * T.v2RecW)) a0 a1 a2

/-! ## The steps of `DrawTriangleMesh` on one vertex -/

/-- The division by `w` in the loop of `DrawTriangleMesh` (lines 316-318). -/
def perspectiveDivide (vertexPos : Vec4) : Vec4 :=
  let vertexPos := { vertexPos with x := vertexPos.x / vertexPos.w }
  let vertexPos := { vertexPos with y := vertexPos.y / vertexPos.w }
  let vertexPos := { vertexPos with z := vertexPos.z / vertexPos.w }
  vertexPos

/-- The viewport transform in the loop of `DrawTriangleMesh` (lines 321-322). -/
def viewportTransform (rasterizer : Rasterizer) (vertexPos : Vec4) : Vec4 :=
  let vertexPos := { vertexPos with
    x := (vertexPos.x * (1 / 2) + 1 / 2) * (rasterizer.width : ℚ) }
  let vertexPos := { vertexPos with
    y := (vertexPos.y * (-1 / 2) + 1 / 2) * (rasterizer.height : ℚ) }
  vertexPos

/-- The body of the loop of `DrawTriangleMesh` on one vertex: the vertex shader, the division
by `w` and the viewport transform. -/
def processVertex (inversesqrt : ℚ → ℚ) (U : Uniforms) (rasterizer : Rasterizer)
    (vertex : Vertex) : Vertex :=
  let vertex := VertexShader inversesqrt U vertex
  { vertex with position := viewportTransform rasterizer (perspectiveDivide vertex.position) }

/-- The counter-clockwise signed area `(x1 - x0)(y2 - y0) - (y1 - y0)(x2 - x0)` of a triangle,
twice the area of the triangle with the sign of its winding. -/
def ccwArea (p0 p1 p2 : Vec4) : ℚ :=
  (p1.x - p0.x) * (p2.y - p0.y) - (p1.y - p0.y) * (p2.x - p0.x)

/-! ## A triangle that the near plane cuts -/

/-- A vertex at `(x, y, z, 1)` with the colour `color` and the normal `-z`: with the light of
`identityUniforms`, which shines along `-z`, its diffuse and specular terms are 0 and its
shaded colour is the ambient `0.2 * color`. -/
def awayVertex (x y z : ℚ) (color : Vec3) : Vertex :=
  ⟨⟨x, y, z, 1⟩, ⟨0, 0⟩, ⟨0, 0, -1⟩, color, ⟨0, 0, 0⟩, ⟨0, 0, 0⟩⟩

/-- A mesh of one triangle whose first vertex (red) and third vertex (blue) are beyond the
near plane `z = -1/10` and whose second vertex (green) is within. -/
def cutTriangle : Mesh :=
  ⟨[awayVertex 7 1 (4 / 5) ⟨1, 0, 0⟩, awayVertex (-1) 1 (-1) ⟨0, 1, 0⟩,
    awayVertex (-1) (-7) (4 / 5) ⟨0, 0, 1⟩], 3, false⟩

/-! ## The meshes of `DrawTriangleMesh` in memory -/

/-- The memory of vertex buffers: `blocks[p]` is the block at the address `p`, `some cells`
while it is allocated and `none` once it has been freed. -/
structure Heap where
  blocks : List (Option (List Vertex))

/-- The struct `Mesh` of `mesh.h` as it lies in memory: the field `vertices` is a pointer. -/
structure MeshRef where
  vertices : Nat
  vertexCount : Nat
  isTexturable : Bool
deriving DecidableEq

/-- The call `malloc`, with the contents the block is given: the block gets an address that
no block has had, here the next one. -/
def Heap.malloc (heap : Heap) (cells : List Vertex) : Heap × Nat :=
  (⟨heap.blocks ++ [some cells]⟩, heap.blocks.length)

/-- Reading the block at the address `p`. -/
def Heap.deref (heap : Heap) (p : Nat) : Except Fault (List Vertex) :=
  match heap.blocks[p]? with
  | some (some cells) => .ok cells
  | _ => .error .outOfBounds

/-- Writing the block at the address `p`. -/
def Heap.assign (heap : Heap) (p : Nat) (cells : List Vertex) : Except Fault Heap :=
  match heap.blocks[p]? with
  | some (some _) => .ok ⟨heap.blocks.set p (some cells)⟩
  | _ => .error .outOfBounds

/-- The function `UtilMesh::Release`, `free(mesh.vertices)`. -/
def ReleaseAt (heap : Heap) (mesh : MeshRef) : Heap := ⟨heap.blocks.set mesh.vertices none⟩

/-- The function `UtilMesh::MakeMeshCopy` in memory: the copy gets a block of its own, which
`memcpy` fills from the block of `original`. -/
def MakeMeshCopyAt (heap : Heap) (original : MeshRef) : Except Fault (Heap × MeshRef) := do
  let source ← heap.deref original.vertices
  let copy ← UtilMesh.MakeMeshCopy ⟨source, original.vertexCount, original.isTexturable⟩
  let (heap, vertices) := heap.malloc copy.vertices
  pure (heap, { vertices := vertices, vertexCount := copy.vertexCount,
                isTexturable := copy.isTexturable })

/-- The function `ClipToNear` in memory: the positions are transformed in the block of
`mesh`, the clipped mesh gets a block of its own, the block of `mesh` is released and `*mesh`
becomes the clipped mesh, which is returned here. -/
def ClipToNearAt (U : Uniforms) (heap : Heap) (mesh : MeshRef) (zNear : ℚ) :
    Except Fault (Heap × MeshRef) := do
  let modelView := U.viewMatrix.mul U.modelMatrix
  let inverseModelView := (U.viewMatrix.mul U.modelMatrix).inverse
  let cells ← heap.deref mesh.vertices
  let cells ← transformPositions modelView cells mesh.vertexCount
  let heap ← heap.assign mesh.vertices cells
  let (heap, vertices) := heap.malloc (List.replicate (u32 (2 * mesh.vertexCount)) Vertex.zero)
  let clippedMesh : Mesh :=
    { isTexturable := mesh.isTexturable,
      vertices := List.replicate (u32 (2 * mesh.vertexCount)) Vertex.zero,
      vertexCount := 0 }
  let clippedMesh ← clipTriangles zNear ((mesh.vertexCount + 2) / 3) cells clippedMesh
  let heap ← heap.assign vertices clippedMesh.vertices
  let clippedCells ←
    transformPositions inverseModelView clippedMesh.vertices clippedMesh.vertexCount
  let heap ← heap.assign vertices clippedCells
  let heap := ReleaseAt heap mesh
  pure (heap, { vertices := vertices, vertexCount := clippedMesh.vertexCount,
                isTexturable := clippedMesh.isTexturable })

/-- The function `Rasterization::DrawTriangleMesh` in memory: `original` is the struct that
the pointer of the caller points at. The function reads its three fields and the block of its
vertices; the loop over the vertices writes the block of the local `mesh`. -/
def DrawTriangleMeshAt (inversesqrt : ℚ → ℚ) (U : Uniforms) (rasterizer : Rasterizer)
    (heap : Heap) (original : MeshRef) : Except Fault (Heap × Rasterizer) := do
  let (heap, mesh) ← MakeMeshCopyAt heap original
  let (heap, mesh) ← ClipToNearAt U heap mesh rasterizer.zNear
  let cells ← heap.deref mesh.vertices
  let cells ← (List.range mesh.vertexCount).foldlM
    (fun vs i => do
      let vertex ← load vs i
      store vs i (processVertex inversesqrt U rasterizer vertex))
    cells
  let heap ← heap.assign mesh.vertices cells
  let rasterizer ← RasterizeTriangles inversesqrt U rasterizer
    { vertices := cells, vertexCount := mesh.vertexCount, isTexturable := mesh.isTexturable }
  let heap := ReleaseAt heap mesh
  pure (heap, rasterizer)

/-! ## Lemmas on buffers and on the cases of the clipper -/

theorem load_zero {α : Type} (a : α) (l : List α) : load (a :: l) 0 = .ok a := by simp [load]

theorem load_one {α : Type} (a b : α) (l : List α) : load (a :: b :: l) 1 = .ok b := by simp [load]

theorem load_two {α : Type} (a b c : α) (l : List α) : load (a :: b :: c :: l) 2 = .ok c := by simp [load]

theorem set3_eq {α : Type} (buf : List α) (n : Nat) (a b c : α) (h : n + 3 ≤ buf.length) :
    ((buf.set n a).set (n + 1) b).set (n + 2) c = buf.take n ++ a :: b :: c :: buf.drop (n + 3) := by
  induction buf generalizing n with
  | nil => simp at h
  | cons x xs ih =>
    cases n with
    | zero =>
      match xs, h with
      | y :: z :: ys, _ => simp
    | succ k =>
      have hk : k + 3 ≤ xs.length := by simp at h; omega
      have := ih k hk
      simp only [List.set_cons_succ, List.take_succ_cons, List.cons_append, List.drop_succ_cons]
      rw [← this]

theorem AddTriangle_ok (m : Mesh) (a b c : Vertex)
    (hroom : m.vertexCount + 3 ≤ m.vertices.length) (hlen : m.vertices.length < 4294967296) :
    UtilMesh.AddTriangle m a b c = .ok
      { vertices := m.vertices.take m.vertexCount ++ a :: b :: c :: m.vertices.drop (m.vertexCount + 3),
        vertexCount := m.vertexCount + 3,
        isTexturable := m.isTexturable } := by
  have h1 : u32 (m.vertexCount + 1) = m.vertexCount + 1 := Nat.mod_eq_of_lt (by omega)
  have h2 : u32 (m.vertexCount + 1 + 1) = m.vertexCount + 2 := Nat.mod_eq_of_lt (by omega)
  have h3 : u32 (m.vertexCount + 2 + 1) = m.vertexCount + 3 := Nat.mod_eq_of_lt (by omega)
  have s0 : m.vertexCount < m.vertices.length := by omega
  have s1 : m.vertexCount + 1 < m.vertices.length := by omega
  have s2 : m.vertexCount + 2 < m.vertices.length := by omega
  simp only [UtilMesh.AddTriangle, store, h1, h2, h3, s0, s1, s2, List.length_set, if_true,
    bind, Except.bind, pure, Except.pure]
  rw [set3_eq _ _ _ _ _ hroom]

theorem ClipTriangle_inside_eq (v0 v1 v2 : Vertex) (rest : List Vertex) (m : Mesh) (zn : ℚ)
    (h0 : v0.position.z ≤ zn) (h1 : v1.position.z ≤ zn) (h2 : v2.position.z ≤ zn) :
    ClipTriangle (v0 :: v1 :: v2 :: rest) m zn = UtilMesh.AddTriangle m v0 v1 v2 := by
  simp [ClipTriangle, load_zero, load_one, load_two, OutCode, Vec4.xyz, not_lt.mpr h0,
    not_lt.mpr h1, not_lt.mpr h2, bind, Except.bind]

theorem ClipTriangle_outside_eq (v0 v1 v2 : Vertex) (rest : List Vertex) (m : Mesh) (zn : ℚ)
    (h0 : zn < v0.position.z) (h1 : zn < v1.position.z) (h2 : zn < v2.position.z) :
    ClipTriangle (v0 :: v1 :: v2 :: rest) m zn = .ok m := by
  simp [ClipTriangle, load_zero, load_one, load_two, OutCode, Vec4.xyz, h0, h1, h2,
    bind, Except.bind, pure, Except.pure]

theorem take_frame {α : Type} (buf : List α) (n : Nat) (vs post : List α) (h : n ≤ buf.length) :
    (buf.take n ++ (vs ++ post)).take (n + vs.length) = buf.take n ++ vs := by
  have hl : (buf.take n).length = n := by simp [h]
  rw [← List.append_assoc]
  have : n + vs.length = (buf.take n ++ vs).length := by simp [hl]
  rw [this, List.take_left']
  rfl

theorem drop_frame {α : Type} (buf : List α) (n : Nat) (vs post : List α) (h : n ≤ buf.length) :
    (buf.take n ++ (vs ++ post)).drop (n + vs.length) = post := by
  have hl : (buf.take n).length = n := by simp [h]
  rw [← List.append_assoc]
  have : n + vs.length = (buf.take n ++ vs).length := by simp [hl]
  rw [this, List.drop_left']
  rfl

theorem AddTriangle_twice_ok (m : Mesh) (a b c d e f : Vertex)
    (hroom : m.vertexCount + 6 ≤ m.vertices.length) (hlen : m.vertices.length < 4294967296) :
    (UtilMesh.AddTriangle m a b c >>= fun m1 => UtilMesh.AddTriangle m1 d e f) = .ok
      { vertices := m.vertices.take m.vertexCount ++
          a :: b :: c :: d :: e :: f :: m.vertices.drop (m.vertexCount + 6),
        vertexCount := m.vertexCount + 6,
        isTexturable := m.isTexturable } := by
  have hn : m.vertexCount ≤ m.vertices.length := by omega
  rw [AddTriangle_ok m a b c (by omega) hlen]
  simp only [bind, Except.bind]
  rw [AddTriangle_ok _ d e f (by simp; omega) (by simp; omega)]
  have t := take_frame m.vertices m.vertexCount [a, b, c] (m.vertices.drop (m.vertexCount + 3)) hn
  have dr := drop_frame m.vertices m.vertexCount [a, b, c, ] (m.vertices.drop (m.vertexCount + 3)) hn
  simp only [List.length_cons, List.length_nil, List.cons_append, List.nil_append] at t dr
  have dd : List.drop (m.vertexCount + 3 + 3)
      (List.take m.vertexCount m.vertices ++ a :: b :: c :: List.drop (m.vertexCount + 3) m.vertices)
      = List.drop (m.vertexCount + 6) m.vertices := by
    rw [← List.drop_drop, dr, List.drop_drop]
  simp only [t, dd, List.append_assoc, List.cons_append, List.nil_append]

theorem ClipTriangle_in_out_out (v0 v1 v2 : Vertex) (rest : List Vertex) (m : Mesh) (zn : ℚ)
    (h0 : v0.position.z ≤ zn) (h1 : zn < v1.position.z) (h2 : zn < v2.position.z) :
    ClipTriangle (v0 :: v1 :: v2 :: rest) m zn =
      UtilMesh.AddTriangle m v0 (cutVertex v1 v0 zn) (cutVertex v2 v0 zn) := by
  simp [ClipTriangle, Clip2Vertices, load_zero, load_one, load_two, OutCode, Vec4.xyz,
    not_lt.mpr h0, h1, h2, bind, Except.bind, pure, Except.pure, cutVertex]

theorem ClipTriangle_out_in_out (v0 v1 v2 : Vertex) (rest : List Vertex) (m : Mesh) (zn : ℚ)
    (h0 : zn < v0.position.z) (h1 : v1.position.z ≤ zn) (h2 : zn < v2.position.z) :
    ClipTriangle (v0 :: v1 :: v2 :: rest) m zn =
      UtilMesh.AddTriangle m v1 (cutVertex v2 v1 zn) (cutVertex v0 v1 zn) := by
  simp [ClipTriangle, Clip2Vertices, load_zero, load_one, load_two, OutCode, Vec4.xyz,
    not_lt.mpr h1, h0, h2, bind, Except.bind, pure, Except.pure, cutVertex]

theorem ClipTriangle_out_out_in (v0 v1 v2 : Vertex) (rest : List Vertex) (m : Mesh) (zn : ℚ)
    (h0 : zn < v0.position.z) (h1 : zn < v1.position.z) (h2 : v2.position.z ≤ zn) :
    ClipTriangle (v0 :: v1 :: v2 :: rest) m zn =
      UtilMesh.AddTriangle m v2 (cutVertex v0 v2 zn) (cutVertex v1 v2 zn) := by
  simp [ClipTriangle, Clip2Vertices, load_zero, load_one, load_two, OutCode, Vec4.xyz,
    not_lt.mpr h2, h0, h1, bind, Except.bind, pure, Except.pure, cutVertex]

theorem ClipTriangle_out_in_in (v0 v1 v2 : Vertex) (rest : List Vertex) (m : Mesh) (zn : ℚ)
    (h0 : zn < v0.position.z) (h1 : v1.position.z ≤ zn) (h2 : v2.position.z ≤ zn) :
    ClipTriangle (v0 :: v1 :: v2 :: rest) m zn =
      (UtilMesh.AddTriangle m v2 (cutVertex v0 v2 zn) v1 >>= fun m1 =>
        UtilMesh.AddTriangle m1 v1 (cutVertex v0 v2 zn) (cutVertex v0 v1 zn)) := by
  simp [ClipTriangle, Clip1Vertex, load_zero, load_one, load_two, OutCode, Vec4.xyz,
    not_lt.mpr h1, not_lt.mpr h2, h0, bind, Except.bind, pure, Except.pure, cutVertex]

theorem ClipTriangle_in_out_in (v0 v1 v2 : Vertex) (rest : List Vertex) (m : Mesh) (zn : ℚ)
    (h0 : v0.position.z ≤ zn) (h1 : zn < v1.position.z) (h2 : v2.position.z ≤ zn) :
    ClipTriangle (v0 :: v1 :: v2 :: rest) m zn =
      (UtilMesh.AddTriangle m v0 (cutVertex v1 v0 zn) v2 >>= fun m1 =>
        UtilMesh.AddTriangle m1 v2 (cutVertex v1 v0 zn) (cutVertex v1 v2 zn)) := by
  simp [ClipTriangle, Clip1Vertex, load_zero, load_one, load_two, OutCode, Vec4.xyz,
    not_lt.mpr h0, not_lt.mpr h2, h1, bind, Except.bind, pure, Except.pure, cutVertex]

theorem ClipTriangle_in_in_out (v0 v1 v2 : Vertex) (rest : List Vertex) (m : Mesh) (zn : ℚ)
    (h0 : v0.position.z ≤ zn) (h1 : v1.position.z ≤ zn) (h2 : zn < v2.position.z) :
    ClipTriangle (v0 :: v1 :: v2 :: rest) m zn =
      (UtilMesh.AddTriangle m v1 (cutVertex v2 v1 zn) v0 >>= fun m1 =>
        UtilMesh.AddTriangle m1 v0 (cutVertex v2 v1 zn) (cutVertex v2 v0 zn)) := by
  simp [ClipTriangle, Clip1Vertex, load_zero, load_one, load_two, OutCode, Vec4.xyz,
    not_lt.mpr h0, not_lt.mpr h1, h2, bind, Except.bind, pure, Except.pure, cutVertex]

theorem appended_push (m : Mesh) (vs : List Vertex) (h : m.vertexCount ≤ m.vertices.length) :
    appended m (push m vs) = vs := by
  have hl : (m.vertices.take m.vertexCount).length = m.vertexCount := by simp [h]
  simp only [appended, push]
  rw [take_frame _ _ _ _ h]
  exact List.drop_left' hl

theorem push_nil (m : Mesh) : push m [] = m := by
  simp [push]

theorem AddTriangle_push (m : Mesh) (a b c : Vertex)
    (hroom : m.vertexCount + 3 ≤ m.vertices.length) (hlen : m.vertices.length < 4294967296) :
    UtilMesh.AddTriangle m a b c = .ok (push m [a, b, c]) := by
  rw [AddTriangle_ok m a b c hroom hlen]
  simp [push]

theorem AddTriangle_twice_push (m : Mesh) (a b c d e f : Vertex)
    (hroom : m.vertexCount + 6 ≤ m.vertices.length) (hlen : m.vertices.length < 4294967296) :
    (UtilMesh.AddTriangle m a b c >>= fun m1 => UtilMesh.AddTriangle m1 d e f)
      = .ok (push m [a, b, c, d, e, f]) := by
  rw [AddTriangle_twice_ok m a b c d e f hroom hlen]
  simp [push]

theorem length_clipOutput_le (v0 v1 v2 : Vertex) (zn : ℚ) : (clipOutput v0 v1 v2 zn).length ≤ 6 := by
  unfold clipOutput
  split_ifs <;> simp

theorem ClipTriangle_eq_push (v0 v1 v2 : Vertex) (rest : List Vertex) (m : Mesh) (zn : ℚ)
    (hroom : m.vertexCount + (clipOutput v0 v1 v2 zn).length ≤ m.vertices.length)
    (hlen : m.vertices.length < 4294967296) :
    ClipTriangle (v0 :: v1 :: v2 :: rest) m zn = .ok (push m (clipOutput v0 v1 v2 zn)) := by
  unfold clipOutput at hroom ⊢
  by_cases h0 : v0.position.z ≤ zn <;> by_cases h1 : v1.position.z ≤ zn <;>
    by_cases h2 : v2.position.z ≤ zn <;>
    simp only [h0, h1, h2, if_true, if_false, List.length_cons, List.length_nil] at hroom ⊢
  · rw [ClipTriangle_inside_eq _ _ _ _ _ _ h0 h1 h2, AddTriangle_push _ _ _ _ hroom hlen]
  · rw [ClipTriangle_in_in_out _ _ _ _ _ _ h0 h1 (not_le.mp h2),
      AddTriangle_twice_push _ _ _ _ _ _ _ hroom hlen]
  · rw [ClipTriangle_in_out_in _ _ _ _ _ _ h0 (not_le.mp h1) h2,
      AddTriangle_twice_push _ _ _ _ _ _ _ hroom hlen]
  · rw [ClipTriangle_in_out_out _ _ _ _ _ _ h0 (not_le.mp h1) (not_le.mp h2),
      AddTriangle_push _ _ _ _ hroom hlen]
  · rw [ClipTriangle_out_in_in _ _ _ _ _ _ (not_le.mp h0) h1 h2,
      AddTriangle_twice_push _ _ _ _ _ _ _ hroom hlen]
  · rw [ClipTriangle_out_in_out _ _ _ _ _ _ (not_le.mp h0) h1 (not_le.mp h2),
      AddTriangle_push _ _ _ _ hroom hlen]
  · rw [ClipTriangle_out_out_in _ _ _ _ _ _ (not_le.mp h0) (not_le.mp h1) h2,
      AddTriangle_push _ _ _ _ hroom hlen]
  · rw [ClipTriangle_outside_eq _ _ _ _ _ _ (not_le.mp h0) (not_le.mp h1) (not_le.mp h2),
      push_nil]

/-! ## Algebra of the interpolated vertices -/

theorem vec2_add_def (a b : Vec2) : a + b = ⟨a.x + b.x, a.y + b.y⟩ := rfl

theorem vec2_sub_def (a b : Vec2) : a - b = ⟨a.x - b.x, a.y - b.y⟩ := rfl

theorem vec2_smul_def (t : ℚ) (a : Vec2) : t * a = ⟨t * a.x, t * a.y⟩ := rfl

theorem vec3_add_def (a b : Vec3) : a + b = ⟨a.x + b.x, a.y + b.y, a.z + b.z⟩ := rfl

theorem vec3_sub_def (a b : Vec3) : a - b = ⟨a.x - b.x, a.y - b.y, a.z - b.z⟩ := rfl

theorem vec3_smul_def (t : ℚ) (a : Vec3) : t * a = ⟨t * a.x, t * a.y, t * a.z⟩ := rfl

theorem vec4_add_def (a b : Vec4) : a + b = ⟨a.x + b.x, a.y + b.y, a.z + b.z, a.w + b.w⟩ := rfl

theorem vec4_sub_def (a b : Vec4) : a - b = ⟨a.x - b.x, a.y - b.y, a.z - b.z, a.w - b.w⟩ := rfl

theorem vec4_smul_def (t : ℚ) (a : Vec4) : t * a = ⟨t * a.x, t * a.y, t * a.z, t * a.w⟩ := rfl

theorem LerpVertices_position (X N : Vertex) (t : ℚ) :
    (LerpVertices X N t).position =
      ⟨X.position.x + t * (N.position.x - X.position.x),
       X.position.y + t * (N.position.y - X.position.y),
       X.position.z + t * (N.position.z - X.position.z), 1⟩ := rfl

theorem cutVertex_z (X N : Vertex) (zn : ℚ) (h : N.position.z < X.position.z) :
    (cutVertex X N zn).position.z = zn := by
  have hne : X.position.z - N.position.z ≠ 0 := by linarith
  simp only [cutVertex, LerpVertices_position]
  field_simp
  ring

theorem vec3_eq (a b : Vec3) (hx : a.x = b.x) (hy : a.y = b.y) (hz : a.z = b.z) : a = b := by
  cases a; cases b; simp_all

theorem geometricNormal_rotate (v0 v1 v2 : Vertex) :
    geometricNormal v1 v2 v0 = geometricNormal v0 v1 v2 := by
  apply vec3_eq <;>
    simp only [geometricNormal, Vec3.cross, Vec4.xyz, vec3_sub_def] <;> ring

theorem geometricNormal_two_cut (N A B : Vertex) (t s : ℚ) :
    geometricNormal N (LerpVertices A N t) (LerpVertices B N s) =
      ((1 - t) * (1 - s)) * geometricNormal N A B := by
  apply vec3_eq <;>
    simp only [geometricNormal, Vec3.cross, Vec4.xyz, vec3_sub_def, vec3_smul_def,
      LerpVertices_position] <;> ring

theorem geometricNormal_first_cut (A C B : Vertex) (t : ℚ) :
    geometricNormal A (LerpVertices C A t) B = (1 - t) * geometricNormal A C B := by
  apply vec3_eq <;>
    simp only [geometricNormal, Vec3.cross, Vec4.xyz, vec3_sub_def, vec3_smul_def,
      LerpVertices_position] <;> ring

theorem geometricNormal_second_cut (A C B : Vertex) (t s : ℚ) :
    geometricNormal B (LerpVertices C A t) (LerpVertices C B s) =
      (t * (1 - s)) * geometricNormal A C B := by
  apply vec3_eq <;>
    simp only [geometricNormal, Vec3.cross, Vec4.xyz, vec3_sub_def, vec3_smul_def,
      LerpVertices_position] <;> ring

theorem cut_param_pos (x n zn : ℚ) (hn : n ≤ zn) (hx : zn < x) : 0 < (x - zn) / (x - n) :=
  div_pos (by linarith) (by linarith)

theorem cut_param_compl (x n zn : ℚ) (hn : n ≤ zn) (hx : zn < x) :
    0 ≤ 1 - (x - zn) / (x - n) := by
  have hd : 0 < x - n := by linarith
  rw [sub_nonneg, div_le_one hd]
  linarith

theorem cut_param_compl_pos (x n zn : ℚ) (hn : n < zn) (hx : zn < x) :
    0 < 1 - (x - zn) / (x - n) := by
  have hd : 0 < x - n := by linarith
  rw [sub_pos, div_lt_one hd]
  linarith

/-! ## The near-plane clipper -/

theorem clipOutput_mem (v0 v1 v2 : Vertex) (zn : ℚ) (v : Vertex)
    (hv : v ∈ clipOutput v0 v1 v2 zn) :
    ((v = v0 ∨ v = v1 ∨ v = v2) ∧ v.position.z ≤ zn) ∨
      ∃ X N, X ∈ [v0, v1, v2] ∧ N ∈ [v0, v1, v2] ∧ N.position.z ≤ zn ∧ zn < X.position.z ∧
        v = cutVertex X N zn := by
  unfold clipOutput at hv
  by_cases h0 : v0.position.z ≤ zn <;> by_cases h1 : v1.position.z ≤ zn <;>
    by_cases h2 : v2.position.z ≤ zn <;>
    simp only [h0, h1, h2, if_true, if_false, List.mem_cons, List.mem_singleton,
      List.not_mem_nil, or_false] at hv
  · rcases hv with rfl | rfl | rfl
    · exact Or.inl ⟨Or.inl rfl, h0⟩
    · exact Or.inl ⟨Or.inr (Or.inl rfl), h1⟩
    · exact Or.inl ⟨Or.inr (Or.inr rfl), h2⟩
  · rcases hv with rfl | rfl | rfl | rfl | rfl | rfl
    · exact Or.inl ⟨Or.inr (Or.inl rfl), h1⟩
    · exact Or.inr ⟨v2, v1, by simp, by simp, h1, not_le.mp h2, rfl⟩
    · exact Or.inl ⟨Or.inl rfl, h0⟩
    · exact Or.inl ⟨Or.inl rfl, h0⟩
    · exact Or.inr ⟨v2, v1, by simp, by simp, h1, not_le.mp h2, rfl⟩
    · exact Or.inr ⟨v2, v0, by simp, by simp, h0, not_le.mp h2, rfl⟩
  · rcases hv with rfl | rfl | rfl | rfl | rfl | rfl
    · exact Or.inl ⟨Or.inl rfl, h0⟩
    · exact Or.inr ⟨v1, v0, by simp, by simp, h0, not_le.mp h1, rfl⟩
    · exact Or.inl ⟨Or.inr (Or.inr rfl), h2⟩
    · exact Or.inl ⟨Or.inr (Or.inr rfl), h2⟩
    · exact Or.inr ⟨v1, v0, by simp, by simp, h0, not_le.mp h1, rfl⟩
    · exact Or.inr ⟨v1, v2, by simp, by simp, h2, not_le.mp h1, rfl⟩
  · rcases hv with rfl | rfl | rfl
    · exact Or.inl ⟨Or.inl rfl, h0⟩
    · exact Or.inr ⟨v1, v0, by simp, by simp, h0, not_le.mp h1, rfl⟩
    · exact Or.inr ⟨v2, v0, by simp, by simp, h0, not_le.mp h2, rfl⟩
  · rcases hv with rfl | rfl | rfl | rfl | rfl | rfl
    · exact Or.inl ⟨Or.inr (Or.inr rfl), h2⟩
    · exact Or.inr ⟨v0, v2, by simp, by simp, h2, not_le.mp h0, rfl⟩
    · exact Or.inl ⟨Or.inr (Or.inl rfl), h1⟩
    · exact Or.inl ⟨Or.inr (Or.inl rfl), h1⟩
    · exact Or.inr ⟨v0, v2, by simp, by simp, h2, not_le.mp h0, rfl⟩
    · exact Or.inr ⟨v0, v1, by simp, by simp, h1, not_le.mp h0, rfl⟩
  · rcases hv with rfl | rfl | rfl
    · exact Or.inl ⟨Or.inr (Or.inl rfl), h1⟩
    · exact Or.inr ⟨v2, v1, by simp, by simp, h1, not_le.mp h2, rfl⟩
    · exact Or.inr ⟨v0, v1, by simp, by simp, h1, not_le.mp h0, rfl⟩
  · rcases hv with rfl | rfl | rfl
    · exact Or.inl ⟨Or.inr (Or.inr rfl), h2⟩
    · exact Or.inr ⟨v0, v2, by simp, by simp, h2, not_le.mp h0, rfl⟩
    · exact Or.inr ⟨v1, v2, by simp, by simp, h2, not_le.mp h1, rfl⟩

theorem ClipTriangle_ok_of_room (v0 v1 v2 : Vertex) (rest : List Vertex) (m : Mesh) (zn : ℚ)
    (hroom : m.vertexCount + 6 ≤ m.vertices.length) (hlen : m.vertices.length < 4294967296) :
    ClipTriangle (v0 :: v1 :: v2 :: rest) m zn = .ok (push m (clipOutput v0 v1 v2 zn)) :=
  ClipTriangle_eq_push v0 v1 v2 rest m zn
    (by have := length_clipOutput_le v0 v1 v2 zn; omega) hlen

/-- C1: every vertex that `ClipTriangle` appends has view-space `z ≤ zn`. It is either one of
the input vertices, kept as it is, or a new vertex
`LerpVertices X N ((X.z - zn) / (X.z - N.z))` cut from an outside vertex `X` towards an inside
vertex `N`, and then its `z` is exactly `zn`. -/
theorem ClipTriangle_emitted_z (v0 v1 v2 : Vertex) (rest : List Vertex) (outMesh : Mesh) (zn : ℚ)
    (hroom : outMesh.vertexCount + 6 ≤ outMesh.vertices.length)
    (hlen : outMesh.vertices.length < 4294967296) :
    ∃ m', ClipTriangle (v0 :: v1 :: v2 :: rest) outMesh zn = .ok m' ∧
      ∀ v ∈ appended outMesh m', v.position.z ≤ zn ∧
        ((v = v0 ∨ v = v1 ∨ v = v2) ∨
          ∃ X N, X ∈ [v0, v1, v2] ∧ N ∈ [v0, v1, v2] ∧ N.position.z ≤ zn ∧ zn < X.position.z ∧
            v = LerpVertices X N ((X.position.z - zn) / (X.position.z - N.position.z)) ∧
            v.position.z = zn) := by
  refine ⟨_, ClipTriangle_ok_of_room v0 v1 v2 rest outMesh zn hroom hlen, ?_⟩
  intro v hv
  rw [appended_push _ _ (by omega)] at hv
  rcases clipOutput_mem v0 v1 v2 zn v hv with ⟨hmem, hz⟩ | ⟨X, N, hX, hN, hNz, hXz, rfl⟩
  · exact ⟨hz, Or.inl hmem⟩
  · have hcut : (cutVertex X N zn).position.z = zn := cutVertex_z X N zn (by linarith)
    exact ⟨le_of_eq hcut, Or.inr ⟨X, N, hX, hN, hNz, hXz, rfl, hcut⟩⟩

/-- Witness of C1: a triangle with one vertex behind the plane `z = -1`. -/
theorem ClipTriangle_emitted_z_witness :
    (emptyMesh 6).vertexCount + 6 ≤ (emptyMesh 6).vertices.length ∧
    (emptyMesh 6).vertices.length < 4294967296 ∧
    ∃ m', ClipTriangle [sampleVertex 0 0 (-2), sampleVertex 1 0 0, sampleVertex 0 1 (-3)]
        (emptyMesh 6) (-1) = .ok m' ∧
      ∀ v ∈ appended (emptyMesh 6) m', v.position.z ≤ -1 ∧
        ((v = sampleVertex 0 0 (-2) ∨ v = sampleVertex 1 0 0 ∨ v = sampleVertex 0 1 (-3)) ∨
          ∃ X N, X ∈ [sampleVertex 0 0 (-2), sampleVertex 1 0 0, sampleVertex 0 1 (-3)] ∧
            N ∈ [sampleVertex 0 0 (-2), sampleVertex 1 0 0, sampleVertex 0 1 (-3)] ∧
            N.position.z ≤ -1 ∧ -1 < X.position.z ∧
            v = LerpVertices X N ((X.position.z - -1) / (X.position.z - N.position.z)) ∧
            v.position.z = -1) :=
  ⟨by decide, by decide,
    ClipTriangle_emitted_z (sampleVertex 0 0 (-2)) (sampleVertex 1 0 0) (sampleVertex 0 1 (-3)) []
      (emptyMesh 6) (-1) (by decide) (by decide)⟩

theorem clipOutput_triangles (v0 v1 v2 : Vertex) (zn : ℚ) (t : Vertex × Vertex × Vertex)
    (ht : t ∈ triangles (clipOutput v0 v1 v2 zn)) :
    ∃ k : ℚ, 0 ≤ k ∧ geometricNormal t.1 t.2.1 t.2.2 = k * geometricNormal v0 v1 v2 ∧
      ((∀ v ∈ [v0, v1, v2], v.position.z ≤ zn → v.position.z < zn) → 0 < k) := by
  have r1 := geometricNormal_rotate v0 v1 v2
  have r2 := geometricNormal_rotate v1 v2 v0
  rw [r1] at r2
  unfold clipOutput at ht
  by_cases h0 : v0.position.z ≤ zn <;> by_cases h1 : v1.position.z ≤ zn <;>
    by_cases h2 : v2.position.z ≤ zn <;>
    simp only [h0, h1, h2, if_true, if_false, triangles, List.mem_cons, List.mem_singleton,
      List.not_mem_nil, or_false] at ht
  · subst ht
    exact ⟨1, by norm_num, by simp [vec3_smul_def], fun _ => by norm_num⟩
  · have h2' := not_le.mp h2
    rcases ht with rfl | rfl
    · refine ⟨1 - (v2.position.z - zn) / (v2.position.z - v1.position.z),
        cut_param_compl _ _ _ h1 h2', ?_, fun hs => ?_⟩
      · simp only [cutVertex]
        rw [geometricNormal_first_cut, r1]
      · exact cut_param_compl_pos _ _ _ (hs v1 (by simp) h1) h2'
    · refine ⟨(v2.position.z - zn) / (v2.position.z - v1.position.z) *
          (1 - (v2.position.z - zn) / (v2.position.z - v0.position.z)),
        mul_nonneg (le_of_lt (cut_param_pos _ _ _ h1 h2')) (cut_param_compl _ _ _ h0 h2'),
        ?_, fun hs => ?_⟩
      · simp only [cutVertex]
        rw [geometricNormal_second_cut, r1]
      · exact mul_pos (cut_param_pos _ _ _ h1 h2')
          (cut_param_compl_pos _ _ _ (hs v0 (by simp) h0) h2')
  · have h1' := not_le.mp h1
    rcases ht with rfl | rfl
    · refine ⟨1 - (v1.position.z - zn) / (v1.position.z - v0.position.z),
        cut_param_compl _ _ _ h0 h1', ?_, fun hs => ?_⟩
      · simp only [cutVertex]
        rw [geometricNormal_first_cut]
      · exact cut_param_compl_pos _ _ _ (hs v0 (by simp) h0) h1'
    · refine ⟨(v1.position.z - zn) / (v1.position.z - v0.position.z) *
          (1 - (v1.position.z - zn) / (v1.position.z - v2.position.z)),
        mul_nonneg (le_of_lt (cut_param_pos _ _ _ h0 h1')) (cut_param_compl _ _ _ h2 h1'),
        ?_, fun hs => ?_⟩
      · simp only [cutVertex]
        rw [geometricNormal_second_cut]
      · exact mul_pos (cut_param_pos _ _ _ h0 h1')
          (cut_param_compl_pos _ _ _ (hs v2 (by simp) h2) h1')
  · have h1' := not_le.mp h1
    have h2' := not_le.mp h2
    subst ht
    refine ⟨(1 - (v1.position.z - zn) / (v1.position.z - v0.position.z)) *
        (1 - (v2.position.z - zn) / (v2.position.z - v0.position.z)),
      mul_nonneg (cut_param_compl _ _ _ h0 h1') (cut_param_compl _ _ _ h0 h2'), ?_, fun hs => ?_⟩
    · simp only [cutVertex]
      rw [geometricNormal_two_cut]
    · exact mul_pos (cut_param_compl_pos _ _ _ (hs v0 (by simp) h0) h1')
        (cut_param_compl_pos _ _ _ (hs v0 (by simp) h0) h2')
  · have h0' := not_le.mp h0
    rcases ht with rfl | rfl
    · refine ⟨1 - (v0.position.z - zn) / (v0.position.z - v2.position.z),
        cut_param_compl _ _ _ h2 h0', ?_, fun hs => ?_⟩
      · simp only [cutVertex]
        rw [geometricNormal_first_cut, r2]
      · exact cut_param_compl_pos _ _ _ (hs v2 (by simp) h2) h0'
    · refine ⟨(v0.position.z - zn) / (v0.position.z - v2.position.z) *
          (1 - (v0.position.z - zn) / (v0.position.z - v1.position.z)),
        mul_nonneg (le_of_lt (cut_param_pos _ _ _ h2 h0')) (cut_param_compl _ _ _ h1 h0'),
        ?_, fun hs => ?_⟩
      · simp only [cutVertex]
        rw [geometricNormal_second_cut, r2]
      · exact mul_pos (cut_param_pos _ _ _ h2 h0')
          (cut_param_compl_pos _ _ _ (hs v1 (by simp) h1) h0')
  · have h0' := not_le.mp h0
    have h2' := not_le.mp h2
    subst ht
    refine ⟨(1 - (v2.position.z - zn) / (v2.position.z - v1.position.z)) *
        (1 - (v0.position.z - zn) / (v0.position.z - v1.position.z)),
      mul_nonneg (cut_param_compl _ _ _ h1 h2') (cut_param_compl _ _ _ h1 h0'), ?_, fun hs => ?_⟩
    · simp only [cutVertex]
      rw [geometricNormal_two_cut, r1]
    · exact mul_pos (cut_param_compl_pos _ _ _ (hs v1 (by simp) h1) h2')
        (cut_param_compl_pos _ _ _ (hs v1 (by simp) h1) h0')
  · have h0' := not_le.mp h0
    have h1' := not_le.mp h1
    subst ht
    refine ⟨(1 - (v0.position.z - zn) / (v0.position.z - v2.position.z)) *
        (1 - (v1.position.z - zn) / (v1.position.z - v2.position.z)),
      mul_nonneg (cut_param_compl _ _ _ h2 h0') (cut_param_compl _ _ _ h2 h1'), ?_, fun hs => ?_⟩
    · simp only [cutVertex]
      rw [geometricNormal_two_cut, r2]
    · exact mul_pos (cut_param_compl_pos _ _ _ (hs v2 (by simp) h2) h0')
        (cut_param_compl_pos _ _ _ (hs v2 (by simp) h2) h1')

theorem triangles_length_clipOutput (v0 v1 v2 : Vertex) (zn : ℚ) :
    (triangles (clipOutput v0 v1 v2 zn)).length * 3 = (clipOutput v0 v1 v2 zn).length := by
  unfold clipOutput
  split_ifs <;> simp [triangles]

/-- C2: near-plane clipping preserves winding. What `ClipTriangle` appends is a whole number of
triangles, and the geometric normal `(p1 - p0) x (p2 - p0)` of each of them is `k` times the
normal of the input triangle with `0 ≤ k`, and with `0 < k` when no inside vertex lies on the
plane `z = zn`. -/
theorem ClipTriangle_preserves_winding (v0 v1 v2 : Vertex) (rest : List Vertex) (outMesh : Mesh)
    (zn : ℚ) (hroom : outMesh.vertexCount + 6 ≤ outMesh.vertices.length)
    (hlen : outMesh.vertices.length < 4294967296) :
    ∃ m', ClipTriangle (v0 :: v1 :: v2 :: rest) outMesh zn = .ok m' ∧
      (triangles (appended outMesh m')).length * 3 = (appended outMesh m').length ∧
      ∀ t ∈ triangles (appended outMesh m'), ∃ k : ℚ, 0 ≤ k ∧
        geometricNormal t.1 t.2.1 t.2.2 = k * geometricNormal v0 v1 v2 ∧
        ((∀ v ∈ [v0, v1, v2], v.position.z ≤ zn → v.position.z < zn) → 0 < k) := by
  refine ⟨_, ClipTriangle_ok_of_room v0 v1 v2 rest outMesh zn hroom hlen, ?_⟩
  rw [appended_push _ _ (by omega)]
  exact ⟨triangles_length_clipOutput v0 v1 v2 zn, clipOutput_triangles v0 v1 v2 zn⟩

/-- Witness of C2: a triangle with two vertices behind the plane `z = -1`. -/
theorem ClipTriangle_preserves_winding_witness :
    (emptyMesh 6).vertexCount + 6 ≤ (emptyMesh 6).vertices.length ∧
    (emptyMesh 6).vertices.length < 4294967296 ∧
    ∃ m', ClipTriangle [sampleVertex 0 0 0, sampleVertex 1 0 (-2), sampleVertex 0 1 1]
        (emptyMesh 6) (-1) = .ok m' ∧
      (triangles (appended (emptyMesh 6) m')).length * 3 = (appended (emptyMesh 6) m').length ∧
      ∀ t ∈ triangles (appended (emptyMesh 6) m'), ∃ k : ℚ, 0 ≤ k ∧
        geometricNormal t.1 t.2.1 t.2.2 =
          k * geometricNormal (sampleVertex 0 0 0) (sampleVertex 1 0 (-2)) (sampleVertex 0 1 1) ∧
        ((∀ v ∈ [sampleVertex 0 0 0, sampleVertex 1 0 (-2), sampleVertex 0 1 1],
            v.position.z ≤ -1 → v.position.z < -1) → 0 < k) :=
  ⟨by decide, by decide,
    ClipTriangle_preserves_winding (sampleVertex 0 0 0) (sampleVertex 1 0 (-2))
      (sampleVertex 0 1 1) [] (emptyMesh 6) (-1) (by decide) (by decide)⟩

/-- C3: a triangle whose three vertices are inside (`z ≤ zn`) is appended as it is: the output
mesh gains exactly the vertices `v0, v1, v2` in this order, and its earlier vertices, the rest
of its buffer and its flag are unchanged. -/
theorem ClipTriangle_all_inside (v0 v1 v2 : Vertex) (rest : List Vertex) (outMesh : Mesh) (zn : ℚ)
    (h0 : v0.position.z ≤ zn) (h1 : v1.position.z ≤ zn) (h2 : v2.position.z ≤ zn)
    (hroom : outMesh.vertexCount + 3 ≤ outMesh.vertices.length)
    (hlen : outMesh.vertices.length < 4294967296) :
    ∃ m', ClipTriangle (v0 :: v1 :: v2 :: rest) outMesh zn = .ok m' ∧
      m'.vertexCount = outMesh.vertexCount + 3 ∧
      appended outMesh m' = [v0, v1, v2] ∧
      m'.vertices.take outMesh.vertexCount = outMesh.vertices.take outMesh.vertexCount ∧
      m'.vertices.drop m'.vertexCount = outMesh.vertices.drop (outMesh.vertexCount + 3) ∧
      m'.isTexturable = outMesh.isTexturable := by
  have hn : outMesh.vertexCount ≤ outMesh.vertices.length := by omega
  refine ⟨push outMesh [v0, v1, v2], ?_, rfl, appended_push _ _ hn, ?_, ?_, rfl⟩
  · rw [ClipTriangle_inside_eq _ _ _ _ _ _ h0 h1 h2, AddTriangle_push _ _ _ _ hroom hlen]
  · have := take_frame outMesh.vertices outMesh.vertexCount []
      ([v0, v1, v2] ++ outMesh.vertices.drop (outMesh.vertexCount + 3)) hn
    simpa [push] using this
  · exact drop_frame outMesh.vertices outMesh.vertexCount [v0, v1, v2]
      (outMesh.vertices.drop (outMesh.vertexCount + 3)) hn

/-- Witness of C3: a triangle in front of the plane `z = -1`, appended to an empty mesh. -/
theorem ClipTriangle_all_inside_witness :
    (sampleVertex 0 0 (-2)).position.z ≤ -1 ∧ (sampleVertex 1 0 (-3)).position.z ≤ -1 ∧
    (sampleVertex 0 1 (-1)).position.z ≤ -1 ∧
    (emptyMesh 3).vertexCount + 3 ≤ (emptyMesh 3).vertices.length ∧
    (emptyMesh 3).vertices.length < 4294967296 ∧
    ∃ m', ClipTriangle [sampleVertex 0 0 (-2), sampleVertex 1 0 (-3), sampleVertex 0 1 (-1)]
        (emptyMesh 3) (-1) = .ok m' ∧
      m'.vertexCount = (emptyMesh 3).vertexCount + 3 ∧
      appended (emptyMesh 3) m' =
        [sampleVertex 0 0 (-2), sampleVertex 1 0 (-3), sampleVertex 0 1 (-1)] ∧
      m'.vertices.take (emptyMesh 3).vertexCount =
        (emptyMesh 3).vertices.take (emptyMesh 3).vertexCount ∧
      m'.vertices.drop m'.vertexCount =
        (emptyMesh 3).vertices.drop ((emptyMesh 3).vertexCount + 3) ∧
      m'.isTexturable = (emptyMesh 3).isTexturable :=
  ⟨by norm_num [sampleVertex], by norm_num [sampleVertex], by norm_num [sampleVertex],
    by decide, by decide,
    ClipTriangle_all_inside (sampleVertex 0 0 (-2)) (sampleVertex 1 0 (-3))
      (sampleVertex 0 1 (-1)) [] (emptyMesh 3) (-1)
      (by norm_num [sampleVertex]) (by norm_num [sampleVertex]) (by norm_num [sampleVertex])
      (by decide) (by decide)⟩

/-- C4: a triangle whose three vertices are outside (`z > zn`) is dropped: `ClipTriangle`
returns the output mesh as it was, whatever room its buffer has. -/
theorem ClipTriangle_all_outside (v0 v1 v2 : Vertex) (rest : List Vertex) (outMesh : Mesh)
    (zn : ℚ) (h0 : v0.position.z > zn) (h1 : v1.position.z > zn) (h2 : v2.position.z > zn) :
    ClipTriangle (v0 :: v1 :: v2 :: rest) outMesh zn = .ok outMesh :=
  ClipTriangle_outside_eq v0 v1 v2 rest outMesh zn h0 h1 h2

/-- Witness of C4: a triangle behind the plane `z = -1` and a mesh without any room. -/
theorem ClipTriangle_all_outside_witness :
    (sampleVertex 0 0 0).position.z > -1 ∧ (sampleVertex 1 0 1).position.z > -1 ∧
    (sampleVertex 0 1 2).position.z > -1 ∧
    ClipTriangle [sampleVertex 0 0 0, sampleVertex 1 0 1, sampleVertex 0 1 2] (emptyMesh 0) (-1)
      = .ok (emptyMesh 0) :=
  ⟨by norm_num [sampleVertex], by norm_num [sampleVertex], by norm_num [sampleVertex],
    ClipTriangle_all_outside (sampleVertex 0 0 0) (sampleVertex 1 0 1) (sampleVertex 0 1 2) []
      (emptyMesh 0) (-1) (by norm_num [sampleVertex]) (by norm_num [sampleVertex])
      (by norm_num [sampleVertex])⟩

/-- C5: when exactly one vertex `C` of the triangle is outside, `ClipTriangle` appends exactly
the two triangles `(A, C_A, B)` and `(B, C_A, C_B)`, where `(A, C, B)` is a cyclic rotation of
`(v0, v1, v2)`, `C_A = LerpVertices C A ((C.z - zn) / (C.z - A.z))` and
`C_B = LerpVertices C B ((C.z - zn) / (C.z - B.z))`. -/
theorem ClipTriangle_one_outside (v0 v1 v2 : Vertex) (rest : List Vertex) (outMesh : Mesh)
    (zn : ℚ)
    (hone : List.countP (fun v => decide (v.position.z > zn)) [v0, v1, v2] = 1)
    (hroom : outMesh.vertexCount + 6 ≤ outMesh.vertices.length)
    (hlen : outMesh.vertices.length < 4294967296) :
    ∃ A C B m',
      ((A, C, B) = (v0, v1, v2) ∨ (A, C, B) = (v1, v2, v0) ∨ (A, C, B) = (v2, v0, v1)) ∧
      C.position.z > zn ∧ A.position.z ≤ zn ∧ B.position.z ≤ zn ∧
      ClipTriangle (v0 :: v1 :: v2 :: rest) outMesh zn = .ok m' ∧
      m'.vertexCount = outMesh.vertexCount + 6 ∧
      (appended outMesh m').length = 6 ∧
      triangles (appended outMesh m') =
        [(A, LerpVertices C A ((C.position.z - zn) / (C.position.z - A.position.z)), B),
         (B, LerpVertices C A ((C.position.z - zn) / (C.position.z - A.position.z)),
           LerpVertices C B ((C.position.z - zn) / (C.position.z - B.position.z)))] := by
  have hn : outMesh.vertexCount ≤ outMesh.vertices.length := by omega
  by_cases h0 : v0.position.z ≤ zn <;> by_cases h1 : v1.position.z ≤ zn <;>
    by_cases h2 : v2.position.z ≤ zn <;>
    simp [List.countP_cons, h0, h1, h2, not_le.mp, not_lt.mpr] at hone
  · refine ⟨v1, v2, v0,
      push outMesh [v1, cutVertex v2 v1 zn, v0, v0, cutVertex v2 v1 zn, cutVertex v2 v0 zn], by simp, not_le.mp h2, h1, h0, ?_, rfl, ?_, ?_⟩
    · rw [ClipTriangle_in_in_out _ _ _ _ _ _ h0 h1 (not_le.mp h2),
        AddTriangle_twice_push _ _ _ _ _ _ _ hroom hlen]
    · rw [appended_push _ _ hn]; rfl
    · rw [appended_push _ _ hn]; rfl
  · refine ⟨v0, v1, v2,
      push outMesh [v0, cutVertex v1 v0 zn, v2, v2, cutVertex v1 v0 zn, cutVertex v1 v2 zn], by simp, not_le.mp h1, h0, h2, ?_, rfl, ?_, ?_⟩
    · rw [ClipTriangle_in_out_in _ _ _ _ _ _ h0 (not_le.mp h1) h2,
        AddTriangle_twice_push _ _ _ _ _ _ _ hroom hlen]
    · rw [appended_push _ _ hn]; rfl
    · rw [appended_push _ _ hn]; rfl
  · refine ⟨v2, v0, v1,
      push outMesh [v2, cutVertex v0 v2 zn, v1, v1, cutVertex v0 v2 zn, cutVertex v0 v1 zn], by simp, not_le.mp h0, h2, h1, ?_, rfl, ?_, ?_⟩
    · rw [ClipTriangle_out_in_in _ _ _ _ _ _ (not_le.mp h0) h1 h2,
        AddTriangle_twice_push _ _ _ _ _ _ _ hroom hlen]
    · rw [appended_push _ _ hn]; rfl
    · rw [appended_push _ _ hn]; rfl

/-- Witness of C5: the middle vertex is behind the plane `z = -1`. -/
theorem ClipTriangle_one_outside_witness :
    List.countP (fun v => decide (v.position.z > -1))
      [sampleVertex 0 0 (-2), sampleVertex 1 0 0, sampleVertex 0 1 (-3)] = 1 ∧
    (emptyMesh 6).vertexCount + 6 ≤ (emptyMesh 6).vertices.length ∧
    (emptyMesh 6).vertices.length < 4294967296 ∧
    ∃ A C B m',
      ((A, C, B) = (sampleVertex 0 0 (-2), sampleVertex 1 0 0, sampleVertex 0 1 (-3)) ∨
        (A, C, B) = (sampleVertex 1 0 0, sampleVertex 0 1 (-3), sampleVertex 0 0 (-2)) ∨
        (A, C, B) = (sampleVertex 0 1 (-3), sampleVertex 0 0 (-2), sampleVertex 1 0 0)) ∧
      C.position.z > -1 ∧ A.position.z ≤ -1 ∧ B.position.z ≤ -1 ∧
      ClipTriangle [sampleVertex 0 0 (-2), sampleVertex 1 0 0, sampleVertex 0 1 (-3)]
        (emptyMesh 6) (-1) = .ok m' ∧
      m'.vertexCount = (emptyMesh 6).vertexCount + 6 ∧
      (appended (emptyMesh 6) m').length = 6 ∧
      triangles (appended (emptyMesh 6) m') =
        [(A, LerpVertices C A ((C.position.z - -1) / (C.position.z - A.position.z)), B),
         (B, LerpVertices C A ((C.position.z - -1) / (C.position.z - A.position.z)),
           LerpVertices C B ((C.position.z - -1) / (C.position.z - B.position.z)))] :=
  ⟨by norm_num [List.countP_cons, sampleVertex], by decide, by decide,
    ClipTriangle_one_outside (sampleVertex 0 0 (-2)) (sampleVertex 1 0 0) (sampleVertex 0 1 (-3))
      [] (emptyMesh 6) (-1) (by norm_num [List.countP_cons, sampleVertex]) (by decide)
      (by decide)⟩

theorem OutCode_inside (v : Vertex) (zn : ℚ) (h : v.position.z ≤ zn) :
    OutCode v.position.xyz zn = 0 := by
  simp [OutCode, Vec4.xyz, not_lt.mpr h]

theorem OutCode_outside (v : Vertex) (zn : ℚ) (h : zn < v.position.z) :
    OutCode v.position.xyz zn = 1 := by
  simp [OutCode, Vec4.xyz, h]

theorem Clip2Vertices_in_out_out (v0 v1 v2 : Vertex) (rest : List Vertex) (m : Mesh) (zn : ℚ) :
    Clip2Vertices 0 1 1 (v0 :: v1 :: v2 :: rest) m zn =
      UtilMesh.AddTriangle m v0 (cutVertex v1 v0 zn) (cutVertex v2 v0 zn) := by
  simp [Clip2Vertices, load_zero, load_one, load_two, Vec4.xyz, bind, Except.bind, pure,
    Except.pure, cutVertex]

theorem Clip2Vertices_out_in_out (v0 v1 v2 : Vertex) (rest : List Vertex) (m : Mesh) (zn : ℚ) :
    Clip2Vertices 1 0 1 (v0 :: v1 :: v2 :: rest) m zn =
      UtilMesh.AddTriangle m v1 (cutVertex v2 v1 zn) (cutVertex v0 v1 zn) := by
  simp [Clip2Vertices, load_zero, load_one, load_two, Vec4.xyz, bind, Except.bind, pure,
    Except.pure, cutVertex]

theorem Clip2Vertices_out_out_in (v0 v1 v2 : Vertex) (rest : List Vertex) (m : Mesh) (zn : ℚ) :
    Clip2Vertices 1 1 0 (v0 :: v1 :: v2 :: rest) m zn =
      UtilMesh.AddTriangle m v2 (cutVertex v0 v2 zn) (cutVertex v1 v2 zn) := by
  simp [Clip2Vertices, load_zero, load_one, load_two, Vec4.xyz, bind, Except.bind, pure,
    Except.pure, cutVertex]

/-- C6: when exactly two vertices of the triangle are outside, exactly one of the three
pairwise tests `codes[i] & codes[j]` of `Clip2Vertices` is true; the test that is true selects
the inside vertex as `N` and the outside vertices as `A`, `B` with `(N, A, B)` a cyclic
rotation of `(v0, v1, v2)`; and `ClipTriangle`, through `Clip2Vertices`, appends exactly the
triangle `(N, A', B')` with `A' = LerpVertices A N ((A.z - zn) / (A.z - N.z))` and
`B' = LerpVertices B N ((B.z - zn) / (B.z - N.z))`. -/
theorem ClipTriangle_two_outside (v0 v1 v2 : Vertex) (rest : List Vertex) (outMesh : Mesh)
    (zn : ℚ)
    (htwo : List.countP (fun v => decide (v.position.z > zn)) [v0, v1, v2] = 2)
    (hroom : outMesh.vertexCount + 3 ≤ outMesh.vertices.length)
    (hlen : outMesh.vertices.length < 4294967296) :
    List.countP (fun b => b)
      [decide (OutCode v1.position.xyz zn &&& OutCode v2.position.xyz zn ≠ 0),
       decide (OutCode v0.position.xyz zn &&& OutCode v2.position.xyz zn ≠ 0),
       decide (OutCode v0.position.xyz zn &&& OutCode v1.position.xyz zn ≠ 0)] = 1 ∧
    ∃ N A B m',
      (OutCode v1.position.xyz zn &&& OutCode v2.position.xyz zn ≠ 0 → (N, A, B) = (v0, v1, v2)) ∧
      (OutCode v0.position.xyz zn &&& OutCode v2.position.xyz zn ≠ 0 → (N, A, B) = (v1, v2, v0)) ∧
      (OutCode v0.position.xyz zn &&& OutCode v1.position.xyz zn ≠ 0 → (N, A, B) = (v2, v0, v1)) ∧
      ((N, A, B) = (v0, v1, v2) ∨ (N, A, B) = (v1, v2, v0) ∨ (N, A, B) = (v2, v0, v1)) ∧
      N.position.z ≤ zn ∧ A.position.z > zn ∧ B.position.z > zn ∧
      ClipTriangle (v0 :: v1 :: v2 :: rest) outMesh zn = .ok m' ∧
      Clip2Vertices (OutCode v0.position.xyz zn) (OutCode v1.position.xyz zn)
        (OutCode v2.position.xyz zn) (v0 :: v1 :: v2 :: rest) outMesh zn = .ok m' ∧
      m'.vertexCount = outMesh.vertexCount + 3 ∧
      appended outMesh m' =
        [N, LerpVertices A N ((A.position.z - zn) / (A.position.z - N.position.z)),
          LerpVertices B N ((B.position.z - zn) / (B.position.z - N.position.z))] := by
  have hn : outMesh.vertexCount ≤ outMesh.vertices.length := by omega
  by_cases h0 : v0.position.z ≤ zn <;> by_cases h1 : v1.position.z ≤ zn <;>
    by_cases h2 : v2.position.z ≤ zn <;>
    simp [List.countP_cons, h0, h1, h2, not_le.mp, not_lt.mpr] at htwo
  · have c0 := OutCode_inside v0 zn h0
    have c1 := OutCode_outside v1 zn (not_le.mp h1)
    have c2 := OutCode_outside v2 zn (not_le.mp h2)
    refine ⟨by simp [c0, c1, c2, List.countP_cons], v0, v1, v2,
      push outMesh [v0, cutVertex v1 v0 zn, cutVertex v2 v0 zn], ?_, ?_, ?_, by simp, h0,
      not_le.mp h1, not_le.mp h2, ?_, ?_, rfl, ?_⟩
    · simp
    · simp [c0, c2]
    · simp [c0, c1]
    · rw [ClipTriangle_in_out_out _ _ _ _ _ _ h0 (not_le.mp h1) (not_le.mp h2),
        AddTriangle_push _ _ _ _ hroom hlen]
    · rw [c0, c1, c2, Clip2Vertices_in_out_out, AddTriangle_push _ _ _ _ hroom hlen]
    · rw [appended_push _ _ hn]; rfl
  · have c0 := OutCode_outside v0 zn (not_le.mp h0)
    have c1 := OutCode_inside v1 zn h1
    have c2 := OutCode_outside v2 zn (not_le.mp h2)
    refine ⟨by simp [c0, c1, c2, List.countP_cons], v1, v2, v0,
      push outMesh [v1, cutVertex v2 v1 zn, cutVertex v0 v1 zn], ?_, ?_, ?_, by simp, h1,
      not_le.mp h2, not_le.mp h0, ?_, ?_, rfl, ?_⟩
    · simp [c1, c2]
    · simp
    · simp [c0, c1]
    · rw [ClipTriangle_out_in_out _ _ _ _ _ _ (not_le.mp h0) h1 (not_le.mp h2),
        AddTriangle_push _ _ _ _ hroom hlen]
    · rw [c0, c1, c2, Clip2Vertices_out_in_out, AddTriangle_push _ _ _ _ hroom hlen]
    · rw [appended_push _ _ hn]; rfl
  · have c0 := OutCode_outside v0 zn (not_le.mp h0)
    have c1 := OutCode_outside v1 zn (not_le.mp h1)
    have c2 := OutCode_inside v2 zn h2
    refine ⟨by simp [c0, c1, c2, List.countP_cons], v2, v0, v1,
      push outMesh [v2, cutVertex v0 v2 zn, cutVertex v1 v2 zn], ?_, ?_, ?_, by simp, h2,
      not_le.mp h0, not_le.mp h1, ?_, ?_, rfl, ?_⟩
    · simp [c1, c2]
    · simp [c0, c2]
    · simp
    · rw [ClipTriangle_out_out_in _ _ _ _ _ _ (not_le.mp h0) (not_le.mp h1) h2,
        AddTriangle_push _ _ _ _ hroom hlen]
    · rw [c0, c1, c2, Clip2Vertices_out_out_in, AddTriangle_push _ _ _ _ hroom hlen]
    · rw [appended_push _ _ hn]; rfl

/-- Witness of C6: the second and third vertices are behind the plane `z = -1`. -/
theorem ClipTriangle_two_outside_witness :
    List.countP (fun v => decide (v.position.z > -1))
      [sampleVertex 0 0 (-2), sampleVertex 1 0 0, sampleVertex 0 1 1] = 2 ∧
    (emptyMesh 3).vertexCount + 3 ≤ (emptyMesh 3).vertices.length ∧
    (emptyMesh 3).vertices.length < 4294967296 ∧
    List.countP (fun b => b)
      [decide (OutCode (sampleVertex 1 0 0).position.xyz (-1) &&&
          OutCode (sampleVertex 0 1 1).position.xyz (-1) ≠ 0),
       decide (OutCode (sampleVertex 0 0 (-2)).position.xyz (-1) &&&
          OutCode (sampleVertex 0 1 1).position.xyz (-1) ≠ 0),
       decide (OutCode (sampleVertex 0 0 (-2)).position.xyz (-1) &&&
          OutCode (sampleVertex 1 0 0).position.xyz (-1) ≠ 0)] = 1 ∧
    ∃ N A B m',
      (OutCode (sampleVertex 1 0 0).position.xyz (-1) &&&
          OutCode (sampleVertex 0 1 1).position.xyz (-1) ≠ 0 →
        (N, A, B) = (sampleVertex 0 0 (-2), sampleVertex 1 0 0, sampleVertex 0 1 1)) ∧
      (OutCode (sampleVertex 0 0 (-2)).position.xyz (-1) &&&
          OutCode (sampleVertex 0 1 1).position.xyz (-1) ≠ 0 →
        (N, A, B) = (sampleVertex 1 0 0, sampleVertex 0 1 1, sampleVertex 0 0 (-2))) ∧
      (OutCode (sampleVertex 0 0 (-2)).position.xyz (-1) &&&
          OutCode (sampleVertex 1 0 0).position.xyz (-1) ≠ 0 →
        (N, A, B) = (sampleVertex 0 1 1, sampleVertex 0 0 (-2), sampleVertex 1 0 0)) ∧
      ((N, A, B) = (sampleVertex 0 0 (-2), sampleVertex 1 0 0, sampleVertex 0 1 1) ∨
        (N, A, B) = (sampleVertex 1 0 0, sampleVertex 0 1 1, sampleVertex 0 0 (-2)) ∨
        (N, A, B) = (sampleVertex 0 1 1, sampleVertex 0 0 (-2), sampleVertex 1 0 0)) ∧
      N.position.z ≤ -1 ∧ A.position.z > -1 ∧ B.position.z > -1 ∧
      ClipTriangle [sampleVertex 0 0 (-2), sampleVertex 1 0 0, sampleVertex 0 1 1]
        (emptyMesh 3) (-1) = .ok m' ∧
      Clip2Vertices (OutCode (sampleVertex 0 0 (-2)).position.xyz (-1))
        (OutCode (sampleVertex 1 0 0).position.xyz (-1))
        (OutCode (sampleVertex 0 1 1).position.xyz (-1))
        [sampleVertex 0 0 (-2), sampleVertex 1 0 0, sampleVertex 0 1 1] (emptyMesh 3) (-1)
          = .ok m' ∧
      m'.vertexCount = (emptyMesh 3).vertexCount + 3 ∧
      appended (emptyMesh 3) m' =
        [N, LerpVertices A N ((A.position.z - -1) / (A.position.z - N.position.z)),
          LerpVertices B N ((B.position.z - -1) / (B.position.z - N.position.z))] :=
  ⟨by norm_num [List.countP_cons, sampleVertex], by decide, by decide,
    ClipTriangle_two_outside (sampleVertex 0 0 (-2)) (sampleVertex 1 0 0) (sampleVertex 0 1 1)
      [] (emptyMesh 3) (-1) (by norm_num [List.countP_cons, sampleVertex]) (by decide)
      (by decide)⟩

/-! ## Interpolation of vertices -/

/-- C7, counterexample: interpolating a vertex with itself at `t = 0` does not give back its
`vsOutWorldPos` and `vsOutWorldNormal`: `LerpVertices` leaves both at zero. -/
theorem LerpVertices_world_outputs_not_interpolated :
    (LerpVertices shadedVertex shadedVertex 0).vsOutWorldPos ≠
        shadedVertex.vsOutWorldPos +
          (0 : ℚ) * (shadedVertex.vsOutWorldPos - shadedVertex.vsOutWorldPos) ∧
      (LerpVertices shadedVertex shadedVertex 0).vsOutWorldNormal ≠
        shadedVertex.vsOutWorldNormal +
          (0 : ℚ) * (shadedVertex.vsOutWorldNormal - shadedVertex.vsOutWorldNormal) := by
  constructor <;>
    simp [LerpVertices, shadedVertex, Vertex.zero, vec3_add_def, vec3_sub_def, vec3_smul_def]

/-- C7, amended: `LerpVertices X N t` interpolates the position `(x, y, z)`, the normal, the
texture coordinates and `vsOutColor` linearly, `attr = X.attr + t * (N.attr - X.attr)`, sets
`position.w = 1`, and leaves `vsOutWorldPos` and `vsOutWorldNormal` zero. -/
theorem LerpVertices_attributes (X N : Vertex) (t : ℚ) :
    (LerpVertices X N t).position.x = X.position.x + t * (N.position.x - X.position.x) ∧
    (LerpVertices X N t).position.y = X.position.y + t * (N.position.y - X.position.y) ∧
    (LerpVertices X N t).position.z = X.position.z + t * (N.position.z - X.position.z) ∧
    (LerpVertices X N t).position.w = 1 ∧
    (LerpVertices X N t).normal = X.normal + t * (N.normal - X.normal) ∧
    (LerpVertices X N t).textureCoords =
      X.textureCoords + t * (N.textureCoords - X.textureCoords) ∧
    (LerpVertices X N t).vsOutColor = X.vsOutColor + t * (N.vsOutColor - X.vsOutColor) ∧
    (LerpVertices X N t).vsOutWorldPos = ⟨0, 0, 0⟩ ∧
    (LerpVertices X N t).vsOutWorldNormal = ⟨0, 0, 0⟩ :=
  ⟨rfl, rfl, rfl, rfl, rfl, rfl, rfl, rfl, rfl⟩

/-! ## Clipping a mesh -/

theorem load_at_length {α : Type} (A B : List α) (x : α) :
    load (A ++ x :: B) A.length = .ok x := by
  simp [load, List.getElem?_append_right (le_refl A.length)]

theorem store_at_length {α : Type} (A B : List α) (x y : α) :
    store (A ++ x :: B) A.length y = .ok (A ++ y :: B) := by
  simp [store]

theorem updatePrefix_ok {α : Type} (f : α → α) (vs : List α) (n : Nat) (h : n ≤ vs.length) :
    (List.range n).foldlM (fun vs i => do
        let v ← load vs i
        store vs i (f v)) vs
      = (.ok ((vs.take n).map f ++ vs.drop n) : Except Fault (List α)) := by
  induction n with
  | zero => simp [pure, Except.pure]
  | succ n ih =>
    have hn : n < vs.length := by omega
    rw [List.range_succ, List.foldlM_append, ih (by omega)]
    have hd : vs.drop n = vs[n] :: vs.drop (n + 1) := List.drop_eq_getElem_cons hn
    have hlen : ((vs.take n).map f).length = n := by simp; omega
    have hl := load_at_length ((vs.take n).map f) (vs.drop (n + 1)) vs[n]
    have hs := store_at_length ((vs.take n).map f) (vs.drop (n + 1)) vs[n] (f vs[n])
    rw [hlen] at hl hs
    simp only [bind, Except.bind, List.foldlM_cons, List.foldlM_nil, hd, hl, hs, pure,
      Except.pure]
    have ht : vs.take (n + 1) = vs.take n ++ [vs[n]] := by
      rw [List.take_succ, List.getElem?_eq_getElem hn]
      rfl
    rw [ht, List.map_append]
    simp only [List.map_cons, List.map_nil, List.append_assoc, List.cons_append,
      List.nil_append]

theorem transformPositions_ok (M : Mat4) (vs : List Vertex) (n : Nat) (h : n ≤ vs.length) :
    transformPositions M vs n = .ok
      ((vs.take n).map (fun v => { v with position := M.mulVec v.position }) ++ vs.drop n) := by
  unfold transformPositions
  exact updatePrefix_ok (fun v : Vertex => { v with position := M.mulVec v.position }) vs n h

theorem length_push (m : Mesh) (vs : List Vertex)
    (h : m.vertexCount + vs.length ≤ m.vertices.length) :
    (push m vs).vertices.length = m.vertices.length := by
  simp [push]
  omega

theorem length_clipOutput_mod (v0 v1 v2 : Vertex) (zn : ℚ) :
    (clipOutput v0 v1 v2 zn).length % 3 = 0 := by
  unfold clipOutput
  split_ifs <;> simp

theorem clipTriangles_ok (zNear : ℚ) (rounds : Nat) :
    ∀ (first : List Vertex) (clipped : Mesh), 3 * rounds ≤ first.length →
      clipped.vertexCount + 6 * rounds ≤ clipped.vertices.length →
      clipped.vertices.length < 4294967296 →
      ∃ m', clipTriangles zNear rounds first clipped = .ok m' ∧
        m'.vertexCount % 3 = clipped.vertexCount % 3 ∧
        clipped.vertexCount ≤ m'.vertexCount ∧
        m'.vertexCount ≤ clipped.vertexCount + 6 * rounds ∧
        m'.vertices.length = clipped.vertices.length ∧
        m'.isTexturable = clipped.isTexturable := by
  induction rounds with
  | zero =>
    intro first clipped _ _ _
    exact ⟨clipped, rfl, rfl, le_refl _, by omega, rfl, rfl⟩
  | succ k ih =>
    intro first clipped hfirst hroom hlen
    match first, hfirst with
    | v0 :: v1 :: v2 :: rest, hfirst =>
      have hout := length_clipOutput_le v0 v1 v2 zNear
      have hmod := length_clipOutput_mod v0 v1 v2 zNear
      have hpl := length_push clipped (clipOutput v0 v1 v2 zNear) (by omega)
      have hstep := ClipTriangle_ok_of_room v0 v1 v2 rest clipped zNear (by omega) hlen
      have hcount : (push clipped (clipOutput v0 v1 v2 zNear)).vertexCount =
          clipped.vertexCount + (clipOutput v0 v1 v2 zNear).length := rfl
      obtain ⟨m', hm', h3, hge, hle, hl', ht'⟩ := ih rest (push clipped (clipOutput v0 v1 v2 zNear))
        (by simp at hfirst; omega) (by rw [hpl, hcount]; omega) (by rw [hpl]; exact hlen)
      refine ⟨m', ?_, ?_, ?_, ?_, ?_, ?_⟩
      · simp only [clipTriangles, hstep, bind, Except.bind, List.drop_succ_cons, List.drop_zero]
        exact hm'
      · rw [h3, hcount]; omega
      · rw [hcount] at hge; omega
      · rw [hcount] at hle; omega
      · rw [hl', hpl]
      · rw [ht']; rfl

theorem ClipToNear_ok (U : Uniforms) (mesh : Mesh) (zNear : ℚ)
    (h3 : mesh.vertexCount % 3 = 0) (hbuf : mesh.vertexCount ≤ mesh.vertices.length)
    (hN : 2 * mesh.vertexCount < 4294967296) :
    ∃ m', ClipToNear U mesh zNear = .ok m' ∧ m'.vertexCount % 3 = 0 ∧
      m'.vertexCount ≤ 2 * mesh.vertexCount ∧ m'.vertices.length = 2 * mesh.vertexCount := by
  have hu : u32 (2 * mesh.vertexCount) = 2 * mesh.vertexCount := Nat.mod_eq_of_lt hN
  have hrounds : 3 * ((mesh.vertexCount + 2) / 3) ≤ mesh.vertexCount := by omega
  obtain ⟨m', hm', hmod, -, hle, hlen, -⟩ := clipTriangles_ok zNear ((mesh.vertexCount + 2) / 3)
    ((mesh.vertices.take mesh.vertexCount).map
      (fun v => { v with position := ((U.viewMatrix.mul U.modelMatrix).mulVec v.position) })
      ++ mesh.vertices.drop mesh.vertexCount)
    { isTexturable := mesh.isTexturable,
      vertices := List.replicate (u32 (2 * mesh.vertexCount)) Vertex.zero,
      vertexCount := 0 }
    (by simp; omega) (by simp [hu]; omega) (by simp [hu]; omega)
  simp only [List.length_replicate, hu] at hle hlen hmod
  have hfit : m'.vertexCount ≤ m'.vertices.length := by omega
  refine ⟨Mesh.mk ((m'.vertices.take m'.vertexCount).map
      (fun v => { v with position := ((U.viewMatrix.mul U.modelMatrix).inverse.mulVec v.position) })
      ++ m'.vertices.drop m'.vertexCount) m'.vertexCount m'.isTexturable, ?_, ?_, ?_, ?_⟩
  · simp only [ClipToNear, transformPositions_ok _ _ _ hbuf, bind, Except.bind, hm',
      transformPositions_ok _ _ _ hfit, pure, Except.pure]
  · simpa using hmod
  · show m'.vertexCount ≤ 2 * mesh.vertexCount
    omega
  · simp
    omega

/-- C8, amended: for a triangle mesh with `N` vertices, `N` a multiple of 3 with
`2 * N < 2^32`, `ClipToNear` returns a mesh (no load or store leaves a buffer) whose
`vertexCount` is a multiple of 3 and at most `2 * N`, in a buffer of `2 * N` cells. -/
theorem ClipToNear_vertexCount (U : Uniforms) (mesh : Mesh) (zNear : ℚ)
    (h3 : mesh.vertexCount % 3 = 0) (hbuf : mesh.vertexCount ≤ mesh.vertices.length)
    (hN : 2 * mesh.vertexCount < 4294967296) :
    ∃ m', ClipToNear U mesh zNear = .ok m' ∧ m'.vertexCount % 3 = 0 ∧
      m'.vertexCount ≤ 2 * mesh.vertexCount ∧ m'.vertices.length = 2 * mesh.vertexCount :=
  ClipToNear_ok U mesh zNear h3 hbuf hN

/-- Witness of C8: a mesh of two triangles, one of them cut by the plane `z = -1`. -/
theorem ClipToNear_vertexCount_witness :
    (Mesh.mk [sampleVertex 0 0 (-2), sampleVertex 1 0 0, sampleVertex 0 1 (-3),
        sampleVertex 0 0 (-2), sampleVertex 1 0 (-2), sampleVertex 0 1 (-2)] 6 false).vertexCount
      % 3 = 0 ∧
    ∃ m', ClipToNear identityUniforms
        (Mesh.mk [sampleVertex 0 0 (-2), sampleVertex 1 0 0, sampleVertex 0 1 (-3),
          sampleVertex 0 0 (-2), sampleVertex 1 0 (-2), sampleVertex 0 1 (-2)] 6 false) (-1)
          = .ok m' ∧
      m'.vertexCount % 3 = 0 ∧ m'.vertexCount ≤ 2 * 6 ∧ m'.vertices.length = 2 * 6 :=
  ⟨by decide,
    ClipToNear_vertexCount identityUniforms
      (Mesh.mk [sampleVertex 0 0 (-2), sampleVertex 1 0 0, sampleVertex 0 1 (-3),
        sampleVertex 0 0 (-2), sampleVertex 1 0 (-2), sampleVertex 0 1 (-2)] 6 false) (-1)
      (by decide) (by decide) (by decide)⟩

theorem clipTriangles_fault (zNear : ℚ) (rounds : Nat) (first : List Vertex) (clipped : Mesh)
    (e : Fault) (h : ClipTriangle first clipped zNear = .error e) :
    clipTriangles zNear (rounds + 1) first clipped = .error e := by
  simp only [clipTriangles, h, bind, Except.bind]

theorem AddTriangle_two_cells (a b v0 v1 v2 : Vertex) (t : Bool) :
    UtilMesh.AddTriangle ⟨[a, b], 0, t⟩ v0 v1 v2 = .error .outOfBounds := by
  simp [UtilMesh.AddTriangle, store, u32, bind, Except.bind]

theorem ClipToNear_small_buffer (U : Uniforms) (n : Nat) (v : Vertex) (zNear : ℚ)
    (hcells : u32 (2 * (n + 3)) = 2)
    (hz : ((U.viewMatrix.mul U.modelMatrix).mulVec v.position).z ≤ zNear) :
    ClipToNear U (uniformMesh (n + 3) v) zNear = .error .outOfBounds := by
  have hbuf : (uniformMesh (n + 3) v).vertexCount ≤ (uniformMesh (n + 3) v).vertices.length := by
    simp only [uniformMesh, List.length_replicate, le_refl]
  have hrounds : (n + 3 + 2) / 3 = (n + 2) / 3 + 1 := by omega
  simp only [ClipToNear, transformPositions_ok _ _ _ hbuf, bind, Except.bind]
  simp only [uniformMesh, List.take_replicate, min_self, List.map_replicate, List.drop_replicate,
    Nat.sub_self, List.replicate_zero, List.append_nil, hrounds, hcells]
  rw [clipTriangles_fault _ _ _ _ Fault.outOfBounds]
  rw [List.replicate_succ, List.replicate_succ, List.replicate_succ, ClipTriangle_inside_eq]
  · exact AddTriangle_two_cells _ _ _ _ _ _
  all_goals exact hz

/-- C8, counterexample: for a mesh of `2^31 + 1` vertices (a multiple of 3) the product
`2 * vertexCount` wraps to 2, the clipped mesh gets a buffer of 2 cells, and the first triangle
that `AddTriangle` appends is written past this buffer. -/
theorem ClipToNear_allocation_wraps :
    (uniformMesh 2147483649 (sampleVertex 0 0 (-2))).vertexCount % 3 = 0 ∧
    (uniformMesh 2147483649 (sampleVertex 0 0 (-2))).vertexCount ≤
      (uniformMesh 2147483649 (sampleVertex 0 0 (-2))).vertices.length ∧
    ClipToNear identityUniforms (uniformMesh 2147483649 (sampleVertex 0 0 (-2))) (-1)
      = .error .outOfBounds :=
  ⟨rfl, by simp only [uniformMesh, List.length_replicate, le_refl],
    ClipToNear_small_buffer identityUniforms 2147483646 (sampleVertex 0 0 (-2)) (-1) rfl
      (by norm_num [identityUniforms, identityMatrix, Mat4.mul, Mat4.mulVec, sampleVertex,
        vec4_add_def, vec4_smul_def])⟩

/-! ## The depth test -/

theorem fragmentColor_congr (inversesqrt : ℚ → ℚ) (U : Uniforms) (r1 r2 : Rasterizer)
    (T : TriangleSetup) (w0 w1 w2 rec : ℚ) (h : r1.texture = r2.texture) :
    fragmentColor inversesqrt U r1 T w0 w1 w2 rec = fragmentColor inversesqrt U r2 T w0 w1 w2 rec := by
  simp only [fragmentColor, SampleTexture, h]

theorem shadePixel_congr (inversesqrt : ℚ → ℚ) (U : Uniforms) (r1 r2 : Rasterizer)
    (T : TriangleSetup) (e0 e1 e2 : ℚ) (cell : ℚ × Nat) (ht : r1.texture = r2.texture)
    (hc : r1.backFaceCulling = r2.backFaceCulling) :
    shadePixel inversesqrt U r1 T e0 e1 e2 cell = shadePixel inversesqrt U r2 T e0 e1 e2 cell := by
  simp only [shadePixel, hc, fragmentColor_congr inversesqrt U r1 r2 T _ _ _ _ ht]

theorem load_eq_ok {α : Type} (buf : List α) (i : Nat) (v : α) (h : buf[i]? = some v) :
    load buf i = .ok v := by
  simp [load, h]

theorem store_eq_ok {α : Type} (buf : List α) (i : Nat) (v : α) (h : i < buf.length) :
    store buf i v = .ok (buf.set i v) := by
  simp [store, h]

theorem set_same {α : Type} (buf : List α) (i : Nat) (v : α) (h : buf[i]? = some v) :
    buf.set i v = buf := by
  induction buf generalizing i with
  | nil => rfl
  | cons a l ih =>
    cases i with
    | zero =>
      simp only [List.getElem?_cons_zero, Option.some.injEq] at h
      simp [h]
    | succ j =>
      simp only [List.getElem?_cons_succ] at h
      simp [ih j h]

theorem writeCell_same (r : Rasterizer) (k : Nat) (d : ℚ) (c : Nat)
    (hd : r.depthBuffer[k]? = some d) (hc : r.frameBuffer[k]? = some c) :
    writeCell r k d c = r := by
  simp only [writeCell, set_same _ _ _ hd, set_same _ _ _ hc]

/-- The body of the loop over `x`, in terms of the cell of the pixel. -/
theorem rasterizePixel_eq (inversesqrt : ℚ → ℚ) (U : Uniforms) (T : TriangleSetup)
    (frameBuffer x y k : Nat) (e0 e1 e2 : ℚ) (r : Rasterizer) (d : ℚ) (c : Nat)
    (hidx : u32 (u32 (y * r.width) + x) = k) (hfb : frameBuffer + x = k)
    (hd : r.depthBuffer[k]? = some d) (hc : r.frameBuffer[k]? = some c) :
    rasterizePixel inversesqrt U T frameBuffer x y e0 e1 e2 r =
      (shadePixel inversesqrt U r T e0 e1 e2 (d, c) >>= fun p => pure (writeCell r k p.1 p.2)) := by
  have hk : k < r.frameBuffer.length := by
    by_contra hn
    rw [List.getElem?_eq_none (by omega)] at hc
    cases hc
  by_cases hin : insideTest r.backFaceCulling e0 e1 e2 = true
  · by_cases hdep : T.triangleArea ≠ 0 ∧ fragmentDepth T e0 e1 e2 < 1 ∧
        fragmentDepth T e0 e1 e2 < d
    · have hcong := fragmentColor_congr inversesqrt U
        { r with depthBuffer := r.depthBuffer.set k (fragmentDepth T e0 e1 e2) } r T
        (e1 / T.triangleArea) (e2 / T.triangleArea) (e0 / T.triangleArea)
        (1 / (e1 / T.triangleArea * T.v0RecW + e2 / T.triangleArea * T.v1RecW +
          e0 / T.triangleArea * T.v2RecW)) rfl
      have hdk : k < r.depthBuffer.length := by
        by_contra hn
        rw [List.getElem?_eq_none (by omega)] at hd
        cases hd
      simp only [rasterizePixel, shadePixel, hin, hidx, hfb, load_eq_ok _ _ _ hd, hdep.1,
        hdep.2.1, hdep.2.2, ne_eq, not_false_eq_true, store_eq_ok _ _ _ hdk, bind, Except.bind,
        if_true, and_self, true_and, hcong, pure, Except.pure]
      cases fragmentColor inversesqrt U r T (e1 / T.triangleArea) (e2 / T.triangleArea)
        (e0 / T.triangleArea) (1 / (e1 / T.triangleArea * T.v0RecW +
          e2 / T.triangleArea * T.v1RecW + e0 / T.triangleArea * T.v2RecW)) with
      | error e => rfl
      | ok col =>
        simp only [store_eq_ok _ _ _ hk, writeCell]
    · simp only [rasterizePixel, shadePixel, hin, hidx, load_eq_ok _ _ _ hd, hdep, bind,
        Except.bind, if_true, if_false, and_false, true_and, pure, Except.pure,
        writeCell_same r k d c hd hc]
  · have hin' : insideTest r.backFaceCulling e0 e1 e2 = false := by simpa using hin
    simp [rasterizePixel, shadePixel, hin', bind, Except.bind, pure, Except.pure,
      writeCell_same r k d c hd hc]

theorem rasterizeRow_inv (inversesqrt : ℚ → ℚ) (U : Uniforms) (T : TriangleSetup)
    (frameBuffer y : Nat) (P : Rasterizer → Prop)
    (hstep : ∀ x e0 e1 e2 r r', P r →
      rasterizePixel inversesqrt U T frameBuffer x y e0 e1 e2 r = .ok r' → P r')
    (rounds : Nat) : ∀ (x : Nat) (e0 e1 e2 : ℚ) (r r' : Rasterizer), P r →
      rasterizeRow inversesqrt U T frameBuffer y rounds x e0 e1 e2 r = .ok r' → P r' := by
  induction rounds with
  | zero =>
    intro x e0 e1 e2 r r' hP h
    simp only [rasterizeRow, pure, Except.pure, Except.ok.injEq] at h
    exact h ▸ hP
  | succ n ih =>
    intro x e0 e1 e2 r r' hP h
    simp only [rasterizeRow, bind, Except.bind] at h
    cases hp : rasterizePixel inversesqrt U T frameBuffer x y e0 e1 e2 r with
    | error e => rw [hp] at h; cases h
    | ok r1 =>
      rw [hp] at h
      exact ih _ _ _ _ r1 r' (hstep x e0 e1 e2 r r1 hP hp) h

theorem rasterizeRows_inv (inversesqrt : ℚ → ℚ) (U : Uniforms) (T : TriangleSetup)
    (width : Nat) (P : Rasterizer → Prop)
    (hstep : ∀ frameBuffer x y e0 e1 e2 r r', P r →
      rasterizePixel inversesqrt U T frameBuffer x y e0 e1 e2 r = .ok r' → P r')
    (rounds : Nat) : ∀ (y : Nat) (e0 e1 e2 : ℚ) (frameBuffer : Nat) (r r' : Rasterizer), P r →
      rasterizeRows inversesqrt U T width rounds y e0 e1 e2 frameBuffer r = .ok r' → P r' := by
  induction rounds with
  | zero =>
    intro y e0 e1 e2 fb r r' hP h
    simp only [rasterizeRows, pure, Except.pure, Except.ok.injEq] at h
    exact h ▸ hP
  | succ n ih =>
    intro y e0 e1 e2 fb r r' hP h
    simp only [rasterizeRows, bind, Except.bind] at h
    cases hp : rasterizeRow inversesqrt U T fb y (T.maxX + 1 - T.minX) T.minX e0 e1 e2 r with
    | error e => rw [hp] at h; cases h
    | ok r1 =>
      rw [hp] at h
      exact ih _ _ _ _ _ r1 r'
        (rasterizeRow_inv inversesqrt U T fb y P (fun x => hstep fb x y) _ _ _ _ _ r r1 hP hp) h

theorem rasterizeTriangle_inv (inversesqrt : ℚ → ℚ) (U : Uniforms) (P : Rasterizer → Prop)
    (hstep : ∀ T frameBuffer x y e0 e1 e2 r r', P r →
      rasterizePixel inversesqrt U T frameBuffer x y e0 e1 e2 r = .ok r' → P r')
    (isTexturable : Bool) (vert0 vert1 vert2 : Vertex) (r r' : Rasterizer) (hP : P r)
    (h : rasterizeTriangle inversesqrt U isTexturable vert0 vert1 vert2 r = .ok r') : P r' := by
  simp only [rasterizeTriangle] at h
  split_ifs at h with hc
  · simp only [pure, Except.pure, Except.ok.injEq] at h
    exact h ▸ hP
  · exact rasterizeRows_inv inversesqrt U _ r.width P (hstep _) _ _ _ _ _ _ r r' hP h

theorem rasterizeTrianglesFrom_inv (inversesqrt : ℚ → ℚ) (U : Uniforms) (mesh : Mesh)
    (P : Rasterizer → Prop)
    (hstep : ∀ T frameBuffer x y e0 e1 e2 r r', P r →
      rasterizePixel inversesqrt U T frameBuffer x y e0 e1 e2 r = .ok r' → P r')
    (rounds : Nat) : ∀ (i : Nat) (r r' : Rasterizer), P r →
      rasterizeTrianglesFrom inversesqrt U mesh rounds i r = .ok r' → P r' := by
  induction rounds with
  | zero =>
    intro i r r' hP h
    simp only [rasterizeTrianglesFrom, pure, Except.pure, Except.ok.injEq] at h
    exact h ▸ hP
  | succ n ih =>
    intro i r r' hP h
    simp only [rasterizeTrianglesFrom, bind, Except.bind] at h
    cases h0 : load mesh.vertices i with
    | error e => rw [h0] at h; cases h
    | ok a =>
      cases h1 : load mesh.vertices (i + 1) with
      | error e => rw [h0, h1] at h; cases h
      | ok b =>
        cases h2 : load mesh.vertices (i + 2) with
        | error e => rw [h0, h1, h2] at h; cases h
        | ok c =>
          rw [h0, h1, h2] at h
          simp only at h
          cases ht : rasterizeTriangle inversesqrt U mesh.isTexturable a b c r with
          | error e => rw [ht] at h; cases h
          | ok r1 =>
            rw [ht] at h
            exact ih _ r1 r' (rasterizeTriangle_inv inversesqrt U P hstep _ a b c r r1 hP ht) h

theorem RasterizeTriangles_inv (inversesqrt : ℚ → ℚ) (U : Uniforms) (mesh : Mesh)
    (P : Rasterizer → Prop)
    (hstep : ∀ T frameBuffer x y e0 e1 e2 r r', P r →
      rasterizePixel inversesqrt U T frameBuffer x y e0 e1 e2 r = .ok r' → P r')
    (r r' : Rasterizer) (hP : P r) (h : RasterizeTriangles inversesqrt U r mesh = .ok r') : P r' :=
  rasterizeTrianglesFrom_inv inversesqrt U mesh P hstep _ 0 r r' hP h

theorem DrawTriangleMesh_inv (inversesqrt : ℚ → ℚ) (U : Uniforms) (original : Mesh)
    (P : Rasterizer → Prop)
    (hstep : ∀ T frameBuffer x y e0 e1 e2 r r', P r →
      rasterizePixel inversesqrt U T frameBuffer x y e0 e1 e2 r = .ok r' → P r')
    (r r' : Rasterizer) (hP : P r)
    (h : Rasterization.DrawTriangleMesh inversesqrt U r original = .ok r') : P r' := by
  simp only [Rasterization.DrawTriangleMesh, bind, Except.bind] at h
  split at h
  · cases h
  · split at h
    · cases h
    · split at h
      · cases h
      · exact RasterizeTriangles_inv inversesqrt U _ P hstep r r' hP h

theorem store_ok_inv {α : Type} (buf b : List α) (i : Nat) (v : α)
    (h : store buf i v = .ok b) : b = buf.set i v := by
  simp only [store] at h
  split_ifs at h
  simp only [Except.ok.injEq] at h
  exact h.symm

theorem rasterizePixel_cases (inversesqrt : ℚ → ℚ) (U : Uniforms) (T : TriangleSetup)
    (frameBuffer x y : Nat) (e0 e1 e2 : ℚ) (r r' : Rasterizer)
    (h : rasterizePixel inversesqrt U T frameBuffer x y e0 e1 e2 r = .ok r') :
    r' = r ∨ ∃ cur col, r.depthBuffer[u32 (u32 (y * r.width) + x)]? = some cur ∧
      fragmentDepth T e0 e1 e2 < 1 ∧ fragmentDepth T e0 e1 e2 < cur ∧
      r' = { r with
        depthBuffer := r.depthBuffer.set (u32 (u32 (y * r.width) + x)) (fragmentDepth T e0 e1 e2),
        frameBuffer := r.frameBuffer.set (frameBuffer + x) col } := by
  simp only [rasterizePixel, bind, Except.bind, pure, Except.pure] at h
  split_ifs at h with hin
  · cases hl : r.depthBuffer[u32 (u32 (y * r.width) + x)]? with
    | none => simp [load, hl] at h
    | some cur =>
      simp only [load, hl] at h
      by_cases hdep : T.triangleArea ≠ 0 ∧ fragmentDepth T e0 e1 e2 < 1 ∧
          fragmentDepth T e0 e1 e2 < cur
      · rw [if_pos hdep] at h
        cases hst : store r.depthBuffer (u32 (u32 (y * r.width) + x)) (fragmentDepth T e0 e1 e2) with
        | error e => rw [hst] at h; cases h
        | ok db =>
          rw [hst] at h
          simp only at h
          have hdb := store_ok_inv _ _ _ _ hst
          subst hdb
          cases hfc : fragmentColor inversesqrt U
              { r with depthBuffer :=
                  r.depthBuffer.set (u32 (u32 (y * r.width) + x)) (fragmentDepth T e0 e1 e2) } T
              (e1 / T.triangleArea) (e2 / T.triangleArea) (e0 / T.triangleArea)
              (1 / (e1 / T.triangleArea * T.v0RecW + e2 / T.triangleArea * T.v1RecW +
                e0 / T.triangleArea * T.v2RecW)) with
          | error e => rw [hfc] at h; cases h
          | ok col =>
            rw [hfc] at h
            simp only at h
            cases hsf : store r.frameBuffer (frameBuffer + x) col with
            | error e => rw [hsf] at h; cases h
            | ok fbuf =>
              rw [hsf] at h
              simp only [Except.ok.injEq] at h
              have hfb := store_ok_inv _ _ _ _ hsf
              subst hfb
              exact Or.inr ⟨cur, col, rfl, hdep.2.1, hdep.2.2, h.symm⟩
      · rw [if_neg hdep] at h
        simp only [Except.ok.injEq] at h
        exact Or.inl h.symm
  · simp only [Except.ok.injEq] at h
    exact Or.inl h.symm

theorem DepthMonotone_refl (r : Rasterizer) : DepthMonotone r r := by
  refine ⟨rfl, fun i d d' h h' => ?_⟩
  rw [h] at h'
  exact Or.inl (Option.some.inj h').symm

theorem DepthMonotone_trans (a b c : Rasterizer) (hab : DepthMonotone a b)
    (hbc : DepthMonotone b c) : DepthMonotone a c := by
  refine ⟨hbc.1.trans hab.1, fun i d d' h h' => ?_⟩
  have hi : i < a.depthBuffer.length := by
    by_contra hn
    rw [List.getElem?_eq_none (by omega)] at h
    cases h
  have hib : i < b.depthBuffer.length := by rw [hab.1]; exact hi
  have hm : b.depthBuffer[i]? = some b.depthBuffer[i] := List.getElem?_eq_getElem hib
  rcases hab.2 i d _ h hm with h1 | ⟨h1, h1'⟩ <;> rcases hbc.2 i _ d' hm h' with h2 | ⟨h2, h2'⟩
  · exact Or.inl (h2.trans h1)
  · exact Or.inr ⟨by rw [← h1]; exact h2, h2'⟩
  · exact Or.inr ⟨by rw [h2]; exact h1, by rw [h2]; exact h1'⟩
  · exact Or.inr ⟨lt_trans h2 h1, h2'⟩

theorem rasterizePixel_DepthMonotone (inversesqrt : ℚ → ℚ) (U : Uniforms) (T : TriangleSetup)
    (frameBuffer x y : Nat) (e0 e1 e2 : ℚ) (r r' : Rasterizer)
    (h : rasterizePixel inversesqrt U T frameBuffer x y e0 e1 e2 r = .ok r') :
    DepthMonotone r r' := by
  rcases rasterizePixel_cases inversesqrt U T frameBuffer x y e0 e1 e2 r r' h with
    rfl | ⟨cur, col, hcur, h1, h2, rfl⟩
  · exact DepthMonotone_refl _
  · refine ⟨by simp, fun i d d' hd hd' => ?_⟩
    have hlt : u32 (u32 (y * r.width) + x) < r.depthBuffer.length := by
      by_contra hn
      rw [List.getElem?_eq_none (by omega)] at hcur
      cases hcur
    by_cases hi : u32 (u32 (y * r.width) + x) = i
    · subst hi
      simp only [List.getElem?_set_self hlt, Option.some.injEq] at hd'
      rw [hcur] at hd
      cases hd
      subst hd'
      exact Or.inr ⟨h2, h1⟩
    · simp only [List.getElem?_set_ne hi] at hd'
      rw [hd] at hd'
      exact Or.inl (Option.some.inj hd').symm

theorem DrawTriangleMesh_DepthMonotone (inversesqrt : ℚ → ℚ) (U : Uniforms) (original : Mesh)
    (r r' : Rasterizer)
    (h : Rasterization.DrawTriangleMesh inversesqrt U r original = .ok r') :
    DepthMonotone r r' :=
  DrawTriangleMesh_inv inversesqrt U original (fun s => DepthMonotone r s)
    (fun T fb x y e0 e1 e2 s s' hs hp =>
      DepthMonotone_trans r s s' hs (rasterizePixel_DepthMonotone inversesqrt U T fb x y e0 e1 e2 s s' hp))
    r r' (DepthMonotone_refl r) h

/-! ## The cell of a pixel through the loops of the rasterizer -/

theorem SameScreen_refl (r : Rasterizer) : SameScreen r r :=
  ⟨rfl, rfl, rfl, rfl, rfl, rfl, rfl, rfl⟩

theorem SameScreen_trans (a b c : Rasterizer) (hab : SameScreen a b) (hbc : SameScreen b c) :
    SameScreen a c := by
  obtain ⟨h1, h2, h3, h4, h5, h6, h7, h8⟩ := hab
  obtain ⟨g1, g2, g3, g4, g5, g6, g7, g8⟩ := hbc
  exact ⟨g1.trans h1, g2.trans h2, g3.trans h3, g4.trans h4, g5.trans h5, g6.trans h6,
    g7.trans h7, g8.trans h8⟩

theorem SameScreen_writeCell (r : Rasterizer) (k : Nat) (d : ℚ) (c : Nat) :
    SameScreen r (writeCell r k d c) := by
  simp [SameScreen, writeCell]

theorem rasterizePixel_SameScreen (inversesqrt : ℚ → ℚ) (U : Uniforms) (T : TriangleSetup)
    (frameBuffer x y : Nat) (e0 e1 e2 : ℚ) (r r' : Rasterizer)
    (h : rasterizePixel inversesqrt U T frameBuffer x y e0 e1 e2 r = .ok r') :
    SameScreen r r' := by
  rcases rasterizePixel_cases inversesqrt U T frameBuffer x y e0 e1 e2 r r' h with
    rfl | ⟨cur, col, -, -, -, rfl⟩
  · exact SameScreen_refl _
  · simp [SameScreen]

theorem WellFormed_of_SameScreen (r r' : Rasterizer) (h : SameScreen r r')
    (hw : r.WellFormed) : r'.WellFormed := by
  obtain ⟨h1, h2, -, -, -, -, h7, h8⟩ := h
  obtain ⟨w1, w2, w3, w4, w5⟩ := hw
  refine ⟨?_, ?_, ?_, ?_, ?_⟩
  · rw [h1]; exact w1
  · rw [h2]; exact w2
  · rw [h1, h2]; exact w3
  · rw [h1, h2, h7]; exact w4
  · rw [h1, h2, h8]; exact w5

theorem cell_index_lt (W H x y : Nat) (hx : x < W) (hy : y < H) : y * W + x < W * H := by
  have h1 : (y + 1) * W ≤ H * W := Nat.mul_le_mul_right W hy
  have h2 : (y + 1) * W = y * W + W := by ring
  have h3 : H * W = W * H := Nat.mul_comm H W
  omega

theorem cell_index_eq (r : Rasterizer) (hw : r.WellFormed) (x y : Nat) (hx : x < r.width)
    (hy : y < r.height) : u32 (u32 (y * r.width) + x) = y * r.width + x := by
  have h := cell_index_lt r.width r.height x y hx hy
  have h3 := hw.2.2.1
  have h1 : u32 (y * r.width) = y * r.width := Nat.mod_eq_of_lt (by omega)
  rw [h1]
  exact Nat.mod_eq_of_lt (by omega)

theorem cell_exists (r : Rasterizer) (hw : r.WellFormed) (x y : Nat) (hx : x < r.width)
    (hy : y < r.height) :
    ∃ d c, r.depthBuffer[y * r.width + x]? = some d ∧ r.frameBuffer[y * r.width + x]? = some c := by
  have h := cell_index_lt r.width r.height x y hx hy
  obtain ⟨-, -, -, w4, w5⟩ := hw
  exact ⟨_, _, List.getElem?_eq_getElem (by omega), List.getElem?_eq_getElem (by omega)⟩

/-- The body of the loop over `x` on a well-formed rasterizer, at a pixel of the screen. -/
theorem rasterizePixel_wf (inversesqrt : ℚ → ℚ) (U : Uniforms) (T : TriangleSetup)
    (x y : Nat) (e0 e1 e2 : ℚ) (r : Rasterizer) (hw : r.WellFormed) (hx : x < r.width)
    (hy : y < r.height) (d : ℚ) (c : Nat)
    (hd : r.depthBuffer[y * r.width + x]? = some d)
    (hc : r.frameBuffer[y * r.width + x]? = some c) :
    rasterizePixel inversesqrt U T (y * r.width) x y e0 e1 e2 r =
      (shadePixel inversesqrt U r T e0 e1 e2 (d, c) >>= fun p =>
        pure (writeCell r (y * r.width + x) p.1 p.2)) :=
  rasterizePixel_eq inversesqrt U T (y * r.width) x y (y * r.width + x) e0 e1 e2 r d c
    (cell_index_eq r hw x y hx hy) rfl hd hc

theorem getElem?_writeCell_ne (r : Rasterizer) (k k' : Nat) (d : ℚ) (c : Nat) (h : k ≠ k') :
    (writeCell r k d c).depthBuffer[k']? = r.depthBuffer[k']? ∧
      (writeCell r k d c).frameBuffer[k']? = r.frameBuffer[k']? := by
  simp only [writeCell, List.getElem?_set_ne h, and_self]

theorem getElem?_writeCell_self (r : Rasterizer) (k : Nat) (d : ℚ) (c : Nat)
    (hd : k < r.depthBuffer.length) (hc : k < r.frameBuffer.length) :
    (writeCell r k d c).depthBuffer[k]? = some d ∧
      (writeCell r k d c).frameBuffer[k]? = some c := by
  simp only [writeCell, List.getElem?_set_self hd, List.getElem?_set_self hc, and_self]

theorem rasterizeRow_cells (inversesqrt : ℚ → ℚ) (U : Uniforms) (T : TriangleSetup)
    (W y : Nat) (n : Nat) :
    ∀ (x : Nat) (e0 e1 e2 : ℚ) (r r' : Rasterizer), r.WellFormed → r.width = W →
      y < r.height → x + n ≤ W →
      rasterizeRow inversesqrt U T (y * W) y n x e0 e1 e2 r = .ok r' →
      SameScreen r r' ∧
      (∀ k, (k < y * W + x ∨ y * W + x + n ≤ k) →
        r'.depthBuffer[k]? = r.depthBuffer[k]? ∧ r'.frameBuffer[k]? = r.frameBuffer[k]?) ∧
      (∀ j, j < n → ∀ d c, r.depthBuffer[y * W + x + j]? = some d →
        r.frameBuffer[y * W + x + j]? = some c →
        ∃ d' c', shadePixel inversesqrt U r T (e0 - (j : ℚ) * T.e0_diffY)
            (e1 - (j : ℚ) * T.e1_diffY) (e2 - (j : ℚ) * T.e2_diffY) (d, c) = .ok (d', c') ∧
          r'.depthBuffer[y * W + x + j]? = some d' ∧
          r'.frameBuffer[y * W + x + j]? = some c') := by
  induction n with
  | zero =>
    intro x e0 e1 e2 r r' _ _ _ _ h
    simp only [rasterizeRow, pure, Except.pure, Except.ok.injEq] at h
    subst h
    exact ⟨SameScreen_refl _, fun k _ => ⟨rfl, rfl⟩, fun j hj => absurd hj (Nat.not_lt_zero j)⟩
  | succ n ih =>
    intro x e0 e1 e2 r r' hw hW hy hx h
    have hxW : x < r.width := by omega
    obtain ⟨d0, c0, hd0, hc0⟩ := cell_exists r hw x y hxW hy
    rw [hW] at hd0 hc0
    have hk0 := cell_index_lt r.width r.height x y hxW hy
    rw [hW] at hk0
    have hpix := rasterizePixel_wf inversesqrt U T x y e0 e1 e2 r hw hxW hy d0 c0
      (by rw [hW]; exact hd0) (by rw [hW]; exact hc0)
    rw [hW] at hpix
    simp only [rasterizeRow, bind, Except.bind, hpix] at h
    cases hs : shadePixel inversesqrt U r T e0 e1 e2 (d0, c0) with
    | error e => rw [hs] at h; cases h
    | ok p =>
      obtain ⟨d1, c1⟩ := p
      rw [hs] at h
      simp only [pure, Except.pure] at h
      have hss := SameScreen_writeCell r (y * W + x) d1 c1
      have hw1 := WellFormed_of_SameScreen _ _ hss hw
      obtain ⟨hsame, hout, hin⟩ := ih (x + 1) _ _ _ (writeCell r (y * W + x) d1 c1) r' hw1
        (by rw [hss.1]; exact hW) (by rw [hss.2.1]; exact hy) (by omega) h
      have hlenD : y * W + x < r.depthBuffer.length := by rw [hw.2.2.2.2, hW]; exact hk0
      have hlenF : y * W + x < r.frameBuffer.length := by rw [hw.2.2.2.1, hW]; exact hk0
      refine ⟨SameScreen_trans _ _ _ hss hsame, ?_, ?_⟩
      · intro k hk
        have hne : y * W + x ≠ k := by omega
        obtain ⟨h1, h2⟩ := hout k (by omega)
        obtain ⟨g1, g2⟩ := getElem?_writeCell_ne r (y * W + x) k d1 c1 hne
        exact ⟨h1.trans g1, h2.trans g2⟩
      · intro j hj d c hd hc
        cases j with
        | zero =>
          simp only [Nat.add_zero] at hd hc ⊢
          rw [hd0] at hd
          rw [hc0] at hc
          cases hd
          cases hc
          obtain ⟨h1, h2⟩ := hout (y * W + x) (Or.inl (by omega))
          obtain ⟨g1, g2⟩ := getElem?_writeCell_self r (y * W + x) d1 c1 hlenD hlenF
          refine ⟨d1, c1, ?_, h1.trans g1, h2.trans g2⟩
          simpa using hs
        | succ j =>
          have hidx : y * W + x + (j + 1) = y * W + (x + 1) + j := by omega
          have hne : y * W + x ≠ y * W + (x + 1) + j := by omega
          obtain ⟨g1, g2⟩ := getElem?_writeCell_ne r (y * W + x) (y * W + (x + 1) + j) d1 c1 hne
          rw [hidx] at hd hc ⊢
          obtain ⟨d', c', hsh, hd', hc'⟩ := hin j (by omega) d c (g1.trans hd) (g2.trans hc)
          refine ⟨d', c', ?_, hd', hc'⟩
          rw [shadePixel_congr inversesqrt U _ r T _ _ _ _ hss.2.2.1 hss.2.2.2.2.1] at hsh
          have a0 : e0 - ((j + 1 : ℕ) : ℚ) * T.e0_diffY = e0 - T.e0_diffY - (j : ℚ) * T.e0_diffY := by
            push_cast; ring
          have a1 : e1 - ((j + 1 : ℕ) : ℚ) * T.e1_diffY = e1 - T.e1_diffY - (j : ℚ) * T.e1_diffY := by
            push_cast; ring
          have a2 : e2 - ((j + 1 : ℕ) : ℚ) * T.e2_diffY = e2 - T.e2_diffY - (j : ℚ) * T.e2_diffY := by
            push_cast; ring
          rw [a0, a1, a2]
          exact hsh

theorem rasterizeRows_cells (inversesqrt : ℚ → ℚ) (U : Uniforms) (T : TriangleSetup)
    (W : Nat) (hX : T.minX ≤ T.maxX) (hXW : T.maxX < W) (m : Nat) :
    ∀ (y : Nat) (e0 e1 e2 : ℚ) (r r' : Rasterizer), r.WellFormed → r.width = W →
      y + m ≤ r.height →
      rasterizeRows inversesqrt U T W m y e0 e1 e2 (y * W) r = .ok r' →
      SameScreen r r' ∧
      (∀ k, k < y * W →
        r'.depthBuffer[k]? = r.depthBuffer[k]? ∧ r'.frameBuffer[k]? = r.frameBuffer[k]?) ∧
      (∀ i j, i < m → j < T.maxX + 1 - T.minX → ∀ d c,
        r.depthBuffer[(y + i) * W + T.minX + j]? = some d →
        r.frameBuffer[(y + i) * W + T.minX + j]? = some c →
        ∃ d' c', shadePixel inversesqrt U r T
            (e0 + (i : ℚ) * T.e0_diffX - (j : ℚ) * T.e0_diffY)
            (e1 + (i : ℚ) * T.e1_diffX - (j : ℚ) * T.e1_diffY)
            (e2 + (i : ℚ) * T.e2_diffX - (j : ℚ) * T.e2_diffY) (d, c) = .ok (d', c') ∧
          r'.depthBuffer[(y + i) * W + T.minX + j]? = some d' ∧
          r'.frameBuffer[(y + i) * W + T.minX + j]? = some c') := by
  induction m with
  | zero =>
    intro y e0 e1 e2 r r' _ _ _ h
    simp only [rasterizeRows, pure, Except.pure, Except.ok.injEq] at h
    subst h
    exact ⟨SameScreen_refl _, fun k _ => ⟨rfl, rfl⟩, fun i j hi => absurd hi (Nat.not_lt_zero i)⟩
  | succ m ih =>
    intro y e0 e1 e2 r r' hw hW hy h
    simp only [rasterizeRows, bind, Except.bind] at h
    cases hrow : rasterizeRow inversesqrt U T (y * W) y (T.maxX + 1 - T.minX) T.minX e0 e1 e2 r with
    | error e => rw [hrow] at h; cases h
    | ok r1 =>
      rw [hrow] at h
      simp only at h
      obtain ⟨hss, hout1, hin1⟩ := rasterizeRow_cells inversesqrt U T W y _ _ _ _ _ r r1 hw hW
        (by omega) (by omega) hrow
      have hw1 := WellFormed_of_SameScreen _ _ hss hw
      have hsucc : y * W + W = (y + 1) * W := by ring
      rw [hsucc] at h
      obtain ⟨hss2, hout2, hin2⟩ := ih (y + 1) _ _ _ r1 r' hw1 (by rw [hss.1]; exact hW)
        (by rw [hss.2.1]; omega) h
      refine ⟨SameScreen_trans _ _ _ hss hss2, ?_, ?_⟩
      · intro k hk
        obtain ⟨a1, a2⟩ := hout2 k (by omega)
        obtain ⟨b1, b2⟩ := hout1 k (Or.inl (by omega))
        exact ⟨a1.trans b1, a2.trans b2⟩
      · intro i j hi hj d c hd hc
        cases i with
        | zero =>
          simp only [Nat.add_zero] at hd hc ⊢
          obtain ⟨d', c', hsh, hd', hc'⟩ := hin1 j hj d c hd hc
          obtain ⟨a1, a2⟩ := hout2 (y * W + T.minX + j) (by omega)
          refine ⟨d', c', ?_, a1.trans hd', a2.trans hc'⟩
          simpa using hsh
        | succ i =>
          have hrw : (y + (i + 1)) * W = (y + 1 + i) * W := by ring
          have hge : (y + 1 + i) * W = y * W + W + i * W := by ring
          rw [hrw] at hd hc ⊢
          obtain ⟨b1, b2⟩ := hout1 ((y + 1 + i) * W + T.minX + j) (Or.inr (by omega))
          obtain ⟨d', c', hsh, hd', hc'⟩ := hin2 i j (by omega) hj d c (b1.trans hd) (b2.trans hc)
          refine ⟨d', c', ?_, hd', hc'⟩
          rw [shadePixel_congr inversesqrt U _ r T _ _ _ _ hss.2.2.1 hss.2.2.2.2.1] at hsh
          have a0 : e0 + ((i + 1 : ℕ) : ℚ) * T.e0_diffX - (j : ℚ) * T.e0_diffY =
              e0 + T.e0_diffX + (i : ℚ) * T.e0_diffX - (j : ℚ) * T.e0_diffY := by
            push_cast; ring
          have a1 : e1 + ((i + 1 : ℕ) : ℚ) * T.e1_diffX - (j : ℚ) * T.e1_diffY =
              e1 + T.e1_diffX + (i : ℚ) * T.e1_diffX - (j : ℚ) * T.e1_diffY := by
            push_cast; ring
          have a2 : e2 + ((i + 1 : ℕ) : ℚ) * T.e2_diffX - (j : ℚ) * T.e2_diffY =
              e2 + T.e2_diffX + (i : ℚ) * T.e2_diffX - (j : ℚ) * T.e2_diffY := by
            push_cast; ring
          rw [a0, a1, a2]
          exact hsh

/-! ## The bounding box of a triangle -/

theorem clamp_nonneg (x hi : ℚ) (h : 0 ≤ hi) : 0 ≤ clamp x 0 hi := by
  unfold clamp
  exact le_min (le_max_right x 0) h

theorem clamp_le (x lo hi : ℚ) : clamp x lo hi ≤ hi := by
  unfold clamp
  exact min_le_right _ _

theorem clamp_mono (x x' lo hi : ℚ) (h : x ≤ x') : clamp x lo hi ≤ clamp x' lo hi := by
  unfold clamp
  exact min_le_min (max_le_max h (le_refl lo)) (le_refl hi)

theorem clamp_of_mem (x lo hi : ℚ) (h1 : lo ≤ x) (h2 : x ≤ hi) : clamp x lo hi = x := by
  unfold clamp
  rw [max_eq_left h1, min_eq_left h2]

theorem toSint32_of_nonneg (a : ℚ) (h : 0 ≤ a) : toSint32 a = ⌊a⌋.toNat := by
  simp [toSint32, trunc, h]

theorem toSint32_mono (a b : ℚ) (ha : 0 ≤ a) (hab : a ≤ b) : toSint32 a ≤ toSint32 b := by
  rw [toSint32_of_nonneg a ha, toSint32_of_nonneg b (le_trans ha hab)]
  exact Int.toNat_le_toNat (Int.floor_mono hab)

theorem toSint32_le_nat (a : ℚ) (n : Nat) (ha : 0 ≤ a) (h : a ≤ (n : ℚ)) : toSint32 a ≤ n := by
  rw [toSint32_of_nonneg a ha]
  have h1 : ⌊a⌋ ≤ (n : ℤ) := by
    have := Int.floor_mono h
    simpa using this
  omega

theorem nat_le_toSint32 (a : ℚ) (n : Nat) (h : (n : ℚ) ≤ a) : n ≤ toSint32 a := by
  have ha : 0 ≤ a := le_trans (Nat.cast_nonneg n) h
  rw [toSint32_of_nonneg a ha]
  have h1 : (n : ℤ) ≤ ⌊a⌋ := by
    rw [Int.le_floor]
    simpa using h
  omega

theorem u32_pred (W : Nat) (h1 : 1 ≤ W) (h2 : W < 4294967296) :
    u32 (W + 4294967295) = W - 1 := by
  unfold u32
  omega

theorem WellFormed_width_lt (r : Rasterizer) (hw : r.WellFormed) : r.width < 4294967296 := by
  obtain ⟨w1, w2, w3, -, -⟩ := hw
  have : r.width * 1 ≤ r.width * r.height := Nat.mul_le_mul_left _ w2
  omega

theorem WellFormed_height_lt (r : Rasterizer) (hw : r.WellFormed) : r.height < 4294967296 := by
  obtain ⟨w1, w2, w3, -, -⟩ := hw
  have : 1 * r.height ≤ r.width * r.height := Nat.mul_le_mul_right _ w1
  omega

theorem boundingBox_range (lo hi : ℚ) (S : Nat) (h1 : 1 ≤ S) (h2 : S < 4294967296)
    (hlh : lo ≤ hi) :
    toSint32 (clamp lo 0 (u32 (S + 4294967295) : ℚ)) ≤
        toSint32 (clamp hi 0 (u32 (S + 4294967295) : ℚ)) ∧
      toSint32 (clamp hi 0 (u32 (S + 4294967295) : ℚ)) < S := by
  rw [u32_pred S h1 h2]
  have hnn : (0 : ℚ) ≤ ((S - 1 : ℕ) : ℚ) := Nat.cast_nonneg _
  refine ⟨toSint32_mono _ _ (clamp_nonneg _ _ hnn) (clamp_mono _ _ _ _ hlh), ?_⟩
  have := toSint32_le_nat _ (S - 1) (clamp_nonneg hi _ hnn) (clamp_le hi 0 _)
  omega

theorem min3_le_max3 (a b c : ℚ) : min a (min b c) ≤ max a (max b c) :=
  le_trans (min_le_left _ _) (le_max_left _ _)

theorem setupTriangle_box (r : Rasterizer) (hw : r.WellFormed) (isTexturable : Bool)
    (v0 v1 v2 : Vertex) :
    (setupTriangle r isTexturable v0 v1 v2).minX ≤ (setupTriangle r isTexturable v0 v1 v2).maxX ∧
    (setupTriangle r isTexturable v0 v1 v2).maxX < r.width ∧
    (setupTriangle r isTexturable v0 v1 v2).minY ≤ (setupTriangle r isTexturable v0 v1 v2).maxY ∧
    (setupTriangle r isTexturable v0 v1 v2).maxY < r.height := by
  obtain ⟨hx1, hx2⟩ := boundingBox_range _ _ r.width hw.1 (WellFormed_width_lt r hw)
    (min3_le_max3 v0.position.x v1.position.x v2.position.x)
  obtain ⟨hy1, hy2⟩ := boundingBox_range _ _ r.height hw.2.1 (WellFormed_height_lt r hw)
    (min3_le_max3 v0.position.y v1.position.y v2.position.y)
  simp only [setupTriangle]
  exact ⟨hx1, hx2, hy1, hy2⟩

theorem setupTriangle_congr (r r' : Rasterizer) (h : SameScreen r r') (isTexturable : Bool)
    (v0 v1 v2 : Vertex) :
    setupTriangle r' isTexturable v0 v1 v2 = setupTriangle r isTexturable v0 v1 v2 := by
  simp only [setupTriangle, h.1, h.2.1]

theorem rasterizeTriangle_SameScreen (inversesqrt : ℚ → ℚ) (U : Uniforms) (isTexturable : Bool)
    (v0 v1 v2 : Vertex) (r r' : Rasterizer)
    (h : rasterizeTriangle inversesqrt U isTexturable v0 v1 v2 r = .ok r') : SameScreen r r' :=
  rasterizeTriangle_inv inversesqrt U (fun s => SameScreen r s)
    (fun T fb x y e0 e1 e2 s s' hs hp =>
      SameScreen_trans r s s' hs (rasterizePixel_SameScreen inversesqrt U T fb x y e0 e1 e2 s s' hp))
    isTexturable v0 v1 v2 r r' (SameScreen_refl r) h

theorem rasterizeTriangle_culled (inversesqrt : ℚ → ℚ) (U : Uniforms) (isTexturable : Bool)
    (v0 v1 v2 : Vertex) (r : Rasterizer) (hc : r.backFaceCulling = true)
    (ha : EdgeFunction v0.position v1.position ⟨v2.position.x, v2.position.y⟩ < 0) :
    rasterizeTriangle inversesqrt U isTexturable v0 v1 v2 r = .ok r := by
  have : (setupTriangle r isTexturable v0 v1 v2).triangleArea < 0 := ha
  simp only [rasterizeTriangle, hc, this, and_self, if_true, pure, Except.pure]

/-- The cell of a pixel of the bounding box after a triangle has been rasterized. -/
theorem rasterizeTriangle_cell (inversesqrt : ℚ → ℚ) (U : Uniforms) (isTexturable : Bool)
    (v0 v1 v2 : Vertex) (r r' : Rasterizer) (hw : r.WellFormed)
    (hcull : ¬ (r.backFaceCulling = true ∧
      (setupTriangle r isTexturable v0 v1 v2).triangleArea < 0))
    (h : rasterizeTriangle inversesqrt U isTexturable v0 v1 v2 r = .ok r')
    (x y : Nat)
    (hx1 : (setupTriangle r isTexturable v0 v1 v2).minX ≤ x)
    (hx2 : x ≤ (setupTriangle r isTexturable v0 v1 v2).maxX)
    (hy1 : (setupTriangle r isTexturable v0 v1 v2).minY ≤ y)
    (hy2 : y ≤ (setupTriangle r isTexturable v0 v1 v2).maxY)
    (d : ℚ) (c : Nat) (hd : r.depthBuffer[y * r.width + x]? = some d)
    (hc : r.frameBuffer[y * r.width + x]? = some c) :
    ∃ d' c', shadePixel inversesqrt U r (setupTriangle r isTexturable v0 v1 v2)
        (EdgeFunction v0.position v1.position ⟨x, y⟩)
        (EdgeFunction v1.position v2.position ⟨x, y⟩)
        (EdgeFunction v2.position v0.position ⟨x, y⟩) (d, c) = .ok (d', c') ∧
      r'.depthBuffer[y * r.width + x]? = some d' ∧
      r'.frameBuffer[y * r.width + x]? = some c' := by
  obtain ⟨bx1, bx2, by1, by2⟩ := setupTriangle_box r hw isTexturable v0 v1 v2
  generalize hT : setupTriangle r isTexturable v0 v1 v2 = T at *
  have hfb : u32 (T.minY * r.width) = T.minY * r.width := by
    have := cell_index_lt r.width r.height 0 T.minY (by have := hw.1; omega) (by omega)
    have h3 := hw.2.2.1
    exact Nat.mod_eq_of_lt (by omega)
  simp only [rasterizeTriangle, hT, hcull, if_false, hfb] at h
  obtain ⟨-, -, hin⟩ := rasterizeRows_cells inversesqrt U T r.width bx1 bx2 _ _ _ _ _ r r' hw rfl
    (by omega) h
  have hyi : T.minY + (y - T.minY) = y := by omega
  have hxj : (T.minY + (y - T.minY)) * r.width + T.minX + (x - T.minX) = y * r.width + x := by
    rw [hyi]; omega
  obtain ⟨d', c', hsh, hd', hc'⟩ := hin (y - T.minY) (x - T.minX) (by omega) (by omega) d c
    (by rw [hxj]; exact hd) (by rw [hxj]; exact hc)
  rw [hxj] at hd' hc'
  refine ⟨d', c', ?_, hd', hc'⟩
  have hyq : ((y - T.minY : ℕ) : ℚ) = (y : ℚ) - (T.minY : ℚ) := by
    rw [Nat.cast_sub hy1]
  have hxq : ((x - T.minX : ℕ) : ℚ) = (x : ℚ) - (T.minX : ℚ) := by
    rw [Nat.cast_sub hx1]
  have hdx0 : T.e0_diffX = v0.position.x - v1.position.x := by rw [← hT]; rfl
  have hdx1 : T.e1_diffX = v1.position.x - v2.position.x := by rw [← hT]; rfl
  have hdx2 : T.e2_diffX = v2.position.x - v0.position.x := by rw [← hT]; rfl
  have hdy0 : T.e0_diffY = v0.position.y - v1.position.y := by rw [← hT]; rfl
  have hdy1 : T.e1_diffY = v1.position.y - v2.position.y := by rw [← hT]; rfl
  have hdy2 : T.e2_diffY = v2.position.y - v0.position.y := by rw [← hT]; rfl
  have q0 : T.e0_diffX * ((T.minY : ℚ) - v0.position.y) - T.e0_diffY * ((T.minX : ℚ) - v0.position.x)
      + ((y - T.minY : ℕ) : ℚ) * T.e0_diffX - ((x - T.minX : ℕ) : ℚ) * T.e0_diffY
      = EdgeFunction v0.position v1.position ⟨x, y⟩ := by
    rw [hyq, hxq, hdx0, hdy0]; simp only [EdgeFunction]; ring
  have q1 : T.e1_diffX * ((T.minY : ℚ) - v1.position.y) - T.e1_diffY * ((T.minX : ℚ) - v1.position.x)
      + ((y - T.minY : ℕ) : ℚ) * T.e1_diffX - ((x - T.minX : ℕ) : ℚ) * T.e1_diffY
      = EdgeFunction v1.position v2.position ⟨x, y⟩ := by
    rw [hyq, hxq, hdx1, hdy1]; simp only [EdgeFunction]; ring
  have q2 : T.e2_diffX * ((T.minY : ℚ) - v2.position.y) - T.e2_diffY * ((T.minX : ℚ) - v2.position.x)
      + ((y - T.minY : ℕ) : ℚ) * T.e2_diffX - ((x - T.minX : ℕ) : ℚ) * T.e2_diffY
      = EdgeFunction v2.position v0.position ⟨x, y⟩ := by
    rw [hyq, hxq, hdx2, hdy2]; simp only [EdgeFunction]; ring
  rw [q0, q1, q2] at hsh
  exact hsh

/-! ## Runs without a fault -/

theorem fragmentColor_flat (inversesqrt : ℚ → ℚ) (U : Uniforms) (r : Rasterizer)
    (T : TriangleSetup) (w0 w1 w2 rec : ℚ) (h : U.shading = FLAT_SHADING) :
    fragmentColor inversesqrt U r T w0 w1 w2 rec = .ok (Vec3ColorToUint32 T.vert0.vsOutColor) := by
  simp only [fragmentColor, h, if_true, pure, Except.pure]

theorem shadePixel_ok (inversesqrt : ℚ → ℚ) (U : Uniforms) (r : Rasterizer) (T : TriangleSetup)
    (e0 e1 e2 : ℚ) (cell : ℚ × Nat)
    (hcol : ∀ w0 w1 w2 rec, ∃ col, fragmentColor inversesqrt U r T w0 w1 w2 rec = .ok col) :
    ∃ p, shadePixel inversesqrt U r T e0 e1 e2 cell = .ok p := by
  unfold shadePixel
  split_ifs
  · obtain ⟨col, hc⟩ := hcol (e1 / T.triangleArea) (e2 / T.triangleArea) (e0 / T.triangleArea)
      (1 / (e1 / T.triangleArea * T.v0RecW + e2 / T.triangleArea * T.v1RecW +
        e0 / T.triangleArea * T.v2RecW))
    exact ⟨(fragmentDepth T e0 e1 e2, col),
      by simp only [hc, bind, Except.bind, pure, Except.pure]⟩
  · exact ⟨cell, rfl⟩

theorem rasterizeRow_ok (inversesqrt : ℚ → ℚ) (U : Uniforms) (T : TriangleSetup)
    (W y : Nat) (n : Nat) :
    ∀ (x : Nat) (e0 e1 e2 : ℚ) (r : Rasterizer), r.WellFormed → r.width = W →
      y < r.height → x + n ≤ W →
      (∀ w0 w1 w2 rec, ∃ col, fragmentColor inversesqrt U r T w0 w1 w2 rec = .ok col) →
      ∃ r', rasterizeRow inversesqrt U T (y * W) y n x e0 e1 e2 r = .ok r' := by
  induction n with
  | zero =>
    intro x e0 e1 e2 r _ _ _ _ _
    exact ⟨r, rfl⟩
  | succ n ih =>
    intro x e0 e1 e2 r hw hW hy hx hcol
    have hxW : x < r.width := by omega
    obtain ⟨d0, c0, hd0, hc0⟩ := cell_exists r hw x y hxW hy
    have hpix := rasterizePixel_wf inversesqrt U T x y e0 e1 e2 r hw hxW hy d0 c0 hd0 hc0
    rw [hW] at hpix
    obtain ⟨p, hp⟩ := shadePixel_ok inversesqrt U r T e0 e1 e2 (d0, c0) hcol
    have hss := SameScreen_writeCell r (y * W + x) p.1 p.2
    obtain ⟨r', hr'⟩ := ih (x + 1) (e0 - T.e0_diffY) (e1 - T.e1_diffY) (e2 - T.e2_diffY)
      (writeCell r (y * W + x) p.1 p.2) (WellFormed_of_SameScreen _ _ hss hw)
      (by rw [hss.1]; exact hW) (by rw [hss.2.1]; exact hy) (by omega)
      (fun w0 w1 w2 rec => by
        rw [fragmentColor_congr inversesqrt U _ r T w0 w1 w2 rec hss.2.2.1]
        exact hcol w0 w1 w2 rec)
    exact ⟨r', by simp only [rasterizeRow, bind, Except.bind, hpix, hp, pure, Except.pure, hr']⟩

theorem rasterizeRows_ok (inversesqrt : ℚ → ℚ) (U : Uniforms) (T : TriangleSetup)
    (W : Nat) (hX : T.minX ≤ T.maxX) (hXW : T.maxX < W) (m : Nat) :
    ∀ (y : Nat) (e0 e1 e2 : ℚ) (r : Rasterizer), r.WellFormed → r.width = W →
      y + m ≤ r.height →
      (∀ w0 w1 w2 rec, ∃ col, fragmentColor inversesqrt U r T w0 w1 w2 rec = .ok col) →
      ∃ r', rasterizeRows inversesqrt U T W m y e0 e1 e2 (y * W) r = .ok r' := by
  induction m with
  | zero =>
    intro y e0 e1 e2 r _ _ _ _
    exact ⟨r, rfl⟩
  | succ m ih =>
    intro y e0 e1 e2 r hw hW hy hcol
    obtain ⟨r1, hr1⟩ := rasterizeRow_ok inversesqrt U T W y (T.maxX + 1 - T.minX) T.minX
      e0 e1 e2 r hw hW (by omega) (by omega) hcol
    obtain ⟨hss, -, -⟩ := rasterizeRow_cells inversesqrt U T W y _ _ _ _ _ r r1 hw hW
      (by omega) (by omega) hr1
    have hsucc : y * W + W = (y + 1) * W := by ring
    obtain ⟨r', hr'⟩ := ih (y + 1) (e0 + T.e0_diffX) (e1 + T.e1_diffX) (e2 + T.e2_diffX) r1
      (WellFormed_of_SameScreen _ _ hss hw) (by rw [hss.1]; exact hW) (by rw [hss.2.1]; omega)
      (fun w0 w1 w2 rec => by
        rw [fragmentColor_congr inversesqrt U _ r T w0 w1 w2 rec hss.2.2.1]
        exact hcol w0 w1 w2 rec)
    exact ⟨r', by simp only [rasterizeRows, bind, Except.bind, hr1, hsucc, hr']⟩

theorem rasterizeTriangle_ok (inversesqrt : ℚ → ℚ) (U : Uniforms) (isTexturable : Bool)
    (v0 v1 v2 : Vertex) (r : Rasterizer) (hw : r.WellFormed)
    (hcol : ∀ T w0 w1 w2 rec, ∃ col, fragmentColor inversesqrt U r T w0 w1 w2 rec = .ok col) :
    ∃ r', rasterizeTriangle inversesqrt U isTexturable v0 v1 v2 r = .ok r' := by
  by_cases hcull : r.backFaceCulling = true ∧
      (setupTriangle r isTexturable v0 v1 v2).triangleArea < 0
  · exact ⟨r, by simp only [rasterizeTriangle, hcull, and_self, if_true, pure, Except.pure]⟩
  · obtain ⟨bx1, bx2, by1, by2⟩ := setupTriangle_box r hw isTexturable v0 v1 v2
    generalize hT : setupTriangle r isTexturable v0 v1 v2 = T at *
    have hfb : u32 (T.minY * r.width) = T.minY * r.width := by
      have := cell_index_lt r.width r.height 0 T.minY (by have := hw.1; omega) (by omega)
      have h3 := hw.2.2.1
      exact Nat.mod_eq_of_lt (by omega)
    obtain ⟨r', hr'⟩ := rasterizeRows_ok inversesqrt U T r.width bx1 bx2 (T.maxY + 1 - T.minY)
      T.minY
      (T.e0_diffX * ((T.minY : ℚ) - v0.position.y) - T.e0_diffY * ((T.minX : ℚ) - v0.position.x))
      (T.e1_diffX * ((T.minY : ℚ) - v1.position.y) - T.e1_diffY * ((T.minX : ℚ) - v1.position.x))
      (T.e2_diffX * ((T.minY : ℚ) - v2.position.y) - T.e2_diffY * ((T.minX : ℚ) - v2.position.x))
      r hw rfl (by omega) (hcol T)
    exact ⟨r', by simp only [rasterizeTriangle, hT, hcull, if_false, hfb, hr']⟩

theorem rasterizeTrianglesFrom_ok (inversesqrt : ℚ → ℚ) (U : Uniforms) (mesh : Mesh)
    (rounds : Nat) : ∀ (i : Nat) (r : Rasterizer), r.WellFormed →
      i + 3 * rounds ≤ mesh.vertices.length →
      (∀ T w0 w1 w2 rec, ∃ col, fragmentColor inversesqrt U r T w0 w1 w2 rec = .ok col) →
      ∃ r', rasterizeTrianglesFrom inversesqrt U mesh rounds i r = .ok r' := by
  induction rounds with
  | zero =>
    intro i r _ _ _
    exact ⟨r, rfl⟩
  | succ n ih =>
    intro i r hw hlen hcol
    have h0 : load mesh.vertices i = .ok mesh.vertices[i] :=
      load_eq_ok _ _ _ (List.getElem?_eq_getElem (by omega))
    have h1 : load mesh.vertices (i + 1) = .ok mesh.vertices[i + 1] :=
      load_eq_ok _ _ _ (List.getElem?_eq_getElem (by omega))
    have h2 : load mesh.vertices (i + 2) = .ok mesh.vertices[i + 2] :=
      load_eq_ok _ _ _ (List.getElem?_eq_getElem (by omega))
    obtain ⟨r1, hr1⟩ := rasterizeTriangle_ok inversesqrt U mesh.isTexturable
      mesh.vertices[i] mesh.vertices[i + 1] mesh.vertices[i + 2] r hw hcol
    have hss := rasterizeTriangle_SameScreen inversesqrt U _ _ _ _ r r1 hr1
    obtain ⟨r', hr'⟩ := ih (i + 3) r1 (WellFormed_of_SameScreen _ _ hss hw) (by omega)
      (fun T w0 w1 w2 rec => by
        rw [fragmentColor_congr inversesqrt U _ r T w0 w1 w2 rec hss.2.2.1]
        exact hcol T w0 w1 w2 rec)
    exact ⟨r', by simp only [rasterizeTrianglesFrom, bind, Except.bind, h0, h1, h2, hr1, hr']⟩

theorem RasterizeTriangles_ok (inversesqrt : ℚ → ℚ) (U : Uniforms) (mesh : Mesh)
    (r : Rasterizer) (hw : r.WellFormed) (h3 : mesh.vertexCount % 3 = 0)
    (hlen : mesh.vertexCount ≤ mesh.vertices.length)
    (hcol : ∀ T w0 w1 w2 rec, ∃ col, fragmentColor inversesqrt U r T w0 w1 w2 rec = .ok col) :
    ∃ r', RasterizeTriangles inversesqrt U r mesh = .ok r' :=
  rasterizeTrianglesFrom_ok inversesqrt U mesh _ 0 r hw (by omega) hcol

theorem DrawTriangleMesh_ok (inversesqrt : ℚ → ℚ) (U : Uniforms) (r : Rasterizer)
    (original : Mesh) (hw : r.WellFormed) (h3 : original.vertexCount % 3 = 0)
    (hlen : original.vertexCount ≤ original.vertices.length)
    (hN : 2 * original.vertexCount < 4294967296)
    (hcol : ∀ T w0 w1 w2 rec, ∃ col, fragmentColor inversesqrt U r T w0 w1 w2 rec = .ok col) :
    ∃ r', Rasterization.DrawTriangleMesh inversesqrt U r original = .ok r' := by
  have hcopy : UtilMesh.MakeMeshCopy original = .ok
      { isTexturable := original.isTexturable, vertexCount := original.vertexCount,
        vertices := original.vertices.take original.vertexCount } := by
    simp only [UtilMesh.MakeMeshCopy, hlen, if_true, pure, Except.pure]
  obtain ⟨m', hm', hmod, hle, hbuf⟩ := ClipToNear_ok U
    { isTexturable := original.isTexturable, vertexCount := original.vertexCount,
      vertices := original.vertices.take original.vertexCount } r.zNear h3
    (by simp; exact hlen) hN
  simp only at hle hbuf
  have hfit : m'.vertexCount ≤ m'.vertices.length := by omega
  have hloop := updatePrefix_ok (fun vertex : Vertex =>
      { VertexShader inversesqrt U vertex with position :=
        { x := ((VertexShader inversesqrt U vertex).position.x /
              (VertexShader inversesqrt U vertex).position.w * (1 / 2) + 1 / 2) * (r.width : ℚ),
          y := ((VertexShader inversesqrt U vertex).position.y /
              (VertexShader inversesqrt U vertex).position.w * (-1 / 2) + 1 / 2) * (r.height : ℚ),
          z := (VertexShader inversesqrt U vertex).position.z /
              (VertexShader inversesqrt U vertex).position.w,
          w := (VertexShader inversesqrt U vertex).position.w } }) m'.vertices m'.vertexCount hfit
  obtain ⟨r', hr'⟩ := RasterizeTriangles_ok inversesqrt U
    { m' with vertices := (m'.vertices.take m'.vertexCount).map (fun vertex : Vertex =>
      { VertexShader inversesqrt U vertex with position :=
        { x := ((VertexShader inversesqrt U vertex).position.x /
              (VertexShader inversesqrt U vertex).position.w * (1 / 2) + 1 / 2) * (r.width : ℚ),
          y := ((VertexShader inversesqrt U vertex).position.y /
              (VertexShader inversesqrt U vertex).position.w * (-1 / 2) + 1 / 2) * (r.height : ℚ),
          z := (VertexShader inversesqrt U vertex).position.z /
              (VertexShader inversesqrt U vertex).position.w,
          w := (VertexShader inversesqrt U vertex).position.w } }) ++ m'.vertices.drop m'.vertexCount }
    r hw hmod (by simp; omega) hcol
  refine ⟨r', ?_⟩
  simp only [Rasterization.DrawTriangleMesh, hcopy, hm', bind, Except.bind]
  erw [hloop]
  exact hr'


/-! ## C9 and C10: the depth test and occlusion -/

theorem sampleRasterizer_wf : sampleRasterizer.WellFormed := by
  simp [Rasterizer.WellFormed, sampleRasterizer]

theorem flat_color_ok (inversesqrt : ℚ → ℚ) (U : Uniforms) (r : Rasterizer)
    (h : U.shading = FLAT_SHADING) :
    ∀ T w0 w1 w2 rec, ∃ col, fragmentColor inversesqrt U r T w0 w1 w2 rec = .ok col :=
  fun T w0 w1 w2 rec => ⟨_, fragmentColor_flat inversesqrt U r T w0 w1 w2 rec h⟩

theorem shadePixel_accept (inversesqrt : ℚ → ℚ) (U : Uniforms) (r : Rasterizer)
    (T : TriangleSetup) (e0 e1 e2 : ℚ) (cell p : ℚ × Nat)
    (hin : insideTest r.backFaceCulling e0 e1 e2 = true)
    (hd : T.triangleArea ≠ 0 ∧ fragmentDepth T e0 e1 e2 < 1 ∧
      fragmentDepth T e0 e1 e2 < cell.1)
    (h : shadePixel inversesqrt U r T e0 e1 e2 cell = .ok p) :
    p.1 = fragmentDepth T e0 e1 e2 ∧ fragmentColorAt inversesqrt U r T e0 e1 e2 = .ok p.2 := by
  simp only [shadePixel, hin, hd.1, hd.2.1, hd.2.2, ne_eq, not_false_eq_true, and_self,
    if_true, bind, Except.bind, pure, Except.pure] at h
  unfold fragmentColorAt
  split at h
  · cases h
  · rename_i col hcol
    simp only [Except.ok.injEq] at h
    subst h
    exact ⟨rfl, hcol⟩

theorem shadePixel_reject (inversesqrt : ℚ → ℚ) (U : Uniforms) (r : Rasterizer)
    (T : TriangleSetup) (e0 e1 e2 : ℚ) (cell : ℚ × Nat)
    (h : ¬ (insideTest r.backFaceCulling e0 e1 e2 = true ∧ T.triangleArea ≠ 0 ∧
      fragmentDepth T e0 e1 e2 < 1 ∧ fragmentDepth T e0 e1 e2 < cell.1)) :
    shadePixel inversesqrt U r T e0 e1 e2 cell = .ok cell := by
  simp only [shadePixel, h, if_false, pure, Except.pure]

/-- The edge values of a pixel that passes the inside test and whose three values sum to 0,
as they do for a triangle of area 0, are all 0: the weights of such a pixel are `0 / 0`. -/
theorem insideTest_zero (culling : Bool) (e0 e1 e2 : ℚ)
    (hin : insideTest culling e0 e1 e2 = true) (hsum : e0 + e1 + e2 = 0) :
    e0 = 0 ∧ e1 = 0 ∧ e2 = 0 := by
  simp only [insideTest, Bool.or_eq_true, Bool.and_eq_true, decide_eq_true_eq, ge_iff_le] at hin
  rcases hin with ⟨⟨h0, h1⟩, h2⟩ | ⟨⟨⟨-, h0⟩, h1⟩, h2⟩
  · exact ⟨by linarith, by linarith, by linarith⟩
  · exact ⟨by linarith, by linarith, by linarith⟩

/-- The depth test of the body of the loop over `x`, for a pixel of the screen that passes the
inside test. -/
theorem rasterizePixel_depth_test (inversesqrt : ℚ → ℚ) (U : Uniforms) (T : TriangleSetup)
    (x y : Nat) (e0 e1 e2 : ℚ) (r r' : Rasterizer) (d : ℚ) (c : Nat) (hw : r.WellFormed)
    (hx : x < r.width) (hy : y < r.height)
    (hin : insideTest r.backFaceCulling e0 e1 e2 = true)
    (hd : r.depthBuffer[y * r.width + x]? = some d)
    (hc : r.frameBuffer[y * r.width + x]? = some c)
    (h : rasterizePixel inversesqrt U T (y * r.width) x y e0 e1 e2 r = .ok r') :
    (T.triangleArea ≠ 0 ∧ fragmentDepth T e0 e1 e2 < 1 ∧ fragmentDepth T e0 e1 e2 < d →
      ∃ col32, fragmentColorAt inversesqrt U r T e0 e1 e2 = .ok col32 ∧
        r' = { r with
          depthBuffer := r.depthBuffer.set (y * r.width + x) (fragmentDepth T e0 e1 e2),
          frameBuffer := r.frameBuffer.set (y * r.width + x) col32 }) ∧
    (¬ (T.triangleArea ≠ 0 ∧ fragmentDepth T e0 e1 e2 < 1 ∧ fragmentDepth T e0 e1 e2 < d) →
      r' = r) := by
  rw [rasterizePixel_wf inversesqrt U T x y e0 e1 e2 r hw hx hy d c hd hc] at h
  simp only [bind, Except.bind, pure, Except.pure] at h
  constructor
  · intro hacc
    cases hs : shadePixel inversesqrt U r T e0 e1 e2 (d, c) with
    | error e => rw [hs] at h; cases h
    | ok p =>
      rw [hs] at h
      simp only [Except.ok.injEq] at h
      obtain ⟨h1, h2⟩ := shadePixel_accept inversesqrt U r T e0 e1 e2 (d, c) p hin hacc hs
      refine ⟨p.2, h2, ?_⟩
      rw [← h, h1]
      rfl
  · intro hrej
    rw [shadePixel_reject inversesqrt U r T e0 e1 e2 (d, c) (fun hh => hrej hh.2)] at h
    simp only [Except.ok.injEq] at h
    rw [← h]
    exact writeCell_same r _ d c hd hc

/-- The body of the loop over `x` writes nothing for a triangle of area 0. -/
theorem rasterizePixel_degenerate (inversesqrt : ℚ → ℚ) (U : Uniforms) (T : TriangleSetup)
    (frameBuffer x y : Nat) (e0 e1 e2 : ℚ) (r r' : Rasterizer) (harea : T.triangleArea = 0)
    (h : rasterizePixel inversesqrt U T frameBuffer x y e0 e1 e2 r = .ok r') : r' = r := by
  have hno : ∀ cur : ℚ, ¬ (T.triangleArea ≠ 0 ∧ fragmentDepth T e0 e1 e2 < 1 ∧
      fragmentDepth T e0 e1 e2 < cur) := fun cur hh => hh.1 harea
  simp only [rasterizePixel, bind, Except.bind, pure, Except.pure, hno, if_false] at h
  split_ifs at h with hin
  · cases hl : load r.depthBuffer (u32 (u32 (y * r.width) + x)) with
    | error e => rw [hl] at h; cases h
    | ok cur =>
      rw [hl] at h
      simp only [Except.ok.injEq] at h
      exact h.symm
  · simp only [Except.ok.injEq] at h
    exact h.symm

/-- A triangle of area 0 leaves the rasterizer as it was. -/
theorem rasterizeTriangle_degenerate (inversesqrt : ℚ → ℚ) (U : Uniforms) (isTexturable : Bool)
    (v0 v1 v2 : Vertex) (r r' : Rasterizer)
    (harea : (setupTriangle r isTexturable v0 v1 v2).triangleArea = 0)
    (h : rasterizeTriangle inversesqrt U isTexturable v0 v1 v2 r = .ok r') : r' = r := by
  simp only [rasterizeTriangle] at h
  split_ifs at h with hcull
  · simp only [pure, Except.pure, Except.ok.injEq] at h
    exact h.symm
  · exact rasterizeRows_inv inversesqrt U (setupTriangle r isTexturable v0 v1 v2) r.width
      (fun s => s = r)
      (fun fb x y e0 e1 e2 s s' hs hp => by
        rw [rasterizePixel_degenerate inversesqrt U _ fb x y e0 e1 e2 s s' harea hp]
        exact hs)
      _ _ _ _ _ _ r r' rfl h

/-- C9: in `RasterizeTriangles` the fragment of a triangle `(v0, v1, v2)` at a pixel `(x, y)`
of the screen that passes the inside test is accepted if and only if it has a depth (the area
of the triangle is not 0: the weights of a triangle of area 0 are `0 / 0` and no comparison
with its depth holds), its depth is `< 1` and strictly less than
`depthBuffer[y * width + x]`: then this cell becomes the depth of the fragment and
`frameBuffer[y * width + x]` its colour, and nothing else changes; otherwise the rasterizer is
left as it is. A triangle of area 0 writes nothing at all. Hence after any `DrawTriangleMesh`
every depth cell is unchanged or holds a strictly smaller value that is `< 1`. -/
theorem depth_test (inversesqrt : ℚ → ℚ) (U : Uniforms) :
    (∀ (t : Bool) (v0 v1 v2 : Vertex) (x y : Nat) (r r' : Rasterizer) (d : ℚ) (c : Nat),
      r.WellFormed → x < r.width → y < r.height →
      insideTest r.backFaceCulling (EdgeFunction v0.position v1.position ⟨x, y⟩)
        (EdgeFunction v1.position v2.position ⟨x, y⟩)
        (EdgeFunction v2.position v0.position ⟨x, y⟩) = true →
      r.depthBuffer[y * r.width + x]? = some d → r.frameBuffer[y * r.width + x]? = some c →
      rasterizePixel inversesqrt U (setupTriangle r t v0 v1 v2) (y * r.width) x y
        (EdgeFunction v0.position v1.position ⟨x, y⟩)
        (EdgeFunction v1.position v2.position ⟨x, y⟩)
        (EdgeFunction v2.position v0.position ⟨x, y⟩) r = .ok r' →
      ((setupTriangle r t v0 v1 v2).triangleArea ≠ 0 ∧ pixelDepth r t v0 v1 v2 x y < 1 ∧
          pixelDepth r t v0 v1 v2 x y < d →
        ∃ col32, pixelColor inversesqrt U r t v0 v1 v2 x y = .ok col32 ∧
          r' = { r with
            depthBuffer := r.depthBuffer.set (y * r.width + x) (pixelDepth r t v0 v1 v2 x y),
            frameBuffer := r.frameBuffer.set (y * r.width + x) col32 }) ∧
      (¬ ((setupTriangle r t v0 v1 v2).triangleArea ≠ 0 ∧ pixelDepth r t v0 v1 v2 x y < 1 ∧
          pixelDepth r t v0 v1 v2 x y < d) → r' = r)) ∧
    (∀ (t : Bool) (v0 v1 v2 : Vertex) (r r' : Rasterizer),
      (setupTriangle r t v0 v1 v2).triangleArea = 0 →
      rasterizeTriangle inversesqrt U t v0 v1 v2 r = .ok r' → r' = r) ∧
    (∀ (original : Mesh) (r r' : Rasterizer),
      Rasterization.DrawTriangleMesh inversesqrt U r original = .ok r' → DepthMonotone r r') :=
  ⟨fun t v0 v1 v2 x y r r' d c hw hx hy hin hd hc h =>
      rasterizePixel_depth_test inversesqrt U (setupTriangle r t v0 v1 v2) x y _ _ _ r r' d c
        hw hx hy hin hd hc h,
    fun t v0 v1 v2 r r' harea h =>
      rasterizeTriangle_degenerate inversesqrt U t v0 v1 v2 r r' harea h,
    fun original r r' h => DrawTriangleMesh_DepthMonotone inversesqrt U original r r' h⟩

/-- Witness of C9: a draw of one triangle onto a cleared screen of 2 x 2 pixels returns a
rasterizer, and its depth cells have not grown. -/
theorem depth_test_witness :
    ∃ r', Rasterization.DrawTriangleMesh (fun q => q) identityUniforms sampleRasterizer
        (triangleMesh (sampleVertex (-1) 1 (-1 / 2)) (sampleVertex (-1) (-3) (-1 / 2))
          (sampleVertex 3 1 (-1 / 2))) = .ok r' ∧
      DepthMonotone sampleRasterizer r' := by
  obtain ⟨r', h⟩ := DrawTriangleMesh_ok (fun q => q) identityUniforms sampleRasterizer
    (triangleMesh (sampleVertex (-1) 1 (-1 / 2)) (sampleVertex (-1) (-3) (-1 / 2))
      (sampleVertex 3 1 (-1 / 2))) sampleRasterizer_wf (by decide) (by decide) (by decide)
    (flat_color_ok _ _ _ rfl)
  exact ⟨r', h, (depth_test (fun q => q) identityUniforms).2.2 _ _ _ h⟩

theorem Clear_depth (r0 r : Rasterizer) (flags : Nat) (hw : r0.WellFormed)
    (hflag : flags &&& DEPTH_BIT ≠ 0) (h : Rasterization.Clear r0 flags = .ok r) :
    SameScreen r0 r ∧ r.depthBuffer = List.replicate (r0.width * r0.height) FLT_MAX := by
  obtain ⟨w1, w2, w3, w4, w5⟩ := hw
  have hu : u32 (r0.width * r0.height) = r0.width * r0.height := Nat.mod_eq_of_lt w3
  have hle : r0.width * r0.height ≤ r0.depthBuffer.length := by rw [w5]
  have hdrop : List.drop (r0.width * r0.height) r0.depthBuffer = [] := by
    apply List.drop_of_length_le
    rw [w5]
  unfold Rasterization.Clear at h
  by_cases hc : flags &&& COLOR_BIT ≠ 0
  · by_cases hb : u32 (r0.width * r0.height * 4) / 4 ≤ r0.frameBuffer.length
    · simp only [hu] at h
      simp only [if_pos hc, if_pos hb, if_pos hflag, bind, Except.bind, pure, Except.pure, hu,
        if_pos hle, hdrop, List.append_nil, Except.ok.injEq] at h
      subst h
      refine ⟨⟨rfl, rfl, rfl, rfl, rfl, rfl, ?_, ?_⟩, rfl⟩
      · simp only [List.length_append, List.length_replicate, List.length_drop]
        omega
      · simp only [List.length_replicate, w5]
    · simp only [hu] at h
      simp only [if_pos hc, if_neg hb, bind, Except.bind] at h
      cases h
  · simp only [if_neg hc, if_pos hflag, bind, Except.bind, pure, Except.pure, hu,
      if_pos hle, hdrop, List.append_nil, Except.ok.injEq] at h
    subst h
    exact ⟨⟨rfl, rfl, rfl, rfl, rfl, rfl, rfl, by simp only [List.length_replicate, w5]⟩, rfl⟩

theorem rasterizeTrianglesFrom_one (inversesqrt : ℚ → ℚ) (U : Uniforms) (r : Rasterizer)
    (mesh : Mesh) (i : Nat) (v0 v1 v2 : Vertex) (h0 : load mesh.vertices i = .ok v0)
    (h1 : load mesh.vertices (i + 1) = .ok v1) (h2 : load mesh.vertices (i + 2) = .ok v2) :
    rasterizeTrianglesFrom inversesqrt U mesh 1 i r =
      rasterizeTriangle inversesqrt U mesh.isTexturable v0 v1 v2 r := by
  show rasterizeTrianglesFrom inversesqrt U mesh (0 + 1) i r = _
  rw [rasterizeTrianglesFrom]
  simp only [h0, h1, h2, bind, Except.bind]
  cases rasterizeTriangle inversesqrt U mesh.isTexturable v0 v1 v2 r <;> rfl

theorem RasterizeTriangles_single (inversesqrt : ℚ → ℚ) (U : Uniforms) (r : Rasterizer)
    (v0 v1 v2 : Vertex) (rest : List Vertex) (isTexturable : Bool) :
    RasterizeTriangles inversesqrt U r ⟨v0 :: v1 :: v2 :: rest, 3, isTexturable⟩ =
      rasterizeTriangle inversesqrt U isTexturable v0 v1 v2 r := by
  have h : (3 + 2) / 3 = 1 := rfl
  unfold RasterizeTriangles
  show rasterizeTrianglesFrom inversesqrt U _ ((3 + 2) / 3) 0 r = _
  rw [h]
  exact rasterizeTrianglesFrom_one inversesqrt U r ⟨v0 :: v1 :: v2 :: rest, 3, isTexturable⟩ 0
    v0 v1 v2 (load_zero _ _) (load_one _ _ _) (load_two _ _ _ _)

theorem FLT_MAX_gt_one : (1 : ℚ) < FLT_MAX := by
  unfold FLT_MAX
  norm_num

/-- C10: depth occlusion. Two triangles `A` and `B` that both cover the pixel `(x, y)` (each
has an area other than 0, so that its fragment has a depth, is not culled and passes the inside
test in its bounding box) with depths `< 1` there are drawn, `A` first, onto a rasterizer whose
depth buffer has just been cleared. Then the depth cell of the pixel holds the smaller of the two depths, and the pixel
has the colour of the fragment of `B` when `B` is strictly nearer and the colour of the
fragment of `A`, the first drawn, otherwise: the nearer fragment wins in either order of
drawing, and of two fragments of equal depth the first stays. -/
theorem depth_occlusion (inversesqrt : ℚ → ℚ) (U : Uniforms) (r0 r r1 r2 : Rasterizer)
    (flags : Nat) (a0 a1 a2 b0 b1 b2 : Vertex) (restA restB : List Vertex) (tA tB : Bool)
    (x y : Nat) (hw : r0.WellFormed) (hflag : flags &&& DEPTH_BIT ≠ 0)
    (hclear : Rasterization.Clear r0 flags = .ok r)
    (hA : Covers r tA a0 a1 a2 x y) (hB : Covers r tB b0 b1 b2 x y)
    (hdA : pixelDepth r tA a0 a1 a2 x y < 1) (hdB : pixelDepth r tB b0 b1 b2 x y < 1)
    (hdraw1 : RasterizeTriangles inversesqrt U r ⟨a0 :: a1 :: a2 :: restA, 3, tA⟩ = .ok r1)
    (hdraw2 : RasterizeTriangles inversesqrt U r1 ⟨b0 :: b1 :: b2 :: restB, 3, tB⟩ = .ok r2) :
    ∃ colA, pixelColor inversesqrt U r tA a0 a1 a2 x y = .ok colA ∧
      r2.depthBuffer[y * r.width + x]? =
        some (min (pixelDepth r tA a0 a1 a2 x y) (pixelDepth r tB b0 b1 b2 x y)) ∧
      (pixelDepth r tB b0 b1 b2 x y < pixelDepth r tA a0 a1 a2 x y →
        ∃ colB, pixelColor inversesqrt U r tB b0 b1 b2 x y = .ok colB ∧
          r2.frameBuffer[y * r.width + x]? = some colB) ∧
      (pixelDepth r tA a0 a1 a2 x y ≤ pixelDepth r tB b0 b1 b2 x y →
        r2.frameBuffer[y * r.width + x]? = some colA) := by
  obtain ⟨hss0, hdepth⟩ := Clear_depth r0 r flags hw hflag hclear
  have hwr := WellFormed_of_SameScreen _ _ hss0 hw
  obtain ⟨hareaA, hcullA, hxA1, hxA2, hyA1, hyA2, hinA⟩ := hA
  obtain ⟨hareaB, hcullB, hxB1, hxB2, hyB1, hyB2, hinB⟩ := hB
  rw [RasterizeTriangles_single] at hdraw1 hdraw2
  obtain ⟨bx1, bx2, by1, by2⟩ := setupTriangle_box r hwr tA a0 a1 a2
  have hk := cell_index_lt r.width r.height x y (by omega) (by omega)
  have hcellD : r.depthBuffer[y * r.width + x]? = some FLT_MAX := by
    rw [hdepth, ← hss0.1, ← hss0.2.1]
    simp [List.getElem?_replicate, hk]
  obtain ⟨c0, hcellF⟩ : ∃ c0, r.frameBuffer[y * r.width + x]? = some c0 :=
    ⟨_, List.getElem?_eq_getElem (by rw [hwr.2.2.2.1]; exact hk)⟩
  obtain ⟨d1, c1, hsh1, hd1, hc1⟩ := rasterizeTriangle_cell inversesqrt U tA a0 a1 a2 r r1 hwr
    hcullA hdraw1 x y hxA1 hxA2 hyA1 hyA2 FLT_MAX c0 hcellD hcellF
  obtain ⟨e1, e2⟩ := shadePixel_accept inversesqrt U r _ _ _ _ (FLT_MAX, c0) (d1, c1) hinA
    ⟨hareaA, hdA, lt_trans hdA FLT_MAX_gt_one⟩ hsh1
  simp only at e1 e2
  subst e1
  have hss1 := rasterizeTriangle_SameScreen inversesqrt U tA a0 a1 a2 r r1 hdraw1
  have hw1 := WellFormed_of_SameScreen _ _ hss1 hwr
  have hTB := setupTriangle_congr r r1 hss1 tB b0 b1 b2
  rw [← hss1.1] at hd1 hc1
  obtain ⟨d2, c2, hsh2, hd2, hc2⟩ := rasterizeTriangle_cell inversesqrt U tB b0 b1 b2 r1 r2 hw1
    (by rw [hTB, hss1.2.2.2.2.1]; exact hcullB) hdraw2 x y (by rw [hTB]; exact hxB1)
    (by rw [hTB]; exact hxB2) (by rw [hTB]; exact hyB1) (by rw [hTB]; exact hyB2) _ c1 hd1 hc1
  rw [hTB, shadePixel_congr inversesqrt U r1 r _ _ _ _ _ hss1.2.2.1 hss1.2.2.2.2.1] at hsh2
  rw [hss1.1] at hd2 hc2
  refine ⟨c1, e2, ?_, ?_, ?_⟩
  · by_cases hlt : pixelDepth r tB b0 b1 b2 x y < pixelDepth r tA a0 a1 a2 x y
    · obtain ⟨f1, -⟩ := shadePixel_accept inversesqrt U r _ _ _ _
        (pixelDepth r tA a0 a1 a2 x y, c1) (d2, c2) hinB ⟨hareaB, hdB, hlt⟩ hsh2
      simp only at f1
      rw [hd2, f1, min_eq_right (le_of_lt hlt)]
      rfl
    · have hrej := shadePixel_reject inversesqrt U r _ _ _ _
        (pixelDepth r tA a0 a1 a2 x y, c1) (fun hh => hlt hh.2.2.2)
      simp only [pixelDepth] at hrej
      rw [hrej] at hsh2
      simp only [Except.ok.injEq, Prod.mk.injEq] at hsh2
      rw [hd2, ← hsh2.1, min_eq_left (not_lt.mp hlt)]
      rfl
  · intro hlt
    obtain ⟨-, f2⟩ := shadePixel_accept inversesqrt U r _ _ _ _
        (pixelDepth r tA a0 a1 a2 x y, c1) (d2, c2) hinB ⟨hareaB, hdB, hlt⟩ hsh2
    exact ⟨c2, f2, hc2⟩
  · intro hle
    have hrej := shadePixel_reject inversesqrt U r _ _ _ _
      (pixelDepth r tA a0 a1 a2 x y, c1) (fun hh => not_lt.mpr hle hh.2.2.2)
    simp only [pixelDepth] at hrej
    rw [hrej] at hsh2
    simp only [Except.ok.injEq, Prod.mk.injEq] at hsh2
    rw [hc2, ← hsh2.2]

theorem Clear_sampleRasterizer :
    Rasterization.Clear sampleRasterizer DEPTH_BIT = .ok sampleRasterizer := rfl

theorem Covers_sample (z : ℚ) (color : Vec3) :
    Covers sampleRasterizer false (coloredVertex 0 0 z color) (coloredVertex 0 4 z color)
      (coloredVertex 4 0 z color) 0 0 := by
  simp [Covers, setupTriangle, sampleRasterizer, coloredVertex, EdgeFunction, insideTest, clamp,
    toSint32, trunc, u32]

theorem pixelDepth_sample (z : ℚ) (color : Vec3) :
    pixelDepth sampleRasterizer false (coloredVertex 0 0 z color) (coloredVertex 0 4 z color)
      (coloredVertex 4 0 z color) 0 0 = z := by
  simp [pixelDepth, fragmentDepth, setupTriangle, sampleRasterizer, coloredVertex, EdgeFunction]

/-- Witness of C10: on the cleared screen of 2 x 2 pixels a red triangle of depth `1/2` and
then a blue triangle of depth `3/10` are drawn, both over the pixel `(0, 0)`. -/
theorem depth_occlusion_witness :
    ∃ r1 r2 colA,
      RasterizeTriangles (fun q => q) identityUniforms sampleRasterizer
        ⟨[coloredVertex 0 0 (1 / 2) ⟨1, 0, 0⟩, coloredVertex 0 4 (1 / 2) ⟨1, 0, 0⟩,
          coloredVertex 4 0 (1 / 2) ⟨1, 0, 0⟩], 3, false⟩ = .ok r1 ∧
      RasterizeTriangles (fun q => q) identityUniforms r1
        ⟨[coloredVertex 0 0 (3 / 10) ⟨0, 0, 1⟩, coloredVertex 0 4 (3 / 10) ⟨0, 0, 1⟩,
          coloredVertex 4 0 (3 / 10) ⟨0, 0, 1⟩], 3, false⟩ = .ok r2 ∧
      pixelColor (fun q => q) identityUniforms sampleRasterizer false
        (coloredVertex 0 0 (1 / 2) ⟨1, 0, 0⟩) (coloredVertex 0 4 (1 / 2) ⟨1, 0, 0⟩)
        (coloredVertex 4 0 (1 / 2) ⟨1, 0, 0⟩) 0 0 = .ok colA ∧
      r2.depthBuffer[0 * sampleRasterizer.width + 0]? =
        some (min
          (pixelDepth sampleRasterizer false (coloredVertex 0 0 (1 / 2) ⟨1, 0, 0⟩)
            (coloredVertex 0 4 (1 / 2) ⟨1, 0, 0⟩) (coloredVertex 4 0 (1 / 2) ⟨1, 0, 0⟩) 0 0)
          (pixelDepth sampleRasterizer false (coloredVertex 0 0 (3 / 10) ⟨0, 0, 1⟩)
            (coloredVertex 0 4 (3 / 10) ⟨0, 0, 1⟩) (coloredVertex 4 0 (3 / 10) ⟨0, 0, 1⟩) 0 0)) := by
  obtain ⟨r1, h1⟩ := RasterizeTriangles_ok (fun q => q) identityUniforms
    ⟨[coloredVertex 0 0 (1 / 2) ⟨1, 0, 0⟩, coloredVertex 0 4 (1 / 2) ⟨1, 0, 0⟩,
      coloredVertex 4 0 (1 / 2) ⟨1, 0, 0⟩], 3, false⟩ sampleRasterizer sampleRasterizer_wf
    (by decide) (by decide) (flat_color_ok _ _ _ rfl)
  have hw1 : r1.WellFormed := RasterizeTriangles_inv (fun q => q) identityUniforms _
    Rasterizer.WellFormed
    (fun T fb x y e0 e1 e2 s s' hs hp => WellFormed_of_SameScreen s s'
      (rasterizePixel_SameScreen (fun q => q) identityUniforms T fb x y e0 e1 e2 s s' hp) hs)
    sampleRasterizer r1 sampleRasterizer_wf h1
  obtain ⟨r2, h2⟩ := RasterizeTriangles_ok (fun q => q) identityUniforms
    ⟨[coloredVertex 0 0 (3 / 10) ⟨0, 0, 1⟩, coloredVertex 0 4 (3 / 10) ⟨0, 0, 1⟩,
      coloredVertex 4 0 (3 / 10) ⟨0, 0, 1⟩], 3, false⟩ r1 hw1
    (by decide) (by decide) (flat_color_ok _ _ _ rfl)
  obtain ⟨colA, hA, hD, -, -⟩ := depth_occlusion (fun q => q) identityUniforms sampleRasterizer
    sampleRasterizer r1 r2 DEPTH_BIT _ _ _ _ _ _ [] [] false false 0 0 sampleRasterizer_wf
    (by decide) Clear_sampleRasterizer (Covers_sample (1 / 2) ⟨1, 0, 0⟩)
    (Covers_sample (3 / 10) ⟨0, 0, 1⟩)
    (by rw [pixelDepth_sample]; norm_num) (by rw [pixelDepth_sample]; norm_num) h1 h2
  exact ⟨r1, r2, colA, h1, h2, hA, hD⟩

/-! ## C11: back-face culling -/

/-- The three edge values of a point of the interior are positive multiples of the area. -/
theorem Interior_edges (v0 v1 v2 : Vec4) (p : Vec2) (h : Interior v0 v1 v2 p) :
    ∃ w0 w1 w2 : ℚ, 0 < w0 ∧ 0 < w1 ∧ 0 < w2 ∧
      EdgeFunction v0 v1 p = w2 * EdgeFunction v0 v1 ⟨v2.x, v2.y⟩ ∧
      EdgeFunction v1 v2 p = w0 * EdgeFunction v0 v1 ⟨v2.x, v2.y⟩ ∧
      EdgeFunction v2 v0 p = w1 * EdgeFunction v0 v1 ⟨v2.x, v2.y⟩ := by
  obtain ⟨w0, w1, w2, h0, h1, h2, hs, hx, hy⟩ := h
  have hw0 : w0 = 1 - w1 - w2 := by linarith
  refine ⟨w0, w1, w2, h0, h1, h2, ?_, ?_, ?_⟩ <;>
  · simp only [EdgeFunction, hx, hy, hw0]
    ring

/-- A point of the interior with natural coordinates on the screen is in the clamped bounding
box of the triangle. -/
theorem Interior_box (r : Rasterizer) (hw : r.WellFormed) (isTexturable : Bool)
    (v0 v1 v2 : Vertex) (x y : Nat) (hx : x < r.width) (hy : y < r.height)
    (h : Interior v0.position v1.position v2.position ⟨x, y⟩) :
    (setupTriangle r isTexturable v0 v1 v2).minX ≤ x ∧
    x ≤ (setupTriangle r isTexturable v0 v1 v2).maxX ∧
    (setupTriangle r isTexturable v0 v1 v2).minY ≤ y ∧
    y ≤ (setupTriangle r isTexturable v0 v1 v2).maxY := by
  obtain ⟨w0, w1, w2, h0, h1, h2, hs, hpx, hpy⟩ := h
  simp only at hpx hpy
  have hxlo : min v0.position.x (min v1.position.x v2.position.x) ≤ (x : ℚ) := by
    rw [hpx]
    have a0 := min_le_left v0.position.x (min v1.position.x v2.position.x)
    have a1 := le_trans (min_le_right v0.position.x (min v1.position.x v2.position.x))
      (min_le_left _ _)
    have a2 := le_trans (min_le_right v0.position.x (min v1.position.x v2.position.x))
      (min_le_right _ _)
    nlinarith
  have hxhi : (x : ℚ) ≤ max v0.position.x (max v1.position.x v2.position.x) := by
    rw [hpx]
    have a0 := le_max_left v0.position.x (max v1.position.x v2.position.x)
    have a1 := le_trans (le_max_left _ _)
      (le_max_right v0.position.x (max v1.position.x v2.position.x))
    have a2 := le_trans (le_max_right _ _)
      (le_max_right v0.position.x (max v1.position.x v2.position.x))
    nlinarith
  have hylo : min v0.position.y (min v1.position.y v2.position.y) ≤ (y : ℚ) := by
    rw [hpy]
    have a0 := min_le_left v0.position.y (min v1.position.y v2.position.y)
    have a1 := le_trans (min_le_right v0.position.y (min v1.position.y v2.position.y))
      (min_le_left _ _)
    have a2 := le_trans (min_le_right v0.position.y (min v1.position.y v2.position.y))
      (min_le_right _ _)
    nlinarith
  have hyhi : (y : ℚ) ≤ max v0.position.y (max v1.position.y v2.position.y) := by
    rw [hpy]
    have a0 := le_max_left v0.position.y (max v1.position.y v2.position.y)
    have a1 := le_trans (le_max_left _ _)
      (le_max_right v0.position.y (max v1.position.y v2.position.y))
    have a2 := le_trans (le_max_right _ _)
      (le_max_right v0.position.y (max v1.position.y v2.position.y))
    nlinarith
  have hW := u32_pred r.width hw.1 (WellFormed_width_lt r hw)
  have hH := u32_pred r.height hw.2.1 (WellFormed_height_lt r hw)
  have hxW : (x : ℚ) ≤ ((r.width - 1 : ℕ) : ℚ) := by
    have : x ≤ r.width - 1 := by omega
    exact_mod_cast this
  have hyH : (y : ℚ) ≤ ((r.height - 1 : ℕ) : ℚ) := by
    have : y ≤ r.height - 1 := by omega
    exact_mod_cast this
  have hx0 : (0 : ℚ) ≤ (x : ℚ) := Nat.cast_nonneg x
  have hy0 : (0 : ℚ) ≤ (y : ℚ) := Nat.cast_nonneg y
  simp only [setupTriangle, hW, hH]
  refine ⟨?_, ?_, ?_, ?_⟩
  · refine toSint32_le_nat _ _ (clamp_nonneg _ _ (le_trans hx0 hxW)) ?_
    rw [← clamp_of_mem (x : ℚ) 0 ((r.width - 1 : ℕ) : ℚ) hx0 hxW]
    exact clamp_mono _ _ _ _ hxlo
  · refine nat_le_toSint32 _ _ ?_
    rw [← clamp_of_mem (x : ℚ) 0 ((r.width - 1 : ℕ) : ℚ) hx0 hxW]
    exact clamp_mono _ _ _ _ hxhi
  · refine toSint32_le_nat _ _ (clamp_nonneg _ _ (le_trans hy0 hyH)) ?_
    rw [← clamp_of_mem (y : ℚ) 0 ((r.height - 1 : ℕ) : ℚ) hy0 hyH]
    exact clamp_mono _ _ _ _ hylo
  · refine nat_le_toSint32 _ _ ?_
    rw [← clamp_of_mem (y : ℚ) 0 ((r.height - 1 : ℕ) : ℚ) hy0 hyH]
    exact clamp_mono _ _ _ _ hyhi

/-- C11: for a triangle of `RasterizeTriangles` in raster space whose `EdgeFunction` area is
negative, the call with `backFaceCulling` on returns the rasterizer as it was (frame buffer
and depth buffer unchanged); with `backFaceCulling` off, every pixel `(x, y)` of the screen in
the interior of the triangle whose fragment passes the depth test (depth `< 1` and below the
depth `d` of its cell) holds the colour and the depth of this fragment after the call. -/
theorem back_face_culling (inversesqrt : ℚ → ℚ) (U : Uniforms) (r : Rasterizer)
    (v0 v1 v2 : Vertex) (rest : List Vertex) (isTexturable : Bool)
    (harea : EdgeFunction v0.position v1.position ⟨v2.position.x, v2.position.y⟩ < 0) :
    (r.backFaceCulling = true →
      RasterizeTriangles inversesqrt U r ⟨v0 :: v1 :: v2 :: rest, 3, isTexturable⟩ = .ok r) ∧
    (r.backFaceCulling = false → r.WellFormed →
      ∀ (r' : Rasterizer) (x y : Nat) (d : ℚ), x < r.width → y < r.height →
        Interior v0.position v1.position v2.position ⟨x, y⟩ →
        r.depthBuffer[y * r.width + x]? = some d →
        pixelDepth r isTexturable v0 v1 v2 x y < 1 →
        pixelDepth r isTexturable v0 v1 v2 x y < d →
        RasterizeTriangles inversesqrt U r ⟨v0 :: v1 :: v2 :: rest, 3, isTexturable⟩ = .ok r' →
        ∃ col, pixelColor inversesqrt U r isTexturable v0 v1 v2 x y = .ok col ∧
          r'.frameBuffer[y * r.width + x]? = some col ∧
          r'.depthBuffer[y * r.width + x]? = some (pixelDepth r isTexturable v0 v1 v2 x y)) := by
  constructor
  · intro hc
    rw [RasterizeTriangles_single]
    exact rasterizeTriangle_culled inversesqrt U isTexturable v0 v1 v2 r hc harea
  · intro hc hw r' x y d hx hy hint hd hd1 hd2 hdraw
    rw [RasterizeTriangles_single] at hdraw
    obtain ⟨bx1, bx2, by1, by2⟩ := Interior_box r hw isTexturable v0 v1 v2 x y hx hy hint
    obtain ⟨w0, w1, w2, h0, h1, h2, he0, he1, he2⟩ := Interior_edges _ _ _ _ hint
    have hin : insideTest r.backFaceCulling
        (EdgeFunction v0.position v1.position ⟨x, y⟩)
        (EdgeFunction v1.position v2.position ⟨x, y⟩)
        (EdgeFunction v2.position v0.position ⟨x, y⟩) = true := by
      have n0 : EdgeFunction v0.position v1.position ⟨x, y⟩ ≤ 0 := by
        rw [he0]; exact le_of_lt (mul_neg_of_pos_of_neg h2 harea)
      have n1 : EdgeFunction v1.position v2.position ⟨x, y⟩ ≤ 0 := by
        rw [he1]; exact le_of_lt (mul_neg_of_pos_of_neg h0 harea)
      have n2 : EdgeFunction v2.position v0.position ⟨x, y⟩ ≤ 0 := by
        rw [he2]; exact le_of_lt (mul_neg_of_pos_of_neg h1 harea)
      simp [insideTest, hc, n0, n1, n2]
    have hk := cell_index_lt r.width r.height x y hx hy
    obtain ⟨c0, hcellF⟩ : ∃ c0, r.frameBuffer[y * r.width + x]? = some c0 :=
      ⟨_, List.getElem?_eq_getElem (by rw [hw.2.2.2.1]; exact hk)⟩
    obtain ⟨d1, c1, hsh, hd', hc'⟩ := rasterizeTriangle_cell inversesqrt U isTexturable v0 v1 v2
      r r' hw (fun hh => by rw [hc] at hh; cases hh.1) hdraw x y bx1 bx2 by1 by2 d c0 hd hcellF
    obtain ⟨e1, e2⟩ := shadePixel_accept inversesqrt U r _ _ _ _ (d, c0) (d1, c1) hin
      ⟨ne_of_lt harea, hd1, hd2⟩ hsh
    simp only at e1 e2
    subst e1
    exact ⟨c1, e2, hc', hd'⟩

/-- Witness of C11: the clockwise triangle `(0, 0), (4, 0), (0, 4)` on the screen of 2 x 2
pixels is skipped with culling on, and fills the pixel `(1, 1)` with culling off. -/
theorem back_face_culling_witness :
    EdgeFunction (coloredVertex 0 0 (1 / 2) ⟨1, 0, 0⟩).position
        (coloredVertex 4 0 (1 / 2) ⟨1, 0, 0⟩).position
        ⟨(coloredVertex 0 4 (1 / 2) ⟨1, 0, 0⟩).position.x,
          (coloredVertex 0 4 (1 / 2) ⟨1, 0, 0⟩).position.y⟩ < 0 ∧
    RasterizeTriangles (fun q => q) identityUniforms sampleRasterizer
      ⟨[coloredVertex 0 0 (1 / 2) ⟨1, 0, 0⟩, coloredVertex 4 0 (1 / 2) ⟨1, 0, 0⟩,
        coloredVertex 0 4 (1 / 2) ⟨1, 0, 0⟩], 3, false⟩ = .ok sampleRasterizer ∧
    ∃ r' col,
      RasterizeTriangles (fun q => q) identityUniforms
        { sampleRasterizer with backFaceCulling := false }
        ⟨[coloredVertex 0 0 (1 / 2) ⟨1, 0, 0⟩, coloredVertex 4 0 (1 / 2) ⟨1, 0, 0⟩,
          coloredVertex 0 4 (1 / 2) ⟨1, 0, 0⟩], 3, false⟩ = .ok r' ∧
      pixelColor (fun q => q) identityUniforms { sampleRasterizer with backFaceCulling := false }
        false (coloredVertex 0 0 (1 / 2) ⟨1, 0, 0⟩) (coloredVertex 4 0 (1 / 2) ⟨1, 0, 0⟩)
        (coloredVertex 0 4 (1 / 2) ⟨1, 0, 0⟩) 1 1 = .ok col ∧
      r'.frameBuffer[1 * 2 + 1]? = some col := by
  have harea : EdgeFunction (coloredVertex 0 0 (1 / 2) ⟨1, 0, 0⟩).position
      (coloredVertex 4 0 (1 / 2) ⟨1, 0, 0⟩).position
      ⟨(coloredVertex 0 4 (1 / 2) ⟨1, 0, 0⟩).position.x,
        (coloredVertex 0 4 (1 / 2) ⟨1, 0, 0⟩).position.y⟩ < 0 := by
    norm_num [EdgeFunction, coloredVertex]
  have hw : ({ sampleRasterizer with backFaceCulling := false } : Rasterizer).WellFormed := by
    simp [Rasterizer.WellFormed, sampleRasterizer]
  have hdepth : pixelDepth { sampleRasterizer with backFaceCulling := false } false
      (coloredVertex 0 0 (1 / 2) ⟨1, 0, 0⟩) (coloredVertex 4 0 (1 / 2) ⟨1, 0, 0⟩)
      (coloredVertex 0 4 (1 / 2) ⟨1, 0, 0⟩) 1 1 = 1 / 2 := by
    norm_num [pixelDepth, fragmentDepth, setupTriangle, sampleRasterizer, coloredVertex,
      EdgeFunction]
  obtain ⟨r', h⟩ := RasterizeTriangles_ok (fun q => q) identityUniforms
    ⟨[coloredVertex 0 0 (1 / 2) ⟨1, 0, 0⟩, coloredVertex 4 0 (1 / 2) ⟨1, 0, 0⟩,
      coloredVertex 0 4 (1 / 2) ⟨1, 0, 0⟩], 3, false⟩
    { sampleRasterizer with backFaceCulling := false } hw
    (by decide) (by decide) (flat_color_ok _ _ _ rfl)
  obtain ⟨col, h1, h2, -⟩ := (back_face_culling (fun q => q) identityUniforms
    { sampleRasterizer with backFaceCulling := false } _ _ _ [] false harea).2 rfl hw r' 1 1
    FLT_MAX (by decide) (by decide)
    ⟨1 / 2, 1 / 4, 1 / 4, by norm_num, by norm_num, by norm_num, by norm_num,
      by norm_num [coloredVertex], by norm_num [coloredVertex]⟩
    rfl (by rw [hdepth]; norm_num) (by rw [hdepth]; unfold FLT_MAX; norm_num) h
  exact ⟨harea, (back_face_culling (fun q => q) identityUniforms sampleRasterizer _ _ _ [] false
    harea).1 rfl, r', col, h, h1, h2⟩

/-! ## C12: the single-pixel triangle -/

theorem clipTriangles_one (zNear : ℚ) (first : List Vertex) (clipped : Mesh) :
    clipTriangles zNear 1 first clipped = ClipTriangle first clipped zNear := by
  show clipTriangles zNear (0 + 1) first clipped = _
  rw [clipTriangles]
  cases ClipTriangle first clipped zNear <;> rfl

/-- A triangle whose three vertices are beyond the near plane in view space is not drawn. -/
theorem DrawTriangleMesh_behind (inversesqrt : ℚ → ℚ) (U : Uniforms) (r : Rasterizer)
    (v0 v1 v2 : Vertex) (t : Bool)
    (h0 : r.zNear < ((U.viewMatrix.mul U.modelMatrix).mulVec v0.position).z)
    (h1 : r.zNear < ((U.viewMatrix.mul U.modelMatrix).mulVec v1.position).z)
    (h2 : r.zNear < ((U.viewMatrix.mul U.modelMatrix).mulVec v2.position).z) :
    Rasterization.DrawTriangleMesh inversesqrt U r ⟨[v0, v1, v2], 3, t⟩ = .ok r := by
  have hcopy : UtilMesh.MakeMeshCopy ⟨[v0, v1, v2], 3, t⟩ = .ok ⟨[v0, v1, v2], 3, t⟩ := rfl
  have hrounds : (3 + 2) / 3 = 1 := rfl
  have htrans : transformPositions (U.viewMatrix.mul U.modelMatrix) [v0, v1, v2] 3 = .ok
      [{ v0 with position := (U.viewMatrix.mul U.modelMatrix).mulVec v0.position },
       { v1 with position := (U.viewMatrix.mul U.modelMatrix).mulVec v1.position },
       { v2 with position := (U.viewMatrix.mul U.modelMatrix).mulVec v2.position }] :=
    transformPositions_ok _ [v0, v1, v2] 3 (le_refl 3)
  have hclip : ClipToNear U ⟨[v0, v1, v2], 3, t⟩ r.zNear =
      .ok ⟨List.replicate (u32 (2 * 3)) Vertex.zero, 0, t⟩ := by
    simp only [ClipToNear, htrans, bind, Except.bind, hrounds, clipTriangles_one]
    rw [ClipTriangle_outside_eq _ _ _ [] _ _ h0 h1 h2]
    simp only [transformPositions, List.range_zero, List.foldlM_nil, pure, Except.pure]
  simp only [Rasterization.DrawTriangleMesh, hcopy, hclip, bind, Except.bind, List.range_zero,
    List.foldlM_nil, pure, Except.pure, RasterizeTriangles]
  rfl

/-- The call of `Rasterization::Clear` with both flags on a rasterizer that comes from
`Rasterization::Init` returns a rasterizer with the same `zNear`, and each pixel that `memset`
reaches holds the low byte of the packed clear colour four times. -/
theorem Clear_Init (r0 : Rasterizer) (width height : Nat) (zNear : ℚ)
    (hfit : u32 (u32 (width * height) * 4) / 4 ≤ u32 (width * height)) :
    ∃ r, Rasterization.Clear (Rasterization.Init r0 width height zNear)
        (COLOR_BIT ||| DEPTH_BIT) = .ok r ∧ r.zNear = -zNear ∧ r.backFaceCulling = true ∧
      ∀ k, k < u32 (u32 (width * height) * 4) / 4 → r.frameBuffer[k]? = some
        ((Vec3ColorToUint32 r0.clearColor % 256) <<< 24 |||
          (Vec3ColorToUint32 r0.clearColor % 256) <<< 16 |||
          (Vec3ColorToUint32 r0.clearColor % 256) <<< 8 |||
          (Vec3ColorToUint32 r0.clearColor % 256)) := by
  have hc : (COLOR_BIT ||| DEPTH_BIT) &&& COLOR_BIT ≠ 0 := by decide
  have hd : (COLOR_BIT ||| DEPTH_BIT) &&& DEPTH_BIT ≠ 0 := by decide
  have h3 : (List.replicate (u32 (width * height)) (0 : Nat)).length = u32 (width * height) :=
    List.length_replicate _ _
  have h5 : (List.replicate (u32 (width * height)) (0 : ℚ)).length = u32 (width * height) :=
    List.length_replicate _ _
  unfold Rasterization.Clear Rasterization.Init
  simp only [if_pos hc, if_pos hd, h3, h5, hfit, le_refl, if_true, bind, Except.bind, pure,
    Except.pure]
  refine ⟨_, rfl, rfl, rfl, ?_⟩
  intro k hk
  show (List.replicate _ _ ++ _)[k]? = _
  rw [List.getElem?_append_left (by rw [List.length_replicate]; exact hk),
    List.getElem?_replicate, if_pos hk]

theorem identity_view_z (v : Vec4) :
    ((identityUniforms.viewMatrix.mul identityUniforms.modelMatrix).mulVec v).z = v.z := by
  simp [identityUniforms, identityMatrix, Mat4.mul, Mat4.mulVec, vec4_add_def, vec4_smul_def]

/-- Counterexample to C12: on the screen of 16 x 16 pixels that `Rasterization::Init` makes
with `zNear = -0.1` and `Clear` clears to black, the draw of the triangle returns the
rasterizer as it was, and the pixel `(8, 8)` holds 0, not the packed red 255. The vertices
have `z = 1/2 > zNear` in view space: `ClipToNear` removes the triangle. Given to
`RasterizeTriangles` in raster space, the triangle is not drawn either: its area is negative
and `Init` turns culling on. -/
theorem single_pixel_triangle_not_drawn :
    ∃ r, Rasterization.Clear (Rasterization.Init blankRasterizer 16 16 (-1 / 10))
        (COLOR_BIT ||| DEPTH_BIT) = .ok r ∧
      Rasterization.DrawTriangleMesh (fun q => q) identityUniforms r singlePixelTriangle
        = .ok r ∧
      RasterizeTriangles (fun q => q) identityUniforms r
        ⟨[coloredVertex (15 / 2) (15 / 2) (1 / 2) ⟨1, 0, 0⟩,
          coloredVertex (17 / 2) (15 / 2) (1 / 2) ⟨1, 0, 0⟩,
          coloredVertex 8 (17 / 2) (1 / 2) ⟨1, 0, 0⟩], 3, false⟩ = .ok r ∧
      r.frameBuffer[8 * 16 + 8]? = some 0 ∧ Vec3ColorToUint32 ⟨1, 0, 0⟩ = 255 := by
  obtain ⟨r, hr, hz, hcull, hfb⟩ := Clear_Init blankRasterizer 16 16 (-1 / 10) (by decide)
  refine ⟨r, hr, ?_, ?_, ?_, ?_⟩
  · exact DrawTriangleMesh_behind _ _ _ _ _ _ _
      (by rw [hz, identity_view_z]; norm_num [coloredVertex])
      (by rw [hz, identity_view_z]; norm_num [coloredVertex])
      (by rw [hz, identity_view_z]; norm_num [coloredVertex])
  · rw [RasterizeTriangles_single]
    exact rasterizeTriangle_culled _ _ _ _ _ _ r hcull
      (by norm_num [EdgeFunction, coloredVertex])
  · rw [hfb (8 * 16 + 8) (by decide)]
    norm_num [Vec3ColorToUint32, toUint8, trunc, blankRasterizer]
  · norm_num [Vec3ColorToUint32, toUint8, trunc]
    rfl

/-- C12, amended: on the screen of 16 x 16 pixels that `Rasterization::Init` makes with
`zNear = -0.1` (or `0.1`) and `Clear` clears, with identity model, view and MVP matrices, the
draw of the red triangle with the raster-space vertices `(7.5, 7.5)`, `(8.5, 7.5)`, `(8, 8.5)`,
`w = 1` and `z = 0.5` returns the rasterizer as it was: every pixel, `(8, 8)` too, keeps the
value that `Clear` gave it. -/
theorem single_pixel_triangle_clipped (inversesqrt : ℚ → ℚ) (r0 : Rasterizer) :
    (∃ r, Rasterization.Clear (Rasterization.Init r0 16 16 (-1 / 10))
        (COLOR_BIT ||| DEPTH_BIT) = .ok r ∧
      Rasterization.DrawTriangleMesh inversesqrt identityUniforms r singlePixelTriangle
        = .ok r) ∧
    (∃ r, Rasterization.Clear (Rasterization.Init r0 16 16 (1 / 10))
        (COLOR_BIT ||| DEPTH_BIT) = .ok r ∧
      Rasterization.DrawTriangleMesh inversesqrt identityUniforms r singlePixelTriangle
        = .ok r) := by
  constructor
  · obtain ⟨r, hr, hz, -, -⟩ := Clear_Init r0 16 16 (-1 / 10) (by decide)
    exact ⟨r, hr, DrawTriangleMesh_behind _ _ _ _ _ _ _
      (by rw [hz, identity_view_z]; norm_num [coloredVertex])
      (by rw [hz, identity_view_z]; norm_num [coloredVertex])
      (by rw [hz, identity_view_z]; norm_num [coloredVertex])⟩
  · obtain ⟨r, hr, hz, -, -⟩ := Clear_Init r0 16 16 (1 / 10) (by decide)
    exact ⟨r, hr, DrawTriangleMesh_behind _ _ _ _ _ _ _
      (by rw [hz, identity_view_z]; norm_num [coloredVertex])
      (by rw [hz, identity_view_z]; norm_num [coloredVertex])
      (by rw [hz, identity_view_z]; norm_num [coloredVertex])⟩

/-! ## C13 and C14: clearing and packing colours -/

/-- The cast `Uint8(x)` of a value between the natural numbers `n` and `n + 1`. -/
theorem toUint8_eq (x : ℚ) (n : Nat) (h0 : (n : ℚ) ≤ x) (h1 : x < (n : ℚ) + 1) :
    toUint8 x = n % 256 := by
  have hx : 0 ≤ x := le_trans (Nat.cast_nonneg n) h0
  have hf : ⌊x⌋ = (n : ℤ) := by
    rw [Int.floor_eq_iff]
    exact ⟨by exact_mod_cast h0, by exact_mod_cast h1⟩
  simp only [toUint8, trunc, hx, if_true, hf]
  omega

theorem Vec3ColorToUint32_grey : Vec3ColorToUint32 ⟨1 / 20, 1 / 20, 1 / 20⟩ = 789516 := by
  have h : toUint8 ((1 / 20 : ℚ) * 255) = 12 :=
    toUint8_eq _ 12 (by norm_num) (by norm_num)
  simp only [Vec3ColorToUint32, h]
  rfl

/-- C13: the clear colour `(0.05, 0.05, 0.05)` of the renderer packs to `0x000C0C0C`, but
`Rasterization::Clear` with `COLOR_BIT` leaves `0x0C0C0C0C` in every cell of the frame buffer
of a screen of 2 x 2 pixels: `memset` stores the low byte of the packed value in every byte. -/
theorem Clear_stores_low_byte :
    Vec3ColorToUint32 ⟨1 / 20, 1 / 20, 1 / 20⟩ = 789516 ∧
    Rasterization.Clear { sampleRasterizer with clearColor := ⟨1 / 20, 1 / 20, 1 / 20⟩ } COLOR_BIT
      = .ok { sampleRasterizer with
          clearColor := ⟨1 / 20, 1 / 20, 1 / 20⟩,
          frameBuffer := [202116108, 202116108, 202116108, 202116108] } := by
  refine ⟨Vec3ColorToUint32_grey, ?_⟩
  have hc : COLOR_BIT &&& COLOR_BIT ≠ 0 := by decide
  have hd : ¬ (COLOR_BIT &&& DEPTH_BIT ≠ 0) := by decide
  have hb : u32 (u32 (2 * 2) * 4) / 4 ≤ [0, 0, 0, 0].length := by decide
  unfold Rasterization.Clear
  simp only [sampleRasterizer, Vec3ColorToUint32_grey, if_pos hc, if_neg hd, if_pos hb, bind,
    Except.bind, pure, Except.pure]
  rfl

theorem toUint8_of_unit (c : ℚ) (h0 : 0 ≤ c) (h1 : c ≤ 1) :
    toUint8 (c * 255) = ⌊c * 255⌋.toNat ∧ ⌊c * 255⌋.toNat < 256 := by
  have hx : 0 ≤ c * 255 := by positivity
  have hf0 : 0 ≤ ⌊c * 255⌋ := Int.floor_nonneg.mpr hx
  have hf1 : ⌊c * 255⌋ ≤ 255 := by
    have : ⌊c * 255⌋ ≤ ⌊(255 : ℚ)⌋ := Int.floor_mono (by linarith)
    simpa using this
  constructor
  · simp only [toUint8, trunc, hx, if_true]
    congr 1
    omega
  · omega

theorem toUint8_lt (x : ℚ) : toUint8 x < 256 := by
  unfold toUint8
  have h1 := Int.emod_nonneg (trunc x) (by norm_num : (256 : ℤ) ≠ 0)
  have h2 := Int.emod_lt_of_pos (trunc x) (by norm_num : (0 : ℤ) < 256)
  omega

theorem pack_lt (r8 g8 b8 : Nat) (hr : r8 < 256) (hg : g8 < 256) (hb : b8 < 256) :
    0 <<< 24 ||| b8 <<< 16 ||| g8 <<< 8 ||| r8 < 16777216 := by
  have e : (16777216 : Nat) = 2 ^ 24 := by norm_num
  rw [e]
  refine Nat.or_lt_two_pow (Nat.or_lt_two_pow (Nat.or_lt_two_pow ?_ ?_) ?_) ?_
  · simp
  · rw [Nat.shiftLeft_eq]; omega
  · rw [Nat.shiftLeft_eq]; omega
  · omega

/-- Counterexample to C14: the channel `0.999` is packed as 254, the truncation of `254.745`,
where rounding gives 255; the channel `2` is packed as 254, the low byte of 510, where
clamping gives 255. -/
theorem Vec3ColorToUint32_not_rounded :
    Vec3ColorToUint32 ⟨999 / 1000, 0, 0⟩ = 254 ∧ packRGBA ⟨999 / 1000, 0, 0⟩ = 255 ∧
    Vec3ColorToUint32 ⟨2, 0, 0⟩ = 254 ∧ packRGBA ⟨2, 0, 0⟩ = 255 := by
  have h1 : toUint8 ((999 / 1000 : ℚ) * 255) = 254 :=
    toUint8_eq _ 254 (by norm_num) (by norm_num)
  have h2 : toUint8 ((2 : ℚ) * 255) = 254 := toUint8_eq _ 510 (by norm_num) (by norm_num)
  have h0 : toUint8 ((0 : ℚ) * 255) = 0 := toUint8_eq _ 0 (by norm_num) (by norm_num)
  refine ⟨?_, ?_, ?_, ?_⟩
  · simp only [Vec3ColorToUint32, h1, h0]
    rfl
  · norm_num [packRGBA, roundedChannel, round_eq]
    rfl
  · simp only [Vec3ColorToUint32, h2, h0]
    rfl
  · norm_num [packRGBA, roundedChannel, round_eq]
    rfl

/-- C14, amended: the alpha byte of every packed pixel is 0 (the value is below `2^24`), and
for a colour `c` with channels in `[0, 1]` the packing `Vec3ColorToUint32(c)` equals
`(0 << 24) | (b8 << 16) | (g8 << 8) | r8` where each 8-bit channel is `c8 = floor(c * 255)`:
the channels are truncated, not rounded, and nothing clamps them. -/
theorem Vec3ColorToUint32_truncates (c : Vec3) :
    Vec3ColorToUint32 c < 2 ^ 24 ∧
    (0 ≤ c.x ∧ c.x ≤ 1 → 0 ≤ c.y ∧ c.y ≤ 1 → 0 ≤ c.z ∧ c.z ≤ 1 →
      Vec3ColorToUint32 c =
        0 <<< 24 ||| ⌊c.z * 255⌋.toNat <<< 16 ||| ⌊c.y * 255⌋.toNat <<< 8 ||| ⌊c.x * 255⌋.toNat ∧
      ⌊c.x * 255⌋.toNat < 256 ∧ ⌊c.y * 255⌋.toNat < 256 ∧ ⌊c.z * 255⌋.toNat < 256) := by
  constructor
  · exact pack_lt _ _ _ (toUint8_lt _) (toUint8_lt _) (toUint8_lt _)
  · intro hx hy hz
    obtain ⟨ex, bx⟩ := toUint8_of_unit c.x hx.1 hx.2
    obtain ⟨ey, bY⟩ := toUint8_of_unit c.y hy.1 hy.2
    obtain ⟨ez, bz⟩ := toUint8_of_unit c.z hz.1 hz.2
    refine ⟨?_, bx, bY, bz⟩
    simp only [Vec3ColorToUint32, ex, ey, ez]

/-- Witness of C14: the colour `(0.999, 0.5, 0)` packs to `(127 << 8) | 254`. -/
theorem Vec3ColorToUint32_truncates_witness :
    Vec3ColorToUint32 ⟨999 / 1000, 1 / 2, 0⟩ =
      0 <<< 24 ||| ⌊(0 : ℚ) * 255⌋.toNat <<< 16 ||| ⌊(1 / 2 : ℚ) * 255⌋.toNat <<< 8 |||
        ⌊(999 / 1000 : ℚ) * 255⌋.toNat :=
  ((Vec3ColorToUint32_truncates ⟨999 / 1000, 1 / 2, 0⟩).2 (by norm_num) (by norm_num)
    (by norm_num)).1

/-! ## C15: wrapping texture coordinates -/

theorem toUint32_of_nat_floor (x : ℚ) (h0 : 0 ≤ x) (h1 : x < 4294967296) :
    toUint32 x = ⌊x⌋.toNat := by
  have hf0 : 0 ≤ ⌊x⌋ := Int.floor_nonneg.mpr h0
  have hf1 : ⌊x⌋ < 4294967296 := by
    rw [Int.floor_lt]
    exact_mod_cast h1
  simp only [toUint32, trunc, h0, if_true]
  congr 1
  omega

/-- C15: for an interpolated texture coordinate `t` with `1 < t ≤ 1.5` and a texture of
`size` columns (or rows), `1 ≤ size < 2^32`, the texel column (or row) that the rasterizer
computes is the last one, `size - 1`, under `TEX_COORD_CLAMP`, where `t` is clamped to
`[0, 1]` first, and `floor((t - 1) * (size - 1))` under `TEX_COORD_REPEAT`, where `t` is
replaced by `t - floor(t)` first; and `SampleTexture` at the column `u` and the row `v`
returns `r = g = b = data[v * width + u] / 255` (the index is kept in an `int`). -/
theorem texture_wrap (U : Uniforms) (t : ℚ) (size : Nat) (ht1 : 1 < t) (ht2 : t ≤ 3 / 2)
    (hs1 : 1 ≤ size) (hs2 : size < 4294967296) :
    (U.texCoordWrap = TEX_COORD_CLAMP →
      wrapTexCoord U t = clamp t 0 1 ∧ texelCoord (wrapTexCoord U t) size = size - 1) ∧
    (U.texCoordWrap = TEX_COORD_REPEAT →
      wrapTexCoord U t = t - ⌊t⌋ ∧
      texelCoord (wrapTexCoord U t) size = ⌊(t - 1) * ((size : ℚ) - 1)⌋.toNat) ∧
    (∀ (rasterizer : Rasterizer) (u v texel : Nat),
      v * rasterizer.texture.width + u < 2147483648 →
      rasterizer.texture.data[v * rasterizer.texture.width + u]? = some texel →
      SampleTexture rasterizer u v =
        .ok ⟨(texel : ℚ) / 255, (texel : ℚ) / 255, (texel : ℚ) / 255⟩) := by
  have hsize : ((u32 (size + 4294967295) : ℕ) : ℚ) = (size : ℚ) - 1 := by
    rw [u32_pred size hs1 hs2]
    push_cast [Nat.cast_sub hs1]
    ring
  have hsq : (0 : ℚ) ≤ (size : ℚ) - 1 := by
    have : (1 : ℚ) ≤ (size : ℚ) := by exact_mod_cast hs1
    linarith
  have hsq2 : (size : ℚ) - 1 < 4294967295 := by
    have : (size : ℚ) < 4294967296 := by exact_mod_cast hs2
    linarith
  refine ⟨?_, ?_, ?_⟩
  · intro hU
    have hw : wrapTexCoord U t = clamp t 0 1 := by simp only [wrapTexCoord, hU, if_true]
    refine ⟨hw, ?_⟩
    have hc : clamp t 0 1 = 1 := by
      unfold clamp
      rw [max_eq_left (by linarith), min_eq_right (le_of_lt ht1)]
    rw [hw, hc, texelCoord, hsize, one_mul, toUint32_of_nat_floor _ hsq (by linarith)]
    have : ⌊(size : ℚ) - 1⌋ = (size : ℤ) - 1 := by
      have e : (size : ℚ) - 1 = (((size : ℤ) - 1 : ℤ) : ℚ) := by push_cast; ring
      rw [e, Int.floor_intCast]
    rw [this]
    omega
  · intro hU
    have hne : ¬ U.texCoordWrap = TEX_COORD_CLAMP := by rw [hU]; decide
    have hw : wrapTexCoord U t = t - ⌊t⌋ := by simp only [wrapTexCoord, hne, if_false]
    refine ⟨hw, ?_⟩
    have hfl : ⌊t⌋ = 1 := by
      rw [Int.floor_eq_iff]
      constructor
      · exact_mod_cast le_of_lt ht1
      · push_cast
        linarith
    rw [hw, hfl, texelCoord, hsize]
    push_cast
    have h0 : 0 ≤ (t - 1) * ((size : ℚ) - 1) := mul_nonneg (by linarith) hsq
    have h1 : (t - 1) * ((size : ℚ) - 1) < 4294967296 := by nlinarith
    exact toUint32_of_nat_floor _ h0 h1
  · intro rasterizer u v texel hlt hcell
    have hidx : u32 (u32 (v * rasterizer.texture.width) + u) = v * rasterizer.texture.width + u := by
      unfold u32
      omega
    simp only [SampleTexture, hidx, hlt, if_true, load, hcell, bind, Except.bind, pure,
      Except.pure]

/-- Witness of C15: the coordinate `5/4` on a texture of 5 columns gives the column 4 when
clamped and the column 1 when repeated. -/
theorem texture_wrap_witness :
    texelCoord (wrapTexCoord { identityUniforms with texCoordWrap := TEX_COORD_CLAMP } (5 / 4)) 5
      = 5 - 1 ∧
    texelCoord (wrapTexCoord identityUniforms (5 / 4)) 5
      = ⌊((5 / 4 : ℚ) - 1) * (((5 : ℕ) : ℚ) - 1)⌋.toNat :=
  ⟨((texture_wrap { identityUniforms with texCoordWrap := TEX_COORD_CLAMP } (5 / 4) 5
      (by norm_num) (by norm_num) (by decide) (by decide)).1 rfl).2,
    ((texture_wrap identityUniforms (5 / 4) 5 (by norm_num) (by norm_num) (by decide)
      (by decide)).2.1 rfl).2⟩

/-! ## C16: the triangles of the sphere -/

theorem AddTriangle_count (m : Mesh) (a b c : Vertex)
    (hroom : m.vertexCount + 3 ≤ m.vertices.length) (hlen : m.vertices.length < 4294967296) :
    ∃ m', UtilMesh.AddTriangle m a b c = .ok m' ∧ m'.vertexCount = m.vertexCount + 3 ∧
      m'.vertices.length = m.vertices.length ∧ m'.isTexturable = m.isTexturable := by
  refine ⟨_, AddTriangle_ok m a b c hroom hlen, rfl, ?_, rfl⟩
  simp only [List.length_append, List.length_take, List.length_cons, List.length_drop]
  omega

theorem sphereSlices_count (sin cos inversesqrt : ℚ → ℚ) (color : Vec3)
    (stackCount slices p : Nat) (phi1 phi2 : ℚ) (rounds : Nat) :
    ∀ (t : Nat) (mesh : Mesh),
      mesh.vertexCount + sliceVertices stackCount p * rounds ≤ mesh.vertices.length →
      mesh.vertices.length < 4294967296 →
      ∃ m', UtilMesh.sphereSlices sin cos inversesqrt color stackCount slices p phi1 phi2
          rounds t mesh = .ok m' ∧
        m'.vertexCount = mesh.vertexCount + sliceVertices stackCount p * rounds ∧
        m'.vertices.length = mesh.vertices.length ∧ m'.isTexturable = mesh.isTexturable := by
  induction rounds with
  | zero =>
    intro t mesh _ _
    exact ⟨mesh, rfl, by simp, rfl, rfl⟩
  | succ r ih =>
    intro t mesh hroom hlen
    rw [Nat.mul_succ] at hroom
    rw [Nat.mul_succ]
    by_cases h0 : p = 0
    · have hk : sliceVertices stackCount p = 3 := by simp [sliceVertices, h0]
      rw [hk] at hroom ⊢
      simp only [UtilMesh.sphereSlices, h0, if_true, bind, Except.bind]
      obtain ⟨m1, e1, c1, l1, t1⟩ := AddTriangle_count mesh _ _ _ (by omega) hlen
      rw [e1]
      obtain ⟨m', e', c', l', t'⟩ := ih (t + 1) m1 (by rw [hk]; omega) (by omega)
      simp only [h0] at e'
      exact ⟨m', e', by rw [c', hk]; omega, by omega, by rw [t', t1]⟩
    · by_cases h1 : u32 (p + 1) = stackCount
      · have hk : sliceVertices stackCount p = 3 := by simp [sliceVertices, h0, h1]
        rw [hk] at hroom ⊢
        simp only [UtilMesh.sphereSlices, h0, h1, if_true, if_false, bind, Except.bind]
        obtain ⟨m1, e1, c1, l1, t1⟩ := AddTriangle_count mesh _ _ _ (by omega) hlen
        rw [e1]
        obtain ⟨m', e', c', l', t'⟩ := ih (t + 1) m1 (by rw [hk]; omega) (by omega)
        exact ⟨m', e', by rw [c', hk]; omega, by omega, by rw [t', t1]⟩
      · have hk : sliceVertices stackCount p = 6 := by simp [sliceVertices, h0, h1]
        rw [hk] at hroom ⊢
        simp only [UtilMesh.sphereSlices, h0, h1, if_false, bind, Except.bind]
        obtain ⟨m1, e1, c1, l1, t1⟩ := AddTriangle_count mesh _ _ _ (by omega) hlen
        rw [e1]
        simp only []
        obtain ⟨m2, e2, c2, l2, t2⟩ := AddTriangle_count m1 _ _ _ (by omega) (by omega)
        rw [e2]
        obtain ⟨m', e', c', l', t'⟩ := ih (t + 1) m2 (by rw [hk]; omega) (by omega)
        exact ⟨m', e', by rw [c', hk]; omega, by omega, by rw [t', t2, t1]⟩

/-- The stacks `p, .., p + rounds` of a sphere of `n` subdivisions, the last of which is the
last stack of the sphere, fill what is left of the buffer. -/
theorem sphereStacks_tail (sin cos inversesqrt : ℚ → ℚ) (color : Vec3) (n : Nat)
    (hn : n < 4294967296) (rounds : Nat) :
    ∀ (p : Nat) (mesh : Mesh), 1 ≤ p → p + rounds + 1 = n →
      mesh.vertexCount + 6 * n * rounds + 3 * n = mesh.vertices.length →
      mesh.vertices.length < 4294967296 →
      ∃ m', UtilMesh.sphereStacks sin cos inversesqrt color n n (rounds + 1) p mesh = .ok m' ∧
        m'.vertexCount = mesh.vertices.length ∧ m'.vertices.length = mesh.vertices.length ∧
        m'.isTexturable = mesh.isTexturable := by
  induction rounds with
  | zero =>
    intro p mesh hp hpn hroom hlen
    have hu : u32 (p + 1) = n := by unfold u32; omega
    have hk : sliceVertices n p = 3 := by
      have : p ≠ 0 := by omega
      simp [sliceVertices, this, hu]
    obtain ⟨m1, e1, c1, l1, t1⟩ := sphereSlices_count sin cos inversesqrt color n n p
      (((p : ℚ) / (n : ℚ)) * PI) ((((p + 1 : Nat) : ℚ) / (n : ℚ)) * PI) n 0 mesh
      (by rw [hk]; omega) hlen
    rw [hk] at c1
    refine ⟨m1, ?_, by omega, l1, t1⟩
    simp only [UtilMesh.sphereStacks, bind, Except.bind, e1, pure, Except.pure]
  | succ r ih =>
    intro p mesh hp hpn hroom hlen
    rw [Nat.mul_succ] at hroom
    have hu : u32 (p + 1) ≠ n := by unfold u32; omega
    have hk : sliceVertices n p = 6 := by
      have : p ≠ 0 := by omega
      simp [sliceVertices, this, hu]
    obtain ⟨m1, e1, c1, l1, t1⟩ := sphereSlices_count sin cos inversesqrt color n n p
      (((p : ℚ) / (n : ℚ)) * PI) ((((p + 1 : Nat) : ℚ) / (n : ℚ)) * PI) n 0 mesh
      (by rw [hk]; omega) hlen
    rw [hk] at c1
    obtain ⟨m', e', c', l', t'⟩ := ih (p + 1) m1 (by omega) (by omega) (by omega) (by omega)
    refine ⟨m', ?_, by omega, by omega, by rw [t', t1]⟩
    rw [UtilMesh.sphereStacks]
    simp only [bind, Except.bind, e1]
    exact e'

theorem sphereStacks_succ (sin cos inversesqrt : ℚ → ℚ) (color : Vec3) (stackCount slices : Nat)
    (rounds p : Nat) (mesh : Mesh) :
    UtilMesh.sphereStacks sin cos inversesqrt color stackCount slices (rounds + 1) p mesh =
      (UtilMesh.sphereSlices sin cos inversesqrt color stackCount slices p
        (((p : ℚ) / (stackCount : ℚ)) * PI) ((((p + 1 : Nat) : ℚ) / (stackCount : ℚ)) * PI)
        slices 0 mesh >>= fun mesh =>
          UtilMesh.sphereStacks sin cos inversesqrt color stackCount slices rounds (p + 1) mesh) := by
  rw [UtilMesh.sphereStacks]

theorem sphereCells_eq (m : Nat) (hN : 3 * (2 * (m + 2) ^ 2 - 2 * (m + 2)) < 4294967296) :
    UtilMesh.sphereCells (m + 2) (m + 2) = 3 * (2 * (m + 2) ^ 2 - 2 * (m + 2)) ∧
      3 * (2 * (m + 2) ^ 2 - 2 * (m + 2)) = 3 * (m + 2) + 6 * (m + 2) * m + 3 * (m + 2) := by
  have e1 : m * (m + 2) = m * m + 2 * m := by ring
  have e2 : (m + 2) ^ 2 = m * m + 4 * m + 4 := by ring
  have e3 : 6 * (m + 2) * m = 6 * (m * m) + 12 * m := by ring
  rw [e2] at hN ⊢
  have ha : u32 (m + 2 + 4294967294) = m := by unfold u32; omega
  have hb : u32 (m * (m + 2)) = m * m + 2 * m := by unfold u32; omega
  unfold UtilMesh.sphereCells
  rw [ha, hb, e3]
  unfold u32
  constructor <;> omega

/-- Counterexample to C16: for `n = 1` the buffer is allocated for 0 vertices
(`stacks - 2` wraps) while the loop adds a triangle, a store outside the buffer; and for
`n = 26756` the buffer is allocated for 173384 vertices, not for `3 * (2n^2 - 2n)`. -/
theorem MakeUVSphere_one_subdivision :
    UtilMesh.MakeUVSphere (fun q => q) (fun q => q) (fun q => q) 1 ⟨1, 0, 0⟩
      = .error .outOfBounds ∧
    UtilMesh.sphereCells 1 1 = 0 ∧
    UtilMesh.sphereCells 26756 26756 = 173384 ∧
    3 * (2 * 26756 ^ 2 - 2 * 26756) = 4295140680 := by
  refine ⟨?_, by decide, by decide, by decide⟩
  have h : UtilMesh.sphereCells 1 1 = 0 := by decide
  simp only [UtilMesh.MakeUVSphere, h, List.replicate, UtilMesh.sphereStacks,
    UtilMesh.sphereSlices, UtilMesh.AddTriangle, store, List.length_nil, if_true, bind,
    Except.bind]
  rfl

/-- C16, amended: for every subdivision count `n` other than 1 with
`3 * (2n^2 - 2n) < 2^32`, `MakeUVSphere(n, color)` returns a mesh of exactly `2n^2 - 2n`
triangles, `vertexCount = 3 * (2n^2 - 2n)`, which is exactly the number of vertices its
buffer is allocated for: no store leaves the buffer. -/
theorem MakeUVSphere_triangles (sin cos inversesqrt : ℚ → ℚ) (n : Nat) (color : Vec3)
    (h1 : n ≠ 1) (hN : 3 * (2 * n ^ 2 - 2 * n) < 4294967296) :
    ∃ m, UtilMesh.MakeUVSphere sin cos inversesqrt n color = .ok m ∧
      m.vertexCount = 3 * (2 * n ^ 2 - 2 * n) ∧
      m.vertices.length = UtilMesh.sphereCells n n ∧
      UtilMesh.sphereCells n n = 3 * (2 * n ^ 2 - 2 * n) ∧ m.isTexturable = false := by
  match n, h1, hN with
  | 0, _, _ =>
    exact ⟨_, rfl, rfl, by simp [UtilMesh.sphereCells, u32], by decide, rfl⟩
  | 1, h, _ => exact absurd rfl h
  | m + 2, _, hN =>
    obtain ⟨hcells, hsum⟩ := sphereCells_eq m hN
    have hm : m + 2 < 4294967296 := by
      have e2 : (m + 2) ^ 2 = m * m + 4 * m + 4 := by ring
      rw [e2] at hN
      omega
    have hk : sliceVertices (m + 2) 0 = 3 := by simp [sliceVertices]
    obtain ⟨m1, e1, c1, l1, t1⟩ := sphereSlices_count sin cos inversesqrt color (m + 2) (m + 2) 0
      (((0 : Nat) : ℚ) / ((m + 2 : Nat) : ℚ) * PI) ((((0 + 1 : Nat) : ℚ) / ((m + 2 : Nat) : ℚ)) * PI)
      (m + 2) 0
      ⟨List.replicate (UtilMesh.sphereCells (m + 2) (m + 2)) Vertex.zero, 0, false⟩
      (by rw [hk]; simp only [List.length_replicate]; omega)
      (by simp only [List.length_replicate]; omega)
    rw [hk] at c1
    have c1' : m1.vertexCount = 3 * (m + 2) := by
      rw [c1]
      simp only [Nat.zero_add]
    have l1' : m1.vertices.length = UtilMesh.sphereCells (m + 2) (m + 2) := by
      rw [l1]
      simp only [List.length_replicate]
    have t1' : m1.isTexturable = false := by
      rw [t1]
    obtain ⟨m', e', c', l', t'⟩ := sphereStacks_tail sin cos inversesqrt color (m + 2) hm m 1 m1
      (le_refl 1) (by omega) (by rw [c1', l1']; omega) (by omega)
    have hvc : m'.vertexCount = 3 * (2 * (m + 2) ^ 2 - 2 * (m + 2)) := by omega
    have hvl : m'.vertices.length = UtilMesh.sphereCells (m + 2) (m + 2) := by omega
    refine ⟨m', ?_, hvc, hvl, hcells, by rw [t', t1']⟩
    have hstep := sphereStacks_succ sin cos inversesqrt color (m + 2) (m + 2) (m + 1) 0
      ⟨List.replicate (UtilMesh.sphereCells (m + 2) (m + 2)) Vertex.zero, 0, false⟩
    rw [e1] at hstep
    exact hstep.trans e'

/-- Witness of C16: for `n = 20`, the subdivisions that `Renderer::Init` sets, the sphere has
760 triangles. -/
theorem MakeUVSphere_triangles_witness :
    ∃ m, UtilMesh.MakeUVSphere (fun q => q) (fun q => q) (fun q => q) 20 ⟨0, 0, 1⟩ = .ok m ∧
      m.vertexCount = 3 * (2 * 20 ^ 2 - 2 * 20) ∧
      m.vertices.length = UtilMesh.sphereCells 20 20 ∧
      UtilMesh.sphereCells 20 20 = 3 * (2 * 20 ^ 2 - 2 * 20) ∧ m.isTexturable = false :=
  MakeUVSphere_triangles (fun q => q) (fun q => q) (fun q => q) 20 ⟨0, 0, 1⟩ (by decide)
    (by norm_num)

/-! ## C17: the cube -/

theorem MakeCubeCentered_triangleNormals (e : ℚ) :
    triangleNormals (UtilMesh.MakeCubeCentered e).vertices =
      [⟨0, 0, 1⟩, ⟨0, 0, 1⟩, ⟨0, 1, 0⟩, ⟨0, 1, 0⟩, ⟨0, 0, -1⟩, ⟨0, 0, -1⟩,
       ⟨0, -1, 0⟩, ⟨0, -1, 0⟩, ⟨1, 0, 0⟩, ⟨1, 0, 0⟩, ⟨-1, 0, 0⟩, ⟨-1, 0, 0⟩] := rfl

/-- C17: for every edge size `e`, `MakeCubeCentered(e)` is a texturable mesh of exactly 36
vertices; the three vertices of each triangle `k` (the vertices `3k`, `3k + 1`, `3k + 2`)
carry the same normal, which has one component `+1` or `-1` and the other two 0; each of the
six axis directions is the normal of exactly two triangles; and each of the coordinates `x`,
`y`, `z` of every position is `e/2` or `-e/2` (with `w = 1`). -/
theorem MakeCubeCentered_faces (e : ℚ) :
    (UtilMesh.MakeCubeCentered e).isTexturable = true ∧
    (UtilMesh.MakeCubeCentered e).vertexCount = 36 ∧
    (UtilMesh.MakeCubeCentered e).vertices.length = 36 ∧
    (∀ k, k < 12 → ∃ v0 v1 v2,
      (UtilMesh.MakeCubeCentered e).vertices[3 * k]? = some v0 ∧
      (UtilMesh.MakeCubeCentered e).vertices[3 * k + 1]? = some v1 ∧
      (UtilMesh.MakeCubeCentered e).vertices[3 * k + 2]? = some v2 ∧
      v0.normal = v1.normal ∧ v1.normal = v2.normal ∧
      (((v0.normal.x = (1 : ℚ) ∨ v0.normal.x = (-1 : ℚ)) ∧ v0.normal.y = 0 ∧ v0.normal.z = 0) ∨
        (v0.normal.x = 0 ∧ (v0.normal.y = (1 : ℚ) ∨ v0.normal.y = (-1 : ℚ)) ∧ v0.normal.z = 0) ∨
        (v0.normal.x = 0 ∧ v0.normal.y = 0 ∧
          (v0.normal.z = (1 : ℚ) ∨ v0.normal.z = (-1 : ℚ))))) ∧
    (∀ a ∈ axisDirections, (triangleNormals (UtilMesh.MakeCubeCentered e).vertices).count a = 2) ∧
    (∀ v ∈ (UtilMesh.MakeCubeCentered e).vertices,
      (v.position.x = e / 2 ∨ v.position.x = -e / 2) ∧
      (v.position.y = e / 2 ∨ v.position.y = -e / 2) ∧
      (v.position.z = e / 2 ∨ v.position.z = -e / 2) ∧ v.position.w = 1) := by
  refine ⟨rfl, rfl, rfl, ?_, ?_, ?_⟩
  · intro k hk
    interval_cases k <;> simp [UtilMesh.MakeCubeCentered, Vertex.zero]
  · rw [MakeCubeCentered_triangleNormals]
    intro a ha
    simp only [axisDirections, List.mem_cons, List.mem_singleton, List.not_mem_nil,
      or_false] at ha
    rcases ha with rfl | rfl | rfl | rfl | rfl | rfl <;>
      norm_num [List.count_cons]
  · simp only [UtilMesh.MakeCubeCentered, List.forall_mem_cons]
    norm_num [Vertex.zero]

/-! ## C18: the mesh of the normals -/

theorem normalLines_ok (original : Mesh) (normalLength : ℚ) (rounds : Nat) :
    ∀ (i : Nat) (normalMesh : Mesh), i + rounds ≤ original.vertices.length →
      normalMesh.vertexCount = 2 * i → 2 * (i + rounds) ≤ normalMesh.vertices.length →
      normalMesh.vertices.length < 4294967296 →
      (∀ j v, j < i → original.vertices[j]? = some v →
        normalMesh.vertices[2 * j]? = some (lineStart v) ∧
        normalMesh.vertices[2 * j + 1]? = some (lineEnd v normalLength)) →
      ∃ m, UtilMesh.normalLines original normalLength rounds i normalMesh = .ok m ∧
        m.vertexCount = 2 * (i + rounds) ∧ m.vertices.length = normalMesh.vertices.length ∧
        m.isTexturable = normalMesh.isTexturable ∧
        ∀ j v, j < i + rounds → original.vertices[j]? = some v →
          m.vertices[2 * j]? = some (lineStart v) ∧
          m.vertices[2 * j + 1]? = some (lineEnd v normalLength) := by
  induction rounds with
  | zero =>
    intro i normalMesh _ hc _ _ hinv
    exact ⟨normalMesh, rfl, hc, rfl, rfl, hinv⟩
  | succ r ih =>
    intro i normalMesh hi hc hroom hlen hinv
    have hil : i < original.vertices.length := by omega
    have hload : load original.vertices i = .ok original.vertices[i] :=
      load_eq_ok _ _ _ (List.getElem?_eq_getElem hil)
    have h0 : 2 * i < normalMesh.vertices.length := by omega
    have h1 : 2 * i + 1 < (normalMesh.vertices.set (2 * i) (lineStart original.vertices[i])).length := by
      rw [List.length_set]; omega
    have u1 : u32 (2 * i + 1) = 2 * i + 1 := Nat.mod_eq_of_lt (by omega)
    have u2 : u32 (2 * i + 1 + 1) = 2 * (i + 1) := by
      rw [show 2 * i + 1 + 1 = 2 * (i + 1) by ring]
      exact Nat.mod_eq_of_lt (by omega)
    obtain ⟨m, hm, c, l, t, hcells⟩ := ih (i + 1)
      { normalMesh with
        vertices := (normalMesh.vertices.set (2 * i) (lineStart original.vertices[i])).set
          (2 * i + 1) (lineEnd original.vertices[i] normalLength),
        vertexCount := 2 * (i + 1) }
      (by omega) rfl (by simp only [List.length_set]; omega)
      (by simp only [List.length_set]; omega)
      (by
        intro j v hj hv
        by_cases hji : j = i
        · subst hji
          rw [List.getElem?_eq_getElem hil] at hv
          cases hv
          constructor
          · rw [List.getElem?_set_ne (by omega), List.getElem?_set_self h0]
          · rw [List.getElem?_set_self h1]
        · obtain ⟨a, b⟩ := hinv j v (by omega) hv
          constructor
          · rw [List.getElem?_set_ne (by omega), List.getElem?_set_ne (by omega)]
            exact a
          · rw [List.getElem?_set_ne (by omega), List.getElem?_set_ne (by omega)]
            exact b)
    simp only [List.length_set] at l
    refine ⟨m, ?_, by omega, l, t, fun j v hj hv => hcells j v (by omega) hv⟩
    rw [UtilMesh.normalLines]
    simp only [hload, bind, Except.bind, hc, store_eq_ok _ _ _ h0, u1, u2]
    rw [show (normalMesh.vertices.set (2 * i)
        { Vertex.zero with position := original.vertices[i].position, vsOutColor := ⟨1, 1, 0⟩ })
        = normalMesh.vertices.set (2 * i) (lineStart original.vertices[i]) from rfl,
      store_eq_ok _ _ _ h1]
    exact hm

theorem MakeNormalMesh_ok (original : Mesh) (normalLength : ℚ)
    (hlen : original.vertexCount ≤ original.vertices.length)
    (hN : 2 * original.vertexCount < 4294967296) :
    ∃ m, UtilMesh.MakeNormalMesh original normalLength = .ok m ∧
      m.vertexCount = 2 * original.vertexCount ∧
      m.vertices.length = 2 * original.vertexCount ∧ m.isTexturable = false ∧
      ∀ i v, i < original.vertexCount → original.vertices[i]? = some v →
        m.vertices[2 * i]? = some (lineStart v) ∧
        m.vertices[2 * i + 1]? = some (lineEnd v normalLength) := by
  have hu : u32 (2 * original.vertexCount) = 2 * original.vertexCount := Nat.mod_eq_of_lt hN
  obtain ⟨m, hm, c, l, t, hcells⟩ := normalLines_ok original normalLength original.vertexCount 0
    { vertexCount := 0,
      vertices := List.replicate (u32 (2 * original.vertexCount)) Vertex.zero,
      isTexturable := false }
    (by omega) rfl (by simp only [List.length_replicate, hu]; omega)
    (by simp only [List.length_replicate, hu]; omega)
    (fun j v hj _ => absurd hj (Nat.not_lt_zero j))
  simp only [List.length_replicate, hu] at l
  exact ⟨m, hm, by omega, l, t, fun i v hi hv => hcells i v (by omega) hv⟩

/-- Counterexample to C18: for a vertex at the origin with the stored normal `(2, 0, 0)` and
the length 1, the line ends at `(2, 0, 0)`, at distance 2 from its start, and not at
`position + normalize(normal) * 1 = (1, 0, 0)` (with the inverse square root `1/2` of the
squared length 4 of the normal). -/
theorem MakeNormalMesh_not_normalized :
    ∃ m last, UtilMesh.MakeNormalMesh
        ⟨[⟨⟨0, 0, 0, 1⟩, ⟨0, 0⟩, ⟨2, 0, 0⟩, ⟨1, 0, 0⟩, ⟨0, 0, 0⟩, ⟨0, 0, 0⟩⟩], 1, false⟩ 1 = .ok m ∧
      m.vertices[1]? = some last ∧ last.position = ⟨2, 0, 0, 1⟩ ∧
      (⟨0, 0, 0, 1⟩ : Vec4) +
        (1 : ℚ) * ((⟨2, 0, 0⟩ : Vec3).normalize (fun _ => 1 / 2)).withW 0 = ⟨1, 0, 0, 1⟩ := by
  obtain ⟨m, hm, -, -, -, hcells⟩ := MakeNormalMesh_ok
    ⟨[⟨⟨0, 0, 0, 1⟩, ⟨0, 0⟩, ⟨2, 0, 0⟩, ⟨1, 0, 0⟩, ⟨0, 0, 0⟩, ⟨0, 0, 0⟩⟩], 1, false⟩ 1
    (by decide) (by decide)
  refine ⟨m, _, hm, (hcells 0 _ (by decide) rfl).2, ?_, ?_⟩
  · simp [lineEnd, Vec3.withW, vec4_add_def, vec4_smul_def]
  · simp [Vec3.normalize, Vec3.dot, Vec3.withW, vec3_smul_def, vec4_add_def, vec4_smul_def]

/-- C18, amended: for every source mesh with `N` vertices, `2 * N < 2^32`, in a buffer of at
least `N` cells, and every length `L`, `MakeNormalMesh(mesh, L)` returns a line mesh that is
not texturable, with exactly `2N` vertices, in which line `i` starts at
`vertices[i].position` and ends at `vertices[i].position + vec4(vertices[i].normal, 0) * L`:
the stored normal is not normalised. -/
theorem MakeNormalMesh_lines (original : Mesh) (normalLength : ℚ)
    (hlen : original.vertexCount ≤ original.vertices.length)
    (hN : 2 * original.vertexCount < 4294967296) :
    ∃ m, UtilMesh.MakeNormalMesh original normalLength = .ok m ∧
      m.vertexCount = 2 * original.vertexCount ∧ m.isTexturable = false ∧
      ∀ i v, i < original.vertexCount → original.vertices[i]? = some v →
        ∃ first last, m.vertices[2 * i]? = some first ∧ m.vertices[2 * i + 1]? = some last ∧
          first.position = v.position ∧
          last.position = v.position + normalLength * v.normal.withW 0 := by
  obtain ⟨m, hm, c, -, t, hcells⟩ := MakeNormalMesh_ok original normalLength hlen hN
  exact ⟨m, hm, c, t, fun i v hi hv =>
    ⟨_, _, (hcells i v hi hv).1, (hcells i v hi hv).2, rfl, rfl⟩⟩

/-- Witness of C18: the mesh of the normals of a triangle, with the length 2, has 6
vertices, and the line of the first vertex goes from the origin to `(0, 0, 2)`. -/
theorem MakeNormalMesh_lines_witness :
    ∃ m first last, UtilMesh.MakeNormalMesh
        (triangleMesh (sampleVertex 0 0 0) (sampleVertex 1 0 0) (sampleVertex 0 1 0)) 2 = .ok m ∧
      m.vertexCount = 6 ∧ m.vertices[0]? = some first ∧ m.vertices[1]? = some last ∧
      first.position = ⟨0, 0, 0, 1⟩ ∧ last.position = ⟨0, 0, 2, 1⟩ := by
  obtain ⟨m, hm, c, -, h⟩ := MakeNormalMesh_lines
    (triangleMesh (sampleVertex 0 0 0) (sampleVertex 1 0 0) (sampleVertex 0 1 0)) 2
    (by decide) (by decide)
  obtain ⟨first, last, h0, h1, p0, p1⟩ := h 0 (sampleVertex 0 0 0) (by decide) rfl
  refine ⟨m, first, last, hm, c, h0, h1, p0, ?_⟩
  rw [p1]
  simp [sampleVertex, Vec3.withW, vec4_add_def, vec4_smul_def]

/-! ## C19: a vertex count that is not a multiple of 3 -/

theorem store_noabort {α : Type} (buf : List α) (i : Nat) (v : α) :
    store buf i v ≠ .error .abort := by
  unfold store
  split_ifs <;> simp

theorem AddTriangle_noabort (m : Mesh) (a b c : Vertex) :
    UtilMesh.AddTriangle m a b c ≠ .error .abort := by
  unfold UtilMesh.AddTriangle
  cases h0 : store m.vertices m.vertexCount a with
  | error e =>
    simp only [bind, Except.bind]
    intro h
    injection h with h
    subst h
    exact store_noabort _ _ _ h0
  | ok b0 =>
    simp only [bind, Except.bind]
    cases h1 : store b0 (u32 (m.vertexCount + 1)) b with
    | error e =>
      simp only []
      intro h
      injection h with h
      subst h
      exact store_noabort _ _ _ h1
    | ok b1 =>
      simp only []
      cases h2 : store b1 (u32 (u32 (m.vertexCount + 1) + 1)) c with
      | error e =>
        simp only []
        intro h
        injection h with h
        subst h
        exact store_noabort _ _ _ h2
      | ok b2 => simp [pure, Except.pure]

theorem AddTriangle_twice_noabort (m : Mesh) (a b c d e f : Vertex) :
    (UtilMesh.AddTriangle m a b c >>= fun m1 => UtilMesh.AddTriangle m1 d e f)
      ≠ .error .abort := by
  cases h : UtilMesh.AddTriangle m a b c with
  | error x =>
    have := AddTriangle_noabort m a b c
    rw [h] at this
    simpa [bind, Except.bind] using this
  | ok m1 => exact AddTriangle_noabort m1 d e f

theorem ClipTriangle_noabort (first : List Vertex) (m : Mesh) (zn : ℚ) :
    ClipTriangle first m zn ≠ .error .abort := by
  match first with
  | [] => simp [ClipTriangle, load, bind, Except.bind]
  | [_] => simp [ClipTriangle, load, bind, Except.bind]
  | [_, _] => simp [ClipTriangle, load, bind, Except.bind]
  | v0 :: v1 :: v2 :: rest =>
    by_cases h0 : v0.position.z ≤ zn <;> by_cases h1 : v1.position.z ≤ zn <;>
      by_cases h2 : v2.position.z ≤ zn
    · rw [ClipTriangle_inside_eq _ _ _ _ _ _ h0 h1 h2]
      exact AddTriangle_noabort _ _ _ _
    · rw [ClipTriangle_in_in_out _ _ _ _ _ _ h0 h1 (not_le.mp h2)]
      exact AddTriangle_twice_noabort _ _ _ _ _ _ _
    · rw [ClipTriangle_in_out_in _ _ _ _ _ _ h0 (not_le.mp h1) h2]
      exact AddTriangle_twice_noabort _ _ _ _ _ _ _
    · rw [ClipTriangle_in_out_out _ _ _ _ _ _ h0 (not_le.mp h1) (not_le.mp h2)]
      exact AddTriangle_noabort _ _ _ _
    · rw [ClipTriangle_out_in_in _ _ _ _ _ _ (not_le.mp h0) h1 h2]
      exact AddTriangle_twice_noabort _ _ _ _ _ _ _
    · rw [ClipTriangle_out_in_out _ _ _ _ _ _ (not_le.mp h0) h1 (not_le.mp h2)]
      exact AddTriangle_noabort _ _ _ _
    · rw [ClipTriangle_out_out_in _ _ _ _ _ _ (not_le.mp h0) (not_le.mp h1) h2]
      exact AddTriangle_noabort _ _ _ _
    · rw [ClipTriangle_outside_eq _ _ _ _ _ _ (not_le.mp h0) (not_le.mp h1) (not_le.mp h2)]
      simp

theorem ClipTriangle_needs_three (first : List Vertex) (m m' : Mesh) (zn : ℚ)
    (h : ClipTriangle first m zn = .ok m') : 3 ≤ first.length := by
  match first, h with
  | [], h => simp [ClipTriangle, load, bind, Except.bind] at h
  | [_], h => simp [ClipTriangle, load, bind, Except.bind] at h
  | [_, _], h => simp [ClipTriangle, load, bind, Except.bind] at h
  | _ :: _ :: _ :: rest, _ => simp

/-- The loop over the triangles of `ClipToNear` on fewer than `3 * rounds` vertices loads a
vertex outside the buffer. -/
theorem clipTriangles_short (zNear : ℚ) (rounds : Nat) :
    ∀ (first : List Vertex) (clipped : Mesh), first.length < 3 * rounds →
      clipTriangles zNear rounds first clipped = .error .outOfBounds := by
  induction rounds with
  | zero =>
    intro first clipped h
    omega
  | succ k ih =>
    intro first clipped h
    cases hC : ClipTriangle first clipped zNear with
    | error e =>
      rw [clipTriangles_fault _ _ _ _ e hC]
      cases e with
      | outOfBounds => rfl
      | abort => exact absurd hC (ClipTriangle_noabort _ _ _)
    | ok m' =>
      have h3 := ClipTriangle_needs_three _ _ _ _ hC
      have := ih (first.drop 3) m' (by rw [List.length_drop]; omega)
      simp only [clipTriangles, hC, bind, Except.bind]
      exact this

theorem DrawTriangleMesh_short (inversesqrt : ℚ → ℚ) (U : Uniforms) (r : Rasterizer)
    (original : Mesh) (h3 : original.vertexCount % 3 ≠ 0) :
    Rasterization.DrawTriangleMesh inversesqrt U r original = .error .outOfBounds := by
  by_cases hlen : original.vertexCount ≤ original.vertices.length
  · have hcopy : UtilMesh.MakeMeshCopy original = .ok
        { isTexturable := original.isTexturable, vertexCount := original.vertexCount,
          vertices := original.vertices.take original.vertexCount } := by
      simp only [UtilMesh.MakeMeshCopy, hlen, if_true, pure, Except.pure]
    have htl : original.vertexCount ≤ (original.vertices.take original.vertexCount).length := by
      rw [List.length_take]; omega
    have hclip : ClipToNear U
        { isTexturable := original.isTexturable, vertexCount := original.vertexCount,
          vertices := original.vertices.take original.vertexCount } r.zNear
        = .error .outOfBounds := by
      simp only [ClipToNear, transformPositions_ok _ _ _ htl, bind, Except.bind]
      rw [clipTriangles_short]
      simp only [List.length_append, List.length_map, List.length_take, List.length_drop]
      omega
    simp only [Rasterization.DrawTriangleMesh, hcopy, hclip, bind, Except.bind]
  · simp only [Rasterization.DrawTriangleMesh, UtilMesh.MakeMeshCopy, hlen, if_false, bind,
      Except.bind]

/-- Counterexample to C19: the draw of a mesh of 4 vertices does not end in an abort: after
the first triangle `ClipToNear` loads the vertices 4 and 5, outside the copy of the mesh. -/
theorem DrawTriangleMesh_four_vertices :
    Rasterization.DrawTriangleMesh (fun q => q) identityUniforms sampleRasterizer
        ⟨[sampleVertex 0 0 (-1), sampleVertex 1 0 (-1), sampleVertex 0 1 (-1),
          sampleVertex 1 1 (-1)], 4, false⟩ = .error .outOfBounds ∧
    Rasterization.DrawTriangleMesh (fun q => q) identityUniforms sampleRasterizer
        ⟨[sampleVertex 0 0 (-1), sampleVertex 1 0 (-1), sampleVertex 0 1 (-1),
          sampleVertex 1 1 (-1)], 4, false⟩ ≠ .error .abort := by
  have h := DrawTriangleMesh_short (fun q => q) identityUniforms sampleRasterizer
    ⟨[sampleVertex 0 0 (-1), sampleVertex 1 0 (-1), sampleVertex 0 1 (-1),
      sampleVertex 1 1 (-1)], 4, false⟩ (by decide)
  refine ⟨h, ?_⟩
  rw [h]
  simp

/-- C19, amended: `DrawTriangleMesh` called on a mesh whose `vertexCount` is not a multiple
of 3 makes no check and does not abort: for the trailing triangle `ClipToNear` loads vertices
beyond the copy of the mesh, undefined behaviour in the source and the fault `outOfBounds`
here; no rasterizer is returned. -/
theorem DrawTriangleMesh_unchecked (inversesqrt : ℚ → ℚ) (U : Uniforms) (r : Rasterizer)
    (original : Mesh) (h3 : original.vertexCount % 3 ≠ 0) :
    Rasterization.DrawTriangleMesh inversesqrt U r original = .error .outOfBounds ∧
      Rasterization.DrawTriangleMesh inversesqrt U r original ≠ .error .abort := by
  have h := DrawTriangleMesh_short inversesqrt U r original h3
  refine ⟨h, ?_⟩
  rw [h]
  simp

/-- Witness of C19: a mesh of 5 vertices. -/
theorem DrawTriangleMesh_unchecked_witness :
    Rasterization.DrawTriangleMesh (fun q => q) identityUniforms sampleRasterizer
        (uniformMesh 5 (sampleVertex 0 0 (-1))) = .error .outOfBounds ∧
      Rasterization.DrawTriangleMesh (fun q => q) identityUniforms sampleRasterizer
        (uniformMesh 5 (sampleVertex 0 0 (-1))) ≠ .error .abort :=
  DrawTriangleMesh_unchecked (fun q => q) identityUniforms sampleRasterizer
    (uniformMesh 5 (sampleVertex 0 0 (-1))) (by decide)

/-! ## C20: the settings under key presses -/

theorem Init_valid (context : RenderContext) (width height : Nat) :
    ValidSettings (Renderer.Init context width height) := by
  simp [ValidSettings, Renderer.Init, FLAT_SHADING, TEX_COORD_REPEAT, TEX_COORD_CLAMP]

theorem shininess_halved (x : Int)
    (h : x ∈ ([2, 4, 8, 16, 32, 64, 128, 256, 512, 1024, 2048] : List Int)) :
    (if x = 2 then x else Int.tdiv x 2) ∈
      ([2, 4, 8, 16, 32, 64, 128, 256, 512, 1024, 2048] : List Int) := by
  simp only [List.mem_cons, List.mem_singleton, List.not_mem_nil, or_false] at h
  rcases h with rfl | rfl | rfl | rfl | rfl | rfl | rfl | rfl | rfl | rfl | rfl <;> decide

theorem shininess_doubled (x : Int)
    (h : x ∈ ([2, 4, 8, 16, 32, 64, 128, 256, 512, 1024, 2048] : List Int)) :
    (if x = 2 <<< 10 then x else s32 (x * 2)) ∈
      ([2, 4, 8, 16, 32, 64, 128, 256, 512, 1024, 2048] : List Int) := by
  simp only [List.mem_cons, List.mem_singleton, List.not_mem_nil, or_false] at h
  rcases h with rfl | rfl | rfl | rfl | rfl | rfl | rfl | rfl | rfl | rfl | rfl <;> decide

theorem s32_eq (x : Int) (h0 : -2147483648 ≤ x) (h1 : x < 2147483648) : s32 x = x := by
  unfold s32
  omega

theorem subdivisions_lowered (x : Int) (h0 : 5 ≤ x) (h1 : x ≤ 150) (h5 : x % 5 = 0) :
    5 ≤ (if x = 5 then x else s32 (x - 5)) ∧ (if x = 5 then x else s32 (x - 5)) ≤ 150 ∧
      (if x = 5 then x else s32 (x - 5)) % 5 = 0 := by
  rw [s32_eq (x - 5) (by omega) (by omega)]
  by_cases h : x = 5
  · rw [if_pos h]
    omega
  · rw [if_neg h]
    omega

theorem subdivisions_raised (x : Int) (h0 : 5 ≤ x) (h1 : x ≤ 150) (h5 : x % 5 = 0) :
    5 ≤ (if x = 150 then x else s32 (x + 5)) ∧ (if x = 150 then x else s32 (x + 5)) ≤ 150 ∧
      (if x = 150 then x else s32 (x + 5)) % 5 = 0 := by
  rw [s32_eq (x + 5) (by omega) (by omega)]
  by_cases h : x = 150
  · rw [if_pos h]
    omega
  · rw [if_neg h]
    omega

theorem onKeyDown_valid (key : Int) (state : Bool × RenderContext) (h : ValidSettings state.2) :
    ValidSettings (onKeyDown key state).2 := by
  obtain ⟨running, context⟩ := state
  have hv : ValidSettings context := h
  obtain ⟨hs, h0, h1, h5, hsh, hw⟩ := hv
  show ValidSettings (if key = SDLK_ESCAPE then (false, context) else _).2
  by_cases k0 : key = SDLK_ESCAPE
  · rw [if_pos k0]; exact h
  rw [if_neg k0]
  by_cases k1 : key = SDLK_UP
  · rw [if_pos k1]; exact h
  rw [if_neg k1]
  by_cases k2 : key = SDLK_DOWN
  · rw [if_pos k2]; exact h
  rw [if_neg k2]
  by_cases k3 : key = SDLK_1
  · rw [if_pos k3]
    by_cases s1 : context.shading = FLAT_SHADING
    · rw [if_pos s1]
      exact ⟨hs, h0, h1, h5, by simp, hw⟩
    rw [if_neg s1]
    by_cases s2 : context.shading = GOURAUD_SHADING
    · rw [if_pos s2]
      exact ⟨hs, h0, h1, h5, by simp, hw⟩
    rw [if_neg s2]
    by_cases s3 : context.shading = PHONG_SHADING
    · rw [if_pos s3]
      exact ⟨hs, h0, h1, h5, by simp, hw⟩
    rw [if_neg s3]
    exact h
  rw [if_neg k3]
  by_cases k4 : key = SDLK_2
  · rw [if_pos k4]
    exact ⟨shininess_halved _ hs, h0, h1, h5, hsh, hw⟩
  rw [if_neg k4]
  by_cases k5 : key = SDLK_3
  · rw [if_pos k5]
    exact ⟨shininess_doubled _ hs, h0, h1, h5, hsh, hw⟩
  rw [if_neg k5]
  by_cases k6 : key = SDLK_4
  · rw [if_pos k6]
    exact ⟨hs, (subdivisions_lowered _ h0 h1 h5).1, (subdivisions_lowered _ h0 h1 h5).2.1,
      (subdivisions_lowered _ h0 h1 h5).2.2, hsh, hw⟩
  rw [if_neg k6]
  by_cases k7 : key = SDLK_5
  · rw [if_pos k7]
    exact ⟨hs, (subdivisions_raised _ h0 h1 h5).1, (subdivisions_raised _ h0 h1 h5).2.1,
      (subdivisions_raised _ h0 h1 h5).2.2, hsh, hw⟩
  rw [if_neg k7]
  by_cases k8 : key = SDLK_7
  · rw [if_pos k8]
    refine ⟨hs, h0, h1, h5, hsh, ?_⟩
    show (if context.texCoordWrap = TEX_COORD_CLAMP then TEX_COORD_REPEAT else TEX_COORD_CLAMP)
      ∈ [TEX_COORD_CLAMP, TEX_COORD_REPEAT]
    split_ifs <;> simp
  rw [if_neg k8]
  by_cases k9 : key = SDLK_8
  · rw [if_pos k9]; exact ⟨hs, h0, h1, h5, hsh, hw⟩
  rw [if_neg k9]
  by_cases k10 : key = SDLK_s
  · rw [if_pos k10]; exact ⟨hs, h0, h1, h5, hsh, hw⟩
  rw [if_neg k10]
  exact h

theorem pressKeys_valid (keys : List Int) :
    ∀ state : Bool × RenderContext, ValidSettings state.2 →
      ValidSettings (pressKeys keys state).2 := by
  induction keys with
  | nil => intro state h; exact h
  | cons key rest ih =>
    intro state h
    exact ih (onKeyDown key state) (onKeyDown_valid key state h)

/-- C20: `Renderer::Init` sets `shading = Flat`, `shininess = 16`, `sphereSubdivisions = 20`
and `texCoordWrap = Repeat`, and after every finite sequence of `onKeyDown` key presses that
starts there the context satisfies `2 ≤ shininess ≤ 2048`, `5 ≤ sphereSubdivisions ≤ 150`,
`shading` in `{Flat, Gouraud, Phong}` and `texCoordWrap` in `{Clamp, Repeat}`. -/
theorem settings_stay_valid (context : RenderContext) (width height : Nat) (gIsRunning : Bool)
    (keys : List Int) :
    (Renderer.Init context width height).shading = FLAT_SHADING ∧
    (Renderer.Init context width height).shininess = 16 ∧
    (Renderer.Init context width height).sphereSubdivisions = 20 ∧
    (Renderer.Init context width height).texCoordWrap = TEX_COORD_REPEAT ∧
    2 ≤ (pressKeys keys (gIsRunning, Renderer.Init context width height)).2.shininess ∧
    (pressKeys keys (gIsRunning, Renderer.Init context width height)).2.shininess ≤ 2048 ∧
    5 ≤ (pressKeys keys (gIsRunning, Renderer.Init context width height)).2.sphereSubdivisions ∧
    (pressKeys keys (gIsRunning, Renderer.Init context width height)).2.sphereSubdivisions
      ≤ 150 ∧
    ((pressKeys keys (gIsRunning, Renderer.Init context width height)).2.shading
        = FLAT_SHADING ∨
      (pressKeys keys (gIsRunning, Renderer.Init context width height)).2.shading
        = GOURAUD_SHADING ∨
      (pressKeys keys (gIsRunning, Renderer.Init context width height)).2.shading
        = PHONG_SHADING) ∧
    ((pressKeys keys (gIsRunning, Renderer.Init context width height)).2.texCoordWrap
        = TEX_COORD_CLAMP ∨
      (pressKeys keys (gIsRunning, Renderer.Init context width height)).2.texCoordWrap
        = TEX_COORD_REPEAT) := by
  obtain ⟨hs, h0, h1, -, hsh, hw⟩ := pressKeys_valid keys
    (gIsRunning, Renderer.Init context width height) (Init_valid context width height)
  simp only [List.mem_cons, List.mem_singleton, List.not_mem_nil, or_false] at hs hsh hw
  refine ⟨rfl, rfl, rfl, rfl, ?_, ?_, h0, h1, hsh, hw⟩
  · rcases hs with h | h | h | h | h | h | h | h | h | h | h <;> rw [h] <;> decide
  · rcases hs with h | h | h | h | h | h | h | h | h | h | h <;> rw [h] <;> decide


/-! ## C21: barycentric weights -/

theorem EdgeFunction_sum (v0 v1 v2 : Vec4) (p : Vec2) :
    EdgeFunction v0 v1 p + EdgeFunction v1 v2 p + EdgeFunction v2 v0 p =
      EdgeFunction v0 v1 ⟨v2.x, v2.y⟩ := by
  simp only [EdgeFunction]
  ring

theorem EdgeFunction_x (v0 v1 v2 : Vec4) (p : Vec2) :
    EdgeFunction v1 v2 p * v0.x + EdgeFunction v2 v0 p * v1.x + EdgeFunction v0 v1 p * v2.x =
      EdgeFunction v0 v1 ⟨v2.x, v2.y⟩ * p.x := by
  simp only [EdgeFunction]
  ring

theorem EdgeFunction_y (v0 v1 v2 : Vec4) (p : Vec2) :
    EdgeFunction v1 v2 p * v0.y + EdgeFunction v2 v0 p * v1.y + EdgeFunction v0 v1 p * v2.y =
      EdgeFunction v0 v1 ⟨v2.x, v2.y⟩ * p.y := by
  simp only [EdgeFunction]
  ring

/-- The weights of a point that passes the inside test of a triangle of area `A ≠ 0` are not
negative and their sum is 1. -/
theorem weights_convex (culling : Bool) (e0 e1 e2 A : ℚ) (hA : A ≠ 0) (hsum : e0 + e1 + e2 = A)
    (hin : insideTest culling e0 e1 e2 = true) :
    0 ≤ e1 / A ∧ 0 ≤ e2 / A ∧ 0 ≤ e0 / A ∧ e1 / A + e2 / A + e0 / A = 1 := by
  have hs : e1 / A + e2 / A + e0 / A = 1 := by
    field_simp
    linarith
  simp only [insideTest, Bool.or_eq_true, Bool.and_eq_true, decide_eq_true_eq,
    Bool.not_eq_true'] at hin
  rcases hin with ⟨⟨h0, h1⟩, h2⟩ | ⟨⟨⟨-, h0⟩, h1⟩, h2⟩
  · have hpos : 0 < A := lt_of_le_of_ne (by linarith) (Ne.symm hA)
    exact ⟨div_nonneg h1 hpos.le, div_nonneg h2 hpos.le, div_nonneg h0 hpos.le, hs⟩
  · have hneg : A < 0 := lt_of_le_of_ne (by linarith) hA
    exact ⟨div_nonneg_of_nonpos h1 hneg.le, div_nonneg_of_nonpos h2 hneg.le,
      div_nonneg_of_nonpos h0 hneg.le, hs⟩

/-- C21: for a triangle of `RasterizeTriangles` in raster space with an `EdgeFunction` area
other than 0 and a pixel `(x, y)` that passes the inside test, the weights `w0 = e1 / area`,
`w1 = e2 / area`, `w2 = e0 / area` are the barycentric coordinates of the pixel: each is
`≥ 0`, their sum is 1, and `w0 * v0 + w1 * v1 + w2 * v2 = (x, y)` on the coordinates `x` and
`y`. -/
theorem barycentric_weights (r : Rasterizer) (isTexturable : Bool) (v0 v1 v2 : Vertex)
    (x y : Nat) (harea : (setupTriangle r isTexturable v0 v1 v2).triangleArea ≠ 0)
    (hin : insideTest r.backFaceCulling
      (EdgeFunction v0.position v1.position ⟨x, y⟩)
      (EdgeFunction v1.position v2.position ⟨x, y⟩)
      (EdgeFunction v2.position v0.position ⟨x, y⟩) = true) :
    0 ≤ EdgeFunction v1.position v2.position ⟨x, y⟩ /
        (setupTriangle r isTexturable v0 v1 v2).triangleArea ∧
    0 ≤ EdgeFunction v2.position v0.position ⟨x, y⟩ /
        (setupTriangle r isTexturable v0 v1 v2).triangleArea ∧
    0 ≤ EdgeFunction v0.position v1.position ⟨x, y⟩ /
        (setupTriangle r isTexturable v0 v1 v2).triangleArea ∧
    EdgeFunction v1.position v2.position ⟨x, y⟩ /
        (setupTriangle r isTexturable v0 v1 v2).triangleArea +
      EdgeFunction v2.position v0.position ⟨x, y⟩ /
        (setupTriangle r isTexturable v0 v1 v2).triangleArea +
      EdgeFunction v0.position v1.position ⟨x, y⟩ /
        (setupTriangle r isTexturable v0 v1 v2).triangleArea = 1 ∧
    EdgeFunction v1.position v2.position ⟨x, y⟩ /
        (setupTriangle r isTexturable v0 v1 v2).triangleArea * v0.position.x +
      EdgeFunction v2.position v0.position ⟨x, y⟩ /
        (setupTriangle r isTexturable v0 v1 v2).triangleArea * v1.position.x +
      EdgeFunction v0.position v1.position ⟨x, y⟩ /
        (setupTriangle r isTexturable v0 v1 v2).triangleArea * v2.position.x = (x : ℚ) ∧
    EdgeFunction v1.position v2.position ⟨x, y⟩ /
        (setupTriangle r isTexturable v0 v1 v2).triangleArea * v0.position.y +
      EdgeFunction v2.position v0.position ⟨x, y⟩ /
        (setupTriangle r isTexturable v0 v1 v2).triangleArea * v1.position.y +
      EdgeFunction v0.position v1.position ⟨x, y⟩ /
        (setupTriangle r isTexturable v0 v1 v2).triangleArea * v2.position.y = (y : ℚ) := by
  have hA : (setupTriangle r isTexturable v0 v1 v2).triangleArea =
      EdgeFunction v0.position v1.position ⟨v2.position.x, v2.position.y⟩ := rfl
  rw [hA] at harea ⊢
  obtain ⟨a, b, c, s⟩ := weights_convex r.backFaceCulling _ _ _ _ harea
    (EdgeFunction_sum v0.position v1.position v2.position ⟨x, y⟩) hin
  refine ⟨a, b, c, s, ?_, ?_⟩
  · have hx := EdgeFunction_x v0.position v1.position v2.position ⟨x, y⟩
    simp only at hx
    field_simp
    linarith
  · have hy := EdgeFunction_y v0.position v1.position v2.position ⟨x, y⟩
    simp only at hy
    field_simp
    linarith

/-- Witness of C21: the pixel `(1, 1)` of the triangle `(0, 0), (0, 4), (4, 0)`. -/
theorem barycentric_weights_witness :
    EdgeFunction (sampleVertex 0 4 0).position (sampleVertex 4 0 0).position
        ⟨((1 : ℕ) : ℚ), ((1 : ℕ) : ℚ)⟩ /
        (setupTriangle sampleRasterizer false (sampleVertex 0 0 0) (sampleVertex 0 4 0)
          (sampleVertex 4 0 0)).triangleArea +
      EdgeFunction (sampleVertex 4 0 0).position (sampleVertex 0 0 0).position
        ⟨((1 : ℕ) : ℚ), ((1 : ℕ) : ℚ)⟩ /
        (setupTriangle sampleRasterizer false (sampleVertex 0 0 0) (sampleVertex 0 4 0)
          (sampleVertex 4 0 0)).triangleArea +
      EdgeFunction (sampleVertex 0 0 0).position (sampleVertex 0 4 0).position
        ⟨((1 : ℕ) : ℚ), ((1 : ℕ) : ℚ)⟩ /
        (setupTriangle sampleRasterizer false (sampleVertex 0 0 0) (sampleVertex 0 4 0)
          (sampleVertex 4 0 0)).triangleArea = 1 :=
  (barycentric_weights sampleRasterizer false (sampleVertex 0 0 0) (sampleVertex 0 4 0)
    (sampleVertex 4 0 0) 1 1
    (by norm_num [setupTriangle, EdgeFunction, sampleVertex])
    (by norm_num [insideTest, EdgeFunction, sampleVertex])).2.2.2.1

/-! ## C22: the running edge values -/

/-- One pixel to the right, an edge value loses `y0 - y1`. -/
theorem EdgeFunction_right (a b : Vec4) (x y : Nat) :
    EdgeFunction a b ⟨((x + 1 : ℕ) : ℚ), (y : ℚ)⟩ = EdgeFunction a b ⟨(x : ℚ), (y : ℚ)⟩ - (a.y - b.y) := by
  simp only [EdgeFunction]
  push_cast
  ring

/-- One pixel down, an edge value gains `x0 - x1`. -/
theorem EdgeFunction_down (a b : Vec4) (x y : Nat) :
    EdgeFunction a b ⟨(x : ℚ), ((y + 1 : ℕ) : ℚ)⟩ = EdgeFunction a b ⟨(x : ℚ), (y : ℚ)⟩ + (a.x - b.x) := by
  simp only [EdgeFunction]
  push_cast
  ring

theorem rasterizeRow_direct (inversesqrt : ℚ → ℚ) (U : Uniforms) (T : TriangleSetup)
    (frameBuffer y : Nat)
    (h0 : T.e0_diffY = T.vert0.position.y - T.vert1.position.y)
    (h1 : T.e1_diffY = T.vert1.position.y - T.vert2.position.y)
    (h2 : T.e2_diffY = T.vert2.position.y - T.vert0.position.y) (rounds : Nat) :
    ∀ (x : Nat) (r : Rasterizer),
      rasterizeRow inversesqrt U T frameBuffer y rounds x
        (EdgeFunction T.vert0.position T.vert1.position ⟨x, y⟩)
        (EdgeFunction T.vert1.position T.vert2.position ⟨x, y⟩)
        (EdgeFunction T.vert2.position T.vert0.position ⟨x, y⟩) r =
      rasterizeRowDirect inversesqrt U T frameBuffer y rounds x r := by
  induction rounds with
  | zero => intro x r; rfl
  | succ n ih =>
    intro x r
    rw [rasterizeRow, rasterizeRowDirect]
    congr 1
    funext r1
    rw [h0, h1, h2, ← EdgeFunction_right, ← EdgeFunction_right, ← EdgeFunction_right]
    exact ih (x + 1) r1

theorem rasterizeRows_direct (inversesqrt : ℚ → ℚ) (U : Uniforms) (T : TriangleSetup)
    (width : Nat)
    (h0 : T.e0_diffY = T.vert0.position.y - T.vert1.position.y)
    (h1 : T.e1_diffY = T.vert1.position.y - T.vert2.position.y)
    (h2 : T.e2_diffY = T.vert2.position.y - T.vert0.position.y)
    (g0 : T.e0_diffX = T.vert0.position.x - T.vert1.position.x)
    (g1 : T.e1_diffX = T.vert1.position.x - T.vert2.position.x)
    (g2 : T.e2_diffX = T.vert2.position.x - T.vert0.position.x) (rounds : Nat) :
    ∀ (y frameBuffer : Nat) (r : Rasterizer),
      rasterizeRows inversesqrt U T width rounds y
        (EdgeFunction T.vert0.position T.vert1.position ⟨T.minX, y⟩)
        (EdgeFunction T.vert1.position T.vert2.position ⟨T.minX, y⟩)
        (EdgeFunction T.vert2.position T.vert0.position ⟨T.minX, y⟩) frameBuffer r =
      rasterizeRowsDirect inversesqrt U T width rounds y frameBuffer r := by
  induction rounds with
  | zero => intro y fb r; rfl
  | succ n ih =>
    intro y fb r
    rw [rasterizeRows, rasterizeRowsDirect, rasterizeRow_direct inversesqrt U T fb y h0 h1 h2]
    congr 1
    funext r1
    rw [g0, g1, g2, ← EdgeFunction_down, ← EdgeFunction_down, ← EdgeFunction_down]
    exact ih (y + 1) (fb + width) r1

/-- C22: the incremental edge evaluation equals the direct one. The loop of
`RasterizeTriangles` over the pixels of a triangle, which starts the three edge values at
`(minX, minY)`, subtracts `diffY` for a step to the right and adds `diffX` for a step down,
is the loop that gives every visited pixel `(x, y)`, `minX ≤ x ≤ maxX` and
`minY ≤ y ≤ maxY`, the values `EdgeFunction(v0, v1, (x, y))`, `EdgeFunction(v1, v2, (x, y))`
and `EdgeFunction(v2, v0, (x, y))`: the two return the same result for every triangle and
every rasterizer. -/
theorem incremental_edges (inversesqrt : ℚ → ℚ) (U : Uniforms) (isTexturable : Bool)
    (vert0 vert1 vert2 : Vertex) (rasterizer : Rasterizer) :
    rasterizeTriangle inversesqrt U isTexturable vert0 vert1 vert2 rasterizer =
      rasterizeTriangleDirect inversesqrt U isTexturable vert0 vert1 vert2 rasterizer := by
  unfold rasterizeTriangle rasterizeTriangleDirect
  simp only []
  split_ifs with hc
  · rfl
  · exact rasterizeRows_direct inversesqrt U
      (setupTriangle rasterizer isTexturable vert0 vert1 vert2) rasterizer.width
      rfl rfl rfl rfl rfl rfl _ _ _ rasterizer

/-! ## C23: the viewport transform and the winding -/

/-- The loop of `DrawTriangleMesh` applies `processVertex` to the vertices of the clipped
mesh. -/
theorem DrawTriangleMesh_eq (inversesqrt : ℚ → ℚ) (U : Uniforms) (rasterizer : Rasterizer)
    (original : Mesh) :
    Rasterization.DrawTriangleMesh inversesqrt U rasterizer original =
      (UtilMesh.MakeMeshCopy original >>= fun copy =>
        ClipToNear U copy rasterizer.zNear >>= fun mesh =>
          (List.range mesh.vertexCount).foldlM
            (fun vs i => do
              let vertex ← load vs i
              store vs i (processVertex inversesqrt U rasterizer vertex))
            mesh.vertices >>= fun vertices =>
              RasterizeTriangles inversesqrt U rasterizer { mesh with vertices := vertices }) :=
  rfl

theorem viewport_EdgeFunction (r : Rasterizer) (p0 p1 p2 : Vec4) :
    EdgeFunction (viewportTransform r p0) (viewportTransform r p1)
        ⟨(viewportTransform r p2).x, (viewportTransform r p2).y⟩ =
      ((r.width : ℚ) * (r.height : ℚ) / 4) * ccwArea p0 p1 p2 := by
  simp only [EdgeFunction, viewportTransform, ccwArea]
  ring

/-- C23: for a rasterizer with `width > 0` and `height > 0` and a triangle in normalized
device coordinates, the `EdgeFunction` area of its image under the viewport transform of
`DrawTriangleMesh` is `width * height / 4` times its counter-clockwise signed area
`(x1 - x0)(y2 - y0) - (y1 - y0)(x2 - x0)`; so the triangle is counter-clockwise exactly when
its raster-space area is positive, and `RasterizeTriangles` does not cull it then. -/
theorem viewport_winding (r : Rasterizer) (p0 p1 p2 : Vec4) (hw : 0 < r.width)
    (hh : 0 < r.height) :
    EdgeFunction (viewportTransform r p0) (viewportTransform r p1)
        ⟨(viewportTransform r p2).x, (viewportTransform r p2).y⟩ =
      ((r.width : ℚ) * (r.height : ℚ) / 4) * ccwArea p0 p1 p2 ∧
    (0 < ccwArea p0 p1 p2 ↔
      0 < EdgeFunction (viewportTransform r p0) (viewportTransform r p1)
        ⟨(viewportTransform r p2).x, (viewportTransform r p2).y⟩) ∧
    (0 < ccwArea p0 p1 p2 → ∀ (isTexturable : Bool) (v0 v1 v2 : Vertex),
      v0.position = viewportTransform r p0 → v1.position = viewportTransform r p1 →
      v2.position = viewportTransform r p2 →
      ¬ (r.backFaceCulling = true ∧ (setupTriangle r isTexturable v0 v1 v2).triangleArea < 0)) := by
  have hk : (0 : ℚ) < (r.width : ℚ) * (r.height : ℚ) / 4 := by
    have h1 : (0 : ℚ) < (r.width : ℚ) := by exact_mod_cast hw
    have h2 : (0 : ℚ) < (r.height : ℚ) := by exact_mod_cast hh
    positivity
  have hE := viewport_EdgeFunction r p0 p1 p2
  refine ⟨hE, ?_, ?_⟩
  · rw [hE]
    constructor
    · intro h
      exact mul_pos hk h
    · intro h
      exact (mul_pos_iff_of_pos_left hk).mp h
  · intro h isTexturable v0 v1 v2 e0 e1 e2 hcull
    have hA : (setupTriangle r isTexturable v0 v1 v2).triangleArea =
        EdgeFunction v0.position v1.position ⟨v2.position.x, v2.position.y⟩ := rfl
    rw [hA, e0, e1, e2, hE] at hcull
    have := mul_pos hk h
    linarith [hcull.2]

/-- Witness of C23: the triangle `(-1, -1), (1, -1), (-1, 1)` on the screen of 2 x 2
pixels. -/
theorem viewport_winding_witness :
    EdgeFunction (viewportTransform sampleRasterizer ⟨-1, -1, 0, 1⟩)
        (viewportTransform sampleRasterizer ⟨1, -1, 0, 1⟩)
        ⟨(viewportTransform sampleRasterizer ⟨-1, 1, 0, 1⟩).x,
          (viewportTransform sampleRasterizer ⟨-1, 1, 0, 1⟩).y⟩ =
      ((sampleRasterizer.width : ℚ) * (sampleRasterizer.height : ℚ) / 4) *
        ccwArea ⟨-1, -1, 0, 1⟩ ⟨1, -1, 0, 1⟩ ⟨-1, 1, 0, 1⟩ :=
  (viewport_winding sampleRasterizer ⟨-1, -1, 0, 1⟩ ⟨1, -1, 0, 1⟩ ⟨-1, 1, 0, 1⟩ (by decide)
    (by decide)).1

/-! ## C25 and C26: the winding of the cube and the axes -/

/-- C25: for every edge size `e`, every triangle `(v0, v1, v2)` of `MakeCubeCentered(e)`
(the vertices `3k`, `3k + 1`, `3k + 2`) has `(v1 - v0) x (v2 - v0)` equal to `e^2` times the
normal stored in its vertices, and this normal points outward:
`dot(normal, position) = e/2` at each of the three vertices. For `e > 0` the triangle is
therefore counter-clockwise seen from outside the cube. -/
theorem MakeCubeCentered_winding (e : ℚ) (k : Nat) (hk : k < 12) :
    ∃ v0 v1 v2,
      (UtilMesh.MakeCubeCentered e).vertices[3 * k]? = some v0 ∧
      (UtilMesh.MakeCubeCentered e).vertices[3 * k + 1]? = some v1 ∧
      (UtilMesh.MakeCubeCentered e).vertices[3 * k + 2]? = some v2 ∧
      geometricNormal v0 v1 v2 = e ^ 2 * v0.normal ∧
      v1.normal = v0.normal ∧ v2.normal = v0.normal ∧
      v0.normal.dot v0.position.xyz = e / 2 ∧ v1.normal.dot v1.position.xyz = e / 2 ∧
      v2.normal.dot v2.position.xyz = e / 2 := by
  interval_cases k <;>
    simp [UtilMesh.MakeCubeCentered, Vertex.zero, geometricNormal, Vec3.cross, Vec3.dot,
      Vec4.xyz, vec3_sub_def, vec3_smul_def] <;>
    ring_nf <;> simp

/-- Witness of C25: the first triangle of the cube of edge size 2. -/
theorem MakeCubeCentered_winding_witness :
    ∃ v0 v1 v2,
      (UtilMesh.MakeCubeCentered 2).vertices[3 * 0]? = some v0 ∧
      (UtilMesh.MakeCubeCentered 2).vertices[3 * 0 + 1]? = some v1 ∧
      (UtilMesh.MakeCubeCentered 2).vertices[3 * 0 + 2]? = some v2 ∧
      geometricNormal v0 v1 v2 = (2 : ℚ) ^ 2 * v0.normal ∧
      v1.normal = v0.normal ∧ v2.normal = v0.normal ∧
      v0.normal.dot v0.position.xyz = 2 / 2 ∧ v1.normal.dot v1.position.xyz = 2 / 2 ∧
      v2.normal.dot v2.position.xyz = 2 / 2 :=
  MakeCubeCentered_winding 2 0 (by decide)

/-- C26: the mesh of `MakeWorldAxesMesh` has exactly 6 vertices, and its three segments run
from the origin to `(3, 0, 0)`, `(0, 3, 0)` and `(0, 0, 3)`; but the end vertex of the z-axis
segment (vertex 5) has the colour `(0, 0, 0)`, not green: the assignment of `(0, 1, 0)` that
follows `z.position` goes to `x`, whose end vertex (vertex 1) is green instead of red. -/
theorem MakeWorldAxesMesh_colours :
    UtilMesh.MakeWorldAxesMesh.vertexCount = 6 ∧
    UtilMesh.MakeWorldAxesMesh.vertices.length = 6 ∧
    UtilMesh.MakeWorldAxesMesh.vertices.map (fun v => v.position) =
      [⟨0, 0, 0, 1⟩, ⟨3, 0, 0, 1⟩, ⟨0, 0, 0, 1⟩, ⟨0, 3, 0, 1⟩, ⟨0, 0, 0, 1⟩, ⟨0, 0, 3, 1⟩] ∧
    UtilMesh.MakeWorldAxesMesh.vertices.map (fun v => v.vsOutColor) =
      [⟨0, 0, 0⟩, ⟨0, 1, 0⟩, ⟨0, 0, 0⟩, ⟨0, 1, 0⟩, ⟨0, 0, 0⟩, ⟨0, 0, 0⟩] ∧
    (UtilMesh.MakeWorldAxesMesh.vertices[5]?).map (fun v => v.vsOutColor) ≠
      some (⟨0, 1, 0⟩ : Vec3) := by
  refine ⟨rfl, rfl, rfl, rfl, ?_⟩
  simp [UtilMesh.MakeWorldAxesMesh, Vertex.zero]

/-! ## The cells that a triangle can reach -/

/-- The perspective-correct interpolation with weights that are not negative and of sum 1,
for positive reciprocals of `w`, lies between the least and the greatest of the three
values. -/
theorem interpolate_convex (T : TriangleSetup) (w0 w1 w2 a0 a1 a2 : ℚ)
    (h0 : 0 ≤ w0) (h1 : 0 ≤ w1) (h2 : 0 ≤ w2) (hs : w0 + w1 + w2 = 1)
    (r0 : 0 < T.v0RecW) (r1 : 0 < T.v1RecW) (r2 : 0 < T.v2RecW) :
    min a0 (min a1 a2) ≤
        interpolate T w0 w1 w2 (1 / (w0 * T.v0RecW + w1 * T.v1RecW + w2 * T.v2RecW)) a0 a1 a2 ∧
      interpolate T w0 w1 w2 (1 / (w0 * T.v0RecW + w1 * T.v1RecW + w2 * T.v2RecW)) a0 a1 a2 ≤
        max a0 (max a1 a2) := by
  have hD : 0 < w0 * T.v0RecW + w1 * T.v1RecW + w2 * T.v2RecW := by
    have hm0 : min T.v0RecW (min T.v1RecW T.v2RecW) ≤ T.v0RecW := min_le_left _ _
    have hm1 : min T.v0RecW (min T.v1RecW T.v2RecW) ≤ T.v1RecW :=
      le_trans (min_le_right _ _) (min_le_left _ _)
    have hm2 : min T.v0RecW (min T.v1RecW T.v2RecW) ≤ T.v2RecW :=
      le_trans (min_le_right _ _) (min_le_right _ _)
    have hmp : 0 < min T.v0RecW (min T.v1RecW T.v2RecW) := lt_min r0 (lt_min r1 r2)
    nlinarith [mul_nonneg h0 (sub_nonneg.mpr hm0), mul_nonneg h1 (sub_nonneg.mpr hm1),
      mul_nonneg h2 (sub_nonneg.mpr hm2)]
  have q0 : 0 ≤ w0 * T.v0RecW := mul_nonneg h0 r0.le
  have q1 : 0 ≤ w1 * T.v1RecW := mul_nonneg h1 r1.le
  have q2 : 0 ≤ w2 * T.v2RecW := mul_nonneg h2 r2.le
  have hval : interpolate T w0 w1 w2 (1 / (w0 * T.v0RecW + w1 * T.v1RecW + w2 * T.v2RecW))
      a0 a1 a2 = (w0 * T.v0RecW * a0 + w1 * T.v1RecW * a1 + w2 * T.v2RecW * a2) /
        (w0 * T.v0RecW + w1 * T.v1RecW + w2 * T.v2RecW) := by
    unfold interpolate
    field_simp
    ring
  rw [hval]
  have l0 : min a0 (min a1 a2) ≤ a0 := min_le_left _ _
  have l1 : min a0 (min a1 a2) ≤ a1 := le_trans (min_le_right _ _) (min_le_left _ _)
  have l2 : min a0 (min a1 a2) ≤ a2 := le_trans (min_le_right _ _) (min_le_right _ _)
  have u0 : a0 ≤ max a0 (max a1 a2) := le_max_left _ _
  have u1 : a1 ≤ max a0 (max a1 a2) := le_trans (le_max_left _ _) (le_max_right _ _)
  have u2 : a2 ≤ max a0 (max a1 a2) := le_trans (le_max_right _ _) (le_max_right _ _)
  constructor
  · rw [le_div_iff₀ hD]
    nlinarith [mul_nonneg q0 (sub_nonneg.mpr l0), mul_nonneg q1 (sub_nonneg.mpr l1),
      mul_nonneg q2 (sub_nonneg.mpr l2)]
  · rw [div_le_iff₀ hD]
    nlinarith [mul_nonneg q0 (sub_nonneg.mpr u0), mul_nonneg q1 (sub_nonneg.mpr u1),
      mul_nonneg q2 (sub_nonneg.mpr u2)]

/-- The colour of a fragment under Gouraud shading packs the three interpolated channels of
the vertex colours. -/
theorem fragmentColor_gouraud (inversesqrt : ℚ → ℚ) (U : Uniforms) (r : Rasterizer)
    (T : TriangleSetup) (w0 w1 w2 rec : ℚ) (h : U.shading = GOURAUD_SHADING) :
    fragmentColor inversesqrt U r T w0 w1 w2 rec = .ok
      (toUint8 (interpolate T w0 w1 w2 rec T.vert0.vsOutColor.z T.vert1.vsOutColor.z
          T.vert2.vsOutColor.z * 255) <<< 16 |||
        toUint8 (interpolate T w0 w1 w2 rec T.vert0.vsOutColor.y T.vert1.vsOutColor.y
          T.vert2.vsOutColor.y * 255) <<< 8 |||
        toUint8 (interpolate T w0 w1 w2 rec T.vert0.vsOutColor.x T.vert1.vsOutColor.x
          T.vert2.vsOutColor.x * 255)) := by
  have hne : ¬ U.shading = FLAT_SHADING := by rw [h]; decide
  simp only [fragmentColor, if_neg hne, if_pos h, pure, Except.pure]

/-- C29: for a triangle of `RasterizeTriangles` with an area other than 0 whose three
vertices have `w > 0` and a pixel `(x, y)` that passes the inside test, the value
`(w0 * A0 / w_0 + w1 * A1 / w_1 + w2 * A2 / w_2) / (w0 / w_0 + w1 / w_1 + w2 / w_2)` that the
rasterizer interpolates for an attribute with the vertex values `A0 A1 A2` lies between the
least and the greatest of them, equals `A` when all three are `A`, and lies in `[0, 1]` when
they do: the cast of such a Gouraud colour channel to `Uint8` is its floor, below 256. -/
theorem interpolation_between (r : Rasterizer) (isTexturable : Bool) (v0 v1 v2 : Vertex)
    (x y : Nat) (a0 a1 a2 : ℚ)
    (harea : (setupTriangle r isTexturable v0 v1 v2).triangleArea ≠ 0)
    (hw0 : 0 < v0.position.w) (hw1 : 0 < v1.position.w) (hw2 : 0 < v2.position.w)
    (hin : insideTest r.backFaceCulling
      (EdgeFunction v0.position v1.position ⟨x, y⟩)
      (EdgeFunction v1.position v2.position ⟨x, y⟩)
      (EdgeFunction v2.position v0.position ⟨x, y⟩) = true) :
    min a0 (min a1 a2) ≤ pixelAttribute r isTexturable v0 v1 v2 x y a0 a1 a2 ∧
    pixelAttribute r isTexturable v0 v1 v2 x y a0 a1 a2 ≤ max a0 (max a1 a2) ∧
    (a0 = a1 → a1 = a2 → pixelAttribute r isTexturable v0 v1 v2 x y a0 a1 a2 = a0) ∧
    (0 ≤ a0 ∧ a0 ≤ 1 → 0 ≤ a1 ∧ a1 ≤ 1 → 0 ≤ a2 ∧ a2 ≤ 1 →
      0 ≤ pixelAttribute r isTexturable v0 v1 v2 x y a0 a1 a2 ∧
      pixelAttribute r isTexturable v0 v1 v2 x y a0 a1 a2 ≤ 1 ∧
      toUint8 (pixelAttribute r isTexturable v0 v1 v2 x y a0 a1 a2 * 255) =
        ⌊pixelAttribute r isTexturable v0 v1 v2 x y a0 a1 a2 * 255⌋.toNat ∧
      ⌊pixelAttribute r isTexturable v0 v1 v2 x y a0 a1 a2 * 255⌋.toNat < 256) := by
  have hA : (setupTriangle r isTexturable v0 v1 v2).triangleArea =
      EdgeFunction v0.position v1.position ⟨v2.position.x, v2.position.y⟩ := rfl
  have hsum := EdgeFunction_sum v0.position v1.position v2.position ⟨x, y⟩
  rw [← hA] at hsum
  obtain ⟨n0, n1, n2, s⟩ := weights_convex r.backFaceCulling _ _ _ _ harea hsum hin
  have r0 : 0 < (setupTriangle r isTexturable v0 v1 v2).v0RecW :=
    one_div_pos.mpr hw0
  have r1 : 0 < (setupTriangle r isTexturable v0 v1 v2).v1RecW :=
    one_div_pos.mpr hw1
  have r2 : 0 < (setupTriangle r isTexturable v0 v1 v2).v2RecW :=
    one_div_pos.mpr hw2
  obtain ⟨lo, hi⟩ := interpolate_convex (setupTriangle r isTexturable v0 v1 v2) _ _ _ a0 a1 a2
    n0 n1 n2 s r0 r1 r2
  have lo' : min a0 (min a1 a2) ≤ pixelAttribute r isTexturable v0 v1 v2 x y a0 a1 a2 := lo
  have hi' : pixelAttribute r isTexturable v0 v1 v2 x y a0 a1 a2 ≤ max a0 (max a1 a2) := hi
  refine ⟨lo', hi', ?_, ?_⟩
  · intro e01 e12
    subst e01
    subst e12
    simp only [min_self, max_self] at lo' hi'
    exact le_antisymm hi' lo'
  · intro c0 c1 c2
    have b0 := le_trans (le_min c0.1 (le_min c1.1 c2.1)) lo'
    have b1 := le_trans hi' (max_le c0.2 (max_le c1.2 c2.2))
    exact ⟨b0, b1, toUint8_of_unit _ b0 b1⟩

/-- Witness of C29: the pixel `(1, 1)` of the triangle `(0, 0), (0, 4), (4, 0)` with the
attribute values 0, 1/2 and 1. -/
theorem interpolation_between_witness :
    min (0 : ℚ) (min (1 / 2) 1) ≤ pixelAttribute sampleRasterizer false (sampleVertex 0 0 0)
      (sampleVertex 0 4 0) (sampleVertex 4 0 0) 1 1 0 (1 / 2) 1 ∧
    pixelAttribute sampleRasterizer false (sampleVertex 0 0 0) (sampleVertex 0 4 0)
      (sampleVertex 4 0 0) 1 1 0 (1 / 2) 1 ≤ max (0 : ℚ) (max (1 / 2) 1) :=
  ⟨(interpolation_between sampleRasterizer false (sampleVertex 0 0 0) (sampleVertex 0 4 0)
      (sampleVertex 4 0 0) 1 1 0 (1 / 2) 1
      (by norm_num [setupTriangle, EdgeFunction, sampleVertex])
      (by norm_num [sampleVertex]) (by norm_num [sampleVertex]) (by norm_num [sampleVertex])
      (by norm_num [insideTest, EdgeFunction, sampleVertex])).1,
    (interpolation_between sampleRasterizer false (sampleVertex 0 0 0) (sampleVertex 0 4 0)
      (sampleVertex 4 0 0) 1 1 0 (1 / 2) 1
      (by norm_num [setupTriangle, EdgeFunction, sampleVertex])
      (by norm_num [sampleVertex]) (by norm_num [sampleVertex]) (by norm_num [sampleVertex])
      (by norm_num [insideTest, EdgeFunction, sampleVertex])).2.1⟩

/-! ## C24: the colour of a triangle under flat shading -/

theorem load_ok_inv {α : Type} (buf : List α) (i : Nat) (v : α) (h : load buf i = .ok v) :
    buf[i]? = some v := by
  unfold load at h
  cases hb : buf[i]? with
  | none => rw [hb] at h; cases h
  | some w =>
    rw [hb] at h
    simp only [Except.ok.injEq] at h
    rw [h]

theorem getElem?_set_cases {α : Type} (buf : List α) (i k : Nat) (v c : α)
    (h : (buf.set i v)[k]? = some c) : buf[k]? = some c ∨ c = v := by
  by_cases hik : i = k
  · subst hik
    by_cases hlt : i < buf.length
    · rw [List.getElem?_set_self hlt] at h
      simp only [Option.some.injEq] at h
      exact Or.inr h.symm
    · rw [List.getElem?_eq_none (by rw [List.length_set]; omega)] at h
      cases h
  · rw [List.getElem?_set_ne hik] at h
    exact Or.inl h

/-- Under flat shading the body of the loop over `x` leaves the frame buffer as it was or
stores the packed colour of the first vertex of the triangle in one cell. -/
theorem rasterizePixel_flat (inversesqrt : ℚ → ℚ) (U : Uniforms) (T : TriangleSetup)
    (frameBuffer x y : Nat) (e0 e1 e2 : ℚ) (r r' : Rasterizer)
    (hflat : U.shading = FLAT_SHADING)
    (h : rasterizePixel inversesqrt U T frameBuffer x y e0 e1 e2 r = .ok r') (k c : Nat)
    (hc : r'.frameBuffer[k]? = some c) :
    r.frameBuffer[k]? = some c ∨ c = Vec3ColorToUint32 T.vert0.vsOutColor := by
  simp only [rasterizePixel, bind, Except.bind, pure, Except.pure,
    fragmentColor_flat inversesqrt U _ T _ _ _ _ hflat] at h
  split_ifs at h with hin
  · cases hl : load r.depthBuffer (u32 (u32 (y * r.width) + x)) with
    | error e => rw [hl] at h; cases h
    | ok cur =>
      rw [hl] at h
      simp only at h
      by_cases hdep : T.triangleArea ≠ 0 ∧ fragmentDepth T e0 e1 e2 < 1 ∧
          fragmentDepth T e0 e1 e2 < cur
      · rw [if_pos hdep] at h
        cases hst : store r.depthBuffer (u32 (u32 (y * r.width) + x)) (fragmentDepth T e0 e1 e2) with
        | error e => rw [hst] at h; cases h
        | ok db =>
          rw [hst] at h
          simp only at h
          cases hsf : store r.frameBuffer (frameBuffer + x)
              (Vec3ColorToUint32 T.vert0.vsOutColor) with
          | error e => rw [hsf] at h; cases h
          | ok fbuf =>
            rw [hsf] at h
            simp only [Except.ok.injEq] at h
            have hfb := store_ok_inv _ _ _ _ hsf
            subst hfb
            subst h
            exact getElem?_set_cases _ _ _ _ _ hc
      · rw [if_neg hdep] at h
        simp only [Except.ok.injEq] at h
        subst h
        exact Or.inl hc
  · simp only [Except.ok.injEq] at h
    subst h
    exact Or.inl hc

/-- Under flat shading every cell of the frame buffer is, after a triangle has been
rasterized, as before or holds the packed colour of the first vertex of the triangle. -/
theorem rasterizeTriangle_flat (inversesqrt : ℚ → ℚ) (U : Uniforms) (isTexturable : Bool)
    (v0 v1 v2 : Vertex) (r r' : Rasterizer) (hflat : U.shading = FLAT_SHADING)
    (h : rasterizeTriangle inversesqrt U isTexturable v0 v1 v2 r = .ok r') (k c : Nat)
    (hc : r'.frameBuffer[k]? = some c) :
    r.frameBuffer[k]? = some c ∨ c = Vec3ColorToUint32 v0.vsOutColor := by
  simp only [rasterizeTriangle] at h
  split_ifs at h with hcull
  · simp only [pure, Except.pure, Except.ok.injEq] at h
    subst h
    exact Or.inl hc
  · exact rasterizeRows_inv inversesqrt U (setupTriangle r isTexturable v0 v1 v2) r.width
      (fun s => ∀ (k c : Nat), s.frameBuffer[k]? = some c →
        r.frameBuffer[k]? = some c ∨ c = Vec3ColorToUint32 v0.vsOutColor)
      (fun fb x y e0 e1 e2 s s' hs hp k c hk => by
        rcases rasterizePixel_flat inversesqrt U _ fb x y e0 e1 e2 s s' hflat hp k c hk with
          h1 | h1
        · exact hs k c h1
        · exact Or.inr h1)
      _ _ _ _ _ _ r r' (fun k c hk => Or.inl hk) h k c hc

/-- Under flat shading every cell of the frame buffer is, after the triangles of a mesh have
been rasterized, as before or holds the packed colour of the first vertex of one of the
triangles. -/
theorem rasterizeTrianglesFrom_flat (inversesqrt : ℚ → ℚ) (U : Uniforms) (mesh : Mesh)
    (hflat : U.shading = FLAT_SHADING) (rounds : Nat) :
    ∀ (i : Nat) (r r' : Rasterizer),
      rasterizeTrianglesFrom inversesqrt U mesh rounds i r = .ok r' →
      ∀ (k c : Nat), r'.frameBuffer[k]? = some c → r.frameBuffer[k]? = some c ∨
        ∃ j v, j < rounds ∧ mesh.vertices[i + 3 * j]? = some v ∧
          c = Vec3ColorToUint32 v.vsOutColor := by
  induction rounds with
  | zero =>
    intro i r r' h k c hc
    simp only [rasterizeTrianglesFrom, pure, Except.pure, Except.ok.injEq] at h
    subst h
    exact Or.inl hc
  | succ n ih =>
    intro i r r' h k c hc
    simp only [rasterizeTrianglesFrom, bind, Except.bind] at h
    cases h0 : load mesh.vertices i with
    | error e => rw [h0] at h; cases h
    | ok a =>
      cases h1 : load mesh.vertices (i + 1) with
      | error e => rw [h0, h1] at h; cases h
      | ok b =>
        cases h2 : load mesh.vertices (i + 2) with
        | error e => rw [h0, h1, h2] at h; cases h
        | ok d =>
          rw [h0, h1, h2] at h
          simp only at h
          cases ht : rasterizeTriangle inversesqrt U mesh.isTexturable a b d r with
          | error e => rw [ht] at h; cases h
          | ok r1 =>
            rw [ht] at h
            rcases ih (i + 3) r1 r' h k c hc with g | ⟨j, v, hj, hv, hcv⟩
            · rcases rasterizeTriangle_flat inversesqrt U _ a b d r r1 hflat ht k c g with
                g1 | g1
              · exact Or.inl g1
              · exact Or.inr ⟨0, a, by omega, by simpa using load_ok_inv _ _ _ h0, g1⟩
            · refine Or.inr ⟨j + 1, v, by omega, ?_, hcv⟩
              have e : i + 3 * (j + 1) = i + 3 + 3 * j := by ring
              rw [e]
              exact hv

theorem processVertex_vsOutColor (inversesqrt : ℚ → ℚ) (U : Uniforms) (r : Rasterizer)
    (v : Vertex) :
    (processVertex inversesqrt U r v).vsOutColor = (VertexShader inversesqrt U v).vsOutColor :=
  rfl

/-- Under flat shading every cell of the frame buffer is, after the draw of a mesh, as before
or holds the packed shaded colour of the first vertex of a triangle of the clipped mesh. -/
theorem DrawTriangleMesh_flat (inversesqrt : ℚ → ℚ) (U : Uniforms) (r : Rasterizer)
    (original : Mesh) (hflat : U.shading = FLAT_SHADING) (hw : r.WellFormed)
    (h3 : original.vertexCount % 3 = 0)
    (hlen : original.vertexCount ≤ original.vertices.length)
    (hN : 2 * original.vertexCount < 4294967296) :
    ∃ copy clipped r', UtilMesh.MakeMeshCopy original = .ok copy ∧
      ClipToNear U copy r.zNear = .ok clipped ∧
      Rasterization.DrawTriangleMesh inversesqrt U r original = .ok r' ∧
      ∀ (k c : Nat), r'.frameBuffer[k]? = some c → r.frameBuffer[k]? = some c ∨
        ∃ j v, 3 * j < clipped.vertexCount ∧ clipped.vertices[3 * j]? = some v ∧
          c = Vec3ColorToUint32 (VertexShader inversesqrt U v).vsOutColor := by
  have hcopy : UtilMesh.MakeMeshCopy original = .ok
      { isTexturable := original.isTexturable, vertexCount := original.vertexCount,
        vertices := original.vertices.take original.vertexCount } := by
    simp only [UtilMesh.MakeMeshCopy, hlen, if_true, pure, Except.pure]
  obtain ⟨m', hm', hmod, hle, hbuf⟩ := ClipToNear_ok U
    { isTexturable := original.isTexturable, vertexCount := original.vertexCount,
      vertices := original.vertices.take original.vertexCount } r.zNear h3
    (by simp; exact hlen) hN
  simp only at hle hbuf
  have hfit : m'.vertexCount ≤ m'.vertices.length := by omega
  obtain ⟨r', hr'⟩ := DrawTriangleMesh_ok inversesqrt U r original hw h3 hlen hN
    (flat_color_ok inversesqrt U r hflat)
  refine ⟨_, m', r', hcopy, hm', hr', ?_⟩
  have hloop := updatePrefix_ok (processVertex inversesqrt U r) m'.vertices m'.vertexCount hfit
  rw [DrawTriangleMesh_eq] at hr'
  simp only [hcopy, hm', bind, Except.bind] at hr'
  erw [hloop] at hr'
  intro k c hc
  rcases rasterizeTrianglesFrom_flat inversesqrt U _ hflat _ 0 r r' hr' k c hc with
    g | ⟨j, v, hj, hv, hcv⟩
  · exact Or.inl g
  · have hj3 : 3 * j < m'.vertexCount := by
      have : j < (m'.vertexCount + 2) / 3 := hj
      omega
    have hlt : 3 * j < m'.vertices.length := by omega
    refine Or.inr ⟨j, m'.vertices[3 * j], hj3, List.getElem?_eq_getElem hlt, ?_⟩
    simp only [Nat.zero_add] at hv
    rw [List.getElem?_append_left (by simp; omega)] at hv
    rw [List.getElem?_map, List.getElem?_take_of_lt hj3, List.getElem?_eq_getElem hlt] at hv
    simp only [Option.map_some', Option.some.injEq] at hv
    rw [hcv, ← hv, processVertex_vsOutColor]

theorem vec4_mul_def (a b : Vec4) : a * b = ⟨a.x * b.x, a.y * b.y, a.z * b.z, a.w * b.w⟩ := rfl

theorem identityMatrix_mulVec (p : Vec4) : identityMatrix.mulVec p = p := by
  simp [identityMatrix, Mat4.mulVec, vec4_add_def, vec4_smul_def]

theorem identity_modelView :
    identityUniforms.viewMatrix.mul identityUniforms.modelMatrix = identityMatrix := by
  simp [identityUniforms, identityMatrix, Mat4.mul, Mat4.mulVec, vec4_add_def, vec4_smul_def]

theorem identityMatrix_inverse : identityMatrix.inverse = identityMatrix := by
  simp [identityMatrix, Mat4.inverse, vec4_add_def, vec4_sub_def, vec4_smul_def, vec4_mul_def]

/-- The draw of a mesh from the clipped copy on: the vertices of the clipped mesh go through
`processVertex` and the mesh is rasterized. -/
theorem DrawTriangleMesh_of_clip (inversesqrt : ℚ → ℚ) (U : Uniforms) (r : Rasterizer)
    (original copy clipped : Mesh) (hcopy : UtilMesh.MakeMeshCopy original = .ok copy)
    (hclip : ClipToNear U copy r.zNear = .ok clipped)
    (hfit : clipped.vertexCount ≤ clipped.vertices.length) :
    Rasterization.DrawTriangleMesh inversesqrt U r original =
      RasterizeTriangles inversesqrt U r
        { clipped with vertices :=
            (clipped.vertices.take clipped.vertexCount).map (processVertex inversesqrt U r) ++
              clipped.vertices.drop clipped.vertexCount } := by
  have hloop := updatePrefix_ok (processVertex inversesqrt U r) clipped.vertices
    clipped.vertexCount hfit
  rw [DrawTriangleMesh_eq]
  simp only [hcopy, hclip, bind, Except.bind]
  erw [hloop]

/-- The draw, with identity matrices, of a triangle whose first and third vertices are beyond
the near plane and whose second vertex is within: the rasterizer gets the triangle that starts
with the second vertex. -/
theorem DrawTriangleMesh_cut (inversesqrt : ℚ → ℚ) (r : Rasterizer) (v0 v1 v2 : Vertex)
    (t : Bool) (h0 : r.zNear < v0.position.z) (h1 : v1.position.z ≤ r.zNear)
    (h2 : r.zNear < v2.position.z) :
    Rasterization.DrawTriangleMesh inversesqrt identityUniforms r ⟨[v0, v1, v2], 3, t⟩ =
      rasterizeTriangle inversesqrt identityUniforms t
        (processVertex inversesqrt identityUniforms r v1)
        (processVertex inversesqrt identityUniforms r (cutVertex v2 v1 r.zNear))
        (processVertex inversesqrt identityUniforms r (cutVertex v0 v1 r.zNear)) r := by
  have hcopy : UtilMesh.MakeMeshCopy ⟨[v0, v1, v2], 3, t⟩ = .ok ⟨[v0, v1, v2], 3, t⟩ := rfl
  have hrounds : (3 + 2) / 3 = 1 := rfl
  have hu : u32 (2 * 3) = 6 := by decide
  have hsix : List.replicate (u32 (2 * 3)) Vertex.zero =
      [Vertex.zero, Vertex.zero, Vertex.zero, Vertex.zero, Vertex.zero, Vertex.zero] := by
    rw [hu]
    rfl
  have htrans : transformPositions identityMatrix [v0, v1, v2] 3 = .ok [v0, v1, v2] := by
    rw [transformPositions_ok _ [v0, v1, v2] 3 (le_refl 3)]
    simp [identityMatrix_mulVec]
  have hpush : UtilMesh.AddTriangle
      ⟨[Vertex.zero, Vertex.zero, Vertex.zero, Vertex.zero, Vertex.zero, Vertex.zero], 0, t⟩
      v1 (cutVertex v2 v1 r.zNear) (cutVertex v0 v1 r.zNear) = .ok
      ⟨[v1, cutVertex v2 v1 r.zNear, cutVertex v0 v1 r.zNear, Vertex.zero, Vertex.zero,
        Vertex.zero], 3, t⟩ := by
    rw [AddTriangle_push _ _ _ _ (by simp) (by simp)]
    rfl
  have hback : transformPositions identityMatrix
      [v1, cutVertex v2 v1 r.zNear, cutVertex v0 v1 r.zNear, Vertex.zero, Vertex.zero,
        Vertex.zero] 3 = .ok
      [v1, cutVertex v2 v1 r.zNear, cutVertex v0 v1 r.zNear, Vertex.zero, Vertex.zero,
        Vertex.zero] := by
    rw [transformPositions_ok _ _ 3 (by simp)]
    simp [identityMatrix_mulVec]
  have hclip : ClipToNear identityUniforms ⟨[v0, v1, v2], 3, t⟩ r.zNear = .ok
      ⟨[v1, cutVertex v2 v1 r.zNear, cutVertex v0 v1 r.zNear, Vertex.zero, Vertex.zero,
        Vertex.zero], 3, t⟩ := by
    simp only [ClipToNear, identity_modelView, identityMatrix_inverse, htrans, bind,
      Except.bind, hrounds, clipTriangles_one, hsix]
    rw [ClipTriangle_out_in_out _ _ _ [] _ _ h0 h1 h2, hpush]
    simp only [hback, pure, Except.pure]
  rw [DrawTriangleMesh_of_clip inversesqrt identityUniforms r _ _ _ hcopy hclip (by simp)]
  exact RasterizeTriangles_single inversesqrt identityUniforms r _ _ _ _ t

theorem processVertex_identity_position (inversesqrt : ℚ → ℚ) (r : Rasterizer) (v : Vertex) :
    (processVertex inversesqrt identityUniforms r v).position =
      ⟨(v.position.x / v.position.w * (1 / 2) + 1 / 2) * (r.width : ℚ),
        (v.position.y / v.position.w * (-1 / 2) + 1 / 2) * (r.height : ℚ),
        v.position.z / v.position.w, v.position.w⟩ := by
  have h : (VertexShader inversesqrt identityUniforms v).position = v.position := by
    simp only [VertexShader]
    exact identityMatrix_mulVec _
  simp only [processVertex, perspectiveDivide, viewportTransform, h]

/-- Under flat shading a pixel that a triangle covers with a fragment that passes the depth
test holds the packed colour of the first vertex of the triangle afterwards. -/
theorem rasterizeTriangle_flat_pixel (inversesqrt : ℚ → ℚ) (U : Uniforms) (isTexturable : Bool)
    (v0 v1 v2 : Vertex) (r r' : Rasterizer) (x y : Nat) (d : ℚ)
    (hflat : U.shading = FLAT_SHADING) (hw : r.WellFormed) (hx : x < r.width)
    (hy : y < r.height) (hcov : Covers r isTexturable v0 v1 v2 x y)
    (hd : r.depthBuffer[y * r.width + x]? = some d)
    (hd1 : pixelDepth r isTexturable v0 v1 v2 x y < 1)
    (hd2 : pixelDepth r isTexturable v0 v1 v2 x y < d)
    (h : rasterizeTriangle inversesqrt U isTexturable v0 v1 v2 r = .ok r') :
    r'.frameBuffer[y * r.width + x]? = some (Vec3ColorToUint32 v0.vsOutColor) := by
  obtain ⟨harea, hnc, bx1, bx2, by1, by2, hin⟩ := hcov
  have hk := cell_index_lt r.width r.height x y hx hy
  obtain ⟨c0, hcellF⟩ : ∃ c0, r.frameBuffer[y * r.width + x]? = some c0 :=
    ⟨_, List.getElem?_eq_getElem (by rw [hw.2.2.2.1]; exact hk)⟩
  obtain ⟨d1, c1, hsh, -, hc'⟩ := rasterizeTriangle_cell inversesqrt U isTexturable v0 v1 v2
    r r' hw hnc h x y bx1 bx2 by1 by2 d c0 hd hcellF
  obtain ⟨-, e2⟩ := shadePixel_accept inversesqrt U r _ _ _ _ (d, c0) (d1, c1) hin
    ⟨harea, hd1, hd2⟩ hsh
  unfold fragmentColorAt at e2
  rw [fragmentColor_flat inversesqrt U r _ _ _ _ _ hflat] at e2
  simp only [Except.ok.injEq] at e2
  rw [hc', ← e2]
  rfl

theorem VertexShader_away (x y z : ℚ) (color : Vec3) :
    (VertexShader (fun _ => 1) identityUniforms (awayVertex x y z color)).vsOutColor =
      (⟨2 / 10 * color.x, 2 / 10 * color.y, 2 / 10 * color.z⟩ : Vec3).clamp 0 1 := by
  have hs : identityUniforms.shading = FLAT_SHADING := rfl
  have hl : identityUniforms.directionalLightOn = true := rfl
  have hL : identityUniforms.worldLightDirection = ⟨0, 0, -1⟩ := rfl
  have hN : ((identityUniforms.modelMatrix.mulVec
      ((⟨0, 0, -1⟩ : Vec3).withW 0)).xyz).normalize (fun _ => 1) = ⟨0, 0, -1⟩ := by
    have : identityUniforms.modelMatrix = identityMatrix := rfl
    rw [this, identityMatrix_mulVec]
    simp [Vec3.withW, Vec4.xyz, Vec3.normalize, vec3_smul_def]
  have hdot : max ((-(⟨0, 0, -1⟩ : Vec3)).dot ⟨0, 0, -1⟩) 0 = 0 := by
    have : (-(⟨0, 0, -1⟩ : Vec3)) = ⟨-0, -0, - -1⟩ := rfl
    rw [this]
    norm_num [Vec3.dot]
  simp only [VertexShader, hs, true_or, if_true, hl, hL, hN, hdot, zero_mul, add_zero,
    mul_one, vec3_add_def, vec3_smul_def, awayVertex]

/-- A triangle with the raster-space vertices `(0, 0)`, `(0, 4)` and `(4, 0)` covers the
pixel `(1, 1)` of the screen of 2 x 2 pixels, with the weights 1/2, 1/4 and 1/4. -/
theorem Covers_corner (a b c : Vertex) (z0 z1 z2 : ℚ) (ha : a.position = ⟨0, 0, z0, 1⟩)
    (hb : b.position = ⟨0, 4, z1, 1⟩) (hc : c.position = ⟨4, 0, z2, 1⟩) :
    Covers sampleRasterizer false a b c 1 1 ∧
      pixelDepth sampleRasterizer false a b c 1 1 = 1 / 2 * z0 + 1 / 4 * z1 + 1 / 4 * z2 := by
  have hbox := Interior_box sampleRasterizer sampleRasterizer_wf false a b c 1 1
    (by decide) (by decide)
    ⟨1 / 2, 1 / 4, 1 / 4, by norm_num, by norm_num, by norm_num, by norm_num,
      by rw [ha, hb, hc]; norm_num, by rw [ha, hb, hc]; norm_num⟩
  refine ⟨⟨?_, ?_, hbox.1, hbox.2.1, hbox.2.2.1, hbox.2.2.2, ?_⟩, ?_⟩
  · simp only [setupTriangle, ha, hb, hc, EdgeFunction]
    norm_num
  · intro hh
    have := hh.2
    simp only [setupTriangle, ha, hb, hc, EdgeFunction] at this
    norm_num at this
  · simp only [ha, hb, hc, EdgeFunction, insideTest]
    norm_num
  · simp only [pixelDepth, fragmentDepth, setupTriangle, ha, hb, hc, EdgeFunction]
    norm_num

theorem Vec3ColorToUint32_dark_red : Vec3ColorToUint32 ((⟨2 / 10 * 1, 2 / 10 * 0, 2 / 10 * 0⟩ :
    Vec3).clamp 0 1) = 51 := by
  have h51 : toUint8 (clamp (2 / 10 * 1) 0 1 * 255) = 51 :=
    toUint8_eq _ 51 (by norm_num [clamp]) (by norm_num [clamp])
  have h0 : toUint8 (clamp (2 / 10 * 0) 0 1 * 255) = 0 :=
    toUint8_eq _ 0 (by norm_num [clamp]) (by norm_num [clamp])
  simp only [Vec3ColorToUint32, Vec3.clamp, h51, h0]
  rfl

theorem Vec3ColorToUint32_dark_green : Vec3ColorToUint32 ((⟨2 / 10 * 0, 2 / 10 * 1, 2 / 10 * 0⟩ :
    Vec3).clamp 0 1) = 13056 := by
  have h51 : toUint8 (clamp (2 / 10 * 1) 0 1 * 255) = 51 :=
    toUint8_eq _ 51 (by norm_num [clamp]) (by norm_num [clamp])
  have h0 : toUint8 (clamp (2 / 10 * 0) 0 1 * 255) = 0 :=
    toUint8_eq _ 0 (by norm_num [clamp]) (by norm_num [clamp])
  simp only [Vec3ColorToUint32, Vec3.clamp, h51, h0]
  rfl

/-- Counterexample to C24: with flat shading, identity matrices and the near plane
`z = -1/10`, the triangle `cutTriangle` has its first vertex (red, shaded `(0.2, 0, 0)`,
packed 51) and its third vertex beyond the near plane. `Clip2Vertices` emits the triangle that
starts with the second vertex (green), and the pixel `(1, 1)` of the 2 x 2 screen holds
`13056 = 51 << 8`, the packed shaded colour of the second vertex, not 51. -/
theorem flat_colour_of_inside_vertex :
    ∃ r', Rasterization.DrawTriangleMesh (fun _ => 1) identityUniforms sampleRasterizer
        cutTriangle = .ok r' ∧
      r'.frameBuffer[1 * 2 + 1]? = some 13056 ∧
      Vec3ColorToUint32 (VertexShader (fun _ => 1) identityUniforms
        (awayVertex 7 1 (4 / 5) ⟨1, 0, 0⟩)).vsOutColor = 51 ∧
      packRGBA (VertexShader (fun _ => 1) identityUniforms
        (awayVertex 7 1 (4 / 5) ⟨1, 0, 0⟩)).vsOutColor = 51 ∧
      Vec3ColorToUint32 (VertexShader (fun _ => 1) identityUniforms
        (awayVertex (-1) 1 (-1) ⟨0, 1, 0⟩)).vsOutColor = 13056 := by
  have hz : sampleRasterizer.zNear = -1 / 10 := rfl
  have hdraw := DrawTriangleMesh_cut (fun _ => 1) sampleRasterizer
    (awayVertex 7 1 (4 / 5) ⟨1, 0, 0⟩) (awayVertex (-1) 1 (-1) ⟨0, 1, 0⟩)
    (awayVertex (-1) (-7) (4 / 5) ⟨0, 0, 1⟩) false
    (by rw [hz]; norm_num [awayVertex]) (by rw [hz]; norm_num [awayVertex])
    (by rw [hz]; norm_num [awayVertex])
  have hP1 : (processVertex (fun _ => 1) identityUniforms sampleRasterizer
      (awayVertex (-1) 1 (-1) ⟨0, 1, 0⟩)).position = ⟨0, 0, -1, 1⟩ := by
    rw [processVertex_identity_position]
    norm_num [awayVertex, sampleRasterizer]
  have hP2 : (processVertex (fun _ => 1) identityUniforms sampleRasterizer
      (cutVertex (awayVertex (-1) (-7) (4 / 5) ⟨0, 0, 1⟩) (awayVertex (-1) 1 (-1) ⟨0, 1, 0⟩)
        sampleRasterizer.zNear)).position = ⟨0, 4, -1 / 10, 1⟩ := by
    rw [processVertex_identity_position, hz]
    simp only [cutVertex, LerpVertices_position]
    norm_num [awayVertex, sampleRasterizer]
  have hP3 : (processVertex (fun _ => 1) identityUniforms sampleRasterizer
      (cutVertex (awayVertex 7 1 (4 / 5) ⟨1, 0, 0⟩) (awayVertex (-1) 1 (-1) ⟨0, 1, 0⟩)
        sampleRasterizer.zNear)).position = ⟨4, 0, -1 / 10, 1⟩ := by
    rw [processVertex_identity_position, hz]
    simp only [cutVertex, LerpVertices_position]
    norm_num [awayVertex, sampleRasterizer]
  have hcol1 := VertexShader_away (-1) 1 (-1) ⟨0, 1, 0⟩
  have hcol0 := VertexShader_away 7 1 (4 / 5) ⟨1, 0, 0⟩
  obtain ⟨r', hr'⟩ := rasterizeTriangle_ok (fun _ => 1) identityUniforms false
    (processVertex (fun _ => 1) identityUniforms sampleRasterizer
      (awayVertex (-1) 1 (-1) ⟨0, 1, 0⟩))
    (processVertex (fun _ => 1) identityUniforms sampleRasterizer
      (cutVertex (awayVertex (-1) (-7) (4 / 5) ⟨0, 0, 1⟩) (awayVertex (-1) 1 (-1) ⟨0, 1, 0⟩)
        sampleRasterizer.zNear))
    (processVertex (fun _ => 1) identityUniforms sampleRasterizer
      (cutVertex (awayVertex 7 1 (4 / 5) ⟨1, 0, 0⟩) (awayVertex (-1) 1 (-1) ⟨0, 1, 0⟩)
        sampleRasterizer.zNear))
    sampleRasterizer sampleRasterizer_wf (flat_color_ok _ identityUniforms sampleRasterizer rfl)
  obtain ⟨hcov, hdepth⟩ := Covers_corner _ _ _ _ _ _ hP1 hP2 hP3
  have hpix := rasterizeTriangle_flat_pixel (fun _ => 1) identityUniforms false _ _ _
    sampleRasterizer r' 1 1 FLT_MAX rfl sampleRasterizer_wf (by decide) (by decide) hcov rfl
    (by rw [hdepth]; norm_num) (by rw [hdepth]; unfold FLT_MAX; norm_num) hr'
  refine ⟨r', ?_, ?_, ?_, ?_, ?_⟩
  · exact hdraw.trans hr'
  · rw [processVertex_vsOutColor, hcol1, Vec3ColorToUint32_dark_green] at hpix
    exact hpix
  · rw [hcol0, Vec3ColorToUint32_dark_red]
  · rw [hcol0]
    norm_num [packRGBA, roundedChannel, round_eq, Vec3.clamp, clamp]
    rfl
  · rw [hcol1, Vec3ColorToUint32_dark_green]

/-- C24, amended: under flat shading every pixel that `RasterizeTriangles` writes for a
triangle has the colour `Vec3ColorToUint32` of the `vsOutColor` of the first vertex of that
triangle, the triangle as the rasterizer gets it: a cell of the frame buffer is as before or
holds this colour, so the whole triangle has one colour. And `DrawTriangleMesh`, for a mesh
whose `vertexCount` is a multiple of 3 within its buffer, returns a rasterizer in which every
cell of the frame buffer is as before or holds the packed shaded colour of the first vertex of
a triangle of the clipped mesh, the mesh that `ClipToNear` makes of the copy. The first vertex
of a cut triangle can be another vertex of the mesh triangle than its first one. -/
theorem flat_shading_first_vertex (inversesqrt : ℚ → ℚ) (U : Uniforms) (r : Rasterizer)
    (original : Mesh) (hflat : U.shading = FLAT_SHADING) (hw : r.WellFormed)
    (h3 : original.vertexCount % 3 = 0)
    (hlen : original.vertexCount ≤ original.vertices.length)
    (hN : 2 * original.vertexCount < 4294967296) :
    (∀ (t : Bool) (v0 v1 v2 : Vertex) (s s' : Rasterizer),
      rasterizeTriangle inversesqrt U t v0 v1 v2 s = .ok s' →
      ∀ (k c : Nat), s'.frameBuffer[k]? = some c →
        s.frameBuffer[k]? = some c ∨ c = Vec3ColorToUint32 v0.vsOutColor) ∧
    ∃ copy clipped r', UtilMesh.MakeMeshCopy original = .ok copy ∧
      ClipToNear U copy r.zNear = .ok clipped ∧
      Rasterization.DrawTriangleMesh inversesqrt U r original = .ok r' ∧
      ∀ (k c : Nat), r'.frameBuffer[k]? = some c → r.frameBuffer[k]? = some c ∨
        ∃ j v, 3 * j < clipped.vertexCount ∧ clipped.vertices[3 * j]? = some v ∧
          c = Vec3ColorToUint32 (VertexShader inversesqrt U v).vsOutColor :=
  ⟨fun t v0 v1 v2 s s' h k c hc =>
      rasterizeTriangle_flat inversesqrt U t v0 v1 v2 s s' hflat h k c hc,
    DrawTriangleMesh_flat inversesqrt U r original hflat hw h3 hlen hN⟩

/-- Witness of C24: the triangle `cutTriangle` on the screen of 2 x 2 pixels. -/
theorem flat_shading_first_vertex_witness :
    identityUniforms.shading = FLAT_SHADING ∧ sampleRasterizer.WellFormed ∧
    ∃ copy clipped r', UtilMesh.MakeMeshCopy cutTriangle = .ok copy ∧
      ClipToNear identityUniforms copy sampleRasterizer.zNear = .ok clipped ∧
      Rasterization.DrawTriangleMesh (fun _ => 1) identityUniforms sampleRasterizer cutTriangle
        = .ok r' ∧
      ∀ (k c : Nat), r'.frameBuffer[k]? = some c → sampleRasterizer.frameBuffer[k]? = some c ∨
        ∃ j v, 3 * j < clipped.vertexCount ∧ clipped.vertices[3 * j]? = some v ∧
          c = Vec3ColorToUint32 (VertexShader (fun _ => 1) identityUniforms v).vsOutColor :=
  ⟨rfl, sampleRasterizer_wf,
    (flat_shading_first_vertex (fun _ => 1) identityUniforms sampleRasterizer cutTriangle rfl
      sampleRasterizer_wf (by decide) (by decide) (by decide)).2⟩

/-! ## C30: the mesh of the caller -/

theorem deref_ok_inv (heap : Heap) (p : Nat) (cells : List Vertex)
    (h : heap.deref p = .ok cells) : heap.blocks[p]? = some (some cells) := by
  unfold Heap.deref at h
  split at h
  · rename_i c hc
    simp only [Except.ok.injEq] at h
    rw [hc, h]
  · cases h

theorem deref_eq_ok (heap : Heap) (p : Nat) (cells : List Vertex)
    (h : heap.blocks[p]? = some (some cells)) : heap.deref p = .ok cells := by
  simp only [Heap.deref, h]

theorem assign_ok_inv (heap heap' : Heap) (p : Nat) (cells : List Vertex)
    (h : heap.assign p cells = .ok heap') :
    heap'.blocks = heap.blocks.set p (some cells) ∧ p < heap.blocks.length := by
  unfold Heap.assign at h
  split at h
  · rename_i c hc
    simp only [Except.ok.injEq] at h
    subst h
    refine ⟨rfl, ?_⟩
    by_contra hn
    rw [List.getElem?_eq_none (by omega)] at hc
    cases hc
  · cases h

theorem assign_eq_ok (heap : Heap) (p : Nat) (old cells : List Vertex)
    (h : heap.blocks[p]? = some (some old)) :
    heap.assign p cells = .ok ⟨heap.blocks.set p (some cells)⟩ := by
  simp only [Heap.assign, h]

theorem lt_of_getElem?_some {α : Type} (l : List α) (p : Nat) (a : α) (h : l[p]? = some a) :
    p < l.length := by
  by_contra hn
  rw [List.getElem?_eq_none (by omega)] at h
  cases h

theorem getElem?_at_length {α : Type} (A B : List α) (x : α) :
    (A ++ x :: B)[A.length]? = some x := by
  rw [List.getElem?_append_right (le_refl _)]
  simp

theorem set_at_length {α : Type} (A B : List α) (x y : α) :
    (A ++ x :: B).set A.length y = A ++ y :: B := by
  simp

theorem deref_at_length (A B : List (Option (List Vertex))) (cells : List Vertex) :
    Heap.deref ⟨A ++ some cells :: B⟩ A.length = .ok cells :=
  deref_eq_ok _ _ _ (getElem?_at_length A B (some cells))

theorem assign_at_length (A B : List (Option (List Vertex))) (old cells : List Vertex) :
    Heap.assign ⟨A ++ some old :: B⟩ A.length cells = .ok ⟨A ++ some cells :: B⟩ := by
  rw [assign_eq_ok _ _ old cells (getElem?_at_length A B (some old))]
  simp only [set_at_length]

theorem ReleaseAt_at_length (A B : List (Option (List Vertex))) (x : Option (List Vertex))
    (n : Nat) (t : Bool) : ReleaseAt ⟨A ++ x :: B⟩ ⟨A.length, n, t⟩ = ⟨A ++ none :: B⟩ := by
  simp only [ReleaseAt, set_at_length]

theorem deref_after (A B : List (Option (List Vertex))) (x : Option (List Vertex))
    (cells : List Vertex) : Heap.deref ⟨A ++ x :: some cells :: B⟩ (A.length + 1) = .ok cells := by
  have h := deref_at_length (A ++ [x]) B cells
  simp only [List.length_append, List.length_singleton, List.append_assoc, List.singleton_append]
    at h
  exact h

theorem assign_after (A B : List (Option (List Vertex))) (x : Option (List Vertex))
    (old cells : List Vertex) :
    Heap.assign ⟨A ++ x :: some old :: B⟩ (A.length + 1) cells =
      .ok ⟨A ++ x :: some cells :: B⟩ := by
  have h := assign_at_length (A ++ [x]) B old cells
  simp only [List.length_append, List.length_singleton, List.append_assoc, List.singleton_append]
    at h
  exact h

theorem ReleaseAt_after (A B : List (Option (List Vertex))) (x y : Option (List Vertex))
    (n : Nat) (t : Bool) :
    ReleaseAt ⟨A ++ x :: y :: B⟩ ⟨A.length + 1, n, t⟩ = ⟨A ++ x :: none :: B⟩ := by
  have h := ReleaseAt_at_length (A ++ [x]) B y n t
  simp only [List.length_append, List.length_singleton, List.append_assoc, List.singleton_append]
    at h
  exact h

/-- The copy of a mesh in memory: a new block with the vertices of the pure copy. -/
theorem MakeMeshCopyAt_eq (heap : Heap) (original : MeshRef) (source : List Vertex)
    (hs : heap.deref original.vertices = .ok source) :
    MakeMeshCopyAt heap original =
      (UtilMesh.MakeMeshCopy ⟨source, original.vertexCount, original.isTexturable⟩ >>=
        fun copy => pure (⟨heap.blocks ++ [some copy.vertices]⟩,
          ⟨heap.blocks.length, copy.vertexCount, copy.isTexturable⟩)) := by
  simp only [MakeMeshCopyAt, hs, bind, Except.bind, Heap.malloc]

/-- The clipping of a mesh in memory, for a mesh in the last block: the block of the mesh is
released and the clipped mesh is in a new block behind it. -/
theorem ClipToNearAt_eq (U : Uniforms) (A : List (Option (List Vertex))) (cells : List Vertex)
    (n : Nat) (t : Bool) (zNear : ℚ) :
    ClipToNearAt U ⟨A ++ [some cells]⟩ ⟨A.length, n, t⟩ zNear =
      (ClipToNear U ⟨cells, n, t⟩ zNear >>= fun clipped =>
        pure (⟨A ++ [none, some clipped.vertices]⟩,
          ⟨A.length + 1, clipped.vertexCount, clipped.isTexturable⟩)) := by
  simp only [ClipToNearAt, ClipToNear, deref_at_length, bind, Except.bind]
  cases h1 : transformPositions (U.viewMatrix.mul U.modelMatrix) cells n with
  | error e => rfl
  | ok view =>
    simp only [assign_at_length, Heap.malloc, List.append_assoc, List.singleton_append,
      List.length_append, List.length_singleton]
    cases h2 : clipTriangles zNear ((n + 2) / 3) view
        ⟨List.replicate (u32 (2 * n)) Vertex.zero, 0, t⟩ with
    | error e => rfl
    | ok clipped =>
      simp only [assign_after]
      cases h3 : transformPositions (U.viewMatrix.mul U.modelMatrix).inverse clipped.vertices
          clipped.vertexCount with
      | error e => rfl
      | ok back =>
        simp only [assign_after, ReleaseAt_at_length, pure, Except.pure]

/-- The draw of a mesh in memory: the rasterizer is the one that the draw of the mesh as a
value returns, and the memory has two blocks more, both released. -/
theorem DrawTriangleMeshAt_eq (inversesqrt : ℚ → ℚ) (U : Uniforms) (r : Rasterizer)
    (heap : Heap) (original : MeshRef) (source : List Vertex)
    (hs : heap.deref original.vertices = .ok source) :
    DrawTriangleMeshAt inversesqrt U r heap original =
      (Rasterization.DrawTriangleMesh inversesqrt U r
          ⟨source, original.vertexCount, original.isTexturable⟩ >>= fun r' =>
        pure (⟨heap.blocks ++ [none, none]⟩, r')) := by
  rw [DrawTriangleMesh_eq]
  simp only [DrawTriangleMeshAt, MakeMeshCopyAt_eq heap original source hs, bind, Except.bind]
  cases h1 : UtilMesh.MakeMeshCopy ⟨source, original.vertexCount, original.isTexturable⟩ with
  | error e => rfl
  | ok copy =>
    simp only [pure, Except.pure, ClipToNearAt_eq, bind, Except.bind]
    cases h2 : ClipToNear U ⟨copy.vertices, copy.vertexCount, copy.isTexturable⟩ r.zNear with
    | error e => rfl
    | ok clipped =>
      simp only [deref_after]
      obtain ⟨res, hres⟩ : ∃ res : Except Fault (List Vertex),
          res = (List.range clipped.vertexCount).foldlM
            (fun vs i => do
              let vertex ← load vs i
              store vs i (processVertex inversesqrt U r vertex)) clipped.vertices := ⟨_, rfl⟩
      simp only [bind, Except.bind] at hres
      rw [← hres]
      cases res with
      | error e => rfl
      | ok processed =>
        simp only [assign_after]
        cases h4 : RasterizeTriangles inversesqrt U r
            ⟨processed, clipped.vertexCount, clipped.isTexturable⟩ with
        | error e => rfl
        | ok r' => simp only [ReleaseAt_after]

/-- C30: `DrawTriangleMesh` leaves the mesh of the caller as it was. For a mesh struct
`original` whose vertices are the block `source` of the memory, and every uniform state:
`MakeMeshCopy` gives a mesh in a block of its own with the same `vertexCount`, the same flag
and the first `vertexCount` vertices of `source`; whenever the draw returns, the block of
`original` still holds `source` (no block that existed before the call has changed, and the
struct is only read), and the rasterizer is the one that the draw of the mesh as a value
returns; and the draw does return for a well-formed rasterizer, a vertex count that is a
multiple of 3 within the block, and a fragment colour that does not fault. -/
theorem DrawTriangleMesh_leaves_mesh (inversesqrt : ℚ → ℚ) (U : Uniforms) (r : Rasterizer)
    (heap : Heap) (original : MeshRef) (source : List Vertex)
    (hs : heap.deref original.vertices = .ok source) :
    (original.vertexCount ≤ source.length →
      ∃ heap1 copy, MakeMeshCopyAt heap original = .ok (heap1, copy) ∧
        copy.vertexCount = original.vertexCount ∧
        copy.isTexturable = original.isTexturable ∧
        copy.vertices ≠ original.vertices ∧
        heap1.deref copy.vertices = .ok (source.take original.vertexCount) ∧
        heap1.deref original.vertices = .ok source) ∧
    (∀ heap' r', DrawTriangleMeshAt inversesqrt U r heap original = .ok (heap', r') →
      heap'.deref original.vertices = .ok source ∧
      (∀ p, p < heap.blocks.length → heap'.blocks[p]? = heap.blocks[p]?) ∧
      Rasterization.DrawTriangleMesh inversesqrt U r
        ⟨source, original.vertexCount, original.isTexturable⟩ = .ok r') ∧
    (r.WellFormed → original.vertexCount % 3 = 0 → original.vertexCount ≤ source.length →
      2 * original.vertexCount < 4294967296 →
      (∀ T w0 w1 w2 rec, ∃ col, fragmentColor inversesqrt U r T w0 w1 w2 rec = .ok col) →
      ∃ heap' r', DrawTriangleMeshAt inversesqrt U r heap original = .ok (heap', r')) := by
  have hblock := deref_ok_inv heap _ _ hs
  have hlt := lt_of_getElem?_some _ _ _ hblock
  refine ⟨?_, ?_, ?_⟩
  · intro hlen
    have hcopy : UtilMesh.MakeMeshCopy ⟨source, original.vertexCount, original.isTexturable⟩ =
        .ok { isTexturable := original.isTexturable, vertexCount := original.vertexCount,
              vertices := source.take original.vertexCount } := by
      simp only [UtilMesh.MakeMeshCopy, hlen, if_true, pure, Except.pure]
    refine ⟨⟨heap.blocks ++ [some (source.take original.vertexCount)]⟩,
      ⟨heap.blocks.length, original.vertexCount, original.isTexturable⟩, ?_, rfl, rfl, ?_, ?_, ?_⟩
    · rw [MakeMeshCopyAt_eq heap original source hs, hcopy]
      rfl
    · show heap.blocks.length ≠ original.vertices
      omega
    · exact deref_at_length heap.blocks [] _
    · refine deref_eq_ok _ _ _ ?_
      show (heap.blocks ++ _)[original.vertices]? = _
      rw [List.getElem?_append_left hlt]
      exact hblock
  · intro heap' r' h
    rw [DrawTriangleMeshAt_eq inversesqrt U r heap original source hs] at h
    cases hd : Rasterization.DrawTriangleMesh inversesqrt U r
        ⟨source, original.vertexCount, original.isTexturable⟩ with
    | error e =>
      rw [hd] at h
      cases h
    | ok r1 =>
      rw [hd] at h
      simp only [bind, Except.bind, pure, Except.pure, Except.ok.injEq, Prod.mk.injEq] at h
      obtain ⟨h1, h2⟩ := h
      subst h1
      subst h2
      refine ⟨?_, ?_, rfl⟩
      · refine deref_eq_ok _ _ _ ?_
        show (heap.blocks ++ _)[original.vertices]? = _
        rw [List.getElem?_append_left hlt]
        exact hblock
      · intro p hp
        show (heap.blocks ++ _)[p]? = _
        rw [List.getElem?_append_left hp]
  · intro hw h3 hlen hN hcol
    obtain ⟨r', hr'⟩ := DrawTriangleMesh_ok inversesqrt U r
      ⟨source, original.vertexCount, original.isTexturable⟩ hw h3 hlen hN hcol
    exact ⟨⟨heap.blocks ++ [none, none]⟩, r', by
      rw [DrawTriangleMeshAt_eq inversesqrt U r heap original source hs, hr']
      rfl⟩

/-- Witness of C30: a mesh of one triangle, cut by the near plane, in the only block of the
memory; the draw returns and the block still holds the three vertices. -/
theorem DrawTriangleMesh_leaves_mesh_witness :
    Heap.deref ⟨[some [sampleVertex 0 0 (-2), sampleVertex 1 0 0, sampleVertex 0 1 (-3)]]⟩ 0 =
      .ok [sampleVertex 0 0 (-2), sampleVertex 1 0 0, sampleVertex 0 1 (-3)] ∧
    ∃ heap' r',
      DrawTriangleMeshAt (fun q => q) identityUniforms sampleRasterizer
        ⟨[some [sampleVertex 0 0 (-2), sampleVertex 1 0 0, sampleVertex 0 1 (-3)]]⟩
        ⟨0, 3, false⟩ = .ok (heap', r') ∧
      heap'.deref 0 = .ok [sampleVertex 0 0 (-2), sampleVertex 1 0 0, sampleVertex 0 1 (-3)] := by
  have h := DrawTriangleMesh_leaves_mesh (fun q => q) identityUniforms sampleRasterizer
    ⟨[some [sampleVertex 0 0 (-2), sampleVertex 1 0 0, sampleVertex 0 1 (-3)]]⟩ ⟨0, 3, false⟩
    [sampleVertex 0 0 (-2), sampleVertex 1 0 0, sampleVertex 0 1 (-3)] rfl
  obtain ⟨heap', r', hd⟩ := h.2.2 sampleRasterizer_wf (by decide) (by decide) (by decide)
    (flat_color_ok _ identityUniforms sampleRasterizer rfl)
  exact ⟨rfl, heap', r', hd, (h.2.1 heap' r' hd).1⟩

end CpuRenderer
